import Mathlib

/-!
# ORBmatcher (ManhattanSLAM / ORB-SLAM2): a shallow embedding of `src/src/ORBmatcher.cc`

Conventions of the embedding.

* `unsigned int` values are natural numbers reduced modulo `2 ^ 32` (`u32`); `int` values are
  integers, converted from and to their 32-bit patterns by `toInt32` / `ofInt32` where the
  source mixes the two.
* `float` values are rationals (`ℚ`), and the arithmetic on them is exact except where a result
  of the source depends on the rounding or on a value that is not finite. The angle difference
  and the histogram bin (`angleDiff`, `rotBin`), the ratio tests, `CheckDistEpipolarLine` and the
  epipole test of `SearchForTriangulation` are computed with the rounding to nearest of IEEE 754
  (`f32`, `f64`, `Float32`); a division by a depth that is zero yields an infinity, and the
  operations on infinities and NaN follow IEEE 754 from there on. The sign of a zero is not
  modelled: a zero stands for `+0.0f`.
* A nullable `MapPoint *` is an `Option MapPoint`; a `std::vector` is a `List`; reading a vector
  outside of its bounds (undefined behaviour in the source) yields a default value and writing
  outside of its bounds leaves the vector unchanged.
* Functions of `Frame.cc`, `KeyFrame.cc`, `MapPoint.cc` and OpenCV that the matchers call
  (`GetFeaturesInArea`, `IsInImage`, `PredictScale`, `IsInKeyFrame`, `cv::norm`) are parameters
  of the model; the calls `Replace`, `AddObservation` and `AddMapPoint` made by `Fuse` are
  recorded in order.
-/

namespace ORB_SLAM2

/-! ## Constants (ORBmatcher.cc, lines 33-35) -/

/-- Source: `const int ORBmatcher::TH_HIGH = 100;` -/
def TH_HIGH : Int := 100

/-- Source: `const int ORBmatcher::TH_LOW = 50;` -/
def TH_LOW : Int := 50

/-- Source: `const int ORBmatcher::HISTO_LENGTH = 30;` -/
def HISTO_LENGTH : Int := 30

/-! ## Floating-point arithmetic (IEEE 754, round to nearest, ties to even) -/

/-- The integer nearest to `x`, a halfway case going to the even neighbour. -/
def roundHalfEven (x : ℚ) : Int :=
  if x - ⌊x⌋ < 1 / 2 then ⌊x⌋
  else if 1 / 2 < x - ⌊x⌋ then ⌊x⌋ + 1
  else if ⌊x⌋ % 2 = 0 then ⌊x⌋ else ⌊x⌋ + 1

/-- The exponent `⌊log₂ x⌋` of a positive `x`, found by halving or doubling `x` until it lies in
`[1, 2)`, in at most `fuel` steps. -/
def ilog2 : Nat → ℚ → Int
  | 0, _ => 0
  | fuel + 1, x =>
    if 2 ≤ x then ilog2 fuel (x / 2) + 1
    else if x < 1 then ilog2 fuel (x * 2) - 1
    else 0

/-- The spacing of the values of a binary format with `p` bits of precision and least exponent
`emin` around a positive `x`: `2 ^ (e - (p - 1))` for the exponent `e` of `x`, not below
`emin` (where the subnormal values begin). -/
def ulp (p : Nat) (emin : Int) (x : ℚ) : ℚ :=
  (2 : ℚ) ^ (max emin (ilog2 (x.num.natAbs + x.den) x) - ((p : Int) - 1))

/-- Rounding of a non-negative `x` to the nearest value of the format. -/
def roundMagnitude (p : Nat) (emin : Int) (x : ℚ) : ℚ :=
  (roundHalfEven (x / ulp p emin x) : ℚ) * ulp p emin x

/-- Rounding of `x` to the nearest value of the binary format with `p` bits of precision and
least exponent `emin`, ties to even, the exponent being unbounded above. -/
def roundNearest (p : Nat) (emin : Int) (x : ℚ) : ℚ :=
  if x < 0 then -roundMagnitude p emin (-x) else roundMagnitude p emin x

/-- Rounding to `float` (binary32), before the overflow to an infinity. -/
def f32 (x : ℚ) : ℚ := roundNearest 24 (-126) x

/-- Rounding to `double` (binary64), before the overflow to an infinity. -/
def f64 (x : ℚ) : ℚ := roundNearest 53 (-1022) x

/-- A `float` datum: a finite value, an infinity with its sign, or a NaN. The sign of a zero is
not modelled: a zero divisor stands for `+0.0f`. -/
inductive Float32 where
  | finite (q : ℚ)
  | inf (negative : Bool)
  | nan

/-- The largest finite `float`, `FLT_MAX = 2 ^ 128 - 2 ^ 104`. -/
def Float32.max : ℚ := 2 ^ 128 - 2 ^ 104

/-- The `float` result of an operation whose exact result is `x`: the rounded value, or an
infinity when the rounded value exceeds `FLT_MAX`. -/
def Float32.round (x : ℚ) : Float32 :=
  if Float32.max < |f32 x| then Float32.inf (decide (x < 0)) else Float32.finite (f32 x)

/-- Negation. -/
def Float32.neg : Float32 → Float32
  | Float32.finite q => Float32.finite (-q)
  | Float32.inf s => Float32.inf (!s)
  | Float32.nan => Float32.nan

/-- Absolute value, `fabs`. -/
def Float32.abs : Float32 → Float32
  | Float32.finite q => Float32.finite |q|
  | Float32.inf _ => Float32.inf false
  | Float32.nan => Float32.nan

/-- Addition of two `float` values. -/
def Float32.add : Float32 → Float32 → Float32
  | Float32.finite a, Float32.finite b => Float32.round (a + b)
  | Float32.finite _, Float32.inf s => Float32.inf s
  | Float32.inf s, Float32.finite _ => Float32.inf s
  | Float32.inf s, Float32.inf t => if s = t then Float32.inf s else Float32.nan
  | _, _ => Float32.nan

/-- Subtraction of two `float` values. -/
def Float32.sub (a b : Float32) : Float32 := a.add b.neg

/-- Multiplication of two `float` values. -/
def Float32.mul : Float32 → Float32 → Float32
  | Float32.finite a, Float32.finite b => Float32.round (a * b)
  | Float32.finite a, Float32.inf s =>
    if a = 0 then Float32.nan else Float32.inf (xor s (decide (a < 0)))
  | Float32.inf s, Float32.finite b =>
    if b = 0 then Float32.nan else Float32.inf (xor s (decide (b < 0)))
  | Float32.inf s, Float32.inf t => Float32.inf (xor s t)
  | _, _ => Float32.nan

/-- Division of two `float` values. -/
def Float32.div : Float32 → Float32 → Float32
  | Float32.finite a, Float32.finite b =>
    if b = 0 then (if a = 0 then Float32.nan else Float32.inf (decide (a < 0)))
    else Float32.round (a / b)
  | Float32.finite _, Float32.inf _ => Float32.finite 0
  | Float32.inf s, Float32.finite b => Float32.inf (xor s (decide (b < 0)))
  | _, _ => Float32.nan

/-- The comparison `a < b`, false when an operand is a NaN. -/
def Float32.lt : Float32 → Float32 → Bool
  | Float32.finite a, Float32.finite b => decide (a < b)
  | Float32.finite _, Float32.inf s => !s
  | Float32.inf s, Float32.finite _ => s
  | Float32.inf s, Float32.inf t => s && !t
  | _, _ => false

/-- The comparison `a == 0`. -/
def Float32.isZero : Float32 → Bool
  | Float32.finite a => decide (a = 0)
  | _ => false

/-! ## Descriptor distance (ORBmatcher.cc, lines 833-849) -/

/-- A 32-bit word, as its bit pattern. -/
abbrev Word32 := Fin 4294967296

/-- A 256-bit ORB descriptor: the 32-byte row of a `cv::Mat`, read as eight 32-bit words
(`a.ptr<int32_t>()`). -/
abbrev Descriptor := Fin 8 → Word32

/-- Reduction of a natural number to an `unsigned int` (32 bits). -/
def u32 (x : Nat) : Nat := x % 4294967296

/-- The `int` with the given 32-bit pattern (two's complement). -/
def toInt32 (x : Nat) : Int :=
  if x % 4294967296 < 2147483648 then ((x % 4294967296 : Nat) : Int)
  else ((x % 4294967296 : Nat) : Int) - 4294967296

/-- The 32-bit pattern of an `int` (conversion `int` to `unsigned int`). -/
def ofInt32 (x : Int) : Nat := (x % 4294967296).toNat

/-- The body of the loop of `DescriptorDistance` for one word `v = *pa ^ *pb`:
```
v = v - ((v >> 1) & 0x55555555);
v = (v & 0x33333333) + ((v >> 2) & 0x33333333);
... (((v + (v >> 4)) & 0xF0F0F0F) * 0x1010101) >> 24
```
Every operation is an `unsigned int` operation, hence reduced modulo `2 ^ 32`. -/
def bitCount32 (v : Nat) : Nat :=
  let v1 := u32 (v + 4294967296 - ((v >>> 1) &&& 0x55555555))
  let v2 := u32 ((v1 &&& 0x33333333) + ((v1 >>> 2) &&& 0x33333333))
  (u32 ((u32 (v2 + (v2 >>> 4)) &&& 0xF0F0F0F) * 0x1010101)) >>> 24

/-- One iteration of the loop of `DescriptorDistance`: `dist += ...` adds an `unsigned int`
to the `int` accumulator. -/
def DescriptorDistance.step (a b : Descriptor) (dist : Int) (i : Fin 8) : Int :=
  toInt32 (u32 (ofInt32 dist + bitCount32 ((a i).val ^^^ (b i).val)))

/-- Source: `int ORBmatcher::DescriptorDistance(const cv::Mat &a, const cv::Mat &b)`. -/
def DescriptorDistance (a b : Descriptor) : Int :=
  (List.finRange 8).foldl (DescriptorDistance.step a b) 0

/-- Contribution of word `i` to the distance: the bit count of `pa[i] ^ pb[i]`. -/
def wordCount (a b : Descriptor) (i : Fin 8) : Nat := bitCount32 ((a i).val ^^^ (b i).val)

/-! ### Hamming distance, as the specification words it -/

/-- Number of bits set among the 32 low bits of `x`. -/
def popCount32 (x : Nat) : Nat :=
  ((List.range 32).filter (fun j => x.testBit j)).length

/-- Number of bit positions (word `i`, bit `j`) in which two 256-bit descriptors differ. -/
def hammingDistance (a b : Descriptor) : Nat :=
  ((List.finRange 8).map (fun i =>
    ((List.range 32).filter (fun j => (a i).val.testBit j != (b i).val.testBit j)).length)).sum

/-- Number of bits set among the 8 low bits of `x`. -/
def popCount8 (x : Nat) : Nat :=
  ((List.range 8).filter (fun j => x.testBit j)).length

/-- Value of a 32-bit word given by its four bytes. -/
def ofBytes (b0 b1 b2 b3 : Nat) : Nat := b0 + 256 * b1 + 65536 * b2 + 16777216 * b3

/-! ## Rotation histogram (ORBmatcher.cc, lines 154-157, 212-221, 356-365, 644-653, 763-772) -/

/-- Source: `const float factor = 1.0f / HISTO_LENGTH;`, a `float` division. -/
def factor : ℚ := f32 (1 / (HISTO_LENGTH : ℚ))

/-- The C library function `round`, followed by the conversion to `int`: the nearest integer,
halfway cases rounded away from zero. -/
def cRound (x : ℚ) : Int := if 0 ≤ x then ⌊x + 1 / 2⌋ else ⌈x - 1 / 2⌉

/-- The angle difference recorded for a candidate match:
`float rot = kp1.angle - kp2.angle; if (rot < 0.0) rot += 360.0f;`, a `float` subtraction and a
`float` addition. -/
def angleDiff (angle1 angle2 : ℚ) : ℚ :=
  let rot := f32 (angle1 - angle2)
  if rot < 0 then f32 (rot + 360) else rot

/-- The histogram bin of a recorded angle difference:
`int bin = round(rot * factor); if (bin == HISTO_LENGTH) bin = 0;`, the product being a `float`
product. -/
def rotBin (rot : ℚ) : Int :=
  let bin := cRound (f32 (rot * factor))
  if bin = HISTO_LENGTH then 0 else bin

/-- The bin computed by the matchers for a pair of keypoint angles. -/
def computeBin (angle1 angle2 : ℚ) : Int := rotBin (angleDiff angle1 angle2)

/-- Source: `rotHist[bin].push_back(idx)`. The source guards the access by
`assert(bin >= 0 && bin < HISTO_LENGTH)`; outside of that range the histogram is left unchanged
here. -/
def pushBin (rotHist : List (List Int)) (bin : Int) (idx : Int) : List (List Int) :=
  if 0 ≤ bin ∧ bin < HISTO_LENGTH then
    rotHist.set bin.toNat (rotHist.getD bin.toNat [] ++ [idx])
  else rotHist

/-! ## ComputeThreeMaxima (ORBmatcher.cc, lines 799-830) -/

/-- The local variables `max1, max2, max3` and the reference parameters `ind1, ind2, ind3`. -/
structure ThreeMax where
  max1 : Int
  max2 : Int
  max3 : Int
  ind1 : Int
  ind2 : Int
  ind3 : Int
  deriving DecidableEq, Repr

/-- Source: `const int s = histo[i].size();` -/
def binSize (histo : List (List Int)) (i : Nat) : Int := ((histo.getD i []).length : Int)

/-- One iteration of the loop `for (int i = 0; i < L; i++)`. -/
def ComputeThreeMaxima.step (histo : List (List Int)) (st : ThreeMax) (i : Nat) : ThreeMax :=
  let s := binSize histo i
  if s > st.max1 then
    { max3 := st.max2, max2 := st.max1, max1 := s, ind3 := st.ind2, ind2 := st.ind1, ind1 := i }
  else if s > st.max2 then
    { st with max3 := st.max2, max2 := s, ind3 := st.ind2, ind2 := i }
  else if s > st.max3 then
    { st with max3 := s, ind3 := i }
  else st

/-- The loop of `ComputeThreeMaxima` over the bins `0 .. L-1`. -/
def ComputeThreeMaxima.loop (histo : List (List Int)) (L : Int) (ind1 ind2 ind3 : Int) : ThreeMax :=
  (List.range L.toNat).foldl (ComputeThreeMaxima.step histo)
    { max1 := 0, max2 := 0, max3 := 0, ind1 := ind1, ind2 := ind2, ind3 := ind3 }

/-- Source: `void ORBmatcher::ComputeThreeMaxima(vector<int> *histo, const int L, int &ind1, int &ind2,
int &ind3)`; the result is the final value of `(ind1, ind2, ind3)`. The constant `0.1f` is the
rational `1/10`. -/
def ComputeThreeMaxima (histo : List (List Int)) (L : Int) (ind1 ind2 ind3 : Int) :
    Int × Int × Int :=
  let st := ComputeThreeMaxima.loop histo L ind1 ind2 ind3
  if (st.max2 : ℚ) < (1 / 10 : ℚ) * (st.max1 : ℚ) then (st.ind1, -1, -1)
  else if (st.max3 : ℚ) < (1 / 10 : ℚ) * (st.max1 : ℚ) then (st.ind1, st.ind2, -1)
  else (st.ind1, st.ind2, st.ind3)

/-- The entry `(m, i)` of the running maxima after `n` bins: either still unset, or the index of
a non-empty bin among the first `n` whose size is `m`. -/
def ThreeMax.Slot (histo : List (List Int)) (n : Nat) (m i : Int) : Prop :=
  (i = -1 ∧ m = 0) ∨ (0 ≤ i ∧ i < n ∧ binSize histo i.toNat = m ∧ 0 < m)

/-- Invariant of the loop of `ComputeThreeMaxima` after the bins `0 .. n-1`, when started from
`ind1 = ind2 = ind3 = -1`. -/
def ThreeMax.Inv (histo : List (List Int)) (n : Nat) (st : ThreeMax) : Prop :=
  (0 ≤ st.max3 ∧ st.max3 ≤ st.max2 ∧ st.max2 ≤ st.max1) ∧
  (ThreeMax.Slot histo n st.max1 st.ind1 ∧ ThreeMax.Slot histo n st.max2 st.ind2 ∧
    ThreeMax.Slot histo n st.max3 st.ind3) ∧
  ((st.ind2 = -1 ∨ st.ind1 ≠ st.ind2) ∧ (st.ind3 = -1 ∨ st.ind1 ≠ st.ind3) ∧
    (st.ind3 = -1 ∨ st.ind2 ≠ st.ind3)) ∧
  ((∀ j : Nat, j < n → binSize histo j ≤ st.max1) ∧
    (∀ j : Nat, j < n → (j : Int) ≠ st.ind1 → binSize histo j ≤ st.max2) ∧
    (∀ j : Nat, j < n → (j : Int) ≠ st.ind1 → (j : Int) ≠ st.ind2 → binSize histo j ≤ st.max3))

/-! ## Data model read by the matchers -/

/-- The all-zero descriptor, the default when a descriptor row is read out of bounds. -/
def Descriptor.zero : Descriptor := fun _ => 0

/-- A `cv::KeyPoint`: the fields read by the matchers. -/
structure KeyPoint where
  /-- Field `pt.x` -/
  x : ℚ := 0
  /-- Field `pt.y` -/
  y : ℚ := 0
  /-- Field `angle`, the orientation in degrees. -/
  angle : ℚ := 0
  /-- Field `octave`, the pyramid level. -/
  octave : Int := 0

/-- A 3-vector (a 3x1 `cv::Mat` of floats). -/
structure Vec3 where
  x : ℚ := 0
  y : ℚ := 0
  z : ℚ := 0

/-- A 3x3 matrix (a 3x3 `cv::Mat` of floats), by rows. -/
structure Mat3 where
  r0 : Vec3 := {}
  r1 : Vec3 := {}
  r2 : Vec3 := {}

/-- Matrix-vector product `R * v`. -/
def Mat3.mulVec (R : Mat3) (v : Vec3) : Vec3 :=
  { x := R.r0.x * v.x + R.r0.y * v.y + R.r0.z * v.z
    y := R.r1.x * v.x + R.r1.y * v.y + R.r1.z * v.z
    z := R.r2.x * v.x + R.r2.y * v.y + R.r2.z * v.z }

/-- Transpose `R.t()`. -/
def Mat3.t (R : Mat3) : Mat3 :=
  { r0 := { x := R.r0.x, y := R.r1.x, z := R.r2.x }
    r1 := { x := R.r0.y, y := R.r1.y, z := R.r2.y }
    r2 := { x := R.r0.z, y := R.r1.z, z := R.r2.z } }

/-- Vector sum. -/
def Vec3.add (a b : Vec3) : Vec3 := { x := a.x + b.x, y := a.y + b.y, z := a.z + b.z }

/-- Vector negation. -/
def Vec3.neg (a : Vec3) : Vec3 := { x := -a.x, y := -a.y, z := -a.z }

/-- A `MapPoint`, as seen through the accessors the matchers call. `id` stands for the identity
of the object pointed to. -/
structure MapPoint where
  id : Nat := 0
  /-- Accessor `isBad()` -/
  isBad : Bool := false
  /-- Accessor `Observations()` -/
  Observations : Int := 0
  /-- Accessor `GetWorldPos()` -/
  worldPos : Vec3 := {}
  /-- Accessor `GetDescriptor()` -/
  descriptor : Descriptor := Descriptor.zero
  /-- Field `mbTrackInView` -/
  mbTrackInView : Bool := false
  /-- Field `mnTrackScaleLevel` -/
  mnTrackScaleLevel : Int := 0
  /-- Field `mTrackViewCos` -/
  mTrackViewCos : ℚ := 0
  /-- Field `mTrackProjX` -/
  mTrackProjX : ℚ := 0
  /-- Field `mTrackProjY` -/
  mTrackProjY : ℚ := 0
  /-- Field `mTrackProjXR` -/
  mTrackProjXR : ℚ := 0
  /-- Accessor `GetMaxDistanceInvariance()` -/
  maxDistanceInvariance : ℚ := 0
  /-- Accessor `GetMinDistanceInvariance()` -/
  minDistanceInvariance : ℚ := 0
  /-- Accessor `GetNormal()` -/
  normal : Vec3 := {}
  /-- The set of observations of the map point: pairs of a keyframe (its `mnId`) and the index
  of a keypoint of that keyframe. -/
  mObservations : List (Nat × Nat) := []

/-- A `DBoW2::FeatureVector`: a `std::map` from vocabulary node id to the indices of the
features under that node, listed in the iteration order of the map. -/
abbrev FeatureVector := List (Nat × List Nat)

/-- Source: `std::map::lower_bound(key)`: the position of the first entry whose node id is not less
than `key`, given as the entries from that position on. -/
def FeatureVector.lower_bound (fv : FeatureVector) (key : Nat) : FeatureVector :=
  fv.dropWhile (fun e => e.1 < key)

/-- The invariant of `std::map`: the node ids are listed in strictly increasing order. -/
def FeatureVector.Sorted (fv : FeatureVector) : Prop := fv.Pairwise (fun a b => a.1 < b.1)

/-- A `KeyFrame`, as read by the matchers. `IsInImage` and `GetFeaturesInArea` are defined in
`KeyFrame.cc`, which is not part of the sources at hand, and are parameters of the model, given
separately for finite coordinates and for coordinates that are infinite or NaN. -/
structure KeyFrame where
  /-- Field `mnId`, the identity of the keyframe. -/
  mnId : Nat := 0
  /-- Field `N`, the number of keypoints. -/
  N : Nat := 0
  /-- Field `mvKeysUn` -/
  mvKeysUn : List KeyPoint := []
  /-- Field `mvuRight` -/
  mvuRight : List ℚ := []
  /-- Field `mDescriptors`, one row per keypoint. -/
  mDescriptors : List Descriptor := []
  /-- Field `mFeatVec` -/
  mFeatVec : FeatureVector := []
  /-- Accessors `GetMapPointMatches()` and `GetMapPoint(idx)` -/
  mvpMapPoints : List (Option MapPoint) := []
  /-- Accessor `GetRotation()` -/
  Rcw : Mat3 := {}
  /-- Accessor `GetTranslation()` -/
  tcw : Vec3 := {}
  /-- Accessor `GetCameraCenter()` -/
  Ow : Vec3 := {}
  fx : ℚ := 0
  fy : ℚ := 0
  cx : ℚ := 0
  cy : ℚ := 0
  mbf : ℚ := 0
  /-- Field `mvScaleFactors` -/
  mvScaleFactors : List ℚ := []
  /-- Field `mvLevelSigma2` -/
  mvLevelSigma2 : List ℚ := []
  /-- Field `mvInvLevelSigma2` -/
  mvInvLevelSigma2 : List ℚ := []
  IsInImage : ℚ → ℚ → Bool := fun _ _ => false
  GetFeaturesInArea : ℚ → ℚ → ℚ → List Nat := fun _ _ _ => []
  /-- The function `IsInImage` at coordinates that are not both finite. -/
  IsInImageNonFinite : Float32 → Float32 → Bool := fun _ _ => false
  /-- The function `GetFeaturesInArea` at coordinates `x`, `y` that are not both finite. -/
  GetFeaturesInAreaNonFinite : Float32 → Float32 → ℚ → List Nat := fun _ _ _ => []

/-- A `Frame`, as read by the matchers. `GetFeaturesInArea` is defined in `Frame.cc`, which is
not part of the sources at hand, and is a parameter of the model:
`GetFeaturesInArea x y r minLevel maxLevel` (the two levels default to `-1` in the source), given
separately for finite coordinates and for coordinates that are infinite or NaN. -/
structure Frame where
  /-- Field `N`, the number of keypoints. -/
  N : Nat := 0
  /-- Field `mvKeys` -/
  mvKeys : List KeyPoint := []
  /-- Field `mvKeysUn` -/
  mvKeysUn : List KeyPoint := []
  /-- Field `mvuRight` -/
  mvuRight : List ℚ := []
  /-- Field `mDescriptors`, one row per keypoint. -/
  mDescriptors : List Descriptor := []
  /-- Field `mFeatVec` -/
  mFeatVec : FeatureVector := []
  /-- Field `mvpMapPoints` -/
  mvpMapPoints : List (Option MapPoint) := []
  /-- Field `mvbOutlier` -/
  mvbOutlier : List Bool := []
  /-- Field `mTcw.rowRange(0, 3).colRange(0, 3)` -/
  Rcw : Mat3 := {}
  /-- Field `mTcw.rowRange(0, 3).col(3)` -/
  tcw : Vec3 := {}
  fx : ℚ := 0
  fy : ℚ := 0
  cx : ℚ := 0
  cy : ℚ := 0
  mb : ℚ := 0
  mbf : ℚ := 0
  mnMinX : ℚ := 0
  mnMaxX : ℚ := 0
  mnMinY : ℚ := 0
  mnMaxY : ℚ := 0
  /-- Field `mvScaleFactors` -/
  mvScaleFactors : List ℚ := []
  GetFeaturesInArea : ℚ → ℚ → ℚ → Int → Int → List Nat := fun _ _ _ _ _ => []
  /-- The function `GetFeaturesInArea` at coordinates `x`, `y` that are not both finite. -/
  GetFeaturesInAreaNonFinite : Float32 → Float32 → ℚ → Int → Int → List Nat :=
    fun _ _ _ _ _ => []

/-- The state shared by the matching loops: the vector of map-point matches being filled
(`vpMapPointMatches`, or `CurrentFrame.mvpMapPoints`), the counter `nmatches` and the rotation
histogram `rotHist`. -/
structure MatchState where
  mvpMapPoints : List (Option MapPoint)
  nmatches : Int
  rotHist : List (List Int)

/-- Source: `vector<int> rotHist[HISTO_LENGTH];`: the empty histogram. -/
def emptyRotHist : List (List Int) := List.replicate HISTO_LENGTH.toNat []

/-! ## Rotation consistency filter (ORBmatcher.cc, lines 237-252, 660-675, 779-794) -/

/-- The inner loop over one discarded bin:
`for (j ...) { matches[rotHist[i][j]] = NULL; nmatches--; }`. -/
def rotationFilter.clearBin (s : List (Option MapPoint) × Int) (bin : List Int) :
    List (Option MapPoint) × Int :=
  bin.foldl (fun s idx => (s.1.set idx.toNat none, s.2 - 1)) s

/-- Does bin `i` survive, `i == ind1 || i == ind2 || i == ind3`? -/
def rotationFilter.kept (r : Int × Int × Int) (i : Nat) : Bool :=
  decide ((i : Int) = r.1 ∨ (i : Int) = r.2.1 ∨ (i : Int) = r.2.2)

/-- The block `if (mbCheckOrientation) { ... }` that ends the matchers: compute the three
maxima of the histogram started from `ind1 = ind2 = ind3 = -1` and clear the matches of every
other bin. -/
def rotationFilter (rotHist : List (List Int)) (mvpMapPoints : List (Option MapPoint))
    (nmatches : Int) : List (Option MapPoint) × Int :=
  let r := ComputeThreeMaxima rotHist HISTO_LENGTH (-1) (-1) (-1)
  (List.range HISTO_LENGTH.toNat).foldl
    (fun s i => if rotationFilter.kept r i then s
      else rotationFilter.clearBin s (rotHist.getD i []))
    (mvpMapPoints, nmatches)

/-- Total size of the bins that the filter discards. -/
def discardedSize (rotHist : List (List Int)) : Int :=
  (((List.range HISTO_LENGTH.toNat).filter
    (fun i => !rotationFilter.kept (ComputeThreeMaxima rotHist HISTO_LENGTH (-1) (-1) (-1)) i)).map
    (binSize rotHist)).sum

/-! ## SearchByBoW (ORBmatcher.cc, lines 146-255) -/

/-- The locals `bestDist1`, `bestIdxF`, `bestDist2` of the inner loop of `SearchByBoW`. -/
structure Best2 where
  bestDist1 : Int
  bestIdxF : Int
  bestDist2 : Int

/-- One iteration of the loop over `vIndicesF` (lines 187-204). -/
def SearchByBoW.scan (F : Frame) (vpMapPointMatches : List (Option MapPoint)) (dKF : Descriptor)
    (b : Best2) (realIdxF : Nat) : Best2 :=
  if (vpMapPointMatches.getD realIdxF none).isSome then b
  else
    let dist := DescriptorDistance dKF (F.mDescriptors.getD realIdxF Descriptor.zero)
    if dist < b.bestDist1 then
      { bestDist2 := b.bestDist1, bestDist1 := dist, bestIdxF := realIdxF }
    else if dist < b.bestDist2 then
      { b with bestDist2 := dist }
    else b

/-- One iteration of the loop over `vIndicesKF` (lines 170-226), for the keyframe feature
`realIdxKF` and the frame features `vIndicesF` of the same vocabulary node. -/
def SearchByBoW.matchKF (mfNNratio : ℚ) (mbCheckOrientation : Bool) (pKF : KeyFrame) (F : Frame)
    (vIndicesF : List Nat) (st : MatchState) (realIdxKF : Nat) : MatchState :=
  match pKF.mvpMapPoints.getD realIdxKF none with
  | none => st
  | some pMP =>
    if pMP.isBad then st
    else
      let dKF := pKF.mDescriptors.getD realIdxKF Descriptor.zero
      let b := vIndicesF.foldl (SearchByBoW.scan F st.mvpMapPoints dKF)
        { bestDist1 := 256, bestIdxF := -1, bestDist2 := 256 }
      if b.bestDist1 ≤ TH_LOW then
        if (b.bestDist1 : ℚ) < f32 (mfNNratio * (b.bestDist2 : ℚ)) then
          { mvpMapPoints := st.mvpMapPoints.set b.bestIdxF.toNat (some pMP)
            nmatches := st.nmatches + 1
            rotHist :=
              if mbCheckOrientation then
                pushBin st.rotHist
                  (computeBin (pKF.mvKeysUn.getD realIdxKF {}).angle
                    (F.mvKeys.getD b.bestIdxF.toNat {}).angle)
                  b.bestIdxF
              else st.rotHist }
        else st
      else st

/-- The joint walk over the two feature vectors (lines 165-235). `KFit` and `Fit` are the
entries from the iterator positions on; `fuel` bounds the number of iterations of the `while`
loop. -/
def SearchByBoW.walk (mfNNratio : ℚ) (mbCheckOrientation : Bool) (pKF : KeyFrame) (F : Frame) :
    Nat → FeatureVector → FeatureVector → MatchState → MatchState
  | 0, _, _, st => st
  | _ + 1, [], _, st => st
  | _ + 1, _ :: _, [], st => st
  | fuel + 1, (kfFirst, vIndicesKF) :: kfRest, (fFirst, vIndicesF) :: fRest, st =>
    if kfFirst = fFirst then
      SearchByBoW.walk mfNNratio mbCheckOrientation pKF F fuel kfRest fRest
        (vIndicesKF.foldl (SearchByBoW.matchKF mfNNratio mbCheckOrientation pKF F vIndicesF) st)
    else if kfFirst < fFirst then
      SearchByBoW.walk mfNNratio mbCheckOrientation pKF F fuel
        (pKF.mFeatVec.lower_bound fFirst) ((fFirst, vIndicesF) :: fRest) st
    else
      SearchByBoW.walk mfNNratio mbCheckOrientation pKF F fuel
        ((kfFirst, vIndicesKF) :: kfRest) (F.mFeatVec.lower_bound kfFirst) st

/-- The state of `SearchByBoW` when the `while` loop is left (before the rotation filter). The
loop is given `|pKF.mFeatVec| + |F.mFeatVec|` iterations, which is enough when the two maps are
sorted (`SearchByBoW_matching_fuel`). -/
def SearchByBoW.matching (mfNNratio : ℚ) (mbCheckOrientation : Bool) (pKF : KeyFrame)
    (F : Frame) : MatchState :=
  SearchByBoW.walk mfNNratio mbCheckOrientation pKF F (pKF.mFeatVec.length + F.mFeatVec.length)
    pKF.mFeatVec F.mFeatVec
    { mvpMapPoints := List.replicate F.N none, nmatches := 0, rotHist := emptyRotHist }

/-- Source: `int ORBmatcher::SearchByBoW(KeyFrame *pKF, Frame &F, vector<MapPoint *> &vpMapPointMatches)`
for a matcher built with `ORBmatcher(nnratio, checkOri)`: the final `vpMapPointMatches` and the
returned `nmatches`. -/
def SearchByBoW (mfNNratio : ℚ) (mbCheckOrientation : Bool) (pKF : KeyFrame) (F : Frame) :
    List (Option MapPoint) × Int :=
  let st := SearchByBoW.matching mfNNratio mbCheckOrientation pKF F
  if mbCheckOrientation then rotationFilter st.rotHist st.mvpMapPoints st.nmatches
  else (st.mvpMapPoints, st.nmatches)

/-- Number of non-null entries of a vector of map-point matches. -/
def numMatched (m : List (Option MapPoint)) : Int := ((m.countP Option.isSome : Nat) : Int)

/-- Invariant of the best/second-best scan of `SearchByBoW` over the free slots of `m`. -/
def Best2.Ok (m : List (Option MapPoint)) (b : Best2) : Prop :=
  0 ≤ b.bestDist1 ∧ b.bestDist1 ≤ b.bestDist2 ∧ b.bestDist2 ≤ 256 ∧
  (b.bestDist1 < 256 → ∃ i : Nat, b.bestIdxF = (i : Int) ∧ (m.getD i none).isSome = false)

/-- Relation between the scans of the same candidates over two match vectors, the second of
which has fewer free slots. -/
def Best2.Rel (m2 : List (Option MapPoint)) (b1 b2 : Best2) : Prop :=
  b1.bestDist1 ≤ b2.bestDist1 ∧ b1.bestDist2 ≤ b2.bestDist2 ∧
  (b1.bestDist1 < 256 → (m2.getD b1.bestIdxF.toNat none).isSome = false →
    b2.bestDist1 = b1.bestDist1 ∧ b2.bestIdxF = b1.bestIdxF)

/-- Relation between the states of two runs of `SearchByBoW` on the same input, the second with
the larger ratio: every slot matched in the first run is matched in the second. -/
def MatchState.Le (st1 st2 : MatchState) : Prop :=
  st1.mvpMapPoints.length = st2.mvpMapPoints.length ∧
  (∀ i : Nat, (st1.mvpMapPoints.getD i none).isSome = true →
    (st2.mvpMapPoints.getD i none).isSome = true) ∧
  st1.nmatches - numMatched st1.mvpMapPoints ≤ st2.nmatches - numMatched st2.mvpMapPoints

/-! ## SearchByProjection(Frame &CurrentFrame, const Frame &LastFrame, th)
(ORBmatcher.cc, lines 548-678) -/

/-- The locals `bestDist`, `bestIdx2` of the inner loop. -/
structure Best1 where
  bestDist : Int
  bestIdx2 : Int

/-- One iteration of the loop over `vIndices2` (lines 616-638); `mvpMapPoints` is the current
value of `CurrentFrame.mvpMapPoints`. -/
def SearchByProjection_Frame.scan (CurrentFrame : Frame) (mvpMapPoints : List (Option MapPoint))
    (dMP : Descriptor) (u invzc radius : ℚ) (b : Best1) (i2 : Nat) : Best1 :=
  if (match mvpMapPoints.getD i2 none with
      | some p => decide (p.Observations > 0)
      | none => false) then b
  else if CurrentFrame.mvuRight.getD i2 0 > 0 ∧
      |(u - CurrentFrame.mbf * invzc) - CurrentFrame.mvuRight.getD i2 0| > radius then b
  else
    let dist := DescriptorDistance dMP (CurrentFrame.mDescriptors.getD i2 Descriptor.zero)
    if dist < b.bestDist then { bestDist := dist, bestIdx2 := i2 } else b

/-- Lines 640-654: the best candidate is accepted when `bestDist <= TH_HIGH`. -/
def SearchByProjection_Frame.select (mbCheckOrientation : Bool) (CurrentFrame LastFrame : Frame)
    (st : MatchState) (i : Nat) (pMP : MapPoint) (b : Best1) : MatchState :=
  if b.bestDist ≤ TH_HIGH then
    { mvpMapPoints := st.mvpMapPoints.set b.bestIdx2.toNat (some pMP)
      nmatches := st.nmatches + 1
      rotHist :=
        if mbCheckOrientation then
          pushBin st.rotHist
            (computeBin (LastFrame.mvKeysUn.getD i {}).angle
              (CurrentFrame.mvKeysUn.getD b.bestIdx2.toNat {}).angle)
            b.bestIdx2
        else st.rotHist }
  else st

/-- Lines 594-597: the radius of the search window,
`th * CurrentFrame.mvScaleFactors[nLastOctave]`. -/
def SearchByProjection_Frame.radius (CurrentFrame LastFrame : Frame) (th : ℚ) (i : Nat) : ℚ :=
  let nLastOctave := (LastFrame.mvKeys.getD i {}).octave
  th * CurrentFrame.mvScaleFactors.getD nLastOctave.toNat 0

/-- Lines 599-606: the candidate keypoints `vIndices2` of the search window. -/
def SearchByProjection_Frame.window (CurrentFrame LastFrame : Frame) (th : ℚ)
    (bForward bBackward : Bool) (i : Nat) (u v : ℚ) : List Nat :=
  let nLastOctave := (LastFrame.mvKeys.getD i {}).octave
  let radius := SearchByProjection_Frame.radius CurrentFrame LastFrame th i
  if bForward then CurrentFrame.GetFeaturesInArea u v radius nLastOctave (-1)
  else if bBackward then CurrentFrame.GetFeaturesInArea u v radius 0 nLastOctave
  else CurrentFrame.GetFeaturesInArea u v radius (nLastOctave - 1) (nLastOctave + 1)

/-- Lines 594-654: the search in the window around the projection `(u, v)` of the map point
`pMP` of keypoint `i` of the last frame. -/
def SearchByProjection_Frame.searchWindow (mbCheckOrientation : Bool)
    (CurrentFrame LastFrame : Frame) (th : ℚ) (bForward bBackward : Bool) (st : MatchState)
    (i : Nat) (pMP : MapPoint) (u v invzc : ℚ) : MatchState :=
  if (SearchByProjection_Frame.window CurrentFrame LastFrame th bForward bBackward i u
      v).isEmpty then st
  else
    SearchByProjection_Frame.select mbCheckOrientation CurrentFrame LastFrame st i pMP
      ((SearchByProjection_Frame.window CurrentFrame LastFrame th bForward bBackward i u v).foldl
        (SearchByProjection_Frame.scan CurrentFrame st.mvpMapPoints pMP.descriptor u invzc
          (SearchByProjection_Frame.radius CurrentFrame LastFrame th i))
        { bestDist := 256, bestIdx2 := -1 })

/-- Lines 586-592: is the projection `(u, v)` outside of the image bounds? -/
def SearchByProjection_Frame.outOfBounds (CurrentFrame : Frame) (u v : ℚ) : Bool :=
  decide (u < CurrentFrame.mnMinX ∨ u > CurrentFrame.mnMaxX) ||
    decide (v < CurrentFrame.mnMinY ∨ v > CurrentFrame.mnMaxY)

/-- Lines 586-654: the image bounds check on the projection, then the window search. -/
def SearchByProjection_Frame.project (mbCheckOrientation : Bool)
    (CurrentFrame LastFrame : Frame) (th : ℚ) (bForward bBackward : Bool) (st : MatchState)
    (i : Nat) (pMP : MapPoint) (xc yc invzc : ℚ) : MatchState :=
  if SearchByProjection_Frame.outOfBounds CurrentFrame
      (CurrentFrame.fx * xc * invzc + CurrentFrame.cx)
      (CurrentFrame.fy * yc * invzc + CurrentFrame.cy) then st
  else
    SearchByProjection_Frame.searchWindow mbCheckOrientation CurrentFrame LastFrame th bForward
      bBackward st i pMP (CurrentFrame.fx * xc * invzc + CurrentFrame.cx)
      (CurrentFrame.fy * yc * invzc + CurrentFrame.cy) invzc

/-- Lines 576-581: the map point in the camera frame of the current frame,
`x3Dc = Rcw * x3Dw + tcw`. -/
def SearchByProjection_Frame.x3Dc (CurrentFrame : Frame) (pMP : MapPoint) : Vec3 :=
  (CurrentFrame.Rcw.mulVec pMP.worldPos).add CurrentFrame.tcw

/-- Line 586 at depth zero: `u = CurrentFrame.fx * xc * invzc + CurrentFrame.cx` in `float`
arithmetic, for `invzc = 1.0 / 0 = +∞`. -/
def SearchByProjection_Frame.uZero (CurrentFrame : Frame) (pMP : MapPoint) : Float32 :=
  (((Float32.finite CurrentFrame.fx).mul
    (Float32.finite (SearchByProjection_Frame.x3Dc CurrentFrame pMP).x)).mul
    (Float32.inf false)).add (Float32.finite CurrentFrame.cx)

/-- Line 587 at depth zero: `v = CurrentFrame.fy * yc * invzc + CurrentFrame.cy` in `float`
arithmetic, for `invzc = +∞`. -/
def SearchByProjection_Frame.vZero (CurrentFrame : Frame) (pMP : MapPoint) : Float32 :=
  (((Float32.finite CurrentFrame.fy).mul
    (Float32.finite (SearchByProjection_Frame.x3Dc CurrentFrame pMP).y)).mul
    (Float32.inf false)).add (Float32.finite CurrentFrame.cy)

/-- Lines 589-592 for coordinates that need not be finite: is the projection `(u, v)` outside of
the image bounds? The comparisons are false for a NaN. -/
def SearchByProjection_Frame.outOfBoundsZero (CurrentFrame : Frame) (u v : Float32) : Bool :=
  (u.lt (Float32.finite CurrentFrame.mnMinX) || (Float32.finite CurrentFrame.mnMaxX).lt u) ||
    (v.lt (Float32.finite CurrentFrame.mnMinY) || (Float32.finite CurrentFrame.mnMaxY).lt v)

/-- Lines 599-606 for coordinates that need not be finite: the candidate keypoints
`vIndices2`. -/
def SearchByProjection_Frame.windowZero (CurrentFrame LastFrame : Frame) (th : ℚ)
    (bForward bBackward : Bool) (i : Nat) (u v : Float32) : List Nat :=
  let nLastOctave := (LastFrame.mvKeys.getD i {}).octave
  let radius := SearchByProjection_Frame.radius CurrentFrame LastFrame th i
  if bForward then CurrentFrame.GetFeaturesInAreaNonFinite u v radius nLastOctave (-1)
  else if bBackward then CurrentFrame.GetFeaturesInAreaNonFinite u v radius 0 nLastOctave
  else CurrentFrame.GetFeaturesInAreaNonFinite u v radius (nLastOctave - 1) (nLastOctave + 1)

/-- Lines 624-629 at depth zero: the error `er = fabs(ur - CurrentFrame.mvuRight[i2])` of the
right coordinate `ur = u - CurrentFrame.mbf * invzc`, in `float` arithmetic, for
`invzc = +∞`. -/
def SearchByProjection_Frame.erZero (CurrentFrame : Frame) (u : Float32) (i2 : Nat) : Float32 :=
  ((u.sub ((Float32.finite CurrentFrame.mbf).mul (Float32.inf false))).sub
    (Float32.finite (CurrentFrame.mvuRight.getD i2 0))).abs

/-- One iteration of the loop over `vIndices2` (lines 616-638) at depth zero. -/
def SearchByProjection_Frame.scanZero (CurrentFrame : Frame)
    (mvpMapPoints : List (Option MapPoint)) (dMP : Descriptor) (u : Float32) (radius : ℚ)
    (b : Best1) (i2 : Nat) : Best1 :=
  if (match mvpMapPoints.getD i2 none with
      | some p => decide (p.Observations > 0)
      | none => false) then b
  else if CurrentFrame.mvuRight.getD i2 0 > 0 ∧
      (Float32.finite radius).lt (SearchByProjection_Frame.erZero CurrentFrame u i2) = true then b
  else
    let dist := DescriptorDistance dMP (CurrentFrame.mDescriptors.getD i2 Descriptor.zero)
    if dist < b.bestDist then { bestDist := dist, bestIdx2 := i2 } else b

/-- Lines 581-654 for a map point at depth zero: `invzc` is `+∞`, which is not negative; the
projection `(u, v)` is made of infinities, which are outside of the image bounds, or of NaN,
which pass the bounds check. -/
def SearchByProjection_Frame.zeroDepth (mbCheckOrientation : Bool)
    (CurrentFrame LastFrame : Frame) (th : ℚ) (bForward bBackward : Bool) (st : MatchState)
    (i : Nat) (pMP : MapPoint) : MatchState :=
  if SearchByProjection_Frame.outOfBoundsZero CurrentFrame
      (SearchByProjection_Frame.uZero CurrentFrame pMP)
      (SearchByProjection_Frame.vZero CurrentFrame pMP) then st
  else if (SearchByProjection_Frame.windowZero CurrentFrame LastFrame th bForward bBackward i
      (SearchByProjection_Frame.uZero CurrentFrame pMP)
      (SearchByProjection_Frame.vZero CurrentFrame pMP)).isEmpty then st
  else
    SearchByProjection_Frame.select mbCheckOrientation CurrentFrame LastFrame st i pMP
      ((SearchByProjection_Frame.windowZero CurrentFrame LastFrame th bForward bBackward i
          (SearchByProjection_Frame.uZero CurrentFrame pMP)
          (SearchByProjection_Frame.vZero CurrentFrame pMP)).foldl
        (SearchByProjection_Frame.scanZero CurrentFrame st.mvpMapPoints pMP.descriptor
          (SearchByProjection_Frame.uZero CurrentFrame pMP)
          (SearchByProjection_Frame.radius CurrentFrame LastFrame th i))
        { bestDist := 256, bestIdx2 := -1 })

/-- One iteration of the loop over the keypoints `i` of the last frame (lines 570-657). At a
depth that is not zero the arithmetic is that of `ℚ`; at depth zero the division
`1.0 / x3Dc.at<float>(2)` yields `+∞` and the iteration goes on in IEEE arithmetic
(`zeroDepth`). -/
def SearchByProjection_Frame.matchLast (mbCheckOrientation : Bool) (CurrentFrame LastFrame : Frame)
    (th : ℚ) (bForward bBackward : Bool) (st : MatchState) (i : Nat) : MatchState :=
  match LastFrame.mvpMapPoints.getD i none with
  | none => st
  | some pMP =>
    if LastFrame.mvbOutlier.getD i false then st
    else if (SearchByProjection_Frame.x3Dc CurrentFrame pMP).z = 0 then
      SearchByProjection_Frame.zeroDepth mbCheckOrientation CurrentFrame LastFrame th bForward
        bBackward st i pMP
    else if 1 / (SearchByProjection_Frame.x3Dc CurrentFrame pMP).z < 0 then st
    else
      SearchByProjection_Frame.project mbCheckOrientation CurrentFrame LastFrame th bForward
        bBackward st i pMP (SearchByProjection_Frame.x3Dc CurrentFrame pMP).x
        (SearchByProjection_Frame.x3Dc CurrentFrame pMP).y
        (1 / (SearchByProjection_Frame.x3Dc CurrentFrame pMP).z)

/-- The state of `SearchByProjection(CurrentFrame, LastFrame, th)` when the loop over the last
frame is left (before the rotation filter). -/
def SearchByProjection_Frame.matching (mbCheckOrientation : Bool) (CurrentFrame LastFrame : Frame)
    (th : ℚ) : MatchState :=
  let twc := (CurrentFrame.Rcw.t.mulVec CurrentFrame.tcw).neg
  let tlc := (LastFrame.Rcw.mulVec twc).add LastFrame.tcw
  let bForward := decide (tlc.z > CurrentFrame.mb)
  let bBackward := decide (-tlc.z > CurrentFrame.mb)
  (List.range LastFrame.N).foldl
    (SearchByProjection_Frame.matchLast mbCheckOrientation CurrentFrame LastFrame th bForward
      bBackward)
    { mvpMapPoints := CurrentFrame.mvpMapPoints, nmatches := 0, rotHist := emptyRotHist }

/-- Source: `int ORBmatcher::SearchByProjection(Frame &CurrentFrame, const Frame &LastFrame,
const float th)` for a matcher built with `checkOri = mbCheckOrientation`: the final
`CurrentFrame.mvpMapPoints` and the returned `nmatches`. -/
def SearchByProjection_Frame (mbCheckOrientation : Bool) (CurrentFrame LastFrame : Frame)
    (th : ℚ) : List (Option MapPoint) × Int :=
  let st := SearchByProjection_Frame.matching mbCheckOrientation CurrentFrame LastFrame th
  if mbCheckOrientation then rotationFilter st.rotHist st.mvpMapPoints st.nmatches
  else (st.mvpMapPoints, st.nmatches)

/-- Total size of the bins of the rotation histogram. -/
def totalSize (rotHist : List (List Int)) : Int :=
  ((List.range HISTO_LENGTH.toNat).map (binSize rotHist)).sum

/-- Two matcher states agree on the match vector and on the counter. -/
def MatchState.SameCore (st1 st2 : MatchState) : Prop :=
  st1.mvpMapPoints = st2.mvpMapPoints ∧ st1.nmatches = st2.nmatches

/-- Invariant of the matching loops: the histogram holds at most one entry per counted match. -/
def MatchState.HistOk (st : MatchState) : Prop := totalSize st.rotHist ≤ st.nmatches

/-! ## A concrete input of `SearchByBoW` -/

/-- A descriptor given by its first two words, the other six being zero. -/
def Descriptor.ofWords (w0 w1 : Word32) : Descriptor :=
  fun i => if i = 0 then w0 else if i = 1 then w1 else 0

/-- A keyframe with five keypoints under one vocabulary node, each holding a good map point.
The descriptors of keypoints 1 to 4 have their 2, 7, 12, 17 low bits set; the descriptor of
keypoint 0 has 20 bits set in its second word. -/
def ratioExampleKF : KeyFrame :=
  { mvKeysUn := [{ angle := 90 }, { angle := 0 }, { angle := 300 }, { angle := 180 }, { angle := 0 }]
    mDescriptors := [Descriptor.ofWords 0 1048575, Descriptor.ofWords 3 0, Descriptor.ofWords 127 0,
      Descriptor.ofWords 4095 0, Descriptor.ofWords 131071 0]
    mFeatVec := [(0, [0, 1, 2, 3, 4])]
    mvpMapPoints := [some { id := 0 }, some { id := 1 }, some { id := 2 }, some { id := 3 },
      some { id := 4 }] }

/-- A frame with four keypoints under the same vocabulary node, whose descriptors have their
0, 5, 10, 15 low bits set. -/
def ratioExampleF : Frame :=
  { N := 4
    mvKeys := [{ angle := 0 }, { angle := 300 }, { angle := 180 }, { angle := 0 }]
    mDescriptors := [Descriptor.ofWords 0 0, Descriptor.ofWords 31 0, Descriptor.ofWords 1023 0,
      Descriptor.ofWords 32767 0]
    mFeatVec := [(0, [0, 1, 2, 3])] }

/-! ## RadiusByViewingCos and CheckDistEpipolarLine (ORBmatcher.cc, lines 119-144) -/

/-- Source: `float ORBmatcher::RadiusByViewingCos(const float &viewCos)`. The constant `0.998`
is the rational `499/500`. -/
def RadiusByViewingCos (viewCos : ℚ) : ℚ :=
  if viewCos > 499 / 500 then 5 / 2 else 4

/-- Lines 130-132: a coefficient of the epipolar line,
`kp1.pt.x * F12.at<float>(0, j) + kp1.pt.y * F12.at<float>(1, j) + F12.at<float>(2, j)`, in
`float` arithmetic, for the entries `f0, f1, f2` of column `j` of `F12`. -/
def CheckDistEpipolarLine.coefficient (kp1 : KeyPoint) (f0 f1 f2 : ℚ) : Float32 :=
  (((Float32.finite kp1.x).mul (Float32.finite f0)).add
    ((Float32.finite kp1.y).mul (Float32.finite f1))).add (Float32.finite f2)

/-- Line 130: the local `a`. -/
def CheckDistEpipolarLine.a (kp1 : KeyPoint) (F12 : Mat3) : Float32 :=
  CheckDistEpipolarLine.coefficient kp1 F12.r0.x F12.r1.x F12.r2.x

/-- Line 131: the local `b`. -/
def CheckDistEpipolarLine.b (kp1 : KeyPoint) (F12 : Mat3) : Float32 :=
  CheckDistEpipolarLine.coefficient kp1 F12.r0.y F12.r1.y F12.r2.y

/-- Line 132: the local `c`. -/
def CheckDistEpipolarLine.c (kp1 : KeyPoint) (F12 : Mat3) : Float32 :=
  CheckDistEpipolarLine.coefficient kp1 F12.r0.z F12.r1.z F12.r2.z

/-- Line 134: `num = a * kp2.pt.x + b * kp2.pt.y + c`. -/
def CheckDistEpipolarLine.num (kp1 kp2 : KeyPoint) (F12 : Mat3) : Float32 :=
  (((CheckDistEpipolarLine.a kp1 F12).mul (Float32.finite kp2.x)).add
    ((CheckDistEpipolarLine.b kp1 F12).mul (Float32.finite kp2.y))).add
    (CheckDistEpipolarLine.c kp1 F12)

/-- Line 136: `den = a * a + b * b`. -/
def CheckDistEpipolarLine.den (kp1 : KeyPoint) (F12 : Mat3) : Float32 :=
  ((CheckDistEpipolarLine.a kp1 F12).mul (CheckDistEpipolarLine.a kp1 F12)).add
    ((CheckDistEpipolarLine.b kp1 F12).mul (CheckDistEpipolarLine.b kp1 F12))

/-- Line 141: `dsqr = num * num / den`. -/
def CheckDistEpipolarLine.dsqr (kp1 kp2 : KeyPoint) (F12 : Mat3) : Float32 :=
  ((CheckDistEpipolarLine.num kp1 kp2 F12).mul (CheckDistEpipolarLine.num kp1 kp2 F12)).div
    (CheckDistEpipolarLine.den kp1 F12)

/-- Line 143: the bound `3.84 * pKF2->mvLevelSigma2[kp2.octave]`, the `double` product of the
`double` constant `3.84` and the level variance. -/
def CheckDistEpipolarLine.bound (kp2 : KeyPoint) (pKF2 : KeyFrame) : ℚ :=
  f64 (f64 (96 / 25) * pKF2.mvLevelSigma2.getD kp2.octave.toNat 0)

/-- Source: `bool ORBmatcher::CheckDistEpipolarLine(const cv::KeyPoint &kp1, const cv::KeyPoint &kp2,
const cv::Mat &F12, const KeyFrame *pKF2)`. The entry `F12.at<float>(i, j)` is component `j` of
row `i`. The line, `num`, `den` and `dsqr` are computed in `float` arithmetic; the final
comparison is made in `double`, to which `dsqr` converts without change. -/
def CheckDistEpipolarLine (kp1 kp2 : KeyPoint) (F12 : Mat3) (pKF2 : KeyFrame) : Bool :=
  if (CheckDistEpipolarLine.den kp1 F12).isZero then false
  else
    (CheckDistEpipolarLine.dsqr kp1 kp2 F12).lt
      (Float32.finite (CheckDistEpipolarLine.bound kp2 pKF2))

/-! ## SearchByProjection(Frame &F, const vector<MapPoint *> &vpMapPoints, th)
(ORBmatcher.cc, lines 40-117) -/

/-- The locals `bestDist`, `bestLevel`, `bestDist2`, `bestLevel2`, `bestIdx` of the inner
loop. -/
structure Best3 where
  bestDist : Int
  bestLevel : Int
  bestDist2 : Int
  bestLevel2 : Int
  bestIdx : Int

/-- Lines 43, 56-59: the local `r` after `if (bFactor) r *= th;`, where
`bFactor = th != 1.0`. -/
def SearchByProjection_MapPoints.r (pMP : MapPoint) (th : ℚ) : ℚ :=
  if th ≠ 1 then RadiusByViewingCos pMP.mTrackViewCos * th
  else RadiusByViewingCos pMP.mTrackViewCos

/-- Line 62: the radius `r * F.mvScaleFactors[nPredictedLevel]` passed to
`GetFeaturesInArea`. -/
def SearchByProjection_MapPoints.radius (F : Frame) (pMP : MapPoint) (th : ℚ) : ℚ :=
  SearchByProjection_MapPoints.r pMP th * F.mvScaleFactors.getD pMP.mnTrackScaleLevel.toNat 0

/-- Lines 61-63: the candidate keypoints `vIndices`. -/
def SearchByProjection_MapPoints.window (F : Frame) (pMP : MapPoint) (th : ℚ) : List Nat :=
  F.GetFeaturesInArea pMP.mTrackProjX pMP.mTrackProjY (SearchByProjection_MapPoints.radius F pMP th)
    (pMP.mnTrackScaleLevel - 1) pMP.mnTrackScaleLevel

/-- One iteration of the loop over `vIndices` (lines 77-104); `mvpMapPoints` is the current
value of `F.mvpMapPoints`. -/
def SearchByProjection_MapPoints.scan (F : Frame) (mvpMapPoints : List (Option MapPoint))
    (pMP : MapPoint) (th : ℚ) (b : Best3) (idx : Nat) : Best3 :=
  if (match mvpMapPoints.getD idx none with
      | some p => decide (p.Observations > 0)
      | none => false) then b
  else if F.mvuRight.getD idx 0 > 0 ∧
      |pMP.mTrackProjXR - F.mvuRight.getD idx 0| >
        SearchByProjection_MapPoints.r pMP th *
          F.mvScaleFactors.getD pMP.mnTrackScaleLevel.toNat 0 then b
  else
    let dist := DescriptorDistance pMP.descriptor (F.mDescriptors.getD idx Descriptor.zero)
    if dist < b.bestDist then
      { bestDist2 := b.bestDist, bestDist := dist, bestLevel2 := b.bestLevel,
        bestLevel := (F.mvKeysUn.getD idx {}).octave, bestIdx := idx }
    else if dist < b.bestDist2 then
      { b with bestLevel2 := (F.mvKeysUn.getD idx {}).octave, bestDist2 := dist }
    else b

/-- Lines 70-104: the best and second-best candidates of the window of `pMP`. -/
def SearchByProjection_MapPoints.best (F : Frame) (mvpMapPoints : List (Option MapPoint))
    (pMP : MapPoint) (th : ℚ) : Best3 :=
  (SearchByProjection_MapPoints.window F pMP th).foldl
    (SearchByProjection_MapPoints.scan F mvpMapPoints pMP th)
    { bestDist := 256, bestLevel := -1, bestDist2 := 256, bestLevel2 := -1, bestIdx := -1 }

/-- Lines 106-113: the acceptance of the best candidate. The state is the pair of
`F.mvpMapPoints` and `nmatches`. -/
def SearchByProjection_MapPoints.select (mfNNratio : ℚ) (st : List (Option MapPoint) × Int)
    (pMP : MapPoint) (b : Best3) : List (Option MapPoint) × Int :=
  if b.bestDist ≤ TH_HIGH then
    if b.bestLevel = b.bestLevel2 ∧ (b.bestDist : ℚ) > f32 (mfNNratio * (b.bestDist2 : ℚ)) then st
    else (st.1.set b.bestIdx.toNat (some pMP), st.2 + 1)
  else st

/-- One iteration of the loop over `vpMapPoints` (lines 45-114). -/
def SearchByProjection_MapPoints.matchMP (mfNNratio : ℚ) (F : Frame) (th : ℚ)
    (st : List (Option MapPoint) × Int) (pMP : MapPoint) : List (Option MapPoint) × Int :=
  if !pMP.mbTrackInView then st
  else if pMP.isBad then st
  else if (SearchByProjection_MapPoints.window F pMP th).isEmpty then st
  else
    SearchByProjection_MapPoints.select mfNNratio st pMP
      (SearchByProjection_MapPoints.best F st.1 pMP th)

/-- Source: `int ORBmatcher::SearchByProjection(Frame &F, const vector<MapPoint *> &vpMapPoints,
const float th)` for a matcher built with `nnratio = mfNNratio`: the final `F.mvpMapPoints` and
the returned `nmatches`. The source dereferences every element of `vpMapPoints`, which are
therefore map points and not nullable pointers here. -/
def SearchByProjection_MapPoints (mfNNratio : ℚ) (F : Frame) (vpMapPoints : List MapPoint)
    (th : ℚ) : List (Option MapPoint) × Int :=
  vpMapPoints.foldl (SearchByProjection_MapPoints.matchMP mfNNratio F th) (F.mvpMapPoints, 0)

/-- A descriptor given by the list of its words, missing words being zero. -/
def Descriptor.ofList (l : List Word32) : Descriptor := fun i => l.getD i.val 0

/-- The value `b` is the `k`-th smallest element of the list `l`, counted from 1 and with
multiplicity: fewer than `k` elements are below `b` and at least `k` are at most `b`. -/
def IsKthSmallest (k : Nat) (l : List Int) (b : Int) : Prop :=
  l.countP (fun d => decide (d < b)) < k ∧ k ≤ l.countP (fun d => decide (d ≤ b))

/-- The distances from the descriptor `dKF` to the frame keypoints of `vIndicesF` that are not
yet matched in `m`, followed by twice the value `256` that stands for an absent candidate. -/
def SearchByBoW.candidateDists (F : Frame) (m : List (Option MapPoint)) (dKF : Descriptor)
    (vIndicesF : List Nat) : List Int :=
  (vIndicesF.filter (fun i => !(m.getD i none).isSome)).map
    (fun i => DescriptorDistance dKF (F.mDescriptors.getD i Descriptor.zero)) ++ [256, 256]

/-- The gates passed by a match of the frame keypoint `idxF` with the map point `pMP`, in a
match vector `cur`: `pMP` is the good map point of a keyframe keypoint `realIdxKF` listed under
a vocabulary node that also lists `idxF` in the frame; at some earlier stage `m` of the match
vector, in which `idxF` was free, the distance of the two descriptors was the smallest over the
free frame keypoints of the node, at most `TH_LOW`, and below `mfNNratio` times the
second-smallest one. -/
def SearchByBoW.Gated (mfNNratio : ℚ) (pKF : KeyFrame) (F : Frame)
    (cur : List (Option MapPoint)) (idxF : Nat) (pMP : MapPoint) : Prop :=
  ∃ (node : Nat) (vIndicesKF vIndicesF : List Nat) (realIdxKF : Nat)
    (m : List (Option MapPoint)) (bestDist2 : Int),
    ((node, vIndicesKF) ∈ pKF.mFeatVec ∧ (node, vIndicesF) ∈ F.mFeatVec ∧
      realIdxKF ∈ vIndicesKF ∧ idxF ∈ vIndicesF) ∧
    (pKF.mvpMapPoints.getD realIdxKF none = some pMP ∧ pMP.isBad = false) ∧
    ((∀ i : Nat, (m.getD i none).isSome = true → (cur.getD i none).isSome = true) ∧
      (m.getD idxF none).isSome = false) ∧
    (IsKthSmallest 1
        (SearchByBoW.candidateDists F m (pKF.mDescriptors.getD realIdxKF Descriptor.zero)
          vIndicesF)
        (DescriptorDistance (pKF.mDescriptors.getD realIdxKF Descriptor.zero)
          (F.mDescriptors.getD idxF Descriptor.zero)) ∧
      IsKthSmallest 2
        (SearchByBoW.candidateDists F m (pKF.mDescriptors.getD realIdxKF Descriptor.zero)
          vIndicesF)
        bestDist2) ∧
    DescriptorDistance (pKF.mDescriptors.getD realIdxKF Descriptor.zero)
      (F.mDescriptors.getD idxF Descriptor.zero) ≤ TH_LOW ∧
    ((DescriptorDistance (pKF.mDescriptors.getD realIdxKF Descriptor.zero)
      (F.mDescriptors.getD idxF Descriptor.zero) : Int) : ℚ) < f32 (mfNNratio * (bestDist2 : ℚ))

/-- Invariant of the scan of `SearchByBoW` after the frame keypoints `pre`: the two running
distances are the smallest and second-smallest candidate distances, and the best index is a
free keypoint of `pre` at the smallest distance. -/
def Best2.Spec (F : Frame) (m : List (Option MapPoint)) (dKF : Descriptor) (pre : List Nat)
    (b : Best2) : Prop :=
  IsKthSmallest 1 (SearchByBoW.candidateDists F m dKF pre) b.bestDist1 ∧
  IsKthSmallest 2 (SearchByBoW.candidateDists F m dKF pre) b.bestDist2 ∧
  b.bestDist1 ≤ b.bestDist2 ∧
  (b.bestDist1 < 256 → ∃ i : Nat, i ∈ pre ∧ b.bestIdxF = (i : Int) ∧
    (m.getD i none).isSome = false ∧
    DescriptorDistance dKF (F.mDescriptors.getD i Descriptor.zero) = b.bestDist1)

/-- Invariant of the loops of `SearchByBoW`: every recorded match passed the gates. -/
def SearchByBoW.AllGated (mfNNratio : ℚ) (pKF : KeyFrame) (F : Frame)
    (cur : List (Option MapPoint)) : Prop :=
  ∀ (idxF : Nat) (pMP : MapPoint), cur.getD idxF none = some pMP →
    SearchByBoW.Gated mfNNratio pKF F cur idxF pMP

/-! ## SearchForTriangulation (ORBmatcher.cc, lines 257-406) -/

/-- The state of the matching loops of `SearchForTriangulation`: the vector `vMatches12`, the
counter `nmatches` and the rotation histogram `rotHist`. -/
structure TriangulationState where
  vMatches12 : List Int
  nmatches : Int
  rotHist : List (List Int)

/-- Lines 262-269: the epipole `(ex, ey)` in the second image, computed in `float` arithmetic
from `C2 = R2w * Cw + t2w`: `invz = 1.0f / C2.z` is an infinity when `C2.z` is zero, and `ex`,
`ey` are then infinities or NaN. -/
def SearchForTriangulation.epipole (pKF1 pKF2 : KeyFrame) : Float32 × Float32 :=
  let C2 := (pKF2.Rcw.mulVec pKF1.Ow).add pKF2.tcw
  let invz := (Float32.finite 1).div (Float32.finite C2.z)
  ((((Float32.finite pKF2.fx).mul (Float32.finite C2.x)).mul invz).add (Float32.finite pKF2.cx),
    (((Float32.finite pKF2.fy).mul (Float32.finite C2.y)).mul invz).add (Float32.finite pKF2.cy))

/-- Lines 339-341: is the keypoint `kp2` too close to the epipole,
`distex * distex + distey * distey < 100 * pKF2->mvScaleFactors[kp2.octave]`, in `float`
arithmetic? The comparison is false when the left side is an infinity or NaN. -/
def SearchForTriangulation.nearEpipole (pKF1 pKF2 : KeyFrame) (kp2 : KeyPoint) : Bool :=
  let distex := (SearchForTriangulation.epipole pKF1 pKF2).1.sub (Float32.finite kp2.x)
  let distey := (SearchForTriangulation.epipole pKF1 pKF2).2.sub (Float32.finite kp2.y)
  ((distex.mul distex).add (distey.mul distey)).lt
    ((Float32.finite 100).mul (Float32.finite (pKF2.mvScaleFactors.getD kp2.octave.toNat 0)))

/-- One iteration of the loop over `f2it->second` (lines 314-349), for the keypoint `idx1` of
the first keyframe; the locals `bestDist` and `bestIdx2` are the fields of `Best1`. -/
def SearchForTriangulation.scan (pKF1 pKF2 : KeyFrame) (F12 : Mat3) (bOnlyStereo : Bool)
    (vbMatched2 : List Bool) (idx1 : Nat) (b : Best1) (idx2 : Nat) : Best1 :=
  if vbMatched2.getD idx2 false = true ∨ (pKF2.mvpMapPoints.getD idx2 none).isSome = true then b
  else if bOnlyStereo = true ∧ ¬ pKF2.mvuRight.getD idx2 0 ≥ 0 then b
  else
    let dist := DescriptorDistance (pKF1.mDescriptors.getD idx1 Descriptor.zero)
      (pKF2.mDescriptors.getD idx2 Descriptor.zero)
    if dist > TH_LOW ∨ dist > b.bestDist then b
    else if (¬ pKF1.mvuRight.getD idx1 0 ≥ 0 ∧ ¬ pKF2.mvuRight.getD idx2 0 ≥ 0) ∧
        SearchForTriangulation.nearEpipole pKF1 pKF2 (pKF2.mvKeysUn.getD idx2 {}) = true then b
    else if CheckDistEpipolarLine (pKF1.mvKeysUn.getD idx1 {}) (pKF2.mvKeysUn.getD idx2 {}) F12
        pKF2 = true then
      { bestIdx2 := idx2, bestDist := dist }
    else b

/-- One iteration of the loop over `f1it->second` (lines 292-367), for the keypoint `idx1` of
the first keyframe and the keypoints `vIndices2` of the second keyframe under the same
vocabulary node. -/
def SearchForTriangulation.match1 (mbCheckOrientation : Bool) (pKF1 pKF2 : KeyFrame)
    (F12 : Mat3) (bOnlyStereo : Bool) (vbMatched2 : List Bool) (vIndices2 : List Nat)
    (st : TriangulationState) (idx1 : Nat) : TriangulationState :=
  if (pKF1.mvpMapPoints.getD idx1 none).isSome = true then st
  else if bOnlyStereo = true ∧ ¬ pKF1.mvuRight.getD idx1 0 ≥ 0 then st
  else
    let b := vIndices2.foldl
      (SearchForTriangulation.scan pKF1 pKF2 F12 bOnlyStereo vbMatched2 idx1)
      { bestDist := TH_LOW, bestIdx2 := -1 }
    if b.bestIdx2 ≥ 0 then
      { vMatches12 := st.vMatches12.set idx1 b.bestIdx2
        nmatches := st.nmatches + 1
        rotHist :=
          if mbCheckOrientation then
            pushBin st.rotHist
              (computeBin (pKF1.mvKeysUn.getD idx1 {}).angle
                (pKF2.mvKeysUn.getD b.bestIdx2.toNat {}).angle)
              idx1
          else st.rotHist }
    else st

/-- The joint walk over the two feature vectors (lines 290-376). `f1it` and `f2it` are the
entries from the iterator positions on; `fuel` bounds the number of iterations of the `while`
loop. -/
def SearchForTriangulation.walk (mbCheckOrientation : Bool) (pKF1 pKF2 : KeyFrame) (F12 : Mat3)
    (bOnlyStereo : Bool) (vbMatched2 : List Bool) :
    Nat → FeatureVector → FeatureVector → TriangulationState → TriangulationState
  | 0, _, _, st => st
  | _ + 1, [], _, st => st
  | _ + 1, _ :: _, [], st => st
  | fuel + 1, (f1First, vIndices1) :: f1Rest, (f2First, vIndices2) :: f2Rest, st =>
    if f1First = f2First then
      SearchForTriangulation.walk mbCheckOrientation pKF1 pKF2 F12 bOnlyStereo vbMatched2 fuel
        f1Rest f2Rest
        (vIndices1.foldl
          (SearchForTriangulation.match1 mbCheckOrientation pKF1 pKF2 F12 bOnlyStereo vbMatched2
            vIndices2) st)
    else if f1First < f2First then
      SearchForTriangulation.walk mbCheckOrientation pKF1 pKF2 F12 bOnlyStereo vbMatched2 fuel
        (pKF1.mFeatVec.lower_bound f2First) ((f2First, vIndices2) :: f2Rest) st
    else
      SearchForTriangulation.walk mbCheckOrientation pKF1 pKF2 F12 bOnlyStereo vbMatched2 fuel
        ((f1First, vIndices1) :: f1Rest) (pKF2.mFeatVec.lower_bound f1First) st

/-- The state of `SearchForTriangulation` when the `while` loop is left (before the rotation
filter). The vector `vbMatched2` is created all false (line 276) and the source never writes to
it. The loop is given `|pKF1.mFeatVec| + |pKF2.mFeatVec|` iterations, which is enough when the
two maps are sorted (`SearchForTriangulation_matching_fuel`). -/
def SearchForTriangulation.matching (mbCheckOrientation : Bool) (pKF1 pKF2 : KeyFrame)
    (F12 : Mat3) (bOnlyStereo : Bool) : TriangulationState :=
  SearchForTriangulation.walk mbCheckOrientation pKF1 pKF2 F12 bOnlyStereo
    (List.replicate pKF2.N false) (pKF1.mFeatVec.length + pKF2.mFeatVec.length)
    pKF1.mFeatVec pKF2.mFeatVec
    { vMatches12 := List.replicate pKF1.N (-1), nmatches := 0, rotHist := emptyRotHist }

/-- The inner loop over one discarded bin (lines 388-391):
`for (j ...) { vMatches12[rotHist[i][j]] = -1; nmatches--; }`. -/
def SearchForTriangulation.clearBin (s : List Int × Int) (bin : List Int) : List Int × Int :=
  bin.foldl (fun s idx => (s.1.set idx.toNat (-1), s.2 - 1)) s

/-- The block `if (mbCheckOrientation) { ... }` of lines 378-394. -/
def SearchForTriangulation.rotationFilter (rotHist : List (List Int)) (vMatches12 : List Int)
    (nmatches : Int) : List Int × Int :=
  let r := ComputeThreeMaxima rotHist HISTO_LENGTH (-1) (-1) (-1)
  (List.range HISTO_LENGTH.toNat).foldl
    (fun s i => if rotationFilter.kept r i then s
      else SearchForTriangulation.clearBin s (rotHist.getD i []))
    (vMatches12, nmatches)

/-- Lines 396-403: the pairs `(i, vMatches12[i])` of the entries that are not negative. -/
def SearchForTriangulation.pairs (vMatches12 : List Int) : List (Nat × Nat) :=
  (List.range vMatches12.length).filterMap
    (fun i => if vMatches12.getD i (-1) < 0 then none
      else some (i, (vMatches12.getD i (-1)).toNat))

/-- Source: `int ORBmatcher::SearchForTriangulation(KeyFrame *pKF1, KeyFrame *pKF2, cv::Mat F12,
vector<pair<size_t, size_t> > &vMatchedPairs, const bool bOnlyStereo)` for a matcher built with
`checkOri = mbCheckOrientation`: the final `vMatchedPairs` and the returned `nmatches`. -/
def SearchForTriangulation (mbCheckOrientation : Bool) (pKF1 pKF2 : KeyFrame) (F12 : Mat3)
    (bOnlyStereo : Bool) : List (Nat × Nat) × Int :=
  let st := SearchForTriangulation.matching mbCheckOrientation pKF1 pKF2 F12 bOnlyStereo
  let s := if mbCheckOrientation then
      SearchForTriangulation.rotationFilter st.rotHist st.vMatches12 st.nmatches
    else (st.vMatches12, st.nmatches)
  (SearchForTriangulation.pairs s.1, s.2)

/-- The gates of a pair `(idx1, idx2)` of `SearchForTriangulation`: neither keypoint has a map
point, both are listed under one vocabulary node, the descriptor distance is at most `TH_LOW`,
a pair of monocular keypoints is not too close to the epipole, the epipolar constraint holds,
and both keypoints are stereo when `bOnlyStereo` is set. -/
def SearchForTriangulation.Gates (pKF1 pKF2 : KeyFrame) (F12 : Mat3) (bOnlyStereo : Bool)
    (idx1 idx2 : Nat) : Prop :=
  (pKF1.mvpMapPoints.getD idx1 none = none ∧ pKF2.mvpMapPoints.getD idx2 none = none) ∧
  (∃ (node : Nat) (vIndices1 vIndices2 : List Nat),
    (node, vIndices1) ∈ pKF1.mFeatVec ∧ (node, vIndices2) ∈ pKF2.mFeatVec ∧
    idx1 ∈ vIndices1 ∧ idx2 ∈ vIndices2) ∧
  DescriptorDistance (pKF1.mDescriptors.getD idx1 Descriptor.zero)
    (pKF2.mDescriptors.getD idx2 Descriptor.zero) ≤ TH_LOW ∧
  CheckDistEpipolarLine (pKF1.mvKeysUn.getD idx1 {}) (pKF2.mvKeysUn.getD idx2 {}) F12 pKF2
    = true ∧
  (bOnlyStereo = true → pKF1.mvuRight.getD idx1 0 ≥ 0 ∧ pKF2.mvuRight.getD idx2 0 ≥ 0) ∧
  (pKF1.mvuRight.getD idx1 0 < 0 → pKF2.mvuRight.getD idx2 0 < 0 →
    SearchForTriangulation.nearEpipole pKF1 pKF2 (pKF2.mvKeysUn.getD idx2 {}) = false)

/-- Invariant of `vMatches12`: every entry that is not negative passed the gates. -/
def SearchForTriangulation.AllGates (pKF1 pKF2 : KeyFrame) (F12 : Mat3) (bOnlyStereo : Bool)
    (vMatches12 : List Int) : Prop :=
  ∀ (i : Nat) (j : Int), vMatches12.getD i (-1) = j → 0 ≤ j →
    SearchForTriangulation.Gates pKF1 pKF2 F12 bOnlyStereo i j.toNat

/-- Invariant of the scan of `SearchForTriangulation` for the keypoint `idx1`: the best index is
still unset, or it is a keypoint of `vIndices2` that passed the gates of the inner loop. -/
def SearchForTriangulation.ScanOk (pKF1 pKF2 : KeyFrame) (F12 : Mat3) (bOnlyStereo : Bool)
    (idx1 : Nat) (vIndices2 : List Nat) (b : Best1) : Prop :=
  b.bestIdx2 = -1 ∨ ∃ idx2 : Nat, b.bestIdx2 = (idx2 : Int) ∧ idx2 ∈ vIndices2 ∧
    pKF2.mvpMapPoints.getD idx2 none = none ∧
    DescriptorDistance (pKF1.mDescriptors.getD idx1 Descriptor.zero)
      (pKF2.mDescriptors.getD idx2 Descriptor.zero) ≤ TH_LOW ∧
    CheckDistEpipolarLine (pKF1.mvKeysUn.getD idx1 {}) (pKF2.mvKeysUn.getD idx2 {}) F12 pKF2
      = true ∧
    (bOnlyStereo = true → pKF2.mvuRight.getD idx2 0 ≥ 0) ∧
    (pKF1.mvuRight.getD idx1 0 < 0 → pKF2.mvuRight.getD idx2 0 < 0 →
      SearchForTriangulation.nearEpipole pKF1 pKF2 (pKF2.mvKeysUn.getD idx2 {}) = false)

/-! ## A concrete input of `SearchForTriangulation` -/

/-- A keyframe with one stereo keypoint at the origin, without map point. -/
def triExampleKF1 : KeyFrame :=
  { N := 1
    mvKeysUn := [{}]
    mvuRight := [1]
    mDescriptors := [Descriptor.zero]
    mFeatVec := [(0, [0])]
    mvpMapPoints := [none] }

/-- A keyframe with one stereo keypoint at `(5, 0)`, without map point, under the same
vocabulary node. -/
def triExampleKF2 : KeyFrame :=
  { N := 1
    mvKeysUn := [{ x := 5 }]
    mvuRight := [1]
    mDescriptors := [Descriptor.zero]
    mFeatVec := [(0, [0])]
    mvpMapPoints := [none]
    tcw := { x := 1, z := 1 }
    fx := 1
    fy := 1
    mvScaleFactors := [1]
    mvLevelSigma2 := [1] }

/-- A matrix `F12` for which the epipolar line of the origin is the line `y = 0`. -/
def triExampleF12 : Mat3 := { r2 := { y := 1 } }

/-- Vector difference. -/
def Vec3.sub (a b : Vec3) : Vec3 := { x := a.x - b.x, y := a.y - b.y, z := a.z - b.z }

/-- Scalar product `a.dot(b)`. -/
def Vec3.dot (a b : Vec3) : ℚ := a.x * b.x + a.y * b.y + a.z * b.z

/-- A call that `Fuse` makes on a map point or on the keyframe. The methods are defined in
`MapPoint.cc` and `KeyFrame.cc`, which are not part of the sources at hand: the calls are
recorded in order and not interpreted. -/
inductive FuseCall where
  /-- The call `self->Replace(other)`. -/
  | Replace (self other : MapPoint)
  /-- The call `pMP->AddObservation(pKF, bestIdx)`. -/
  | AddObservation (pMP : MapPoint) (bestIdx : Int)
  /-- The call `pKF->AddMapPoint(pMP, bestIdx)`. -/
  | AddMapPoint (pMP : MapPoint) (bestIdx : Int)

/-- The outcome of one iteration of the loop of `Fuse` over the map points. -/
inductive Fuse.Outcome where
  /-- The iteration ends without reaching `nFused++`: a `continue`, or `bestDist > TH_LOW`. -/
  | skipped
  /-- The division `1 / p3Dc.at<float>(2)` of line 440 is evaluated at depth zero. -/
  | divisionByZero
  /-- The iteration reaches `nFused++` with the keypoint `bestIdx`, after the listed calls. -/
  | fused (bestIdx : Int) (calls : List FuseCall)

/-- The keypoint selected by an iteration that reached `nFused++`. -/
def Fuse.Outcome.selected : Fuse.Outcome → Option Int
  | Fuse.Outcome.fused bestIdx _ => some bestIdx
  | _ => none

/-- The calls made by an iteration. -/
def Fuse.Outcome.calls : Fuse.Outcome → List FuseCall
  | Fuse.Outcome.fused _ calls => calls
  | _ => []

/-- Does the iteration evaluate `1 / 0`? -/
def Fuse.Outcome.isDivisionByZero : Fuse.Outcome → Bool
  | Fuse.Outcome.divisionByZero => true
  | _ => false

/-- Lines 433-434: the map point in the camera frame, `p3Dc = Rcw * p3Dw + tcw`. -/
def Fuse.p3Dc (pKF : KeyFrame) (pMP : MapPoint) : Vec3 :=
  (pKF.Rcw.mulVec pMP.worldPos).add pKF.tcw

/-- Lines 436-438: the depth check `if (p3Dc.at<float>(2) < 0.0f) continue;`. -/
def Fuse.depthRejected (pKF : KeyFrame) (pMP : MapPoint) : Bool :=
  decide ((Fuse.p3Dc pKF pMP).z < 0)

/-- Lines 440-444: the image coordinate `u = fx * x + cx` with `x = p3Dc(0) * invz`. -/
def Fuse.u (pKF : KeyFrame) (pMP : MapPoint) : ℚ :=
  pKF.fx * ((Fuse.p3Dc pKF pMP).x * (1 / (Fuse.p3Dc pKF pMP).z)) + pKF.cx

/-- Lines 440-445: the image coordinate `v = fy * y + cy` with `y = p3Dc(1) * invz`. -/
def Fuse.v (pKF : KeyFrame) (pMP : MapPoint) : ℚ :=
  pKF.fy * ((Fuse.p3Dc pKF pMP).y * (1 / (Fuse.p3Dc pKF pMP).z)) + pKF.cy

/-- Line 451: the right coordinate `ur = u - bf * invz`. -/
def Fuse.ur (pKF : KeyFrame) (pMP : MapPoint) : ℚ :=
  Fuse.u pKF pMP - pKF.mbf * (1 / (Fuse.p3Dc pKF pMP).z)

/-- The locals `bestDist`, `bestIdx` of the inner loop of `Fuse`. -/
structure BestIdx where
  bestDist : Int
  bestIdx : Int

/-- Lines 494-515: the chi-square check of the reprojection error of keypoint `idx`, with
three components for a stereo keypoint and two for a monocular one. The constants `7.8` and
`5.99` are the rationals `39/5` and `599/100`. -/
def Fuse.chiSquareRejected (pKF : KeyFrame) (u v ur : ℚ) (idx : Nat) : Bool :=
  let kp := pKF.mvKeysUn.getD idx {}
  let kpLevel := kp.octave
  if pKF.mvuRight.getD idx 0 ≥ 0 then
    let ex := u - kp.x
    let ey := v - kp.y
    let er := ur - pKF.mvuRight.getD idx 0
    let e2 := ex * ex + ey * ey + er * er
    decide (e2 * pKF.mvInvLevelSigma2.getD kpLevel.toNat 0 > 39 / 5)
  else
    let ex := u - kp.x
    let ey := v - kp.y
    let e2 := ex * ex + ey * ey
    decide (e2 * pKF.mvInvLevelSigma2.getD kpLevel.toNat 0 > 599 / 100)

/-- One iteration of the loop over `vIndices` (lines 484-525). -/
def Fuse.scan (pKF : KeyFrame) (dMP : Descriptor) (u v ur : ℚ) (nPredictedLevel : Int)
    (b : BestIdx) (idx : Nat) : BestIdx :=
  let kpLevel := (pKF.mvKeysUn.getD idx {}).octave
  if kpLevel < nPredictedLevel - 1 ∨ kpLevel > nPredictedLevel then b
  else if Fuse.chiSquareRejected pKF u v ur idx = true then b
  else
    let dist := DescriptorDistance dMP (pKF.mDescriptors.getD idx Descriptor.zero)
    if dist < b.bestDist then { bestDist := dist, bestIdx := idx } else b

/-- Lines 529-540: the calls made for the selected keypoint `bestIdx`: a replacement when the
keypoint holds a map point that is not bad, nothing when it holds a bad one, and the attachment
of `pMP` when the slot is empty. -/
def Fuse.merge (pKF : KeyFrame) (pMP : MapPoint) (bestIdx : Int) : List FuseCall :=
  match pKF.mvpMapPoints.getD bestIdx.toNat none with
  | some pMPinKF =>
    if !pMPinKF.isBad then
      if pMPinKF.Observations > pMP.Observations then [FuseCall.Replace pMP pMPinKF]
      else [FuseCall.Replace pMPinKF pMP]
    else []
  | none => [FuseCall.AddObservation pMP bestIdx, FuseCall.AddMapPoint pMP bestIdx]

/-- Lines 470-473: the candidate keypoints `vIndices`, within the radius
`th * pKF->mvScaleFactors[nPredictedLevel]` of the projection. -/
def Fuse.window (pKF : KeyFrame) (pMP : MapPoint) (th : ℚ) (nPredictedLevel : Int) : List Nat :=
  pKF.GetFeaturesInArea (Fuse.u pKF pMP) (Fuse.v pKF pMP)
    (th * pKF.mvScaleFactors.getD nPredictedLevel.toNat 0)

/-- Lines 482-525: the best candidate of the window. -/
def Fuse.best (pKF : KeyFrame) (pMP : MapPoint) (th : ℚ) (nPredictedLevel : Int) : BestIdx :=
  (Fuse.window pKF pMP th nPredictedLevel).foldl
    (Fuse.scan pKF pMP.descriptor (Fuse.u pKF pMP) (Fuse.v pKF pMP) (Fuse.ur pKF pMP)
      nPredictedLevel)
    { bestDist := 256, bestIdx := -1 }

/-- Lines 470-542: the search of the window and the merge. -/
def Fuse.search (pKF : KeyFrame) (pMP : MapPoint) (th : ℚ) (nPredictedLevel : Int) :
    Fuse.Outcome :=
  if (Fuse.window pKF pMP th nPredictedLevel).isEmpty then Fuse.Outcome.skipped
  else if (Fuse.best pKF pMP th nPredictedLevel).bestDist ≤ TH_LOW then
    Fuse.Outcome.fused (Fuse.best pKF pMP th nPredictedLevel).bestIdx
      (Fuse.merge pKF pMP (Fuse.best pKF pMP th nPredictedLevel).bestIdx)
  else Fuse.Outcome.skipped

/-- Line 468: the predicted level `pMP->PredictScale(dist3D, pKF)` for
`dist3D = cv::norm(p3Dw - Ow)`. -/
def Fuse.nPredictedLevel (norm : Vec3 → ℚ) (PredictScale : MapPoint → ℚ → KeyFrame → Int)
    (pKF : KeyFrame) (pMP : MapPoint) : Int :=
  PredictScale pMP (norm (pMP.worldPos.sub pKF.Ow)) pKF

/-- One iteration of the loop of `Fuse` over `vpMapPoints` (lines 424-543), for the element
`pMP` and the current values of the keyframe and of the map points. `cv::norm`,
`MapPoint::PredictScale` and `MapPoint::IsInKeyFrame` are not part of the sources at hand and
are parameters. The division of line 440 is reached for every depth that is not negative; at
depth zero, where the float division yields an infinity that the rationals do not have, the
outcome is `divisionByZero`. -/
def Fuse.iteration (norm : Vec3 → ℚ) (PredictScale : MapPoint → ℚ → KeyFrame → Int)
    (IsInKeyFrame : MapPoint → KeyFrame → Bool) (pKF : KeyFrame) (th : ℚ) :
    Option MapPoint → Fuse.Outcome
  | none => Fuse.Outcome.skipped
  | some pMP =>
    if (pMP.isBad || IsInKeyFrame pMP pKF) = true then Fuse.Outcome.skipped
    else if Fuse.depthRejected pKF pMP = true then Fuse.Outcome.skipped
    else if (Fuse.p3Dc pKF pMP).z = 0 then Fuse.Outcome.divisionByZero
    else if (!pKF.IsInImage (Fuse.u pKF pMP) (Fuse.v pKF pMP)) = true then Fuse.Outcome.skipped
    else if norm (pMP.worldPos.sub pKF.Ow) < pMP.minDistanceInvariance ∨
        norm (pMP.worldPos.sub pKF.Ow) > pMP.maxDistanceInvariance then Fuse.Outcome.skipped
    else if (pMP.worldPos.sub pKF.Ow).dot pMP.normal < 1 / 2 * norm (pMP.worldPos.sub pKF.Ow)
      then Fuse.Outcome.skipped
    else Fuse.search pKF pMP th (Fuse.nPredictedLevel norm PredictScale pKF pMP)

/-- The gates of keypoint `idx` of the keyframe for a map point projected at `(u, v, ur)` with
predicted level `nPredictedLevel`: the octave is the predicted level or the one below, and the
squared reprojection error scaled by the inverse level variance is at most `7.8` over
`(u, v, ur)` for a stereo keypoint, at most `5.99` over `(u, v)` for a monocular one. -/
def Fuse.Gate (pKF : KeyFrame) (u v ur : ℚ) (nPredictedLevel : Int) (idx : Nat) : Prop :=
  ((pKF.mvKeysUn.getD idx {}).octave = nPredictedLevel ∨
    (pKF.mvKeysUn.getD idx {}).octave = nPredictedLevel - 1) ∧
  (pKF.mvuRight.getD idx 0 ≥ 0 →
    ((u - (pKF.mvKeysUn.getD idx {}).x) ^ 2 + (v - (pKF.mvKeysUn.getD idx {}).y) ^ 2
        + (ur - pKF.mvuRight.getD idx 0) ^ 2)
      * pKF.mvInvLevelSigma2.getD (pKF.mvKeysUn.getD idx {}).octave.toNat 0 ≤ 39 / 5) ∧
  (pKF.mvuRight.getD idx 0 < 0 →
    ((u - (pKF.mvKeysUn.getD idx {}).x) ^ 2 + (v - (pKF.mvKeysUn.getD idx {}).y) ^ 2)
      * pKF.mvInvLevelSigma2.getD (pKF.mvKeysUn.getD idx {}).octave.toNat 0 ≤ 599 / 100)

/-- Invariant of the scan of `Fuse` after the keypoints `pre`: the best index is unset, or it is
a keypoint of `pre` that passes the gates, at the best distance; no keypoint of `pre` that
passes the gates is closer. -/
def Fuse.ScanOk (pKF : KeyFrame) (dMP : Descriptor) (u v ur : ℚ) (nPredictedLevel : Int)
    (pre : List Nat) (b : BestIdx) : Prop :=
  ((b.bestIdx = -1 ∧ b.bestDist = 256) ∨
    ∃ idx : Nat, idx ∈ pre ∧ b.bestIdx = (idx : Int) ∧ Fuse.Gate pKF u v ur nPredictedLevel idx ∧
      DescriptorDistance dMP (pKF.mDescriptors.getD idx Descriptor.zero) = b.bestDist) ∧
  (∀ j : Nat, j ∈ pre → Fuse.Gate pKF u v ur nPredictedLevel j →
    b.bestDist ≤ DescriptorDistance dMP (pKF.mDescriptors.getD j Descriptor.zero))

/-! ## Concrete inputs of `Fuse` -/

/-- A keyframe at the origin of the world frame with unit focal length, one monocular keypoint
at the image origin in octave 0, without map point, returned by every window query. -/
def fuseExampleKF : KeyFrame :=
  { N := 1
    mvKeysUn := [{}]
    mvuRight := [-1]
    mDescriptors := [Descriptor.zero]
    mvpMapPoints := [none]
    Rcw := { r0 := { x := 1 }, r1 := { y := 1 }, r2 := { z := 1 } }
    fx := 1
    fy := 1
    mvScaleFactors := [1]
    mvInvLevelSigma2 := [1]
    IsInImage := fun _ _ => true
    GetFeaturesInArea := fun _ _ _ => [0] }

/-- A good map point on the optical axis of `fuseExampleKF`, at depth 1. -/
def fuseExampleMP : MapPoint :=
  { id := 1, worldPos := { z := 1 }, maxDistanceInvariance := 10, normal := { z := 1 } }

/-- A good map point at the camera centre of `fuseExampleKF`, at depth 0. -/
def zeroDepthMP : MapPoint :=
  { id := 2, worldPos := {}, maxDistanceInvariance := 10 }

/-- The sum of the absolute values of the components, which is the Euclidean norm `cv::norm`
on the vectors along one axis used in the examples. -/
def axisNorm (a : Vec3) : ℚ := |a.x| + |a.y| + |a.z|

/-- The keyframe `fuseExampleKF` with a resident map point of three observations at its
keypoint. -/
def fuseExampleResidentKF : KeyFrame :=
  { fuseExampleKF with mvpMapPoints := [some { id := 5, Observations := 3 }] }

/-! ## A second concrete input of `SearchForTriangulation` -/

/-- A keyframe with two stereo keypoints under one vocabulary node, at `(0, 0)` and `(1, 0)`,
without map points; the descriptor of the second keypoint has one bit set. -/
def triDupExampleKF1 : KeyFrame :=
  { N := 2
    mvKeysUn := [{}, { x := 1 }]
    mvuRight := [1, 1]
    mDescriptors := [Descriptor.zero, Descriptor.ofList [1]]
    mFeatVec := [(0, [0, 1])]
    mvpMapPoints := [none, none] }

/-! ## The joint walk over two feature vectors (ORBmatcher.cc, lines 165-235 and 290-376) -/

/-- The movement of the two iterators in one iteration of the `while` loop of `SearchByBoW` and
of `SearchForTriangulation`, for the feature vectors `vec1` and `vec2` and the iterator
positions given as the entries from the position on; `none` when the loop condition
`it1 != end1 && it2 != end2` fails. -/
def jointWalk.advance (vec1 vec2 : FeatureVector) :
    FeatureVector → FeatureVector → Option (FeatureVector × FeatureVector)
  | [], _ => none
  | _ :: _, [] => none
  | (k1, v1) :: rest1, (k2, v2) :: rest2 =>
    if k1 = k2 then some (rest1, rest2)
    else if k1 < k2 then some (vec1.lower_bound k2, (k2, v2) :: rest2)
    else some ((k1, v1) :: rest1, vec2.lower_bound k1)

/-- The positions of the two iterators after `n` iterations of the `while` loop, started at
the beginning of the two vectors; `none` when the loop is left before. -/
def jointWalk.position (vec1 vec2 : FeatureVector) : Nat → Option (FeatureVector × FeatureVector)
  | 0 => some (vec1, vec2)
  | n + 1 => (jointWalk.position vec1 vec2 n).bind (fun p => jointWalk.advance vec1 vec2 p.1 p.2)

/-- The vocabulary nodes present in both feature vectors, each with its index lists in the
first and in the second vector, in the order of the first vector. -/
def commonNodes (vec1 vec2 : FeatureVector) : List (Nat × List Nat × List Nat) :=
  vec1.filterMap (fun e => (vec2.lookup e.1).map (fun v2 => (e.1, e.2, v2)))

/-! ## A concrete input of the joint walk -/

/-- A keyframe with three keypoints under the vocabulary nodes 1, 3 and 4. -/
def walkExampleKF : KeyFrame :=
  { N := 3
    mvKeysUn := [{}, {}, {}]
    mDescriptors := [Descriptor.zero, Descriptor.zero, Descriptor.zero]
    mFeatVec := [(1, [0]), (3, [1]), (4, [2])]
    mvpMapPoints := [some { id := 0 }, some { id := 1 }, some { id := 2 }] }

/-- A frame with three keypoints under the vocabulary nodes 2, 3 and 5. -/
def walkExampleF : Frame :=
  { N := 3
    mvKeys := [{}, {}, {}]
    mDescriptors := [Descriptor.zero, Descriptor.zero, Descriptor.zero]
    mFeatVec := [(2, [0]), (3, [1]), (5, [2])] }

/-! ## The selection of `SearchByProjection(CurrentFrame, LastFrame, th)` -/

/-- Line 568: the flag `bForward = tlc.at<float>(2) > CurrentFrame.mb`. -/
def SearchByProjection_Frame.bForward (CurrentFrame LastFrame : Frame) : Bool :=
  decide (((LastFrame.Rcw.mulVec (CurrentFrame.Rcw.t.mulVec CurrentFrame.tcw).neg).add
    LastFrame.tcw).z > CurrentFrame.mb)

/-- Line 569: the flag `bBackward = -tlc.at<float>(2) > CurrentFrame.mb`. -/
def SearchByProjection_Frame.bBackward (CurrentFrame LastFrame : Frame) : Bool :=
  decide (-((LastFrame.Rcw.mulVec (CurrentFrame.Rcw.t.mulVec CurrentFrame.tcw).neg).add
    LastFrame.tcw).z > CurrentFrame.mb)

/-- Line 581: `invzc = 1.0 / x3Dc.at<float>(2)`. -/
def SearchByProjection_Frame.invzc (CurrentFrame : Frame) (pMP : MapPoint) : ℚ :=
  1 / (SearchByProjection_Frame.x3Dc CurrentFrame pMP).z

/-- Line 586: `u = CurrentFrame.fx * xc * invzc + CurrentFrame.cx`. -/
def SearchByProjection_Frame.u (CurrentFrame : Frame) (pMP : MapPoint) : ℚ :=
  CurrentFrame.fx * (SearchByProjection_Frame.x3Dc CurrentFrame pMP).x *
    (1 / (SearchByProjection_Frame.x3Dc CurrentFrame pMP).z) + CurrentFrame.cx

/-- Line 587: `v = CurrentFrame.fy * yc * invzc + CurrentFrame.cy`. -/
def SearchByProjection_Frame.v (CurrentFrame : Frame) (pMP : MapPoint) : ℚ :=
  CurrentFrame.fy * (SearchByProjection_Frame.x3Dc CurrentFrame pMP).y *
    (1 / (SearchByProjection_Frame.x3Dc CurrentFrame pMP).z) + CurrentFrame.cy

/-- The state of the loop of `SearchByProjection(CurrentFrame, LastFrame, th)` over the last
frame when the iteration for the keypoint `i` starts. -/
def SearchByProjection_Frame.stateAt (mbCheckOrientation : Bool) (CurrentFrame LastFrame : Frame)
    (th : ℚ) (i : Nat) : MatchState :=
  (List.range i).foldl
    (SearchByProjection_Frame.matchLast mbCheckOrientation CurrentFrame LastFrame th
      (SearchByProjection_Frame.bForward CurrentFrame LastFrame)
      (SearchByProjection_Frame.bBackward CurrentFrame LastFrame))
    { mvpMapPoints := CurrentFrame.mvpMapPoints, nmatches := 0, rotHist := emptyRotHist }

/-- A last frame with one keypoint that holds a map point on the optical axis at depth 1. -/
def lastExampleF : Frame :=
  { N := 1
    mvKeys := [{}]
    mvKeysUn := [{}]
    mvpMapPoints := [some { id := 3, worldPos := { z := 1 } }]
    mvbOutlier := [false]
    Rcw := { r0 := { x := 1 }, r1 := { y := 1 }, r2 := { z := 1 } } }

/-- A current frame at the same pose with one free monocular keypoint at the image origin,
returned by every window query. -/
def currentExampleF : Frame :=
  { N := 1
    mvKeys := [{}]
    mvKeysUn := [{}]
    mvuRight := [-1]
    mDescriptors := [Descriptor.zero]
    mvpMapPoints := [none]
    Rcw := { r0 := { x := 1 }, r1 := { y := 1 }, r2 := { z := 1 } }
    fx := 1
    fy := 1
    mnMinX := -1
    mnMaxX := 1
    mnMinY := -1
    mnMaxY := 1
    mvScaleFactors := [1]
    GetFeaturesInArea := fun _ _ _ _ _ => [0] }

/-! ## Consistency of the match vector, the counter and the rotation histogram -/

/-- Invariant of the matching loops that write to free slots only: the counter is the number
of non-null entries of the match vector, the histogram has `HISTO_LENGTH` bins, and its entries
are pairwise distinct indices of non-null entries. -/
def MatchState.Consistent (st : MatchState) : Prop :=
  st.nmatches = numMatched st.mvpMapPoints ∧
  st.rotHist.length = HISTO_LENGTH.toNat ∧
  st.rotHist.flatten.Nodup ∧
  ∀ e ∈ st.rotHist.flatten, 0 ≤ e ∧ (st.mvpMapPoints.getD e.toNat none).isSome = true

/-! ## SearchByProjection(Frame &CurrentFrame, KeyFrame *pKF, const set<MapPoint *> &sAlreadyFound,
th, ORBdist) (ORBmatcher.cc, lines 680-797) -/

/-- One iteration of the loop over `vIndices2` (lines 752-766); `mvpMapPoints` is the current
value of `CurrentFrame.mvpMapPoints`. -/
def SearchByProjection_KeyFrame.scan (CurrentFrame : Frame)
    (mvpMapPoints : List (Option MapPoint)) (dMP : Descriptor) (b : Best1) (i2 : Nat) : Best1 :=
  if (mvpMapPoints.getD i2 none).isSome = true then b
  else
    let dist := DescriptorDistance dMP (CurrentFrame.mDescriptors.getD i2 Descriptor.zero)
    if dist < b.bestDist then { bestDist := dist, bestIdx2 := i2 } else b

/-- Lines 768-782: the best candidate is accepted when `bestDist <= ORBdist`. When no candidate
was scanned `bestIdx2` is still `-1`, which the source then uses as an index if
`ORBdist >= 256`; the properties proved of this function take `ORBdist < 256`. -/
def SearchByProjection_KeyFrame.select (mbCheckOrientation : Bool) (CurrentFrame : Frame)
    (pKF : KeyFrame) (ORBdist : Int) (st : MatchState) (i : Nat) (pMP : MapPoint) (b : Best1) :
    MatchState :=
  if b.bestDist ≤ ORBdist then
    { mvpMapPoints := st.mvpMapPoints.set b.bestIdx2.toNat (some pMP)
      nmatches := st.nmatches + 1
      rotHist :=
        if mbCheckOrientation then
          pushBin st.rotHist
            (computeBin (pKF.mvKeysUn.getD i {}).angle
              (CurrentFrame.mvKeysUn.getD b.bestIdx2.toNat {}).angle)
            b.bestIdx2
        else st.rotHist }
  else st

/-- Lines 724-745: the candidate keypoints `vIndices2` of the map point `pMP`, in the window of
radius `th * CurrentFrame.mvScaleFactors[nPredictedLevel]` around its projection, over the
octaves `nPredictedLevel - 1` to `nPredictedLevel + 1`. `cv::norm` and `MapPoint::PredictScale`
are not part of the sources at hand and are parameters. -/
def SearchByProjection_KeyFrame.window (norm : Vec3 → ℚ)
    (PredictScale : MapPoint → ℚ → Frame → Int) (CurrentFrame : Frame) (th : ℚ)
    (pMP : MapPoint) : List Nat :=
  let Ow := (CurrentFrame.Rcw.t.mulVec CurrentFrame.tcw).neg
  let dist3D := norm (pMP.worldPos.sub Ow)
  let nPredictedLevel := PredictScale pMP dist3D CurrentFrame
  CurrentFrame.GetFeaturesInArea (SearchByProjection_Frame.u CurrentFrame pMP)
    (SearchByProjection_Frame.v CurrentFrame pMP)
    (th * CurrentFrame.mvScaleFactors.getD nPredictedLevel.toNat 0)
    (nPredictedLevel - 1) (nPredictedLevel + 1)

/-- Lines 729-735: is `dist3D` outside of the scale invariance range of the map point? -/
def SearchByProjection_KeyFrame.outOfRange (norm : Vec3 → ℚ) (CurrentFrame : Frame)
    (pMP : MapPoint) : Bool :=
  let Ow := (CurrentFrame.Rcw.t.mulVec CurrentFrame.tcw).neg
  let dist3D := norm (pMP.worldPos.sub Ow)
  decide (dist3D < pMP.minDistanceInvariance ∨ dist3D > pMP.maxDistanceInvariance)

/-- One iteration of the loop over the map points `vpMPs` of the keyframe (lines 707-786), for
the keypoint `i` of the keyframe. The set `sAlreadyFound` is given by the identities of its
map points. This overload does not test the sign of the depth. -/
def SearchByProjection_KeyFrame.matchKF (norm : Vec3 → ℚ)
    (PredictScale : MapPoint → ℚ → Frame → Int) (mbCheckOrientation : Bool)
    (CurrentFrame : Frame) (pKF : KeyFrame) (sAlreadyFound : List Nat) (th : ℚ) (ORBdist : Int)
    (st : MatchState) (i : Nat) : MatchState :=
  match pKF.mvpMapPoints.getD i none with
  | none => st
  | some pMP =>
    if pMP.isBad = true ∨ pMP.id ∈ sAlreadyFound then st
    else if SearchByProjection_Frame.outOfBounds CurrentFrame
        (SearchByProjection_Frame.u CurrentFrame pMP)
        (SearchByProjection_Frame.v CurrentFrame pMP) = true then st
    else if SearchByProjection_KeyFrame.outOfRange norm CurrentFrame pMP = true then st
    else if (SearchByProjection_KeyFrame.window norm PredictScale CurrentFrame th pMP).isEmpty
        = true then st
    else
      SearchByProjection_KeyFrame.select mbCheckOrientation CurrentFrame pKF ORBdist st i pMP
        ((SearchByProjection_KeyFrame.window norm PredictScale CurrentFrame th pMP).foldl
          (SearchByProjection_KeyFrame.scan CurrentFrame st.mvpMapPoints pMP.descriptor)
          { bestDist := 256, bestIdx2 := -1 })

/-- The state of `SearchByProjection(CurrentFrame, pKF, sAlreadyFound, th, ORBdist)` when the
loop over the map points of the keyframe is left (before the rotation filter). -/
def SearchByProjection_KeyFrame.matching (norm : Vec3 → ℚ)
    (PredictScale : MapPoint → ℚ → Frame → Int) (mbCheckOrientation : Bool)
    (CurrentFrame : Frame) (pKF : KeyFrame) (sAlreadyFound : List Nat) (th : ℚ) (ORBdist : Int) :
    MatchState :=
  (List.range pKF.mvpMapPoints.length).foldl
    (SearchByProjection_KeyFrame.matchKF norm PredictScale mbCheckOrientation CurrentFrame pKF
      sAlreadyFound th ORBdist)
    { mvpMapPoints := CurrentFrame.mvpMapPoints, nmatches := 0, rotHist := emptyRotHist }

/-- Source: `int ORBmatcher::SearchByProjection(Frame &CurrentFrame, KeyFrame *pKF,
const set<MapPoint *> &sAlreadyFound, const float th, const int ORBdist)` for a matcher built
with `checkOri = mbCheckOrientation`: the final `CurrentFrame.mvpMapPoints` and the returned
`nmatches`. -/
def SearchByProjection_KeyFrame (norm : Vec3 → ℚ) (PredictScale : MapPoint → ℚ → Frame → Int)
    (mbCheckOrientation : Bool) (CurrentFrame : Frame) (pKF : KeyFrame)
    (sAlreadyFound : List Nat) (th : ℚ) (ORBdist : Int) : List (Option MapPoint) × Int :=
  let st := SearchByProjection_KeyFrame.matching norm PredictScale mbCheckOrientation
    CurrentFrame pKF sAlreadyFound th ORBdist
  if mbCheckOrientation then rotationFilter st.rotHist st.mvpMapPoints st.nmatches
  else (st.mvpMapPoints, st.nmatches)

/-- Invariant of the loop of `SearchByProjection(CurrentFrame, pKF, sAlreadyFound, th, ORBdist)`
with respect to the match vector `init` before the call: the entries of `init` are kept, the
counter is the number of entries that became non-null, the histogram lists slots that were
null in `init`, and every new entry is a good map point of the keyframe outside of
`sAlreadyFound`. -/
def SearchByProjection_KeyFrame.Inv (pKF : KeyFrame) (sAlreadyFound : List Nat)
    (init : List (Option MapPoint)) (st : MatchState) : Prop :=
  (∀ (i : Nat) (p : MapPoint), init.getD i none = some p → st.mvpMapPoints.getD i none = some p) ∧
  (st.mvpMapPoints.length = init.length ∧
    st.nmatches = numMatched st.mvpMapPoints - numMatched init) ∧
  (∀ e ∈ st.rotHist.flatten, 0 ≤ e ∧ init.getD e.toNat none = none) ∧
  (∀ (i : Nat) (p : MapPoint), st.mvpMapPoints.getD i none = some p →
    init.getD i none = some p ∨
      (p.isBad = false ∧ p.id ∉ sAlreadyFound ∧
        ∃ k : Nat, pKF.mvpMapPoints.getD k none = some p))

/-! ## A concrete input of `SearchByProjection(CurrentFrame, pKF, sAlreadyFound, th, ORBdist)` -/

/-- A keyframe with one keypoint that holds a good map point on the optical axis of
`currentExampleF`, at distance 1. -/
def projExampleKF : KeyFrame :=
  { N := 1
    mvKeysUn := [{}]
    mvpMapPoints := [some { id := 3, worldPos := { z := 1 }, maxDistanceInvariance := 10 }] }

/-! ## The attachment made by `Fuse` (ORBmatcher.cc, lines 537-540) -/

/-- Modelled from the spec: `MapPoint::AddObservation(pKF, idx)`, defined in `MapPoint.cc`,
which is not part of the sources at hand. The specification gives a map point a "set of
(KeyFrame, keypoint-index) observations"; adding an observation puts the pair of the keyframe
and the index in that set. -/
def MapPoint.AddObservation (pMP : MapPoint) (pKF : KeyFrame) (idx : Nat) : MapPoint :=
  { pMP with mObservations := (pKF.mnId, idx) :: pMP.mObservations }

/-- Modelled from the spec: `KeyFrame::AddMapPoint(pMP, idx)`, defined in `KeyFrame.cc`, which
is not part of the sources at hand. In the words of the specification, slot `idx` of the
keyframe then "references that MapPoint"; the other slots are left as they are. -/
def KeyFrame.AddMapPoint (pKF : KeyFrame) (pMP : MapPoint) (idx : Nat) : KeyFrame :=
  { pKF with mvpMapPoints := pKF.mvpMapPoints.set idx (some pMP) }

/-- The effect of one call of the attach branch on the keyframe and on the incoming map point
(the receiver of `AddObservation`, the argument of `AddMapPoint`). The effect of `Replace` is
not modelled. -/
def FuseCall.attach (s : KeyFrame × MapPoint) : FuseCall → Option (KeyFrame × MapPoint)
  | FuseCall.AddObservation _ bestIdx => some (s.1, s.2.AddObservation s.1 bestIdx.toNat)
  | FuseCall.AddMapPoint _ bestIdx => some (s.1.AddMapPoint s.2 bestIdx.toNat, s.2)
  | FuseCall.Replace _ _ => none

/-- The effect of the calls of an iteration of `Fuse`, in order, when all of them are calls of
the attach branch. -/
def Fuse.applyCalls : KeyFrame × MapPoint → List FuseCall → Option (KeyFrame × MapPoint)
  | s, [] => some s
  | s, c :: cs => (FuseCall.attach s c).bind (fun s2 => Fuse.applyCalls s2 cs)

/-! ## The loop of `Fuse` over the map points (ORBmatcher.cc, lines 420-545) -/

/-- The memory that `Fuse` reads and changes through methods of `KeyFrame` and `MapPoint` that
are not part of the sources at hand, for a type `σ` of memory states: the keyframe `*pKF` as it
is read in a state, the map point that a pointer of `vpMapPoints` refers to as it is read in a
state, the test `pMP->IsInKeyFrame(pKF)`, and the effect of a call of `Replace`,
`AddObservation` or `AddMapPoint`. -/
structure Fuse.Memory (σ : Type) where
  keyFrame : σ → KeyFrame
  mapPoint : σ → MapPoint → MapPoint
  IsInKeyFrame : σ → MapPoint → KeyFrame → Bool
  call : σ → FuseCall → σ

/-- Lines 440-444 at depth zero: `u = fx * x + cx` with `x = p3Dc(0) * invz`, in `float`
arithmetic, for `invz = 1 / 0 = +∞`. -/
def Fuse.uZero (pKF : KeyFrame) (pMP : MapPoint) : Float32 :=
  ((Float32.finite pKF.fx).mul
    ((Float32.finite (Fuse.p3Dc pKF pMP).x).mul (Float32.inf false))).add (Float32.finite pKF.cx)

/-- Lines 440-445 at depth zero: `v = fy * y + cy` with `y = p3Dc(1) * invz`, for
`invz = +∞`. -/
def Fuse.vZero (pKF : KeyFrame) (pMP : MapPoint) : Float32 :=
  ((Float32.finite pKF.fy).mul
    ((Float32.finite (Fuse.p3Dc pKF pMP).y).mul (Float32.inf false))).add (Float32.finite pKF.cy)

/-- Line 451 at depth zero: `ur = u - bf * invz`, for `invz = +∞`. -/
def Fuse.urZero (pKF : KeyFrame) (pMP : MapPoint) : Float32 :=
  (Fuse.uZero pKF pMP).sub ((Float32.finite pKF.mbf).mul (Float32.inf false))

/-- Lines 494-515 in `float` arithmetic, for a projection `(u, v, ur)` that need not be finite:
the chi-square check of the reprojection error of keypoint `idx`. The product
`e2 * pKF->mvInvLevelSigma2[kpLevel]` is a `float`, compared with the `double` constant; the
comparison is false for a NaN. -/
def Fuse.chiSquareRejectedZero (pKF : KeyFrame) (u v ur : Float32) (idx : Nat) : Bool :=
  let kp := pKF.mvKeysUn.getD idx {}
  let kpLevel := kp.octave
  if pKF.mvuRight.getD idx 0 ≥ 0 then
    let ex := u.sub (Float32.finite kp.x)
    let ey := v.sub (Float32.finite kp.y)
    let er := ur.sub (Float32.finite (pKF.mvuRight.getD idx 0))
    let e2 := ((ex.mul ex).add (ey.mul ey)).add (er.mul er)
    (Float32.finite (f64 (39 / 5))).lt
      (e2.mul (Float32.finite (pKF.mvInvLevelSigma2.getD kpLevel.toNat 0)))
  else
    let ex := u.sub (Float32.finite kp.x)
    let ey := v.sub (Float32.finite kp.y)
    let e2 := (ex.mul ex).add (ey.mul ey)
    (Float32.finite (f64 (599 / 100))).lt
      (e2.mul (Float32.finite (pKF.mvInvLevelSigma2.getD kpLevel.toNat 0)))

/-- One iteration of the loop over `vIndices` (lines 484-525), for a projection that need not
be finite. -/
def Fuse.scanZero (pKF : KeyFrame) (dMP : Descriptor) (u v ur : Float32) (nPredictedLevel : Int)
    (b : BestIdx) (idx : Nat) : BestIdx :=
  let kpLevel := (pKF.mvKeysUn.getD idx {}).octave
  if kpLevel < nPredictedLevel - 1 ∨ kpLevel > nPredictedLevel then b
  else if Fuse.chiSquareRejectedZero pKF u v ur idx = true then b
  else
    let dist := DescriptorDistance dMP (pKF.mDescriptors.getD idx Descriptor.zero)
    if dist < b.bestDist then { bestDist := dist, bestIdx := idx } else b

/-- Lines 470-473 at depth zero: the candidate keypoints `vIndices`. -/
def Fuse.windowZero (pKF : KeyFrame) (pMP : MapPoint) (th : ℚ) (nPredictedLevel : Int) :
    List Nat :=
  pKF.GetFeaturesInAreaNonFinite (Fuse.uZero pKF pMP) (Fuse.vZero pKF pMP)
    (th * pKF.mvScaleFactors.getD nPredictedLevel.toNat 0)

/-- Lines 482-525 at depth zero: the best candidate of the window. -/
def Fuse.bestZero (pKF : KeyFrame) (pMP : MapPoint) (th : ℚ) (nPredictedLevel : Int) : BestIdx :=
  (Fuse.windowZero pKF pMP th nPredictedLevel).foldl
    (Fuse.scanZero pKF pMP.descriptor (Fuse.uZero pKF pMP) (Fuse.vZero pKF pMP)
      (Fuse.urZero pKF pMP) nPredictedLevel)
    { bestDist := 256, bestIdx := -1 }

/-- Lines 470-542 at depth zero: the search of the window and the merge. -/
def Fuse.searchZero (pKF : KeyFrame) (pMP : MapPoint) (th : ℚ) (nPredictedLevel : Int) :
    Fuse.Outcome :=
  if (Fuse.windowZero pKF pMP th nPredictedLevel).isEmpty then Fuse.Outcome.skipped
  else if (Fuse.bestZero pKF pMP th nPredictedLevel).bestDist ≤ TH_LOW then
    Fuse.Outcome.fused (Fuse.bestZero pKF pMP th nPredictedLevel).bestIdx
      (Fuse.merge pKF pMP (Fuse.bestZero pKF pMP th nPredictedLevel).bestIdx)
  else Fuse.Outcome.skipped

/-- Lines 440-542 for a map point at depth zero, after the division `1 / p3Dc.at<float>(2)` has
yielded `+∞`: the projection is made of infinities and NaN, and the iteration goes on in IEEE
arithmetic. -/
def Fuse.zeroDepth (norm : Vec3 → ℚ) (PredictScale : MapPoint → ℚ → KeyFrame → Int)
    (pKF : KeyFrame) (th : ℚ) (pMP : MapPoint) : Fuse.Outcome :=
  if (!pKF.IsInImageNonFinite (Fuse.uZero pKF pMP) (Fuse.vZero pKF pMP)) = true then
    Fuse.Outcome.skipped
  else if norm (pMP.worldPos.sub pKF.Ow) < pMP.minDistanceInvariance ∨
      norm (pMP.worldPos.sub pKF.Ow) > pMP.maxDistanceInvariance then Fuse.Outcome.skipped
  else if (pMP.worldPos.sub pKF.Ow).dot pMP.normal < 1 / 2 * norm (pMP.worldPos.sub pKF.Ow)
    then Fuse.Outcome.skipped
  else Fuse.searchZero pKF pMP th (Fuse.nPredictedLevel norm PredictScale pKF pMP)

/-- One complete iteration of the loop of `Fuse` over `vpMapPoints` (lines 424-543): the
iteration up to the division of line 440, continued in IEEE arithmetic when the depth is
zero. The outcome is `skipped` or `fused`. -/
def Fuse.outcome (norm : Vec3 → ℚ) (PredictScale : MapPoint → ℚ → KeyFrame → Int)
    (IsInKeyFrame : MapPoint → KeyFrame → Bool) (pKF : KeyFrame) (th : ℚ)
    (p : Option MapPoint) : Fuse.Outcome :=
  match Fuse.iteration norm PredictScale IsInKeyFrame pKF th p with
  | Fuse.Outcome.skipped => Fuse.Outcome.skipped
  | Fuse.Outcome.fused bestIdx calls => Fuse.Outcome.fused bestIdx calls
  | Fuse.Outcome.divisionByZero =>
    match p with
    | some pMP => Fuse.zeroDepth norm PredictScale pKF th pMP
    | none => Fuse.Outcome.skipped

/-- One iteration of the loop `for (int i = 0; i < nMPs; i++)` on the memory state and the
counter `nFused`. -/
def Fuse.step {σ : Type} (norm : Vec3 → ℚ) (PredictScale : MapPoint → ℚ → KeyFrame → Int)
    (mem : Fuse.Memory σ) (th : ℚ) (acc : σ × Int) (pMP : Option MapPoint) : σ × Int :=
  match Fuse.outcome norm PredictScale (mem.IsInKeyFrame acc.1) (mem.keyFrame acc.1) th
      (pMP.map (mem.mapPoint acc.1)) with
  | Fuse.Outcome.fused _ calls => (calls.foldl mem.call acc.1, acc.2 + 1)
  | _ => acc

/-- Source: `int ORBmatcher::Fuse(KeyFrame *pKF, const vector<MapPoint *> &vpMapPoints,
const float th)`, started in the memory state `s`: the final memory state and the returned
`nFused`. -/
def Fuse {σ : Type} (norm : Vec3 → ℚ) (PredictScale : MapPoint → ℚ → KeyFrame → Int)
    (mem : Fuse.Memory σ) (s : σ) (vpMapPoints : List (Option MapPoint)) (th : ℚ) : σ × Int :=
  vpMapPoints.foldl (Fuse.step norm PredictScale mem th) (s, 0)

/-- The keyframe `fuseExampleKF` whose keypoint holds a bad resident map point. -/
def fuseExampleBadResidentKF : KeyFrame :=
  { fuseExampleKF with mvpMapPoints := [some { id := 6, isBad := true }] }

/-- A memory whose state is the number of calls made so far, in which the keyframe is
`fuseExampleBadResidentKF` and the map points are read as given. -/
def callCountMemory : Fuse.Memory Nat :=
  { keyFrame := fun _ => fuseExampleBadResidentKF
    mapPoint := fun _ pMP => pMP
    IsInKeyFrame := fun _ _ _ => false
    call := fun s _ => s + 1 }

/-- A last frame with one keypoint that holds a map point at depth zero, beside the optical
axis of `currentExampleF`. -/
def lastZeroDepthExampleF : Frame :=
  { lastExampleF with mvpMapPoints := [some { id := 4, worldPos := { x := 1 } }] }

/-- The keyframe `fuseExampleKF` when `IsInImage` accepts a projection that is not finite and
`GetFeaturesInArea` returns the keypoint for it. -/
def fuseExampleNonFiniteKF : KeyFrame :=
  { fuseExampleKF with
    IsInImageNonFinite := fun _ _ => true
    GetFeaturesInAreaNonFinite := fun _ _ _ => [0] }

/-- A memory whose state is the number of calls made so far, in which the keyframe is
`fuseExampleNonFiniteKF` and the map points are read as given. -/
def nonFiniteMemory : Fuse.Memory Nat :=
  { keyFrame := fun _ => fuseExampleNonFiniteKF
    mapPoint := fun _ pMP => pMP
    IsInKeyFrame := fun _ _ _ => false
    call := fun s _ => s + 1 }

/-- The iterations of the loop over `vIndicesKF` (lines 170-226) that the joint walk of
`SearchByBoW` executes, in order: the vocabulary node, the keyframe keypoint `realIdxKF` and the
frame keypoints `vIndicesF` of the node. The walk does not depend on the matches, so this is
`SearchByBoW.walk` with the state left out (`SearchByBoW.walk_eq_visits`). -/
def SearchByBoW.visits (pKF : KeyFrame) (F : Frame) :
    Nat → FeatureVector → FeatureVector → List (Nat × Nat × List Nat)
  | 0, _, _ => []
  | _ + 1, [], _ => []
  | _ + 1, _ :: _, [] => []
  | fuel + 1, (kfFirst, vIndicesKF) :: kfRest, (fFirst, vIndicesF) :: fRest =>
    if kfFirst = fFirst then
      vIndicesKF.map (fun realIdxKF => (kfFirst, realIdxKF, vIndicesF))
        ++ SearchByBoW.visits pKF F fuel kfRest fRest
    else if kfFirst < fFirst then
      SearchByBoW.visits pKF F fuel (pKF.mFeatVec.lower_bound fFirst)
        ((fFirst, vIndicesF) :: fRest)
    else
      SearchByBoW.visits pKF F fuel ((kfFirst, vIndicesKF) :: kfRest)
        (F.mFeatVec.lower_bound kfFirst)

/-- The iterations executed by `SearchByBoW.matching`. -/
def SearchByBoW.schedule (pKF : KeyFrame) (F : Frame) : List (Nat × Nat × List Nat) :=
  SearchByBoW.visits pKF F (pKF.mFeatVec.length + F.mFeatVec.length) pKF.mFeatVec F.mFeatVec

/-- The state of `SearchByBoW` when the iteration number `k` of the loop over the keyframe
keypoints starts (after the last iteration: when the `while` loop is left). -/
def SearchByBoW.stateAt (mfNNratio : ℚ) (mbCheckOrientation : Bool) (pKF : KeyFrame) (F : Frame)
    (k : Nat) : MatchState :=
  ((SearchByBoW.schedule pKF F).take k).foldl
    (fun st v => SearchByBoW.matchKF mfNNratio mbCheckOrientation pKF F v.2.2 st v.2.1)
    { mvpMapPoints := List.replicate F.N none, nmatches := 0, rotHist := emptyRotHist }

/-- The match of the frame keypoint `idxF` with the map point `pMP` is recorded by the
iteration number `k` of `SearchByBoW`: the iteration is for a keyframe keypoint `realIdxKF`
whose map point is `pMP`, not bad, listed under a vocabulary node that also lists `idxF` in the
frame; `idxF` is free when the iteration starts and holds `pMP` when it ends; over the frame
keypoints of the node that are free when the iteration starts (`256` standing twice for an
absent candidate), the distance of the two descriptors is the smallest, `bestDist2` is the
second-smallest; the distance is at most `TH_LOW` and below `mfNNratio * bestDist2`, both with
the product rounded to `float` as in the code and with the exact product. -/
def SearchByBoW.RecordedAt (mfNNratio : ℚ) (mbCheckOrientation : Bool) (pKF : KeyFrame)
    (F : Frame) (k idxF : Nat) (pMP : MapPoint) : Prop :=
  ∃ (node realIdxKF : Nat) (vIndicesKF vIndicesF : List Nat) (bestDist2 : Int),
    (SearchByBoW.schedule pKF F)[k]? = some (node, realIdxKF, vIndicesF) ∧
    ((node, vIndicesKF) ∈ pKF.mFeatVec ∧ (node, vIndicesF) ∈ F.mFeatVec ∧
      realIdxKF ∈ vIndicesKF ∧ idxF ∈ vIndicesF) ∧
    (pKF.mvpMapPoints.getD realIdxKF none = some pMP ∧ pMP.isBad = false) ∧
    (((SearchByBoW.stateAt mfNNratio mbCheckOrientation pKF F k).mvpMapPoints.getD idxF
        none).isSome = false ∧
      (SearchByBoW.stateAt mfNNratio mbCheckOrientation pKF F (k + 1)).mvpMapPoints.getD idxF
        none = some pMP) ∧
    (IsKthSmallest 1
        (SearchByBoW.candidateDists F
          (SearchByBoW.stateAt mfNNratio mbCheckOrientation pKF F k).mvpMapPoints
          (pKF.mDescriptors.getD realIdxKF Descriptor.zero) vIndicesF)
        (DescriptorDistance (pKF.mDescriptors.getD realIdxKF Descriptor.zero)
          (F.mDescriptors.getD idxF Descriptor.zero)) ∧
      IsKthSmallest 2
        (SearchByBoW.candidateDists F
          (SearchByBoW.stateAt mfNNratio mbCheckOrientation pKF F k).mvpMapPoints
          (pKF.mDescriptors.getD realIdxKF Descriptor.zero) vIndicesF)
        bestDist2) ∧
    DescriptorDistance (pKF.mDescriptors.getD realIdxKF Descriptor.zero)
      (F.mDescriptors.getD idxF Descriptor.zero) ≤ TH_LOW ∧
    ((DescriptorDistance (pKF.mDescriptors.getD realIdxKF Descriptor.zero)
      (F.mDescriptors.getD idxF Descriptor.zero) : Int) : ℚ) < f32 (mfNNratio * (bestDist2 : ℚ)) ∧
    ((DescriptorDistance (pKF.mDescriptors.getD realIdxKF Descriptor.zero)
      (F.mDescriptors.getD idxF Descriptor.zero) : Int) : ℚ) < mfNNratio * (bestDist2 : ℚ)

/-- The keyframe `triExampleKF1` with its keypoint monocular. -/
def triExampleMonoKF1 : KeyFrame := { triExampleKF1 with mvuRight := [-1] }

/-- The keyframe `triExampleKF2` with its keypoint monocular and the pose for which the camera
centre of the first keyframe has depth zero, `C2 = (0, 0, 0)`. -/
def triExampleMonoKF2 : KeyFrame := { triExampleKF2 with mvuRight := [-1], tcw := {} }

end ORB_SLAM2

/-! # Proofs -/

namespace ORB_SLAM2

/-! ## Rounding to nearest is monotone -/

theorem roundHalfEven_bounds (x : ℚ) :
    (⌊x⌋ : Int) ≤ roundHalfEven x ∧ roundHalfEven x ≤ ⌊x⌋ + 1 := by
  unfold roundHalfEven
  split_ifs <;> omega

theorem roundHalfEven_intCast (n : Int) : roundHalfEven (n : ℚ) = n := by
  unfold roundHalfEven
  rw [Int.floor_intCast, sub_self, if_pos (by norm_num)]

theorem roundHalfEven_mono {x y : ℚ} (h : x ≤ y) : roundHalfEven x ≤ roundHalfEven y := by
  have hf : ⌊x⌋ ≤ ⌊y⌋ := Int.floor_mono h
  rcases lt_or_eq_of_le hf with hlt | heq
  · have h1 := (roundHalfEven_bounds x).2
    have h2 := (roundHalfEven_bounds y).1
    omega
  · unfold roundHalfEven
    rw [← heq]
    have hxy : x - ⌊x⌋ ≤ y - ⌊x⌋ := by linarith
    by_cases c1 : y - (⌊x⌋ : ℚ) < 1 / 2
    · rw [if_pos c1, if_pos (lt_of_le_of_lt hxy c1)]
    · rw [if_neg c1]
      by_cases c2 : (1 : ℚ) / 2 < y - ⌊x⌋
      · rw [if_pos c2]
        split_ifs <;> omega
      · rw [if_neg c2]
        have hy : y - (⌊x⌋ : ℚ) = 1 / 2 := le_antisymm (not_lt.mp c2) (not_lt.mp c1)
        by_cases c3 : x - (⌊x⌋ : ℚ) < 1 / 2
        · rw [if_pos c3]
          split_ifs <;> omega
        · rw [if_neg c3]
          have c4 : ¬ (1 : ℚ) / 2 < x - ⌊x⌋ := by
            intro h4
            linarith
          rw [if_neg c4]

theorem roundHalfEven_nonneg {x : ℚ} (h : 0 ≤ x) : 0 ≤ roundHalfEven x := by
  have := roundHalfEven_mono h
  rw [show ((0 : ℚ)) = ((0 : Int) : ℚ) by norm_num, roundHalfEven_intCast] at this
  exact this

theorem two_zpow_pos (e : Int) : (0 : ℚ) < 2 ^ e := zpow_pos (by norm_num) e

theorem two_zpow_le {a b : Int} (h : a ≤ b) : (2 : ℚ) ^ a ≤ 2 ^ b :=
  zpow_le_zpow_right₀ (by norm_num) h

theorem two_zpow_lt_iff {a b : Int} : (2 : ℚ) ^ a < 2 ^ b ↔ a < b :=
  zpow_lt_zpow_iff_right₀ (by norm_num)

theorem ilog2_spec : ∀ (fuel : Nat) (x : ℚ), 0 < x → (2 : ℚ) ^ (-(fuel : Int)) ≤ x →
    x < 2 ^ ((fuel : Int) + 1) → (2 : ℚ) ^ ilog2 fuel x ≤ x ∧ x < 2 ^ (ilog2 fuel x + 1)
  | 0, x, _, h1, h2 => by
    simp only [Nat.cast_zero, neg_zero, zpow_zero, zero_add, zpow_one] at h1 h2
    simp only [ilog2, zpow_zero, zero_add, zpow_one]
    exact ⟨h1, h2⟩
  | fuel + 1, x, h0, h1, h2 => by
    rw [ilog2]
    by_cases c1 : 2 ≤ x
    · rw [if_pos c1]
      have hx : (0 : ℚ) < x / 2 := by positivity
      have ha : (2 : ℚ) ^ (-(fuel : Int)) ≤ x / 2 := by
        have : (2 : ℚ) ^ (-(fuel : Int)) ≤ 2 ^ (0 : Int) := two_zpow_le (by omega)
        rw [zpow_zero] at this
        linarith
      have hb : x / 2 < 2 ^ ((fuel : Int) + 1) := by
        have e : (2 : ℚ) ^ (((fuel + 1 : Nat) : Int) + 1) = 2 ^ ((fuel : Int) + 1) * 2 := by
          rw [← zpow_add_one₀ (by norm_num)]
          congr 1
        rw [e] at h2
        linarith
      obtain ⟨i1, i2⟩ := ilog2_spec fuel (x / 2) hx ha hb
      have g1 : (2 : ℚ) ^ (ilog2 fuel (x / 2) + 1) = 2 ^ ilog2 fuel (x / 2) * 2 :=
        zpow_add_one₀ (by norm_num) _
      have g2 : (2 : ℚ) ^ (ilog2 fuel (x / 2) + 1 + 1) = 2 ^ ilog2 fuel (x / 2) * 2 * 2 := by
        rw [zpow_add_one₀ (by norm_num), g1]
      rw [g2, g1]
      rw [g1] at i2
      constructor <;> linarith
    · rw [if_neg c1]
      by_cases c2 : x < 1
      · rw [if_pos c2]
        have hx : (0 : ℚ) < x * 2 := by positivity
        have ha : (2 : ℚ) ^ (-(fuel : Int)) ≤ x * 2 := by
          have e : (2 : ℚ) ^ (-(fuel : Int)) = 2 ^ (-((fuel + 1 : Nat) : Int)) * 2 := by
            rw [← zpow_add_one₀ (by norm_num)]
            congr 1
            push_cast
            ring
          rw [e]
          linarith
        have hb : x * 2 < 2 ^ ((fuel : Int) + 1) := by
          have : (2 : ℚ) ^ ((0 : Int) + 1) ≤ 2 ^ ((fuel : Int) + 1) := two_zpow_le (by omega)
          rw [zero_add, zpow_one] at this
          linarith
        obtain ⟨i1, i2⟩ := ilog2_spec fuel (x * 2) hx ha hb
        have e1 : (2 : ℚ) ^ (ilog2 fuel (x * 2)) = 2 ^ (ilog2 fuel (x * 2) - 1) * 2 := by
          rw [← zpow_add_one₀ (by norm_num)]
          congr 1
          ring
        have e2 : (2 : ℚ) ^ (ilog2 fuel (x * 2) - 1 + 1) = 2 ^ (ilog2 fuel (x * 2)) := by
          congr 1
          ring
        rw [e2]
        rw [zpow_add_one₀ (by norm_num)] at i2
        rw [e1] at i1
        constructor <;> linarith
      · rw [if_neg c2]
        simp only [zpow_zero, zero_add, zpow_one]
        exact ⟨not_lt.mp c2, not_le.mp c1⟩

/-- The fuel given to `ilog2` by `ulp` is enough. -/
theorem ilog2_num_den {x : ℚ} (h0 : 0 < x) :
    (2 : ℚ) ^ ilog2 (x.num.natAbs + x.den) x ≤ x ∧
      x < 2 ^ (ilog2 (x.num.natAbs + x.den) x + 1) := by
  apply ilog2_spec _ x h0
  · have hd : (0 : ℚ) < x.den := by exact_mod_cast x.den_pos
    have hn : 0 < x.num := Rat.num_pos.mpr h0
    have h1 : (1 : ℚ) / x.den ≤ x := by
      rw [div_le_iff₀ hd]
      rw [Rat.mul_den_eq_num]
      exact_mod_cast hn
    have h2 : ((x.den : Nat) : ℚ) < 2 ^ x.den := by exact_mod_cast Nat.lt_two_pow x.den
    have h3 : (2 : ℚ) ^ (-((x.num.natAbs + x.den : Nat) : Int)) ≤ 2 ^ (-(x.den : Int)) := by
      have : (x.den : Int) ≤ ((x.num.natAbs + x.den : Nat) : Int) := by
        exact_mod_cast Nat.le_add_left x.den x.num.natAbs
      exact two_zpow_le (by omega)
    have h4 : (2 : ℚ) ^ (-(x.den : Int)) = 1 / 2 ^ x.den := by
      rw [zpow_neg, zpow_natCast, one_div]
    have h5 : (1 : ℚ) / 2 ^ x.den ≤ 1 / x.den :=
      one_div_le_one_div_of_le hd (le_of_lt h2)
    linarith
  · have hd : (1 : ℚ) ≤ x.den := by exact_mod_cast x.den_pos
    have hn : 0 < x.num := Rat.num_pos.mpr h0
    have h1 : x ≤ x.num := by
      have := Rat.mul_den_eq_num x
      have hx : x ≤ x * x.den := le_mul_of_one_le_right (le_of_lt h0) hd
      linarith
    have h2 : (x.num : ℚ) = (x.num.natAbs : ℚ) := by
      have : (x.num : ℚ) = ((x.num.natAbs : Int) : ℚ) := by
        rw [Int.natAbs_of_nonneg (le_of_lt hn)]
      rw [this, Int.cast_natCast]
    have h3 : ((x.num.natAbs : Nat) : ℚ) < 2 ^ x.num.natAbs := by
      exact_mod_cast Nat.lt_two_pow x.num.natAbs
    have h4 : (2 : ℚ) ^ ((x.num.natAbs : Nat) : Int) ≤
        2 ^ (((x.num.natAbs + x.den : Nat) : Int) + 1) := by
      have : (x.num.natAbs : Int) ≤ ((x.num.natAbs + x.den : Nat) : Int) := by
        exact_mod_cast Nat.le_add_right x.num.natAbs x.den
      exact two_zpow_le (by omega)
    rw [zpow_natCast] at h4
    linarith

theorem ulp_pos (p : Nat) (emin : Int) (x : ℚ) : 0 < ulp p emin x := two_zpow_pos _

theorem roundMagnitude_nonneg (p : Nat) (emin : Int) {x : ℚ} (h : 0 ≤ x) :
    0 ≤ roundMagnitude p emin x := by
  unfold roundMagnitude
  have h1 : (0 : ℚ) ≤ x / ulp p emin x := div_nonneg h (le_of_lt (ulp_pos p emin x))
  have h2 : (0 : ℚ) ≤ (roundHalfEven (x / ulp p emin x) : ℚ) := by
    exact_mod_cast roundHalfEven_nonneg h1
  exact mul_nonneg h2 (le_of_lt (ulp_pos p emin x))

theorem roundMagnitude_zero (p : Nat) (emin : Int) : roundMagnitude p emin 0 = 0 := by
  unfold roundMagnitude
  rw [zero_div]
  rw [show ((0 : ℚ)) = ((0 : Int) : ℚ) by norm_num, roundHalfEven_intCast]
  simp

/-- A power of two at or above the exponent of the spacing is a value of the format: values at
most it round to at most it, and values at least it round to at least it. -/
theorem roundMagnitude_grid (p : Nat) (emin : Int) (x : ℚ) (k : Int)
    (hk : max emin (ilog2 (x.num.natAbs + x.den) x) - ((p : Int) - 1) ≤ k) :
    (x ≤ 2 ^ k → roundMagnitude p emin x ≤ 2 ^ k) ∧
    ((2 : ℚ) ^ k ≤ x → 2 ^ k ≤ roundMagnitude p emin x) := by
  unfold roundMagnitude
  have hu := ulp_pos p emin x
  obtain ⟨n, hn⟩ : ∃ n : Nat, (2 : ℚ) ^ k = ((2 ^ n : Int) : ℚ) * ulp p emin x := by
    refine ⟨(k - (max emin (ilog2 (x.num.natAbs + x.den) x) - ((p : Int) - 1))).toNat, ?_⟩
    unfold ulp
    push_cast
    rw [← zpow_natCast, ← zpow_add₀ (by norm_num)]
    congr 1
    rw [Int.toNat_of_nonneg (by omega)]
    ring
  constructor
  · intro h
    have h1 : x / ulp p emin x ≤ ((2 ^ n : Int) : ℚ) := by
      rw [div_le_iff₀ hu, ← hn]
      exact h
    have h2 := roundHalfEven_mono h1
    rw [roundHalfEven_intCast] at h2
    rw [hn]
    exact mul_le_mul_of_nonneg_right (by exact_mod_cast h2) (le_of_lt hu)
  · intro h
    have h1 : ((2 ^ n : Int) : ℚ) ≤ x / ulp p emin x := by
      rw [le_div_iff₀ hu, ← hn]
      exact h
    have h2 := roundHalfEven_mono h1
    rw [roundHalfEven_intCast] at h2
    rw [hn]
    exact mul_le_mul_of_nonneg_right (by exact_mod_cast h2) (le_of_lt hu)

theorem roundMagnitude_mono (p : Nat) (hp : 1 ≤ p) (emin : Int) {x y : ℚ} (h0 : 0 ≤ x)
    (h : x ≤ y) : roundMagnitude p emin x ≤ roundMagnitude p emin y := by
  rcases eq_or_lt_of_le h0 with hx0 | hx0
  · rw [← hx0, roundMagnitude_zero]
    exact roundMagnitude_nonneg p emin (le_trans h0 h)
  have hy0 : 0 < y := lt_of_lt_of_le hx0 h
  obtain ⟨x1, x2⟩ := ilog2_num_den hx0
  obtain ⟨y1, y2⟩ := ilog2_num_den hy0
  have hle : ilog2 (x.num.natAbs + x.den) x ≤ ilog2 (y.num.natAbs + y.den) y := by
    have : (2 : ℚ) ^ ilog2 (x.num.natAbs + x.den) x < 2 ^ (ilog2 (y.num.natAbs + y.den) y + 1) := by
      linarith
    have := two_zpow_lt_iff.mp this
    omega
  rcases eq_or_lt_of_le (max_le_max (le_refl emin) hle) with he | he
  · have hu : ulp p emin x = ulp p emin y := by
      unfold ulp
      rw [he]
    unfold roundMagnitude
    rw [hu]
    have h1 : x / ulp p emin y ≤ y / ulp p emin y :=
      div_le_div_of_nonneg_right h (le_of_lt (ulp_pos p emin y))
    have h2 := roundHalfEven_mono h1
    exact mul_le_mul_of_nonneg_right (by exact_mod_cast h2) (le_of_lt (ulp_pos p emin y))
  · have hy : max emin (ilog2 (y.num.natAbs + y.den) y) = ilog2 (y.num.natAbs + y.den) y := by
      rcases max_cases emin (ilog2 (y.num.natAbs + y.den) y) with ⟨e1, _⟩ | ⟨e1, _⟩
      · rw [e1] at he
        have := le_max_left emin (ilog2 (x.num.natAbs + x.den) x)
        omega
      · exact e1
    have hxB : x ≤ 2 ^ (max emin (ilog2 (x.num.natAbs + x.den) x) + 1) := by
      have : (2 : ℚ) ^ (ilog2 (x.num.natAbs + x.den) x + 1) ≤
          2 ^ (max emin (ilog2 (x.num.natAbs + x.den) x) + 1) :=
        two_zpow_le (by have := le_max_right emin (ilog2 (x.num.natAbs + x.den) x); omega)
      linarith
    have g1 := (roundMagnitude_grid p emin x (max emin (ilog2 (x.num.natAbs + x.den) x) + 1)
      (by omega)).1 hxB
    have g2 := (roundMagnitude_grid p emin y (ilog2 (y.num.natAbs + y.den) y)
      (by rw [hy]; omega)).2 y1
    have g3 : (2 : ℚ) ^ (max emin (ilog2 (x.num.natAbs + x.den) x) + 1) ≤
        2 ^ ilog2 (y.num.natAbs + y.den) y := two_zpow_le (by rw [hy] at he; omega)
    linarith

theorem roundNearest_mono (p : Nat) (hp : 1 ≤ p) (emin : Int) {x y : ℚ} (h : x ≤ y) :
    roundNearest p emin x ≤ roundNearest p emin y := by
  unfold roundNearest
  by_cases cx : x < 0
  · rw [if_pos cx]
    by_cases cy : y < 0
    · rw [if_pos cy]
      have := roundMagnitude_mono p hp emin (x := -y) (y := -x) (by linarith) (by linarith)
      linarith
    · rw [if_neg cy]
      have h1 := roundMagnitude_nonneg p emin (x := -x) (by linarith)
      have h2 := roundMagnitude_nonneg p emin (x := y) (not_lt.mp cy)
      linarith
  · rw [if_neg cx, if_neg (by linarith)]
    exact roundMagnitude_mono p hp emin (not_lt.mp cx) h

theorem f32_mono {x y : ℚ} (h : x ≤ y) : f32 x ≤ f32 y :=
  roundNearest_mono 24 (by norm_num) (-126) h

theorem f32_nonneg {x : ℚ} (h : 0 ≤ x) : 0 ≤ f32 x := by
  unfold f32 roundNearest
  rw [if_neg (not_lt.mpr h)]
  exact roundMagnitude_nonneg 24 (-126) h

/-- An integer of at most 24 bits is a `float`. -/
theorem f32_natCast (n : Nat) (h : n < 2 ^ 24) : f32 (n : ℚ) = n := by
  unfold f32 roundNearest
  rw [if_neg (not_lt.mpr (Nat.cast_nonneg n))]
  rcases Nat.eq_zero_or_pos n with h0 | h0
  · rw [h0, Nat.cast_zero, roundMagnitude_zero]
  have hx : (0 : ℚ) < (n : ℚ) := by exact_mod_cast h0
  obtain ⟨x1, x2⟩ := ilog2_num_den hx
  have hlt : ilog2 ((n : ℚ).num.natAbs + (n : ℚ).den) (n : ℚ) < 24 := by
    have : ((n : Nat) : ℚ) < 2 ^ (24 : Int) := by
      rw [show ((2 : ℚ) ^ (24 : Int)) = ((2 ^ 24 : Nat) : ℚ) by norm_num]
      exact_mod_cast h
    exact two_zpow_lt_iff.mp (lt_of_le_of_lt x1 this)
  unfold roundMagnitude
  have hu := ulp_pos 24 (-126) (n : ℚ)
  obtain ⟨k, hk⟩ : ∃ k : Nat, (1 : ℚ) = ((2 ^ k : Int) : ℚ) * ulp 24 (-126) (n : ℚ) := by
    refine ⟨(23 - max (-126) (ilog2 ((n : ℚ).num.natAbs + (n : ℚ).den) (n : ℚ))).toNat, ?_⟩
    unfold ulp
    push_cast
    rw [← zpow_natCast, ← zpow_add₀ (by norm_num), Int.toNat_of_nonneg (by omega)]
    have e0 : ∀ M : Int, 23 - M + (M - 23) = 0 := fun M => by ring
    rw [e0, zpow_zero]
  have hq : (n : ℚ) / ulp 24 (-126) (n : ℚ) = (((n : Int) * 2 ^ k : Int) : ℚ) := by
    rw [div_eq_iff (ne_of_gt hu)]
    push_cast
    push_cast at hk
    rw [mul_assoc, ← hk, mul_one]
  rw [hq, roundHalfEven_intCast]
  push_cast
  push_cast at hk
  rw [mul_assoc, ← hk, mul_one]

theorem f32_neg (x : ℚ) : f32 (-x) = -f32 x := by
  unfold f32 roundNearest
  rcases lt_trichotomy x 0 with h | h | h
  · rw [if_neg (by linarith), if_pos h, neg_neg]
  · rw [h, neg_zero, if_neg (lt_irrefl 0), roundMagnitude_zero]
    simp
  · rw [if_pos (by linarith), if_neg (by linarith), neg_neg]

theorem f32_zero : f32 0 = 0 := by
  have := f32_natCast 0 (by norm_num)
  simpa using this

/-- A value at most an integer of at most 24 bits rounds to at most that integer. -/
theorem f32_le_natCast {x : ℚ} (n : Nat) (hn : n < 2 ^ 24) (h : x ≤ n) : f32 x ≤ n := by
  have := f32_mono h
  rwa [f32_natCast n hn] at this

/-- A value at least an integer of at most 24 bits rounds to at least that integer. -/
theorem natCast_le_f32 {x : ℚ} (n : Nat) (hn : n < 2 ^ 24) (h : (n : ℚ) ≤ x) : (n : ℚ) ≤ f32 x := by
  have := f32_mono h
  rwa [f32_natCast n hn] at this

/-! ## The SWAR bit count is the population count -/

theorem and_shiftRight_distrib (x m k : Nat) : (x &&& m) >>> k = (x >>> k) &&& (m >>> k) := by
  apply Nat.eq_of_testBit_eq; intro i
  simp [Nat.testBit_shiftRight, Nat.testBit_and]

theorem and_mod_two_pow_distrib (x m k : Nat) : (x &&& m) % 2 ^ k = (x % 2 ^ k) &&& (m % 2 ^ k) := by
  apply Nat.eq_of_testBit_eq; intro i
  simp only [Nat.testBit_mod_two_pow, Nat.testBit_and]
  cases decide (i < k) <;> simp

theorem and_mask (x m k : Nat) (hm : m < 2 ^ k) : x &&& m = (x % 2 ^ k) &&& m := by
  apply Nat.eq_of_testBit_eq; intro i
  simp only [Nat.testBit_mod_two_pow, Nat.testBit_and]
  by_cases h : i < k
  · simp [h]
  · have : m.testBit i = false := by
      apply Nat.testBit_lt_two_pow
      exact lt_of_lt_of_le hm (Nat.pow_le_pow_right (by norm_num) (by omega))
    simp [this]

theorem land_split256 (x m : Nat) :
    x &&& m = ((x % 256) &&& (m % 256)) + 256 * ((x / 256) &&& (m / 256)) := by
  have h1 := and_mod_two_pow_distrib x m 8
  have h2 := and_shiftRight_distrib x m 8
  simp only [Nat.shiftRight_eq_div_pow] at h2
  norm_num at h1 h2
  omega

/-- Bitwise `and` with a mask made of four equal bytes acts byte by byte. -/
theorem land_rep (x m : Nat) (hm : m < 256) (k : Nat) (hk : m < 2 ^ k) (hk8 : k ≤ 8) :
    x &&& (m + 256 * m + 65536 * m + 16777216 * m) =
      ((x % 2 ^ k) &&& m) + 256 * ((x / 256 % 2 ^ k) &&& m)
        + 65536 * ((x / 65536 % 2 ^ k) &&& m) + 16777216 * ((x / 16777216 % 2 ^ k) &&& m) := by
  rw [land_split256 x, land_split256 (x / 256), land_split256 (x / 256 / 256)]
  have e1 : (m + 256 * m + 65536 * m + 16777216 * m) % 256 = m := by omega
  have e2 : (m + 256 * m + 65536 * m + 16777216 * m) / 256 % 256 = m := by omega
  have e3 : (m + 256 * m + 65536 * m + 16777216 * m) / 256 / 256 % 256 = m := by omega
  have e4 : (m + 256 * m + 65536 * m + 16777216 * m) / 256 / 256 / 256 = m := by omega
  rw [e1, e2, e3, e4]
  have q1 : x / 256 / 256 = x / 65536 := by omega
  have q2 : x / 256 / 256 / 256 = x / 16777216 := by omega
  rw [q2, q1]
  have p2 : (2:Nat) ^ k ∣ 256 := by
    have : (256 : Nat) = 2 ^ 8 := by norm_num
    rw [this]; exact Nat.pow_dvd_pow 2 hk8
  rw [and_mask (x % 256) m k hk, and_mask (x / 256 % 256) m k hk,
    and_mask (x / 65536 % 256) m k hk, and_mask (x / 16777216) m k hk,
    Nat.mod_mod_of_dvd _ p2, Nat.mod_mod_of_dvd _ p2, Nat.mod_mod_of_dvd _ p2]
  ring

set_option maxRecDepth 100000 in
theorem byte_facts : ∀ b : Fin 256,
    ((b.val / 2) &&& 0x55) ≤ b.val ∧
    (let w := b.val - ((b.val / 2) &&& 0x55)
     let x := (w &&& 0x33) + ((w / 4) &&& 0x33)
     x % 16 ≤ 4 ∧ x / 16 ≤ 4 ∧
      x % 16 + x / 16 = popCount8 b.val) := by
  decide

theorem nibble_and : ∀ c : Fin 16, c.val &&& 0xF = c.val := by decide

theorem byte_facts' (b : Nat) (hb : b < 256) :
    ((b / 2) &&& 0x55) ≤ b ∧
    (((b - ((b / 2) &&& 0x55)) &&& 0x33) + (((b - ((b / 2) &&& 0x55)) / 4) &&& 0x33)) % 16 ≤ 4 ∧
    (((b - ((b / 2) &&& 0x55)) &&& 0x33) + (((b - ((b / 2) &&& 0x55)) / 4) &&& 0x33)) / 16 ≤ 4 ∧
    (((b - ((b / 2) &&& 0x55)) &&& 0x33) + (((b - ((b / 2) &&& 0x55)) / 4) &&& 0x33)) % 16
      + (((b - ((b / 2) &&& 0x55)) &&& 0x33) + (((b - ((b / 2) &&& 0x55)) / 4) &&& 0x33)) / 16
      = popCount8 b := byte_facts ⟨b, hb⟩


theorem ofBytes_bytes (v : Nat) (hv : v < 4294967296) :
    v = ofBytes (v % 256) (v / 256 % 256) (v / 65536 % 256) (v / 16777216 % 256) := by
  unfold ofBytes; omega

theorem shr1_and (b0 b1 b2 b3 : Nat) (h0 : b0 < 256) (h1 : b1 < 256) (h2 : b2 < 256)
    (h3 : b3 < 256) :
    (ofBytes b0 b1 b2 b3 >>> 1) &&& 0x55555555
      = ofBytes ((b0 / 2) &&& 0x55) ((b1 / 2) &&& 0x55) ((b2 / 2) &&& 0x55) ((b3 / 2) &&& 0x55) := by
  have := land_rep (ofBytes b0 b1 b2 b3 >>> 1) 0x55 (by norm_num) 7 (by norm_num) (by norm_num)
  norm_num at this
  rw [this]
  have a0 : (ofBytes b0 b1 b2 b3 >>> 1) % 128 = b0 / 2 := by unfold ofBytes; omega
  have a1 : (ofBytes b0 b1 b2 b3 >>> 1) / 256 % 128 = b1 / 2 := by unfold ofBytes; omega
  have a2 : (ofBytes b0 b1 b2 b3 >>> 1) / 65536 % 128 = b2 / 2 := by unfold ofBytes; omega
  have a3 : (ofBytes b0 b1 b2 b3 >>> 1) / 16777216 % 128 = b3 / 2 := by unfold ofBytes; omega
  rw [a0, a1, a2, a3]; rfl

theorem sub_bytes (b0 b1 b2 b3 t0 t1 t2 t3 : Nat) (h0 : b0 < 256) (h1 : b1 < 256) (h2 : b2 < 256)
    (h3 : b3 < 256) (k0 : t0 ≤ b0) (k1 : t1 ≤ b1) (k2 : t2 ≤ b2) (k3 : t3 ≤ b3) :
    u32 (ofBytes b0 b1 b2 b3 + 4294967296 - ofBytes t0 t1 t2 t3)
      = ofBytes (b0 - t0) (b1 - t1) (b2 - t2) (b3 - t3) := by
  unfold u32 ofBytes; omega

theorem and33 (w0 w1 w2 w3 : Nat) (h0 : w0 < 256) (h1 : w1 < 256) (h2 : w2 < 256)
    (h3 : w3 < 256) :
    ofBytes w0 w1 w2 w3 &&& 0x33333333
      = ofBytes (w0 &&& 0x33) (w1 &&& 0x33) (w2 &&& 0x33) (w3 &&& 0x33) := by
  have := land_rep (ofBytes w0 w1 w2 w3) 0x33 (by norm_num) 8 (by norm_num) (by norm_num)
  norm_num at this
  rw [this]
  have a0 : (ofBytes w0 w1 w2 w3) % 256 = w0 := by unfold ofBytes; omega
  have a1 : (ofBytes w0 w1 w2 w3) / 256 % 256 = w1 := by unfold ofBytes; omega
  have a2 : (ofBytes w0 w1 w2 w3) / 65536 % 256 = w2 := by unfold ofBytes; omega
  have a3 : (ofBytes w0 w1 w2 w3) / 16777216 % 256 = w3 := by unfold ofBytes; omega
  rw [a0, a1, a2, a3]; rfl

theorem shr2_and33 (w0 w1 w2 w3 : Nat) (h0 : w0 < 256) (h1 : w1 < 256) (h2 : w2 < 256)
    (h3 : w3 < 256) :
    (ofBytes w0 w1 w2 w3 >>> 2) &&& 0x33333333
      = ofBytes ((w0 / 4) &&& 0x33) ((w1 / 4) &&& 0x33) ((w2 / 4) &&& 0x33) ((w3 / 4) &&& 0x33) := by
  have := land_rep (ofBytes w0 w1 w2 w3 >>> 2) 0x33 (by norm_num) 6 (by norm_num) (by norm_num)
  norm_num at this
  rw [this]
  have a0 : (ofBytes w0 w1 w2 w3 >>> 2) % 64 = w0 / 4 := by unfold ofBytes; omega
  have a1 : (ofBytes w0 w1 w2 w3 >>> 2) / 256 % 64 = w1 / 4 := by unfold ofBytes; omega
  have a2 : (ofBytes w0 w1 w2 w3 >>> 2) / 65536 % 64 = w2 / 4 := by unfold ofBytes; omega
  have a3 : (ofBytes w0 w1 w2 w3 >>> 2) / 16777216 % 64 = w3 / 4 := by unfold ofBytes; omega
  rw [a0, a1, a2, a3]; rfl

theorem add_bytes (p0 p1 p2 p3 q0 q1 q2 q3 : Nat) (h0 : p0 + q0 < 256) (h1 : p1 + q1 < 256)
    (h2 : p2 + q2 < 256) (h3 : p3 + q3 < 256) :
    u32 (ofBytes p0 p1 p2 p3 + ofBytes q0 q1 q2 q3)
      = ofBytes (p0 + q0) (p1 + q1) (p2 + q2) (p3 + q3) := by
  unfold u32 ofBytes; omega

theorem shr4_nibbles (l0 l1 l2 l3 h0 h1 h2 h3 : Nat) (a0 : l0 ≤ 4) :
    (ofBytes (l0 + 16 * h0) (l1 + 16 * h1) (l2 + 16 * h2) (l3 + 16 * h3) >>> 4)
      = h0 + 16 * l1 + 256 * h1 + 4096 * l2 + 65536 * h2 + 1048576 * l3 + 16777216 * h3 := by
  unfold ofBytes; omega

theorem nibble_sum_digits (l0 l1 l2 l3 h0 h1 h2 h3 : Nat) (a0 : l0 ≤ 4) (a1 : l1 ≤ 4)
    (a2 : l2 ≤ 4) (a3 : l3 ≤ 4) (c0 : h0 ≤ 4) (c1 : h1 ≤ 4) (c2 : h2 ≤ 4) (c3 : h3 ≤ 4) :
    ((l0 + h0) + 16 * (h0 + l1) + 256 * (l1 + h1) + 4096 * (h1 + l2) + 65536 * (l2 + h2)
        + 1048576 * (h2 + l3) + 16777216 * (l3 + h3) + 268435456 * h3) % 16 = l0 + h0 ∧
    ((l0 + h0) + 16 * (h0 + l1) + 256 * (l1 + h1) + 4096 * (h1 + l2) + 65536 * (l2 + h2)
        + 1048576 * (h2 + l3) + 16777216 * (l3 + h3) + 268435456 * h3) / 256 % 16 = l1 + h1 ∧
    ((l0 + h0) + 16 * (h0 + l1) + 256 * (l1 + h1) + 4096 * (h1 + l2) + 65536 * (l2 + h2)
        + 1048576 * (h2 + l3) + 16777216 * (l3 + h3) + 268435456 * h3) / 65536 % 16 = l2 + h2 ∧
    ((l0 + h0) + 16 * (h0 + l1) + 256 * (l1 + h1) + 4096 * (h1 + l2) + 65536 * (l2 + h2)
        + 1048576 * (h2 + l3) + 16777216 * (l3 + h3) + 268435456 * h3) / 16777216 % 16
      = l3 + h3 := by
  refine ⟨by omega, ?_, ?_, ?_⟩
  · have q : ((l0 + h0) + 16 * (h0 + l1) + 256 * (l1 + h1) + 4096 * (h1 + l2) + 65536 * (l2 + h2)
        + 1048576 * (h2 + l3) + 16777216 * (l3 + h3) + 268435456 * h3) / 256
      = (l1 + h1) + 16 * (h1 + l2) + 256 * (l2 + h2) + 4096 * (h2 + l3) + 65536 * (l3 + h3)
        + 1048576 * h3 := by omega
    rw [q]; clear q; omega
  · have q : ((l0 + h0) + 16 * (h0 + l1) + 256 * (l1 + h1) + 4096 * (h1 + l2) + 65536 * (l2 + h2)
        + 1048576 * (h2 + l3) + 16777216 * (l3 + h3) + 268435456 * h3) / 65536
      = (l2 + h2) + 16 * (h2 + l3) + 256 * (l3 + h3) + 4096 * h3 := by omega
    rw [q]; clear q; omega
  · have q : ((l0 + h0) + 16 * (h0 + l1) + 256 * (l1 + h1) + 4096 * (h1 + l2) + 65536 * (l2 + h2)
        + 1048576 * (h2 + l3) + 16777216 * (l3 + h3) + 268435456 * h3) / 16777216
      = (l3 + h3) + 16 * h3 := by omega
    rw [q]; clear q; omega

theorem nibble_and_le (x : Nat) (h : x ≤ 8) : x &&& 0xF = x :=
  nibble_and ⟨x, by omega⟩

theorem fold_nibbles (l0 l1 l2 l3 h0 h1 h2 h3 : Nat) (a0 : l0 ≤ 4) (a1 : l1 ≤ 4) (a2 : l2 ≤ 4)
    (a3 : l3 ≤ 4) (c0 : h0 ≤ 4) (c1 : h1 ≤ 4) (c2 : h2 ≤ 4) (c3 : h3 ≤ 4) :
    u32 (ofBytes (l0 + 16 * h0) (l1 + 16 * h1) (l2 + 16 * h2) (l3 + 16 * h3)
        + (ofBytes (l0 + 16 * h0) (l1 + 16 * h1) (l2 + 16 * h2) (l3 + 16 * h3) >>> 4))
      &&& 0xF0F0F0F = ofBytes (l0 + h0) (l1 + h1) (l2 + h2) (l3 + h3) := by
  have e : u32 (ofBytes (l0 + 16 * h0) (l1 + 16 * h1) (l2 + 16 * h2) (l3 + 16 * h3)
        + (ofBytes (l0 + 16 * h0) (l1 + 16 * h1) (l2 + 16 * h2) (l3 + 16 * h3) >>> 4))
      = (l0 + h0) + 16 * (h0 + l1) + 256 * (l1 + h1) + 4096 * (h1 + l2) + 65536 * (l2 + h2)
        + 1048576 * (h2 + l3) + 16777216 * (l3 + h3) + 268435456 * h3 := by
    rw [shr4_nibbles _ _ _ _ _ _ _ _ a0]
    unfold u32 ofBytes
    rw [Nat.mod_eq_of_lt]
    · ring
    · omega
  rw [e]
  obtain ⟨b0, b1, b2, b3⟩ := nibble_sum_digits l0 l1 l2 l3 h0 h1 h2 h3 a0 a1 a2 a3 c0 c1 c2 c3
  have := land_rep ((l0 + h0) + 16 * (h0 + l1) + 256 * (l1 + h1) + 4096 * (h1 + l2)
    + 65536 * (l2 + h2) + 1048576 * (h2 + l3) + 16777216 * (l3 + h3) + 268435456 * h3)
    0xF (by norm_num) 4 (by norm_num) (by norm_num)
  rw [show (2:Nat) ^ 4 = 16 from rfl, b0, b1, b2, b3,
    nibble_and_le _ (Nat.add_le_add a0 c0), nibble_and_le _ (Nat.add_le_add a1 c1),
    nibble_and_le _ (Nat.add_le_add a2 c2), nibble_and_le _ (Nat.add_le_add a3 c3)] at this
  exact this

theorem mul_top_byte (p0 p1 p2 p3 : Nat) (h0 : p0 ≤ 8) (h1 : p1 ≤ 8) (h2 : p2 ≤ 8) (h3 : p3 ≤ 8) :
    u32 (ofBytes p0 p1 p2 p3 * 0x1010101) >>> 24 = p0 + p1 + p2 + p3 := by
  unfold u32 ofBytes
  have e : (p0 + 256 * p1 + 65536 * p2 + 16777216 * p3) * 0x1010101
      = (p0 + 256 * (p0 + p1) + 65536 * (p0 + p1 + p2) + 16777216 * (p0 + p1 + p2 + p3))
        + 4294967296 * (p1 + p2 + p3 + 256 * (p2 + p3) + 65536 * p3) := by ring
  rw [e, Nat.add_mul_mod_self_left, Nat.mod_eq_of_lt (by omega), Nat.shiftRight_eq_div_pow]
  omega

theorem swar_tail (x0 x1 x2 x3 : Nat) (l0 : x0 % 16 ≤ 4) (l1 : x1 % 16 ≤ 4) (l2 : x2 % 16 ≤ 4)
    (l3 : x3 % 16 ≤ 4) (h0 : x0 / 16 ≤ 4) (h1 : x1 / 16 ≤ 4) (h2 : x2 / 16 ≤ 4)
    (h3 : x3 / 16 ≤ 4) :
    (u32 ((u32 (ofBytes x0 x1 x2 x3 + (ofBytes x0 x1 x2 x3 >>> 4)) &&& 0xF0F0F0F) * 0x1010101))
        >>> 24
      = (x0 % 16 + x0 / 16) + (x1 % 16 + x1 / 16) + (x2 % 16 + x2 / 16) + (x3 % 16 + x3 / 16) := by
  have e0 : x0 = x0 % 16 + 16 * (x0 / 16) := (Nat.mod_add_div x0 16).symm
  have e1 : x1 = x1 % 16 + 16 * (x1 / 16) := (Nat.mod_add_div x1 16).symm
  have e2 : x2 = x2 % 16 + 16 * (x2 / 16) := (Nat.mod_add_div x2 16).symm
  have e3 : x3 = x3 % 16 + 16 * (x3 / 16) := (Nat.mod_add_div x3 16).symm
  have key := fold_nibbles (x0 % 16) (x1 % 16) (x2 % 16) (x3 % 16) (x0 / 16) (x1 / 16) (x2 / 16)
    (x3 / 16) l0 l1 l2 l3 h0 h1 h2 h3
  rw [← e0, ← e1, ← e2, ← e3] at key
  rw [key]
  exact mul_top_byte _ _ _ _ (by omega) (by omega) (by omega) (by omega)

theorem bitCount32_ofBytes (b0 b1 b2 b3 : Nat) (h0 : b0 < 256) (h1 : b1 < 256) (h2 : b2 < 256)
    (h3 : b3 < 256) :
    bitCount32 (ofBytes b0 b1 b2 b3) = popCount8 b0 + popCount8 b1 + popCount8 b2 + popCount8 b3 := by
  obtain ⟨ht0, hl0, hh0, hp0⟩ := byte_facts' b0 h0
  obtain ⟨ht1, hl1, hh1, hp1⟩ := byte_facts' b1 h1
  obtain ⟨ht2, hl2, hh2, hp2⟩ := byte_facts' b2 h2
  obtain ⟨ht3, hl3, hh3, hp3⟩ := byte_facts' b3 h3
  rw [← hp0, ← hp1, ← hp2, ← hp3]
  unfold bitCount32
  simp only []
  rw [shr1_and b0 b1 b2 b3 h0 h1 h2 h3, sub_bytes b0 b1 b2 b3 _ _ _ _ h0 h1 h2 h3 ht0 ht1 ht2 ht3]
  have k0 : b0 - ((b0 / 2) &&& 0x55) < 256 := lt_of_le_of_lt (Nat.sub_le _ _) h0
  have k1 : b1 - ((b1 / 2) &&& 0x55) < 256 := lt_of_le_of_lt (Nat.sub_le _ _) h1
  have k2 : b2 - ((b2 / 2) &&& 0x55) < 256 := lt_of_le_of_lt (Nat.sub_le _ _) h2
  have k3 : b3 - ((b3 / 2) &&& 0x55) < 256 := lt_of_le_of_lt (Nat.sub_le _ _) h3
  rw [and33 _ _ _ _ k0 k1 k2 k3, shr2_and33 _ _ _ _ k0 k1 k2 k3]
  have m0 := Nat.div_add_mod (((b0 - ((b0 / 2) &&& 0x55)) &&& 0x33)
    + (((b0 - ((b0 / 2) &&& 0x55)) / 4) &&& 0x33)) 16
  have m1 := Nat.div_add_mod (((b1 - ((b1 / 2) &&& 0x55)) &&& 0x33)
    + (((b1 - ((b1 / 2) &&& 0x55)) / 4) &&& 0x33)) 16
  have m2 := Nat.div_add_mod (((b2 - ((b2 / 2) &&& 0x55)) &&& 0x33)
    + (((b2 - ((b2 / 2) &&& 0x55)) / 4) &&& 0x33)) 16
  have m3 := Nat.div_add_mod (((b3 - ((b3 / 2) &&& 0x55)) &&& 0x33)
    + (((b3 - ((b3 / 2) &&& 0x55)) / 4) &&& 0x33)) 16
  rw [add_bytes _ _ _ _ _ _ _ _ (by clear hp0 hp1 hp2 hp3 m1 m2 m3; omega)
    (by clear hp0 hp1 hp2 hp3 m0 m2 m3; omega) (by clear hp0 hp1 hp2 hp3 m1 m0 m3; omega)
    (by clear hp0 hp1 hp2 hp3 m1 m2 m0; omega)]
  exact swar_tail _ _ _ _ hl0 hl1 hl2 hl3 hh0 hh1 hh2 hh3

theorem popCount8_shift (v s : Nat) :
    (((List.range 8).map (fun j => s + j)).filter (fun j => v.testBit j)).length
      = popCount8 (v / 2 ^ s % 256) := by
  unfold popCount8
  rw [List.filter_map, List.length_map]
  congr 1
  apply List.filter_congr
  intro j hj
  have hj8 : j < 8 := List.mem_range.mp hj
  have := Nat.testBit_mod_two_pow (v / 2 ^ s) 8 j
  norm_num at this
  rw [this, ← Nat.shiftRight_eq_div_pow, Nat.testBit_shiftRight]
  simp [hj8]

theorem popCount32_bytes (v : Nat) :
    popCount32 v = popCount8 (v % 256) + popCount8 (v / 256 % 256)
      + popCount8 (v / 65536 % 256) + popCount8 (v / 16777216 % 256) := by
  have hr : List.range 32 = (List.range 8).map (fun j => 0 + j) ++ (List.range 8).map (fun j => 8 + j)
      ++ (List.range 8).map (fun j => 16 + j) ++ (List.range 8).map (fun j => 24 + j) := by
    decide
  unfold popCount32
  rw [hr]
  simp only [List.filter_append, List.length_append, popCount8_shift]
  norm_num

/-- The SWAR bit count of the source returns the population count of every 32-bit word. -/
theorem bitCount32_eq_popCount32 (v : Nat) (hv : v < 4294967296) :
    bitCount32 v = popCount32 v := by
  rw [popCount32_bytes]
  conv_lhs => rw [ofBytes_bytes v hv]
  exact bitCount32_ofBytes _ _ _ _ (Nat.mod_lt _ (by norm_num)) (Nat.mod_lt _ (by norm_num))
    (Nat.mod_lt _ (by norm_num)) (Nat.mod_lt _ (by norm_num))

theorem popCount32_le (v : Nat) : popCount32 v ≤ 32 := by
  unfold popCount32
  calc ((List.range 32).filter (fun j => v.testBit j)).length
      ≤ (List.range 32).length := List.length_filter_le _ _
    _ = 32 := List.length_range 32

theorem xor_lt_word (x y : Word32) : x.val ^^^ y.val < 4294967296 := by
  have := Nat.xor_lt_two_pow (n := 32) (x := x.val) (y := y.val) x.isLt y.isLt
  simpa using this

/-- Adding a small unsigned count to a small non-negative `int` accumulator does not wrap. -/
theorem accumulate_eq (dist : Int) (c : Nat) (h0 : 0 ≤ dist) (h1 : dist + c < 2147483648) :
    toInt32 (u32 (ofInt32 dist + c)) = dist + c := by
  unfold toInt32 u32 ofInt32
  omega

theorem wordCount_le (a b : Descriptor) (i : Fin 8) : wordCount a b i ≤ 32 := by
  unfold wordCount
  rw [bitCount32_eq_popCount32 _ (xor_lt_word _ _)]
  exact popCount32_le _

theorem step_eq (a b : Descriptor) (dist : Int) (i : Fin 8) (h0 : 0 ≤ dist) (h1 : dist ≤ 224) :
    DescriptorDistance.step a b dist i = dist + wordCount a b i := by
  unfold DescriptorDistance.step
  have := wordCount_le a b i
  exact accumulate_eq dist (wordCount a b i) h0 (by omega)

theorem finRange8 : List.finRange 8 = [0, 1, 2, 3, 4, 5, 6, 7] := by decide

theorem DescriptorDistance_eq_sum (a b : Descriptor) :
    DescriptorDistance a b = ((wordCount a b 0 + wordCount a b 1 + wordCount a b 2
      + wordCount a b 3 + wordCount a b 4 + wordCount a b 5 + wordCount a b 6
      + wordCount a b 7 : Nat) : Int) := by
  have w0 := wordCount_le a b 0
  have w1 := wordCount_le a b 1
  have w2 := wordCount_le a b 2
  have w3 := wordCount_le a b 3
  have w4 := wordCount_le a b 4
  have w5 := wordCount_le a b 5
  have w6 := wordCount_le a b 6
  have w7 := wordCount_le a b 7
  unfold DescriptorDistance
  rw [finRange8]
  simp only [List.foldl_cons, List.foldl_nil]
  rw [step_eq a b 0 0 (by omega) (by omega)]
  rw [step_eq a b _ 1 (by omega) (by omega)]
  rw [step_eq a b _ 2 (by omega) (by omega)]
  rw [step_eq a b _ 3 (by omega) (by omega)]
  rw [step_eq a b _ 4 (by omega) (by omega)]
  rw [step_eq a b _ 5 (by omega) (by omega)]
  rw [step_eq a b _ 6 (by omega) (by omega)]
  rw [step_eq a b _ 7 (by omega) (by omega)]
  push_cast
  ring

theorem hamming_word (x y : Nat) :
    ((List.range 32).filter (fun j => x.testBit j != y.testBit j)).length = popCount32 (x ^^^ y) := by
  unfold popCount32
  congr 1
  apply List.filter_congr
  intro j _
  rw [Nat.testBit_xor]

theorem hammingDistance_eq_sum (a b : Descriptor) :
    hammingDistance a b = wordCount a b 0 + wordCount a b 1 + wordCount a b 2
      + wordCount a b 3 + wordCount a b 4 + wordCount a b 5 + wordCount a b 6
      + wordCount a b 7 := by
  unfold hammingDistance wordCount
  rw [finRange8]
  simp only [List.map_cons, List.map_nil, List.sum_cons, List.sum_nil, hamming_word,
    bitCount32_eq_popCount32 _ (xor_lt_word _ _)]
  ring

/-- C1: for every pair of 256-bit descriptors, `DescriptorDistance` is the Hamming distance:
the number of bit positions in which the two descriptors differ. -/
theorem C1_DescriptorDistance_eq_hamming (a b : Descriptor) :
    DescriptorDistance a b = (hammingDistance a b : Int) := by
  rw [DescriptorDistance_eq_sum, hammingDistance_eq_sum]

theorem wordCount_self (a : Descriptor) (i : Fin 8) : wordCount a a i = 0 := by
  unfold wordCount
  rw [Nat.xor_self]
  decide

theorem wordCount_comm (a b : Descriptor) (i : Fin 8) : wordCount a b i = wordCount b a i := by
  unfold wordCount
  rw [Nat.xor_comm]

/-- C2: the distance of a descriptor to itself is zero. -/
theorem C2_DescriptorDistance_self (a : Descriptor) : DescriptorDistance a a = 0 := by
  rw [DescriptorDistance_eq_sum]
  simp only [wordCount_self]
  rfl

/-- C3: `DescriptorDistance` is symmetric in its two arguments. -/
theorem C3_DescriptorDistance_comm (a b : Descriptor) :
    DescriptorDistance a b = DescriptorDistance b a := by
  rw [DescriptorDistance_eq_sum, DescriptorDistance_eq_sum]
  simp only [wordCount_comm a b]

/-- C4: the result of `DescriptorDistance` lies in `0..256`; the wrapping 32-bit SWAR count of
every word equals the exact population count of that word and lies in `0..32`; and the `int`
accumulator equals the exact (unwrapped) sum of the eight word counts. -/
theorem C4_DescriptorDistance_range (a b : Descriptor) :
    (0 ≤ DescriptorDistance a b ∧ DescriptorDistance a b ≤ 256) ∧
    (∀ i : Fin 8, bitCount32 ((a i).val ^^^ (b i).val) = popCount32 ((a i).val ^^^ (b i).val) ∧
      bitCount32 ((a i).val ^^^ (b i).val) ≤ 32) ∧
    DescriptorDistance a b
      = (((List.finRange 8).map (fun i => bitCount32 ((a i).val ^^^ (b i).val))).sum : Nat) := by
  have w0 := wordCount_le a b 0
  have w1 := wordCount_le a b 1
  have w2 := wordCount_le a b 2
  have w3 := wordCount_le a b 3
  have w4 := wordCount_le a b 4
  have w5 := wordCount_le a b 5
  have w6 := wordCount_le a b 6
  have w7 := wordCount_le a b 7
  refine ⟨?_, ?_, ?_⟩
  · rw [DescriptorDistance_eq_sum]
    constructor <;> omega
  · intro i
    exact ⟨bitCount32_eq_popCount32 _ (xor_lt_word _ _), wordCount_le a b i⟩
  · rw [DescriptorDistance_eq_sum, finRange8]
    simp only [List.map_cons, List.map_nil, List.sum_cons, List.sum_nil, wordCount]
    congr 1
    ring

/-! ## Rotation histogram bins -/

set_option maxRecDepth 1000000 in
set_option maxHeartbeats 4000000 in
theorem factor_bounds : 0 ≤ factor ∧ f32 (360 * factor) < 25 / 2 := by
  with_unfolding_all decide

theorem angleDiff_range (angle1 angle2 : ℚ) (h1 : 0 ≤ angle1 ∧ angle1 < 360)
    (h2 : 0 ≤ angle2 ∧ angle2 < 360) :
    0 ≤ angleDiff angle1 angle2 ∧ angleDiff angle1 angle2 ≤ 360 := by
  have e360 : f32 ((360 : Nat) : ℚ) = ((360 : Nat) : ℚ) := f32_natCast 360 (by norm_num)
  have hu : f32 (angle1 - angle2) ≤ ((360 : Nat) : ℚ) :=
    f32_le_natCast 360 (by norm_num) (by push_cast; linarith [h1.2, h2.1])
  have hl : -((360 : Nat) : ℚ) ≤ f32 (angle1 - angle2) := by
    have := f32_le_natCast (x := -(angle1 - angle2)) 360 (by norm_num)
      (by push_cast; linarith [h1.1, h2.2])
    rw [f32_neg] at this
    linarith
  push_cast at hu hl
  unfold angleDiff
  dsimp only
  split_ifs with h
  · constructor
    · exact f32_nonneg (by linarith)
    · have := f32_le_natCast (x := f32 (angle1 - angle2) + 360) 360 (by norm_num)
        (by push_cast; linarith)
      push_cast at this
      exact this
  · exact ⟨not_lt.mp h, hu⟩

/-- For an angle difference in `[0, 360]` the bin stays below thirteen. -/
theorem rotBin_range (rot : ℚ) (h0 : 0 ≤ rot) (h1 : rot ≤ 360) :
    0 ≤ rotBin rot ∧ rotBin rot ≤ 12 := by
  obtain ⟨hf, hb⟩ := factor_bounds
  have hp : 0 ≤ rot * factor := mul_nonneg h0 hf
  have hy0 : 0 ≤ f32 (rot * factor) := f32_nonneg hp
  have hy1 : f32 (rot * factor) < 25 / 2 :=
    lt_of_le_of_lt (f32_mono (mul_le_mul_of_nonneg_right h1 hf)) hb
  have e : cRound (f32 (rot * factor)) = ⌊f32 (rot * factor) + 1 / 2⌋ := by
    unfold cRound; rw [if_pos hy0]
  have l : 0 ≤ cRound (f32 (rot * factor)) := by
    rw [e]; apply Int.floor_nonneg.mpr; linarith
  have u : cRound (f32 (rot * factor)) ≤ 12 := by
    rw [e]
    have : ⌊f32 (rot * factor) + 1 / 2⌋ < 13 := by
      apply Int.floor_lt.mpr
      push_cast; linarith
    omega
  have hne : cRound (f32 (rot * factor)) ≠ HISTO_LENGTH := by unfold HISTO_LENGTH; omega
  have : rotBin rot = cRound (f32 (rot * factor)) := by
    unfold rotBin; dsimp only; rw [if_neg hne]
  rw [this]; exact ⟨l, u⟩

set_option maxRecDepth 1000000 in
set_option maxHeartbeats 4000000 in
/-- C8 (as stated) fails: the angles `0` and `2⁻²⁰` (about `1e-6`) are `float` values in
`[0, 360)`; their difference is negative, and the `float` addition of `360` to it rounds to
`360` itself, which is not in `[0, 360)`. -/
theorem C8_counterexample :
    ((0 : ℚ) ≤ 0 ∧ (0 : ℚ) < 360) ∧ ((0 : ℚ) ≤ 1 / 2 ^ 20 ∧ (1 : ℚ) / 2 ^ 20 < 360) ∧
    (f32 (1 / 2 ^ 20) ≤ 1 / 2 ^ 20 ∧ 1 / 2 ^ 20 ≤ f32 (1 / 2 ^ 20)) ∧
    ¬ angleDiff 0 (1 / 2 ^ 20) < 360 := by
  with_unfolding_all decide

/-- C8 (amended): for keypoint angles in `[0, 360)` the recorded angle difference lies in
`[0, 360]` (the value `360` is reached when the `float` addition rounds up) and the bin
computed from it satisfies `0 ≤ bin < HISTO_LENGTH`: the assertion of the matchers holds and
the histogram index is in range. -/
theorem C8_bin_in_range (angle1 angle2 : ℚ) (h1 : 0 ≤ angle1 ∧ angle1 < 360)
    (h2 : 0 ≤ angle2 ∧ angle2 < 360) :
    (0 ≤ angleDiff angle1 angle2 ∧ angleDiff angle1 angle2 ≤ 360) ∧
    (0 ≤ computeBin angle1 angle2 ∧ computeBin angle1 angle2 < HISTO_LENGTH) := by
  have hr := angleDiff_range angle1 angle2 h1 h2
  obtain ⟨l, u⟩ := rotBin_range _ hr.1 hr.2
  refine ⟨hr, l, ?_⟩
  unfold computeBin HISTO_LENGTH; omega

/-- Witness of C8 at the angles 10° and 350°: the difference is normalised to 20°. -/
theorem C8_bin_in_range_witness :
    ((0 : ℚ) ≤ 10 ∧ (10 : ℚ) < 360) ∧ ((0 : ℚ) ≤ 350 ∧ (350 : ℚ) < 360) ∧
    ((0 ≤ angleDiff 10 350 ∧ angleDiff 10 350 ≤ 360) ∧
      (0 ≤ computeBin 10 350 ∧ computeBin 10 350 < HISTO_LENGTH)) :=
  ⟨by norm_num, by norm_num, C8_bin_in_range 10 350 (by norm_num) (by norm_num)⟩

set_option maxRecDepth 1000000 in
set_option maxHeartbeats 4000000 in
/-- C7 (the code at the failing input): for the keypoint angles 12° and 0° the recorded
difference is 12°, which belongs to the bin `1` of the claim (`12·1 ≤ 12 < 12·2`); the matchers
compute bin `0` for it, because `factor` is `1.0f / HISTO_LENGTH`. With the factor
`HISTO_LENGTH / 360.0f` the same computation gives bin `1`. No difference in `[0, 360]` is
given a bin above `12`. -/
theorem C7_twelve_degrees_in_bin_zero :
    (angleDiff 12 0 ≤ 12 ∧ 12 ≤ angleDiff 12 0) ∧ computeBin 12 0 = 0 ∧ rotBin 12 = 0 ∧
    cRound (f32 (12 * f32 ((HISTO_LENGTH : ℚ) / 360))) = 1 ∧
    ∀ rot : ℚ, 0 ≤ rot → rot ≤ 360 → rotBin rot ≤ 12 :=
  ⟨by with_unfolding_all decide, by with_unfolding_all decide, by with_unfolding_all decide,
    by with_unfolding_all decide, fun rot h0 h1 => (rotBin_range rot h0 h1).2⟩

/-! ## ComputeThreeMaxima -/

theorem binSize_nonneg (histo : List (List Int)) (i : Nat) : 0 ≤ binSize histo i := by
  unfold binSize; exact Int.natCast_nonneg _

theorem ThreeMax.Slot.mono {histo : List (List Int)} {n : Nat} {m i : Int}
    (h : ThreeMax.Slot histo n m i) : ThreeMax.Slot histo (n + 1) m i := by
  rcases h with h | ⟨h1, h2, h3, h4⟩
  · exact Or.inl h
  · exact Or.inr ⟨h1, by push_cast; omega, h3, h4⟩

theorem ThreeMax.Slot.new (histo : List (List Int)) (n : Nat) (h : 0 < binSize histo n) :
    ThreeMax.Slot histo (n + 1) (binSize histo n) n := by
  refine Or.inr ⟨Int.natCast_nonneg _, by push_cast; omega, ?_, h⟩
  simp

theorem ThreeMax.Slot.lt {histo : List (List Int)} {n : Nat} {m i : Int}
    (h : ThreeMax.Slot histo n m i) : i < n := by
  rcases h with ⟨h, _⟩ | ⟨_, h2, _, _⟩
  · have : (0:Int) ≤ n := Int.natCast_nonneg _
    omega
  · exact h2

theorem ThreeMax.Inv.step {histo : List (List Int)} {n : Nat} {st : ThreeMax}
    (h : ThreeMax.Inv histo n st) :
    ThreeMax.Inv histo (n + 1) (ComputeThreeMaxima.step histo st n) := by
  obtain ⟨⟨o1, o2, o3⟩, ⟨s1, s2, s3⟩, ⟨d1, d2, d3⟩, ⟨b1, b2, b3⟩⟩ := h
  have hs := binSize_nonneg histo n
  have l1 := s1.lt
  have l2 := s2.lt
  have l3 := s3.lt
  have split : ∀ j : Nat, j < n + 1 → j < n ∨ j = n := fun j hj => by omega
  unfold ComputeThreeMaxima.step
  simp only []
  split_ifs with c1 c2 c3 <;> unfold ThreeMax.Inv <;> try dsimp only
  · refine ⟨⟨by omega, by omega, by omega⟩,
      ⟨ThreeMax.Slot.new histo n (by omega), s1.mono, s2.mono⟩,
      ⟨by omega, by omega, by omega⟩, ⟨?_, ?_, ?_⟩⟩
    · intro j hj
      rcases split j hj with hj | rfl
      · have := b1 j hj; omega
      · exact le_refl _
    · intro j hj hne
      rcases split j hj with hj | rfl
      · exact b1 j hj
      · exact absurd rfl hne
    · intro j hj hne1 hne2
      rcases split j hj with hj | rfl
      · exact b2 j hj hne2
      · exact absurd rfl hne1
  · refine ⟨⟨by omega, by omega, by omega⟩,
      ⟨s1.mono, ThreeMax.Slot.new histo n (by omega), s2.mono⟩,
      ⟨by omega, by omega, by omega⟩, ⟨?_, ?_, ?_⟩⟩
    · intro j hj
      rcases split j hj with hj | rfl
      · exact b1 j hj
      · omega
    · intro j hj hne
      rcases split j hj with hj | rfl
      · have := b2 j hj hne; omega
      · exact le_refl _
    · intro j hj hne1 hne2
      rcases split j hj with hj | rfl
      · exact b2 j hj hne1
      · exact absurd rfl hne2
  · refine ⟨⟨by omega, by omega, by omega⟩,
      ⟨s1.mono, s2.mono, ThreeMax.Slot.new histo n (by omega)⟩,
      ⟨by omega, by omega, by omega⟩, ⟨?_, ?_, ?_⟩⟩
    · intro j hj
      rcases split j hj with hj | rfl
      · exact b1 j hj
      · omega
    · intro j hj hne
      rcases split j hj with hj | rfl
      · exact b2 j hj hne
      · omega
    · intro j hj hne1 hne2
      rcases split j hj with hj | rfl
      · have := b3 j hj hne1 hne2; omega
      · exact le_refl _
  · refine ⟨⟨o1, o2, o3⟩, ⟨s1.mono, s2.mono, s3.mono⟩, ⟨d1, d2, d3⟩, ⟨?_, ?_, ?_⟩⟩
    · intro j hj
      rcases split j hj with hj | rfl
      · exact b1 j hj
      · omega
    · intro j hj hne
      rcases split j hj with hj | rfl
      · exact b2 j hj hne
      · omega
    · intro j hj hne1 hne2
      rcases split j hj with hj | rfl
      · exact b3 j hj hne1 hne2
      · omega

theorem ThreeMax.Inv.inv_init (histo : List (List Int)) :
    ThreeMax.Inv histo 0 { max1 := 0, max2 := 0, max3 := 0, ind1 := -1, ind2 := -1, ind3 := -1 } := by
  refine ⟨⟨le_refl _, le_refl _, le_refl _⟩, ⟨Or.inl ⟨rfl, rfl⟩, Or.inl ⟨rfl, rfl⟩, Or.inl ⟨rfl, rfl⟩⟩,
    ⟨Or.inl rfl, Or.inl rfl, Or.inl rfl⟩, ⟨?_, ?_, ?_⟩⟩ <;> intro j hj <;> omega

theorem ThreeMax.Inv.inv_foldl (histo : List (List Int)) (n : Nat) :
    ThreeMax.Inv histo n ((List.range n).foldl (ComputeThreeMaxima.step histo)
      { max1 := 0, max2 := 0, max3 := 0, ind1 := -1, ind2 := -1, ind3 := -1 }) := by
  induction n with
  | zero => exact ThreeMax.Inv.inv_init histo
  | succ n ih =>
    rw [List.range_succ, List.foldl_append]
    exact ih.step

theorem ThreeMax.Inv.loop (histo : List (List Int)) (L : Int) :
    ThreeMax.Inv histo L.toNat (ComputeThreeMaxima.loop histo L (-1) (-1) (-1)) :=
  ThreeMax.Inv.inv_foldl histo L.toNat


theorem lt_toNat_of_lt (j : Nat) (L : Int) (h : (j : Int) < L) : j < L.toNat := by omega

/-- C9: started from `ind1 = ind2 = ind3 = -1`, `ComputeThreeMaxima` returns bins of highest
count: if some bin is non-empty then `ind1` is a bin of maximal count; every returned index
other than `-1` is a non-empty bin; the returned indices other than `-1` are pairwise distinct;
and every bin that is not returned has a count at most the count of every returned bin. -/
theorem C9_ComputeThreeMaxima_selects_highest (histo : List (List Int)) (L : Int) :
    ((∃ j : Nat, (j : Int) < L ∧ 0 < binSize histo j) →
      0 ≤ (ComputeThreeMaxima histo L (-1) (-1) (-1)).1 ∧
      (ComputeThreeMaxima histo L (-1) (-1) (-1)).1 < L ∧
      ∀ j : Nat, (j : Int) < L →
        binSize histo j ≤ binSize histo (ComputeThreeMaxima histo L (-1) (-1) (-1)).1.toNat) ∧
    (∀ x : Int, (x = (ComputeThreeMaxima histo L (-1) (-1) (-1)).1 ∨
        x = (ComputeThreeMaxima histo L (-1) (-1) (-1)).2.1 ∨
        x = (ComputeThreeMaxima histo L (-1) (-1) (-1)).2.2) → x ≠ -1 →
      0 ≤ x ∧ x < L ∧ 0 < binSize histo x.toNat) ∧
    (((ComputeThreeMaxima histo L (-1) (-1) (-1)).1 ≠ -1 →
        (ComputeThreeMaxima histo L (-1) (-1) (-1)).2.1 ≠ -1 →
        (ComputeThreeMaxima histo L (-1) (-1) (-1)).1
          ≠ (ComputeThreeMaxima histo L (-1) (-1) (-1)).2.1) ∧
      ((ComputeThreeMaxima histo L (-1) (-1) (-1)).1 ≠ -1 →
        (ComputeThreeMaxima histo L (-1) (-1) (-1)).2.2 ≠ -1 →
        (ComputeThreeMaxima histo L (-1) (-1) (-1)).1
          ≠ (ComputeThreeMaxima histo L (-1) (-1) (-1)).2.2) ∧
      ((ComputeThreeMaxima histo L (-1) (-1) (-1)).2.1 ≠ -1 →
        (ComputeThreeMaxima histo L (-1) (-1) (-1)).2.2 ≠ -1 →
        (ComputeThreeMaxima histo L (-1) (-1) (-1)).2.1
          ≠ (ComputeThreeMaxima histo L (-1) (-1) (-1)).2.2)) ∧
    (∀ j : Nat, (j : Int) < L →
      (j : Int) ≠ (ComputeThreeMaxima histo L (-1) (-1) (-1)).1 →
      (j : Int) ≠ (ComputeThreeMaxima histo L (-1) (-1) (-1)).2.1 →
      (j : Int) ≠ (ComputeThreeMaxima histo L (-1) (-1) (-1)).2.2 →
      ∀ x : Int, (x = (ComputeThreeMaxima histo L (-1) (-1) (-1)).1 ∨
        x = (ComputeThreeMaxima histo L (-1) (-1) (-1)).2.1 ∨
        x = (ComputeThreeMaxima histo L (-1) (-1) (-1)).2.2) → x ≠ -1 →
      binSize histo j ≤ binSize histo x.toNat) := by
  obtain ⟨⟨o1, o2, o3⟩, ⟨s1, s2, s3⟩, ⟨d1, d2, d3⟩, ⟨b1, b2, b3⟩⟩ := ThreeMax.Inv.loop histo L
  unfold ThreeMax.Slot at s1 s2 s3
  unfold ComputeThreeMaxima
  generalize ComputeThreeMaxima.loop histo L (-1) (-1) (-1) = st at *
  dsimp only
  split_ifs with c1 c2
  · dsimp only
    refine ⟨?_, ?_, ?_, ?_⟩
    · rintro ⟨j, hj, hpos⟩
      have := b1 j (lt_toNat_of_lt j L hj)
      rcases s1 with ⟨_, e⟩ | ⟨p1, p2, p3, p4⟩
      · omega
      · refine ⟨p1, by omega, fun k hk => ?_⟩
        rw [p3]; exact b1 k (lt_toNat_of_lt k L hk)
    · intro x hx hne
      rcases hx with rfl | rfl | rfl
      · rcases s1 with ⟨e, _⟩ | ⟨p1, p2, p3, p4⟩
        · exact absurd e hne
        · exact ⟨p1, by omega, by omega⟩
      · exact absurd rfl hne
      · exact absurd rfl hne
    · exact ⟨fun _ h => absurd rfl h, fun _ h => absurd rfl h, fun h => absurd rfl h⟩
    · intro j hj n1 _ _ x hx hne
      rcases hx with rfl | rfl | rfl
      · rcases s1 with ⟨e, _⟩ | ⟨p1, p2, p3, p4⟩
        · exact absurd e hne
        · rw [p3]; exact b1 j (lt_toNat_of_lt j L hj)
      · exact absurd rfl hne
      · exact absurd rfl hne
  · dsimp only
    refine ⟨?_, ?_, ?_, ?_⟩
    · rintro ⟨j, hj, hpos⟩
      have := b1 j (lt_toNat_of_lt j L hj)
      rcases s1 with ⟨_, e⟩ | ⟨p1, p2, p3, p4⟩
      · omega
      · refine ⟨p1, by omega, fun k hk => ?_⟩
        rw [p3]; exact b1 k (lt_toNat_of_lt k L hk)
    · intro x hx hne
      rcases hx with rfl | rfl | rfl
      · rcases s1 with ⟨e, _⟩ | ⟨p1, p2, p3, p4⟩
        · exact absurd e hne
        · exact ⟨p1, by omega, by omega⟩
      · rcases s2 with ⟨e, _⟩ | ⟨p1, p2, p3, p4⟩
        · exact absurd e hne
        · exact ⟨p1, by omega, by omega⟩
      · exact absurd rfl hne
    · refine ⟨fun _ h => ?_, fun _ h => absurd rfl h, fun _ h => absurd rfl h⟩
      rcases d1 with e | e
      · exact absurd e h
      · exact e
    · intro j hj n1 n2 _ x hx hne
      rcases hx with rfl | rfl | rfl
      · rcases s1 with ⟨e, _⟩ | ⟨p1, p2, p3, p4⟩
        · exact absurd e hne
        · rw [p3]; exact b1 j (lt_toNat_of_lt j L hj)
      · rcases s2 with ⟨e, _⟩ | ⟨p1, p2, p3, p4⟩
        · exact absurd e hne
        · rw [p3]; exact b2 j (lt_toNat_of_lt j L hj) n1
      · exact absurd rfl hne
  · dsimp only
    refine ⟨?_, ?_, ?_, ?_⟩
    · rintro ⟨j, hj, hpos⟩
      have := b1 j (lt_toNat_of_lt j L hj)
      rcases s1 with ⟨_, e⟩ | ⟨p1, p2, p3, p4⟩
      · omega
      · refine ⟨p1, by omega, fun k hk => ?_⟩
        rw [p3]; exact b1 k (lt_toNat_of_lt k L hk)
    · intro x hx hne
      rcases hx with rfl | rfl | rfl
      · rcases s1 with ⟨e, _⟩ | ⟨p1, p2, p3, p4⟩
        · exact absurd e hne
        · exact ⟨p1, by omega, by omega⟩
      · rcases s2 with ⟨e, _⟩ | ⟨p1, p2, p3, p4⟩
        · exact absurd e hne
        · exact ⟨p1, by omega, by omega⟩
      · rcases s3 with ⟨e, _⟩ | ⟨p1, p2, p3, p4⟩
        · exact absurd e hne
        · exact ⟨p1, by omega, by omega⟩
    · refine ⟨fun _ h => ?_, fun _ h => ?_, fun _ h => ?_⟩
      · rcases d1 with e | e
        · exact absurd e h
        · exact e
      · rcases d2 with e | e
        · exact absurd e h
        · exact e
      · rcases d3 with e | e
        · exact absurd e h
        · exact e
    · intro j hj n1 n2 n3 x hx hne
      rcases hx with rfl | rfl | rfl
      · rcases s1 with ⟨e, _⟩ | ⟨p1, p2, p3, p4⟩
        · exact absurd e hne
        · rw [p3]; exact b1 j (lt_toNat_of_lt j L hj)
      · rcases s2 with ⟨e, _⟩ | ⟨p1, p2, p3, p4⟩
        · exact absurd e hne
        · rw [p3]; exact b2 j (lt_toNat_of_lt j L hj) n1
      · rcases s3 with ⟨e, _⟩ | ⟨p1, p2, p3, p4⟩
        · exact absurd e hne
        · rw [p3]; exact b3 j (lt_toNat_of_lt j L hj) n1 n2


/-- The pruning of `ComputeThreeMaxima`. With `max1 ≥ max2 ≥ max3` the highest, the
second-highest and the third-highest bin counts found by the loop (attained at `ind1`, `ind2`,
`ind3`), the second bin is returned iff it is non-empty and `max2` is at least 10% of `max1`; the
third bin is returned iff the second is returned, it is non-empty and `max3` is at least 10% of
`max1`; hence every returned bin has a count of at least 10% of the top count. -/
theorem ComputeThreeMaxima.weak_bins (histo : List (List Int)) (L : Int) :
    ((∀ j : Nat, (j : Int) < L →
        binSize histo j ≤ (ComputeThreeMaxima.loop histo L (-1) (-1) (-1)).max1) ∧
      (∀ j : Nat, (j : Int) < L → (j : Int) ≠ (ComputeThreeMaxima.loop histo L (-1) (-1) (-1)).ind1 →
        binSize histo j ≤ (ComputeThreeMaxima.loop histo L (-1) (-1) (-1)).max2) ∧
      (∀ j : Nat, (j : Int) < L → (j : Int) ≠ (ComputeThreeMaxima.loop histo L (-1) (-1) (-1)).ind1 →
        (j : Int) ≠ (ComputeThreeMaxima.loop histo L (-1) (-1) (-1)).ind2 →
        binSize histo j ≤ (ComputeThreeMaxima.loop histo L (-1) (-1) (-1)).max3) ∧
      (0 < (ComputeThreeMaxima.loop histo L (-1) (-1) (-1)).max1 →
        binSize histo (ComputeThreeMaxima.loop histo L (-1) (-1) (-1)).ind1.toNat
          = (ComputeThreeMaxima.loop histo L (-1) (-1) (-1)).max1) ∧
      (0 < (ComputeThreeMaxima.loop histo L (-1) (-1) (-1)).max2 →
        binSize histo (ComputeThreeMaxima.loop histo L (-1) (-1) (-1)).ind2.toNat
          = (ComputeThreeMaxima.loop histo L (-1) (-1) (-1)).max2) ∧
      (0 < (ComputeThreeMaxima.loop histo L (-1) (-1) (-1)).max3 →
        binSize histo (ComputeThreeMaxima.loop histo L (-1) (-1) (-1)).ind3.toNat
          = (ComputeThreeMaxima.loop histo L (-1) (-1) (-1)).max3)) ∧
    (ComputeThreeMaxima histo L (-1) (-1) (-1)).1
      = (ComputeThreeMaxima.loop histo L (-1) (-1) (-1)).ind1 ∧
    (((ComputeThreeMaxima histo L (-1) (-1) (-1)).2.1 ≠ -1 ↔
        (0 < (ComputeThreeMaxima.loop histo L (-1) (-1) (-1)).max2 ∧
          (1 / 10 : ℚ) * ((ComputeThreeMaxima.loop histo L (-1) (-1) (-1)).max1 : ℚ)
            ≤ ((ComputeThreeMaxima.loop histo L (-1) (-1) (-1)).max2 : ℚ))) ∧
      ((ComputeThreeMaxima histo L (-1) (-1) (-1)).2.1 ≠ -1 →
        (ComputeThreeMaxima histo L (-1) (-1) (-1)).2.1
          = (ComputeThreeMaxima.loop histo L (-1) (-1) (-1)).ind2)) ∧
    (((ComputeThreeMaxima histo L (-1) (-1) (-1)).2.2 ≠ -1 ↔
        ((ComputeThreeMaxima histo L (-1) (-1) (-1)).2.1 ≠ -1 ∧
          0 < (ComputeThreeMaxima.loop histo L (-1) (-1) (-1)).max3 ∧
          (1 / 10 : ℚ) * ((ComputeThreeMaxima.loop histo L (-1) (-1) (-1)).max1 : ℚ)
            ≤ ((ComputeThreeMaxima.loop histo L (-1) (-1) (-1)).max3 : ℚ))) ∧
      ((ComputeThreeMaxima histo L (-1) (-1) (-1)).2.2 ≠ -1 →
        (ComputeThreeMaxima histo L (-1) (-1) (-1)).2.2
          = (ComputeThreeMaxima.loop histo L (-1) (-1) (-1)).ind3)) ∧
    (∀ x : Int, (x = (ComputeThreeMaxima histo L (-1) (-1) (-1)).1 ∨
        x = (ComputeThreeMaxima histo L (-1) (-1) (-1)).2.1 ∨
        x = (ComputeThreeMaxima histo L (-1) (-1) (-1)).2.2) → x ≠ -1 →
      (1 / 10 : ℚ) * ((ComputeThreeMaxima.loop histo L (-1) (-1) (-1)).max1 : ℚ)
        ≤ (binSize histo x.toNat : ℚ)) := by
  obtain ⟨⟨o1, o2, o3⟩, ⟨s1, s2, s3⟩, ⟨d1, d2, d3⟩, ⟨b1, b2, b3⟩⟩ := ThreeMax.Inv.loop histo L
  unfold ThreeMax.Slot at s1 s2 s3
  unfold ComputeThreeMaxima
  generalize ComputeThreeMaxima.loop histo L (-1) (-1) (-1) = st at *
  dsimp only
  have q1 : (0 : ℚ) ≤ (st.max1 : ℚ) := by exact_mod_cast (by omega : (0:Int) ≤ st.max1)
  have q12 : (st.max2 : ℚ) ≤ (st.max1 : ℚ) := by exact_mod_cast o3
  have q23 : (st.max3 : ℚ) ≤ (st.max2 : ℚ) := by exact_mod_cast o2
  have top : ∀ x : Int, x = st.ind1 → x ≠ -1 →
      (1 / 10 : ℚ) * (st.max1 : ℚ) ≤ (binSize histo x.toNat : ℚ) := by
    intro x hx hne
    subst hx
    rcases s1 with ⟨e, _⟩ | ⟨p1, p2, p3, p4⟩
    · exact absurd e hne
    · rw [p3]; linarith
  refine ⟨⟨fun j hj => b1 j (lt_toNat_of_lt j L hj), fun j hj => b2 j (lt_toNat_of_lt j L hj),
    fun j hj => b3 j (lt_toNat_of_lt j L hj), ?_, ?_, ?_⟩, ?_⟩
  · intro h; rcases s1 with ⟨_, e⟩ | ⟨_, _, p3, _⟩
    · omega
    · exact p3
  · intro h; rcases s2 with ⟨_, e⟩ | ⟨_, _, p3, _⟩
    · omega
    · exact p3
  · intro h; rcases s3 with ⟨_, e⟩ | ⟨_, _, p3, _⟩
    · omega
    · exact p3
  split_ifs with c1 c2
  · dsimp only
    refine ⟨rfl, ⟨⟨fun h => absurd rfl h, fun ⟨_, h⟩ => absurd c1 (not_lt.mpr h)⟩,
      fun h => absurd rfl h⟩, ⟨⟨fun h => absurd rfl h, fun ⟨h, _⟩ => h⟩, fun h => absurd rfl h⟩, ?_⟩
    intro x hx hne
    rcases hx with hx | rfl | rfl
    · exact top x hx hne
    · exact absurd rfl hne
    · exact absurd rfl hne
  · dsimp only
    have c1' : (1 / 10 : ℚ) * (st.max1 : ℚ) ≤ (st.max2 : ℚ) := not_lt.mp c1
    refine ⟨rfl, ⟨⟨fun h => ?_, fun _ => ?_⟩, fun _ => rfl⟩,
      ⟨⟨fun h => absurd rfl h, fun ⟨_, _, h⟩ => absurd c2 (not_lt.mpr h)⟩, fun h => absurd rfl h⟩,
      ?_⟩
    · rcases s2 with ⟨e, _⟩ | ⟨_, _, _, p4⟩
      · exact absurd e h
      · exact ⟨p4, c1'⟩
    · rcases s2 with ⟨_, e⟩ | ⟨p1, _, _, _⟩
      · exfalso
        have h3 : st.max3 = 0 := by omega
        rw [h3] at c2; rw [e] at c1'
        have : (0 : ℚ) < (1 / 10 : ℚ) * (st.max1 : ℚ) := by simpa using c2
        have : ((0 : Int) : ℚ) < 0 := lt_of_lt_of_le this c1'
        simp at this
      · omega
    · intro x hx hne
      rcases hx with hx | rfl | rfl
      · exact top x hx hne
      · rcases s2 with ⟨e, _⟩ | ⟨_, _, p3, _⟩
        · exact absurd e hne
        · rw [p3]; exact c1'
      · exact absurd rfl hne
  · dsimp only
    have c1' : (1 / 10 : ℚ) * (st.max1 : ℚ) ≤ (st.max2 : ℚ) := not_lt.mp c1
    have c2' : (1 / 10 : ℚ) * (st.max1 : ℚ) ≤ (st.max3 : ℚ) := not_lt.mp c2
    have hpos : ∀ (m i : Int), ((i = -1 ∧ m = 0) ∨ (0 ≤ i ∧ i < L.toNat ∧
        binSize histo i.toNat = m ∧ 0 < m)) → (i ≠ -1 ↔ 0 < m) := by
      intro m i hs
      rcases hs with ⟨e1, e2⟩ | ⟨p1, _, _, p4⟩
      · constructor
        · intro h; exact absurd e1 h
        · intro h; omega
      · constructor
        · intro _; exact p4
        · intro _; omega
    refine ⟨rfl, ⟨⟨fun h => ⟨(hpos _ _ s2).mp h, c1'⟩, fun h => (hpos _ _ s2).mpr h.1⟩,
      fun _ => rfl⟩, ⟨⟨fun h => ⟨?_, (hpos _ _ s3).mp h, c2'⟩,
      fun h => (hpos _ _ s3).mpr h.2.1⟩, fun _ => rfl⟩, ?_⟩
    · have := (hpos _ _ s3).mp h
      exact (hpos _ _ s2).mpr (by omega)
    · intro x hx hne
      rcases hx with hx | rfl | rfl
      · exact top x hx hne
      · rcases s2 with ⟨e, _⟩ | ⟨_, _, p3, _⟩
        · exact absurd e hne
        · rw [p3]; exact c1'
      · rcases s3 with ⟨e, _⟩ | ⟨_, _, p3, _⟩
        · exact absurd e hne
        · rw [p3]; exact c2'

/-! ## SearchByBoW: monotonicity in the ratio -/

theorem DescriptorDistance_bounds (a b : Descriptor) :
    0 ≤ DescriptorDistance a b ∧ DescriptorDistance a b ≤ 256 := by
  have w0 := wordCount_le a b 0
  have w1 := wordCount_le a b 1
  have w2 := wordCount_le a b 2
  have w3 := wordCount_le a b 3
  have w4 := wordCount_le a b 4
  have w5 := wordCount_le a b 5
  have w6 := wordCount_le a b 6
  have w7 := wordCount_le a b 7
  rw [DescriptorDistance_eq_sum]
  constructor <;> omega

theorem getD_set_isSome (m : List (Option MapPoint)) (i j : Nat) (p : MapPoint) :
    ((m.set i (some p)).getD j none).isSome = true ↔
      ((j = i ∧ i < m.length) ∨ (m.getD j none).isSome = true) := by
  rw [List.getD_eq_getElem?_getD, List.getD_eq_getElem?_getD, List.getElem?_set]
  by_cases hij : i = j
  · subst hij
    by_cases hl : i < m.length
    · simp [hl]
    · simp [hl]
      have : m[i]? = none := List.getElem?_eq_none (by omega)
      simp [this]
  · simp [hij]
    intro h; exact absurd h.symm hij

theorem isSome_lt_length (m : List (Option MapPoint)) (i : Nat)
    (h : (m.getD i none).isSome = true) : i < m.length := by
  by_contra hcon
  rw [List.getD_eq_getElem?_getD, List.getElem?_eq_none (by omega)] at h
  simp at h

theorem numMatched_set (m : List (Option MapPoint)) (i : Nat) (p : MapPoint)
    (hfree : (m.getD i none).isSome = false) :
    numMatched (m.set i (some p)) = numMatched m + (if i < m.length then 1 else 0) := by
  unfold numMatched
  by_cases hl : i < m.length
  · rw [List.countP_set _ _ _ _ hl, if_pos hl]
    have : m[i].isSome = false := by
      rw [List.getD_eq_getElem?_getD, List.getElem?_eq_getElem hl] at hfree
      simpa using hfree
    simp [this]
  · rw [List.set_eq_of_length_le (by omega), if_neg hl]
    simp

theorem numMatched_mono : ∀ (m1 m2 : List (Option MapPoint)), m1.length = m2.length →
    (∀ i : Nat, (m1.getD i none).isSome = true → (m2.getD i none).isSome = true) →
    numMatched m1 ≤ numMatched m2
  | [], [], _, _ => le_refl _
  | [], _ :: _, h, _ => by simp at h
  | _ :: _, [], h, _ => by simp at h
  | a :: m1, b :: m2, h, hsub => by
    have ih := numMatched_mono m1 m2 (by simpa using h) (fun i hi => by
      have := hsub (i + 1)
      simpa using this hi)
    have h0 := hsub 0
    simp only [List.getD_cons_zero] at h0
    unfold numMatched at ih ⊢
    rw [List.countP_cons, List.countP_cons]
    by_cases ha : a.isSome = true
    · simp [ha, h0 ha]; omega
    · simp [ha]
      split_ifs <;> omega

theorem Best2.Ok.ok_init (m : List (Option MapPoint)) :
    Best2.Ok m { bestDist1 := 256, bestIdxF := -1, bestDist2 := 256 } := by
  refine ⟨by norm_num, le_refl _, le_refl _, fun h => ?_⟩
  exact absurd h (lt_irrefl _)

theorem Best2.Ok.ok_scan {F : Frame} {m : List (Option MapPoint)} {dKF : Descriptor} {b : Best2}
    (h : Best2.Ok m b) (x : Nat) : Best2.Ok m (SearchByBoW.scan F m dKF b x) := by
  obtain ⟨h0, h1, h2, h3⟩ := h
  obtain ⟨d0, d1⟩ := DescriptorDistance_bounds dKF (F.mDescriptors.getD x Descriptor.zero)
  unfold SearchByBoW.scan
  by_cases hx : (m.getD x none).isSome = true
  · rw [if_pos hx]; exact ⟨h0, h1, h2, h3⟩
  · rw [if_neg hx]
    dsimp only
    split_ifs with c1 c2
    · exact ⟨d0, by dsimp only; omega, by dsimp only; omega, fun _ => ⟨x, rfl, by simpa using hx⟩⟩
    · exact ⟨h0, by dsimp only; omega, by dsimp only; omega, h3⟩
    · exact ⟨h0, h1, h2, h3⟩

theorem Best2.Ok.ok_foldl {F : Frame} {m : List (Option MapPoint)} {dKF : Descriptor} :
    ∀ (l : List Nat) {b : Best2}, Best2.Ok m b →
      Best2.Ok m (l.foldl (SearchByBoW.scan F m dKF) b)
  | [], _, h => h
  | x :: l, _, h => Best2.Ok.ok_foldl l (h.ok_scan x)

theorem Best2.Rel.rel_scan {F : Frame} {m1 m2 : List (Option MapPoint)} {dKF : Descriptor}
    {b1 b2 : Best2}
    (hsub : ∀ i : Nat, (m1.getD i none).isSome = true → (m2.getD i none).isSome = true)
    (k2 : Best2.Ok m2 b2) (h : Best2.Rel m2 b1 b2) (x : Nat) :
    Best2.Rel m2 (SearchByBoW.scan F m1 dKF b1 x) (SearchByBoW.scan F m2 dKF b2 x) := by
  obtain ⟨r1, r2, r3⟩ := h
  obtain ⟨_, q1, _, _⟩ := k2
  unfold SearchByBoW.scan
  by_cases hx1 : (m1.getD x none).isSome = true
  · rw [if_pos hx1, if_pos (hsub x hx1)]; exact ⟨r1, r2, r3⟩
  · rw [if_neg hx1]
    by_cases hx2 : (m2.getD x none).isSome = true
    · rw [if_pos hx2]
      dsimp only
      split_ifs with c1 c2
      · refine ⟨by dsimp only; omega, by dsimp only; omega, fun _ hfree => ?_⟩
        dsimp only at hfree
        rw [Int.toNat_ofNat] at hfree
        rw [hfree] at hx2; exact absurd hx2 (by simp)
      · exact ⟨r1, by dsimp only; omega, r3⟩
      · exact ⟨r1, r2, r3⟩
    · rw [if_neg hx2]
      dsimp only
      split_ifs with c1 c2 c3 c4 c5 c6 c7
      all_goals first
        | exact ⟨by dsimp only; omega, by dsimp only; omega, fun _ _ => ⟨rfl, rfl⟩⟩
        | (refine ⟨by (try dsimp only); omega, by (try dsimp only); omega, fun hlt hfree => ?_⟩
           try dsimp only at hlt hfree ⊢
           have := r3 hlt hfree
           omega)
        | (exfalso; omega)

theorem Best2.Rel.rel_foldl {F : Frame} {m1 m2 : List (Option MapPoint)} {dKF : Descriptor}
    (hsub : ∀ i : Nat, (m1.getD i none).isSome = true → (m2.getD i none).isSome = true) :
    ∀ (l : List Nat) {b1 b2 : Best2}, Best2.Ok m2 b2 → Best2.Rel m2 b1 b2 →
      Best2.Rel m2 (l.foldl (SearchByBoW.scan F m1 dKF) b1)
        (l.foldl (SearchByBoW.scan F m2 dKF) b2)
  | [], _, _, _, h => h
  | x :: l, _, _, k2, h => Best2.Rel.rel_foldl hsub l (k2.ok_scan x) (h.rel_scan hsub k2 x)

theorem ite_ite_of_not_and {α : Type} {A B : Prop} [Decidable A] [Decidable B] (x y : α)
    (h : ¬ (A ∧ B)) : (if A then if B then x else y else y) = y := by
  split_ifs with hA hB
  · exact absurd ⟨hA, hB⟩ h
  · rfl
  · rfl

theorem Best2.Rel.rel_init (m2 : List (Option MapPoint)) :
    Best2.Rel m2 { bestDist1 := 256, bestIdxF := -1, bestDist2 := 256 }
      { bestDist1 := 256, bestIdxF := -1, bestDist2 := 256 } :=
  ⟨le_refl _, le_refl _, fun _ _ => ⟨rfl, rfl⟩⟩

/-- The ratio test is monotone in the ratio and in the second-best distance. -/
theorem ratio_test_mono {r1 r2 : ℚ} (hr : r1 ≤ r2) {d s1 s2 : Int} (hd : 0 ≤ d) (hs : 0 ≤ s1)
    (h12 : s1 ≤ s2) (h : (d : ℚ) < f32 (r1 * (s1 : ℚ))) : (d : ℚ) < f32 (r2 * (s2 : ℚ)) := by
  have hd' : (0 : ℚ) ≤ (d : ℚ) := by exact_mod_cast hd
  have hs' : (0 : ℚ) ≤ (s1 : ℚ) := by exact_mod_cast hs
  have h12' : (s1 : ℚ) ≤ (s2 : ℚ) := by exact_mod_cast h12
  have hpos : 0 < r1 * (s1 : ℚ) := by
    by_contra hcon
    have := f32_mono (not_lt.mp hcon)
    rw [f32_zero] at this
    linarith
  have hr1 : 0 < r1 := by
    by_contra hcon
    have : r1 * (s1 : ℚ) ≤ 0 := mul_nonpos_of_nonpos_of_nonneg (not_lt.mp hcon) hs'
    linarith
  have hr2 : 0 ≤ r2 := le_of_lt (lt_of_lt_of_le hr1 hr)
  have hle : r1 * (s1 : ℚ) ≤ r2 * (s2 : ℚ) :=
    calc r1 * (s1 : ℚ) ≤ r2 * (s1 : ℚ) := mul_le_mul_of_nonneg_right hr hs'
      _ ≤ r2 * (s2 : ℚ) := mul_le_mul_of_nonneg_left h12' hr2
  exact lt_of_lt_of_le h (f32_mono hle)

theorem MatchState.Le.refl (st : MatchState) : MatchState.Le st st :=
  ⟨rfl, fun _ h => h, le_refl _⟩

/-- Recording a match in the second run only keeps the relation. -/
theorem MatchState.Le.set_right {st1 st2 : MatchState} (h : MatchState.Le st1 st2) (i : Nat)
    (p : MapPoint) (hist : List (List Int))
    (hfree : (st2.mvpMapPoints.getD i none).isSome = false) :
    MatchState.Le st1
      { mvpMapPoints := st2.mvpMapPoints.set i (some p), nmatches := st2.nmatches + 1,
        rotHist := hist } := by
  obtain ⟨hl, hsub, hn⟩ := h
  refine ⟨by simp [hl], fun j hj => ?_, ?_⟩
  · exact (getD_set_isSome _ _ _ _).mpr (Or.inr (hsub j hj))
  · dsimp only
    rw [numMatched_set _ _ _ hfree]
    split_ifs <;> omega

/-- Recording a match in both runs keeps the relation, when the slot chosen by the first run is
either the slot chosen by the second run or already taken in the second run. -/
theorem MatchState.Le.set_both {st1 st2 : MatchState} (h : MatchState.Le st1 st2) (i1 i2 : Nat)
    (p : MapPoint) (hist1 hist2 : List (List Int))
    (hfree1 : (st1.mvpMapPoints.getD i1 none).isSome = false)
    (hfree2 : (st2.mvpMapPoints.getD i2 none).isSome = false)
    (hcase : i1 = i2 ∨ (st2.mvpMapPoints.getD i1 none).isSome = true) :
    MatchState.Le
      { mvpMapPoints := st1.mvpMapPoints.set i1 (some p), nmatches := st1.nmatches + 1,
        rotHist := hist1 }
      { mvpMapPoints := st2.mvpMapPoints.set i2 (some p), nmatches := st2.nmatches + 1,
        rotHist := hist2 } := by
  obtain ⟨hl, hsub, hn⟩ := h
  refine ⟨by simp [hl], fun j hj => ?_, ?_⟩
  · dsimp only at hj ⊢
    rw [getD_set_isSome] at hj ⊢
    rcases hj with ⟨rfl, hlt⟩ | hj
    · rcases hcase with rfl | hc
      · exact Or.inl ⟨rfl, by omega⟩
      · exact Or.inr hc
    · exact Or.inr (hsub j hj)
  · dsimp only
    rw [numMatched_set _ _ _ hfree1, numMatched_set _ _ _ hfree2]
    rcases hcase with rfl | hc
    · rw [hl]; split_ifs <;> omega
    · have := isSome_lt_length _ _ hc
      rw [if_pos (by omega : i1 < st1.mvpMapPoints.length)]
      split_ifs <;> omega

/-- Recording a match in the first run only keeps the relation, when the slot is already taken
in the second run. -/
theorem MatchState.Le.set_left {st1 st2 : MatchState} (h : MatchState.Le st1 st2) (i1 : Nat)
    (p : MapPoint) (hist1 : List (List Int))
    (hfree1 : (st1.mvpMapPoints.getD i1 none).isSome = false)
    (htaken : (st2.mvpMapPoints.getD i1 none).isSome = true) :
    MatchState.Le
      { mvpMapPoints := st1.mvpMapPoints.set i1 (some p), nmatches := st1.nmatches + 1,
        rotHist := hist1 } st2 := by
  obtain ⟨hl, hsub, hn⟩ := h
  refine ⟨by simp [hl], fun j hj => ?_, ?_⟩
  · dsimp only at hj
    rw [getD_set_isSome] at hj
    rcases hj with ⟨rfl, _⟩ | hj
    · exact htaken
    · exact hsub j hj
  · dsimp only
    rw [numMatched_set _ _ _ hfree1]
    have := isSome_lt_length _ _ htaken
    rw [if_pos (by omega : i1 < st1.mvpMapPoints.length)]
    omega

theorem MatchState.Le.le_matchKF {r1 r2 : ℚ} (hr : r1 ≤ r2) (c1 c2 : Bool) (pKF : KeyFrame)
    (F : Frame) (vIndicesF : List Nat) {st1 st2 : MatchState} (h : MatchState.Le st1 st2)
    (realIdxKF : Nat) :
    MatchState.Le (SearchByBoW.matchKF r1 c1 pKF F vIndicesF st1 realIdxKF)
      (SearchByBoW.matchKF r2 c2 pKF F vIndicesF st2 realIdxKF) := by
  unfold SearchByBoW.matchKF
  cases hp : pKF.mvpMapPoints.getD realIdxKF none with
  | none => exact h
  | some pMP =>
    dsimp only
    by_cases hbad : pMP.isBad = true
    · rw [if_pos hbad, if_pos hbad]; exact h
    · rw [if_neg hbad, if_neg hbad]
      have k1 := @Best2.Ok.ok_foldl F st1.mvpMapPoints
        (pKF.mDescriptors.getD realIdxKF Descriptor.zero) vIndicesF _ (Best2.Ok.ok_init _)
      have k2 := @Best2.Ok.ok_foldl F st2.mvpMapPoints
        (pKF.mDescriptors.getD realIdxKF Descriptor.zero) vIndicesF _ (Best2.Ok.ok_init _)
      have rel := @Best2.Rel.rel_foldl F st1.mvpMapPoints st2.mvpMapPoints
        (pKF.mDescriptors.getD realIdxKF Descriptor.zero) h.2.1 vIndicesF _ _
        (Best2.Ok.ok_init _) (Best2.Rel.rel_init _)
      generalize vIndicesF.foldl (SearchByBoW.scan F st1.mvpMapPoints
        (pKF.mDescriptors.getD realIdxKF Descriptor.zero))
        { bestDist1 := 256, bestIdxF := -1, bestDist2 := 256 } = b1 at k1 rel ⊢
      generalize vIndicesF.foldl (SearchByBoW.scan F st2.mvpMapPoints
        (pKF.mDescriptors.getD realIdxKF Descriptor.zero))
        { bestDist1 := 256, bestIdxF := -1, bestDist2 := 256 } = b2 at k2 rel ⊢
      obtain ⟨a0, a1, a2, a3⟩ := k1
      obtain ⟨e0, e1, e2, e3⟩ := k2
      obtain ⟨f1, f2, f3⟩ := rel
      have hTH : TH_LOW = 50 := rfl
      by_cases D1 : b1.bestDist1 ≤ TH_LOW ∧ (b1.bestDist1 : ℚ) < f32 (r1 * (b1.bestDist2 : ℚ))
      · rw [if_pos D1.1, if_pos D1.2]
        obtain ⟨i1, hi1, hfree1⟩ := a3 (by omega)
        by_cases hfree12 : (st2.mvpMapPoints.getD i1 none).isSome = true
        · -- the slot of the first run is taken in the second run
          by_cases D2 : b2.bestDist1 ≤ TH_LOW ∧ (b2.bestDist1 : ℚ) < f32 (r2 * (b2.bestDist2 : ℚ))
          · rw [if_pos D2.1, if_pos D2.2]
            obtain ⟨i2, hi2, hfree2⟩ := e3 (by omega)
            rw [hi1, hi2, Int.toNat_ofNat, Int.toNat_ofNat]
            exact h.set_both i1 i2 pMP _ _ hfree1 hfree2 (Or.inr hfree12)
          · rw [ite_ite_of_not_and _ _ D2, hi1, Int.toNat_ofNat]
            exact h.set_left i1 pMP _ hfree1 hfree12
        · -- the slot of the first run is free in the second run: both runs take it
          have hfree2 : (st2.mvpMapPoints.getD i1 none).isSome = false := by simpa using hfree12
          have hsame := f3 (by omega) (by rw [hi1, Int.toNat_ofNat]; exact hfree2)
          have D2a : b2.bestDist1 ≤ TH_LOW := by omega
          have D2b : (b2.bestDist1 : ℚ) < f32 (r2 * (b2.bestDist2 : ℚ)) := by
            rw [hsame.1]
            exact ratio_test_mono hr a0 (by omega) f2 D1.2
          rw [if_pos D2a, if_pos D2b, hsame.2, hi1, Int.toNat_ofNat]
          exact h.set_both i1 i1 pMP _ _ hfree1 hfree2 (Or.inl rfl)
      · rw [ite_ite_of_not_and _ _ D1]
        by_cases D2 : b2.bestDist1 ≤ TH_LOW ∧ (b2.bestDist1 : ℚ) < f32 (r2 * (b2.bestDist2 : ℚ))
        · rw [if_pos D2.1, if_pos D2.2]
          obtain ⟨i2, hi2, hfree2⟩ := e3 (by omega)
          rw [hi2, Int.toNat_ofNat]
          exact h.set_right i2 pMP _ hfree2
        · rw [ite_ite_of_not_and _ _ D2]
          exact h

theorem MatchState.Le.le_foldl_matchKF {r1 r2 : ℚ} (hr : r1 ≤ r2) (c1 c2 : Bool) (pKF : KeyFrame)
    (F : Frame) (vIndicesF : List Nat) :
    ∀ (vIndicesKF : List Nat) {st1 st2 : MatchState}, MatchState.Le st1 st2 →
      MatchState.Le (vIndicesKF.foldl (SearchByBoW.matchKF r1 c1 pKF F vIndicesF) st1)
        (vIndicesKF.foldl (SearchByBoW.matchKF r2 c2 pKF F vIndicesF) st2)
  | [], _, _, h => h
  | x :: l, _, _, h =>
    MatchState.Le.le_foldl_matchKF hr c1 c2 pKF F vIndicesF l (h.le_matchKF hr c1 c2 pKF F vIndicesF x)

theorem MatchState.Le.le_walk {r1 r2 : ℚ} (hr : r1 ≤ r2) (c1 c2 : Bool) (pKF : KeyFrame)
    (F : Frame) :
    ∀ (fuel : Nat) (KFit Fit : FeatureVector) {st1 st2 : MatchState}, MatchState.Le st1 st2 →
      MatchState.Le (SearchByBoW.walk r1 c1 pKF F fuel KFit Fit st1)
        (SearchByBoW.walk r2 c2 pKF F fuel KFit Fit st2)
  | 0, _, _, _, _, h => by simpa [SearchByBoW.walk] using h
  | _ + 1, [], _, _, _, h => by simpa [SearchByBoW.walk] using h
  | _ + 1, _ :: _, [], _, _, h => by simpa [SearchByBoW.walk] using h
  | fuel + 1, (kfFirst, vIndicesKF) :: kfRest, (fFirst, vIndicesF) :: fRest, _, _, h => by
    unfold SearchByBoW.walk
    split_ifs with e1 e2
    · exact MatchState.Le.le_walk hr c1 c2 pKF F fuel _ _
        (MatchState.Le.le_foldl_matchKF hr c1 c2 pKF F vIndicesF vIndicesKF h)
    · exact MatchState.Le.le_walk hr c1 c2 pKF F fuel _ _ h
    · exact MatchState.Le.le_walk hr c1 c2 pKF F fuel _ _ h

theorem MatchState.Le.nmatches_le {st1 st2 : MatchState} (h : MatchState.Le st1 st2) :
    st1.nmatches ≤ st2.nmatches := by
  obtain ⟨hl, hsub, hn⟩ := h
  have := numMatched_mono _ _ hl hsub
  omega

/-- C5 (amended): with the orientation check disabled, the number of matches returned by
`SearchByBoW` is monotone in the ratio: for every keyframe and frame and every two ratios
`r1 ≤ r2`, the count returned with `nnRatio = r1` is at most the count returned with
`nnRatio = r2`. -/
theorem C5_SearchByBoW_ratio_mono_unfiltered (pKF : KeyFrame) (F : Frame) (r1 r2 : ℚ)
    (hr : r1 ≤ r2) :
    (SearchByBoW r1 false pKF F).2 ≤ (SearchByBoW r2 false pKF F).2 := by
  unfold SearchByBoW
  simp only [Bool.false_eq_true, if_false]
  unfold SearchByBoW.matching
  exact (MatchState.Le.le_walk hr false false pKF F _ _ _ (MatchState.Le.refl _)).nmatches_le

/-- Witness of the amended C5 on the example keyframe and frame, for the ratios 0.7 and 0.9. -/
theorem C5_SearchByBoW_ratio_mono_unfiltered_witness :
    (7 / 10 : ℚ) ≤ 9 / 10 ∧
    (SearchByBoW (7 / 10) false ratioExampleKF ratioExampleF).2
      ≤ (SearchByBoW (9 / 10) false ratioExampleKF ratioExampleF).2 :=
  ⟨by norm_num,
    C5_SearchByBoW_ratio_mono_unfiltered ratioExampleKF ratioExampleF (7 / 10) (9 / 10)
      (by norm_num)⟩

set_option maxRecDepth 1000000 in
set_option maxHeartbeats 4000000 in
/-- C5 (as stated) fails with the orientation check enabled: on the example keyframe and frame
the ratio 0.7 yields 4 matches (all in one histogram bin), the larger ratio 0.9 yields 4
matches in four different bins, of which the rotation filter keeps 3. -/
theorem C5_counterexample :
    (7 / 10 : ℚ) ≤ 9 / 10 ∧
    (SearchByBoW (7 / 10) true ratioExampleKF ratioExampleF).2 = 4 ∧
    (SearchByBoW (9 / 10) true ratioExampleKF ratioExampleF).2 = 3 ∧
    ¬ ((SearchByBoW (7 / 10) true ratioExampleKF ratioExampleF).2
      ≤ (SearchByBoW (9 / 10) true ratioExampleKF ratioExampleF).2) := by
  have h1 : (SearchByBoW (7 / 10) true ratioExampleKF ratioExampleF).2 = 4 := by
    with_unfolding_all decide
  have h2 : (SearchByBoW (9 / 10) true ratioExampleKF ratioExampleF).2 = 3 := by
    with_unfolding_all decide
  refine ⟨by norm_num, h1, h2, ?_⟩
  rw [h1, h2]
  norm_num

/-! ## The rotation consistency filter only removes matches -/

theorem clearBin_snd (bin : List Int) : ∀ (s : List (Option MapPoint) × Int),
    (rotationFilter.clearBin s bin).2 = s.2 - (bin.length : Int) := by
  induction bin with
  | nil => intro s; simp [rotationFilter.clearBin]
  | cons x bin ih =>
    intro s
    have := ih (s.1.set x.toNat none, s.2 - 1)
    unfold rotationFilter.clearBin at this ⊢
    rw [List.foldl_cons, this]
    simp only [List.length_cons]; push_cast; ring

theorem filter_foldl_snd (rotHist : List (List Int)) (r : Int × Int × Int) :
    ∀ (l : List Nat) (s : List (Option MapPoint) × Int),
    (l.foldl (fun s i => if rotationFilter.kept r i then s
      else rotationFilter.clearBin s (rotHist.getD i [])) s).2
      = s.2 - ((l.filter (fun i => !rotationFilter.kept r i)).map (binSize rotHist)).sum := by
  intro l
  induction l with
  | nil => intro s; simp
  | cons i l ih =>
    intro s
    rw [List.foldl_cons, ih]
    by_cases hk : rotationFilter.kept r i = true
    · simp [hk]
    · simp only [hk, Bool.false_eq_true, if_false]
      rw [clearBin_snd]
      simp [hk, binSize]
      ring

theorem rotationFilter_snd (rotHist : List (List Int)) (m : List (Option MapPoint)) (n : Int) :
    (rotationFilter rotHist m n).2 = n - discardedSize rotHist := by
  unfold rotationFilter discardedSize
  exact filter_foldl_snd rotHist _ _ (m, n)

theorem sum_filter_le (f : Nat → Int) (hf : ∀ i, 0 ≤ f i) (p : Nat → Bool) :
    ∀ l : List Nat, 0 ≤ ((l.filter p).map f).sum ∧ ((l.filter p).map f).sum ≤ (l.map f).sum := by
  intro l
  induction l with
  | nil => simp
  | cons i l ih =>
    have := hf i
    by_cases hp : p i = true
    · simp [List.filter_cons, hp]; constructor <;> omega
    · simp [List.filter_cons, hp]; constructor <;> omega

theorem discardedSize_bounds (rotHist : List (List Int)) :
    0 ≤ discardedSize rotHist ∧ discardedSize rotHist ≤ totalSize rotHist := by
  unfold discardedSize totalSize
  exact sum_filter_le (binSize rotHist) (binSize_nonneg rotHist) _ _

theorem binSize_set (h : List (List Int)) (k : Nat) (x : Int) (j : Nat) :
    binSize (h.set k (h.getD k [] ++ [x])) j
      = binSize h j + (if j = k ∧ k < h.length then 1 else 0) := by
  unfold binSize
  rw [List.getD_eq_getElem?_getD, List.getElem?_set]
  by_cases hjk : k = j
  · subst hjk
    by_cases hl : k < h.length
    · simp [hl]
    · have hnone : h[k]? = none := List.getElem?_eq_none (by omega)
      simp [hl, hnone]
  · have : ¬ (j = k ∧ k < h.length) := fun hh => hjk hh.1.symm
    simp [hjk, this, List.getD_eq_getElem?_getD]

theorem sum_binSize_set (h : List (List Int)) (k : Nat) (x : Int) : ∀ n : Nat,
    ((List.range n).map (binSize (h.set k (h.getD k [] ++ [x])))).sum
      = ((List.range n).map (binSize h)).sum + (if k < n ∧ k < h.length then 1 else 0) := by
  intro n
  induction n with
  | zero => simp
  | succ n ih =>
    rw [List.sum_range_succ, List.sum_range_succ, ih, binSize_set]
    split_ifs <;> omega

theorem totalSize_pushBin (h : List (List Int)) (bin idx : Int) :
    totalSize (pushBin h bin idx) ≤ totalSize h + 1 := by
  unfold pushBin
  split_ifs with hb
  · unfold totalSize
    rw [sum_binSize_set]
    split_ifs <;> omega
  · omega

theorem totalSize_empty : totalSize emptyRotHist = 0 := by
  with_unfolding_all decide

theorem MatchState.HistOk.record {st : MatchState} (h : st.HistOk) (c : Bool)
    (m : List (Option MapPoint)) (bin idx : Int) :
    MatchState.HistOk
      { mvpMapPoints := m, nmatches := st.nmatches + 1,
        rotHist := if c = true then pushBin st.rotHist bin idx else st.rotHist } := by
  unfold MatchState.HistOk at h ⊢
  dsimp only
  have := totalSize_pushBin st.rotHist bin idx
  split_ifs <;> omega

theorem MatchState.HistOk.hist_matchKF (r : ℚ) (c : Bool) (pKF : KeyFrame) (F : Frame)
    (vIndicesF : List Nat) {st : MatchState} (h : st.HistOk) (realIdxKF : Nat) :
    (SearchByBoW.matchKF r c pKF F vIndicesF st realIdxKF).HistOk := by
  unfold SearchByBoW.matchKF
  cases pKF.mvpMapPoints.getD realIdxKF none with
  | none => exact h
  | some pMP =>
    dsimp only
    by_cases hbad : pMP.isBad = true
    · rw [if_pos hbad]; exact h
    · rw [if_neg hbad]
      by_cases h1 : (vIndicesF.foldl (SearchByBoW.scan F st.mvpMapPoints
          (pKF.mDescriptors.getD realIdxKF Descriptor.zero))
          { bestDist1 := 256, bestIdxF := -1, bestDist2 := 256 }).bestDist1 ≤ TH_LOW
      · rw [if_pos h1]
        by_cases h2 : (((vIndicesF.foldl (SearchByBoW.scan F st.mvpMapPoints
            (pKF.mDescriptors.getD realIdxKF Descriptor.zero))
            { bestDist1 := 256, bestIdxF := -1, bestDist2 := 256 }).bestDist1 : Int) : ℚ)
            < f32 (r * (((vIndicesF.foldl (SearchByBoW.scan F st.mvpMapPoints
            (pKF.mDescriptors.getD realIdxKF Descriptor.zero))
            { bestDist1 := 256, bestIdxF := -1, bestDist2 := 256 }).bestDist2 : Int) : ℚ))
        · rw [if_pos h2]; exact h.record c _ _ _
        · rw [if_neg h2]; exact h
      · rw [if_neg h1]; exact h

theorem MatchState.HistOk.hist_foldl_matchKF (r : ℚ) (c : Bool) (pKF : KeyFrame) (F : Frame)
    (vIndicesF : List Nat) : ∀ (vIndicesKF : List Nat) {st : MatchState}, st.HistOk →
      (vIndicesKF.foldl (SearchByBoW.matchKF r c pKF F vIndicesF) st).HistOk
  | [], _, h => h
  | x :: l, _, h =>
    MatchState.HistOk.hist_foldl_matchKF r c pKF F vIndicesF l (h.hist_matchKF r c pKF F vIndicesF x)

theorem MatchState.HistOk.hist_walk (r : ℚ) (c : Bool) (pKF : KeyFrame) (F : Frame) :
    ∀ (fuel : Nat) (KFit Fit : FeatureVector) {st : MatchState}, st.HistOk →
      (SearchByBoW.walk r c pKF F fuel KFit Fit st).HistOk
  | 0, _, _, _, h => by simpa [SearchByBoW.walk] using h
  | _ + 1, [], _, _, h => by simpa [SearchByBoW.walk] using h
  | _ + 1, _ :: _, [], _, h => by simpa [SearchByBoW.walk] using h
  | fuel + 1, (kfFirst, vIndicesKF) :: kfRest, (fFirst, vIndicesF) :: fRest, _, h => by
    unfold SearchByBoW.walk
    split_ifs with e1 e2
    · exact MatchState.HistOk.hist_walk r c pKF F fuel _ _
        (MatchState.HistOk.hist_foldl_matchKF r c pKF F vIndicesF vIndicesKF h)
    · exact MatchState.HistOk.hist_walk r c pKF F fuel _ _ h
    · exact MatchState.HistOk.hist_walk r c pKF F fuel _ _ h

theorem MatchState.HistOk.hist_init (m : List (Option MapPoint)) :
    MatchState.HistOk { mvpMapPoints := m, nmatches := 0, rotHist := emptyRotHist } := by
  unfold MatchState.HistOk
  dsimp only
  rw [totalSize_empty]

theorem MatchState.SameCore.core_matchKF (r : ℚ) (c1 c2 : Bool) (pKF : KeyFrame) (F : Frame)
    (vIndicesF : List Nat) {st1 st2 : MatchState} (h : MatchState.SameCore st1 st2)
    (realIdxKF : Nat) :
    MatchState.SameCore (SearchByBoW.matchKF r c1 pKF F vIndicesF st1 realIdxKF)
      (SearchByBoW.matchKF r c2 pKF F vIndicesF st2 realIdxKF) := by
  obtain ⟨m1, n1, h1⟩ := st1
  obtain ⟨m2, n2, h2⟩ := st2
  obtain ⟨hm, hn⟩ := h
  dsimp only at hm hn
  subst hm; subst hn
  unfold SearchByBoW.matchKF
  cases pKF.mvpMapPoints.getD realIdxKF none with
  | none => exact ⟨rfl, rfl⟩
  | some pMP =>
    dsimp only
    by_cases hbad : pMP.isBad = true
    · rw [if_pos hbad, if_pos hbad]; exact ⟨rfl, rfl⟩
    · rw [if_neg hbad, if_neg hbad]
      by_cases q1 : (vIndicesF.foldl (SearchByBoW.scan F m1
          (pKF.mDescriptors.getD realIdxKF Descriptor.zero))
          { bestDist1 := 256, bestIdxF := -1, bestDist2 := 256 }).bestDist1 ≤ TH_LOW
      · rw [if_pos q1, if_pos q1]
        by_cases q2 : (((vIndicesF.foldl (SearchByBoW.scan F m1
            (pKF.mDescriptors.getD realIdxKF Descriptor.zero))
            { bestDist1 := 256, bestIdxF := -1, bestDist2 := 256 }).bestDist1 : Int) : ℚ)
            < f32 (r * (((vIndicesF.foldl (SearchByBoW.scan F m1
            (pKF.mDescriptors.getD realIdxKF Descriptor.zero))
            { bestDist1 := 256, bestIdxF := -1, bestDist2 := 256 }).bestDist2 : Int) : ℚ))
        · rw [if_pos q2, if_pos q2]; exact ⟨rfl, rfl⟩
        · rw [if_neg q2, if_neg q2]; exact ⟨rfl, rfl⟩
      · rw [if_neg q1, if_neg q1]; exact ⟨rfl, rfl⟩

theorem MatchState.SameCore.core_foldl_matchKF (r : ℚ) (c1 c2 : Bool) (pKF : KeyFrame) (F : Frame)
    (vIndicesF : List Nat) : ∀ (vIndicesKF : List Nat) {st1 st2 : MatchState},
      MatchState.SameCore st1 st2 →
      MatchState.SameCore (vIndicesKF.foldl (SearchByBoW.matchKF r c1 pKF F vIndicesF) st1)
        (vIndicesKF.foldl (SearchByBoW.matchKF r c2 pKF F vIndicesF) st2)
  | [], _, _, h => h
  | x :: l, _, _, h =>
    MatchState.SameCore.core_foldl_matchKF r c1 c2 pKF F vIndicesF l
      (h.core_matchKF r c1 c2 pKF F vIndicesF x)

theorem MatchState.SameCore.core_walk (r : ℚ) (c1 c2 : Bool) (pKF : KeyFrame) (F : Frame) :
    ∀ (fuel : Nat) (KFit Fit : FeatureVector) {st1 st2 : MatchState},
      MatchState.SameCore st1 st2 →
      MatchState.SameCore (SearchByBoW.walk r c1 pKF F fuel KFit Fit st1)
        (SearchByBoW.walk r c2 pKF F fuel KFit Fit st2)
  | 0, _, _, _, _, h => by simpa [SearchByBoW.walk] using h
  | _ + 1, [], _, _, _, h => by simpa [SearchByBoW.walk] using h
  | _ + 1, _ :: _, [], _, _, h => by simpa [SearchByBoW.walk] using h
  | fuel + 1, (kfFirst, vIndicesKF) :: kfRest, (fFirst, vIndicesF) :: fRest, _, _, h => by
    unfold SearchByBoW.walk
    split_ifs with e1 e2
    · exact MatchState.SameCore.core_walk r c1 c2 pKF F fuel _ _
        (MatchState.SameCore.core_foldl_matchKF r c1 c2 pKF F vIndicesF vIndicesKF h)
    · exact MatchState.SameCore.core_walk r c1 c2 pKF F fuel _ _ h
    · exact MatchState.SameCore.core_walk r c1 c2 pKF F fuel _ _ h

theorem MatchState.HistOk.hist_select (c : Bool) (CurrentFrame LastFrame : Frame) {st : MatchState}
    (h : st.HistOk) (i : Nat) (pMP : MapPoint) (b : Best1) :
    (SearchByProjection_Frame.select c CurrentFrame LastFrame st i pMP b).HistOk := by
  unfold SearchByProjection_Frame.select
  by_cases h1 : b.bestDist ≤ TH_HIGH
  · rw [if_pos h1]; exact h.record c _ _ _
  · rw [if_neg h1]; exact h

theorem MatchState.HistOk.hist_searchWindow (c : Bool) (CurrentFrame LastFrame : Frame) (th : ℚ)
    (bF bB : Bool) {st : MatchState} (h : st.HistOk) (i : Nat) (pMP : MapPoint)
    (u v invzc : ℚ) :
    (SearchByProjection_Frame.searchWindow c CurrentFrame LastFrame th bF bB st i pMP u v
      invzc).HistOk := by
  unfold SearchByProjection_Frame.searchWindow
  by_cases he : (SearchByProjection_Frame.window CurrentFrame LastFrame th bF bB i u
      v).isEmpty = true
  · rw [if_pos he]; exact h
  · rw [if_neg he]; exact h.hist_select c CurrentFrame LastFrame i pMP _

theorem MatchState.HistOk.hist_project (c : Bool) (CurrentFrame LastFrame : Frame) (th : ℚ)
    (bF bB : Bool) {st : MatchState} (h : st.HistOk) (i : Nat) (pMP : MapPoint)
    (xc yc invzc : ℚ) :
    (SearchByProjection_Frame.project c CurrentFrame LastFrame th bF bB st i pMP xc yc
      invzc).HistOk := by
  unfold SearchByProjection_Frame.project
  by_cases he : SearchByProjection_Frame.outOfBounds CurrentFrame
      (CurrentFrame.fx * xc * invzc + CurrentFrame.cx)
      (CurrentFrame.fy * yc * invzc + CurrentFrame.cy) = true
  · rw [if_pos he]; exact h
  · rw [if_neg he]; exact h.hist_searchWindow c CurrentFrame LastFrame th bF bB i pMP _ _ _

theorem MatchState.HistOk.hist_zeroDepth (c : Bool) (CurrentFrame LastFrame : Frame) (th : ℚ)
    (bF bB : Bool) {st : MatchState} (h : st.HistOk) (i : Nat) (pMP : MapPoint) :
    (SearchByProjection_Frame.zeroDepth c CurrentFrame LastFrame th bF bB st i pMP).HistOk := by
  unfold SearchByProjection_Frame.zeroDepth
  split_ifs
  · exact h
  · exact h
  · exact h.hist_select c CurrentFrame LastFrame i pMP _

theorem MatchState.HistOk.hist_matchLast (c : Bool) (CurrentFrame LastFrame : Frame) (th : ℚ)
    (bF bB : Bool) {st : MatchState} (h : st.HistOk) (i : Nat) :
    (SearchByProjection_Frame.matchLast c CurrentFrame LastFrame th bF bB st i).HistOk := by
  unfold SearchByProjection_Frame.matchLast
  cases LastFrame.mvpMapPoints.getD i none with
  | none => exact h
  | some pMP =>
    dsimp only
    by_cases ho : LastFrame.mvbOutlier.getD i false = true
    · rw [if_pos ho]; exact h
    · rw [if_neg ho]
      by_cases hz0 : (SearchByProjection_Frame.x3Dc CurrentFrame pMP).z = 0
      · rw [if_pos hz0]; exact h.hist_zeroDepth c CurrentFrame LastFrame th bF bB i pMP
      · rw [if_neg hz0]
        by_cases hz : 1 / (SearchByProjection_Frame.x3Dc CurrentFrame pMP).z < 0
        · rw [if_pos hz]; exact h
        · rw [if_neg hz]; exact h.hist_project c CurrentFrame LastFrame th bF bB i pMP _ _ _

theorem MatchState.HistOk.hist_foldl_matchLast (c : Bool) (CurrentFrame LastFrame : Frame) (th : ℚ)
    (bF bB : Bool) : ∀ (l : List Nat) {st : MatchState}, st.HistOk →
      (l.foldl (SearchByProjection_Frame.matchLast c CurrentFrame LastFrame th bF bB) st).HistOk
  | [], _, h => h
  | x :: l, _, h =>
    MatchState.HistOk.hist_foldl_matchLast c CurrentFrame LastFrame th bF bB l
      (h.hist_matchLast c CurrentFrame LastFrame th bF bB x)

theorem MatchState.SameCore.core_select (c1 c2 : Bool) (CurrentFrame LastFrame : Frame)
    {st1 st2 : MatchState} (h : MatchState.SameCore st1 st2) (i : Nat) (pMP : MapPoint)
    (b : Best1) :
    MatchState.SameCore (SearchByProjection_Frame.select c1 CurrentFrame LastFrame st1 i pMP b)
      (SearchByProjection_Frame.select c2 CurrentFrame LastFrame st2 i pMP b) := by
  obtain ⟨hm, hn⟩ := h
  unfold SearchByProjection_Frame.select
  by_cases h1 : b.bestDist ≤ TH_HIGH
  · rw [if_pos h1, if_pos h1]
    exact ⟨by dsimp only; rw [hm], by dsimp only; rw [hn]⟩
  · rw [if_neg h1, if_neg h1]
    exact ⟨hm, hn⟩

theorem MatchState.SameCore.core_searchWindow (c1 c2 : Bool) (CurrentFrame LastFrame : Frame)
    (th : ℚ) (bF bB : Bool) {st1 st2 : MatchState} (h : MatchState.SameCore st1 st2) (i : Nat)
    (pMP : MapPoint) (u v invzc : ℚ) :
    MatchState.SameCore
      (SearchByProjection_Frame.searchWindow c1 CurrentFrame LastFrame th bF bB st1 i pMP u v
        invzc)
      (SearchByProjection_Frame.searchWindow c2 CurrentFrame LastFrame th bF bB st2 i pMP u v
        invzc) := by
  unfold SearchByProjection_Frame.searchWindow
  rw [h.1]
  by_cases he : (SearchByProjection_Frame.window CurrentFrame LastFrame th bF bB i u
      v).isEmpty = true
  · rw [if_pos he, if_pos he]; exact h
  · rw [if_neg he, if_neg he]; exact h.core_select c1 c2 CurrentFrame LastFrame i pMP _

theorem MatchState.SameCore.core_project (c1 c2 : Bool) (CurrentFrame LastFrame : Frame)
    (th : ℚ) (bF bB : Bool) {st1 st2 : MatchState} (h : MatchState.SameCore st1 st2) (i : Nat)
    (pMP : MapPoint) (xc yc invzc : ℚ) :
    MatchState.SameCore
      (SearchByProjection_Frame.project c1 CurrentFrame LastFrame th bF bB st1 i pMP xc yc invzc)
      (SearchByProjection_Frame.project c2 CurrentFrame LastFrame th bF bB st2 i pMP xc yc
        invzc) := by
  unfold SearchByProjection_Frame.project
  by_cases he : SearchByProjection_Frame.outOfBounds CurrentFrame
      (CurrentFrame.fx * xc * invzc + CurrentFrame.cx)
      (CurrentFrame.fy * yc * invzc + CurrentFrame.cy) = true
  · rw [if_pos he, if_pos he]; exact h
  · rw [if_neg he, if_neg he]
    exact h.core_searchWindow c1 c2 CurrentFrame LastFrame th bF bB i pMP _ _ _

theorem MatchState.SameCore.core_zeroDepth (c1 c2 : Bool) (CurrentFrame LastFrame : Frame)
    (th : ℚ) (bF bB : Bool) {st1 st2 : MatchState} (h : MatchState.SameCore st1 st2) (i : Nat)
    (pMP : MapPoint) :
    MatchState.SameCore
      (SearchByProjection_Frame.zeroDepth c1 CurrentFrame LastFrame th bF bB st1 i pMP)
      (SearchByProjection_Frame.zeroDepth c2 CurrentFrame LastFrame th bF bB st2 i pMP) := by
  unfold SearchByProjection_Frame.zeroDepth
  rw [h.1]
  split_ifs
  · exact h
  · exact h
  · exact h.core_select c1 c2 CurrentFrame LastFrame i pMP _

theorem MatchState.SameCore.core_matchLast (c1 c2 : Bool) (CurrentFrame LastFrame : Frame) (th : ℚ)
    (bF bB : Bool) {st1 st2 : MatchState} (h : MatchState.SameCore st1 st2) (i : Nat) :
    MatchState.SameCore
      (SearchByProjection_Frame.matchLast c1 CurrentFrame LastFrame th bF bB st1 i)
      (SearchByProjection_Frame.matchLast c2 CurrentFrame LastFrame th bF bB st2 i) := by
  unfold SearchByProjection_Frame.matchLast
  cases LastFrame.mvpMapPoints.getD i none with
  | none => exact h
  | some pMP =>
    dsimp only
    by_cases ho : LastFrame.mvbOutlier.getD i false = true
    · rw [if_pos ho, if_pos ho]; exact h
    · rw [if_neg ho, if_neg ho]
      by_cases hz0 : (SearchByProjection_Frame.x3Dc CurrentFrame pMP).z = 0
      · rw [if_pos hz0, if_pos hz0]
        exact h.core_zeroDepth c1 c2 CurrentFrame LastFrame th bF bB i pMP
      · rw [if_neg hz0, if_neg hz0]
        by_cases hz : 1 / (SearchByProjection_Frame.x3Dc CurrentFrame pMP).z < 0
        · rw [if_pos hz, if_pos hz]; exact h
        · rw [if_neg hz, if_neg hz]
          exact h.core_project c1 c2 CurrentFrame LastFrame th bF bB i pMP _ _ _

theorem MatchState.SameCore.core_foldl_matchLast (c1 c2 : Bool) (CurrentFrame LastFrame : Frame)
    (th : ℚ) (bF bB : Bool) : ∀ (l : List Nat) {st1 st2 : MatchState},
      MatchState.SameCore st1 st2 →
      MatchState.SameCore
        (l.foldl (SearchByProjection_Frame.matchLast c1 CurrentFrame LastFrame th bF bB) st1)
        (l.foldl (SearchByProjection_Frame.matchLast c2 CurrentFrame LastFrame th bF bB) st2)
  | [], _, _, h => h
  | x :: l, _, _, h =>
    MatchState.SameCore.core_foldl_matchLast c1 c2 CurrentFrame LastFrame th bF bB l
      (h.core_matchLast c1 c2 CurrentFrame LastFrame th bF bB x)

/-- C6: for `SearchByBoW` and for `SearchByProjection(CurrentFrame, LastFrame, th)`, on every
input, the count returned with the orientation check enabled equals the pre-filter count (which
is the count returned with the check disabled) minus the total size of the discarded histogram
bins; it is at most the count returned with the check disabled, and it is never negative. -/
theorem C6_rotation_filter_only_removes (r : ℚ) (pKF : KeyFrame) (F : Frame)
    (CurrentFrame LastFrame : Frame) (th : ℚ) :
    ((SearchByBoW r true pKF F).2
        = (SearchByBoW.matching r true pKF F).nmatches
          - discardedSize (SearchByBoW.matching r true pKF F).rotHist ∧
      (SearchByBoW.matching r true pKF F).nmatches = (SearchByBoW r false pKF F).2 ∧
      (SearchByBoW r true pKF F).2 ≤ (SearchByBoW r false pKF F).2 ∧
      0 ≤ (SearchByBoW r true pKF F).2) ∧
    ((SearchByProjection_Frame true CurrentFrame LastFrame th).2
        = (SearchByProjection_Frame.matching true CurrentFrame LastFrame th).nmatches
          - discardedSize (SearchByProjection_Frame.matching true CurrentFrame LastFrame th).rotHist ∧
      (SearchByProjection_Frame.matching true CurrentFrame LastFrame th).nmatches
        = (SearchByProjection_Frame false CurrentFrame LastFrame th).2 ∧
      (SearchByProjection_Frame true CurrentFrame LastFrame th).2
        ≤ (SearchByProjection_Frame false CurrentFrame LastFrame th).2 ∧
      0 ≤ (SearchByProjection_Frame true CurrentFrame LastFrame th).2) := by
  constructor
  · have e1 : (SearchByBoW r true pKF F).2
        = (SearchByBoW.matching r true pKF F).nmatches
          - discardedSize (SearchByBoW.matching r true pKF F).rotHist := by
      unfold SearchByBoW
      simp only [if_true]
      exact rotationFilter_snd _ _ _
    have e2 : (SearchByBoW.matching r true pKF F).nmatches = (SearchByBoW r false pKF F).2 := by
      unfold SearchByBoW
      simp only [Bool.false_eq_true, if_false]
      unfold SearchByBoW.matching
      exact (MatchState.SameCore.core_walk r true false pKF F _ _ _ ⟨rfl, rfl⟩).2
    have hk : (SearchByBoW.matching r true pKF F).HistOk := by
      unfold SearchByBoW.matching
      exact MatchState.HistOk.hist_walk r true pKF F _ _ _ (MatchState.HistOk.hist_init _)
    have hb := discardedSize_bounds (SearchByBoW.matching r true pKF F).rotHist
    unfold MatchState.HistOk at hk
    refine ⟨e1, e2, ?_, ?_⟩
    · rw [e1, ← e2]; omega
    · rw [e1]; omega
  · have e1 : (SearchByProjection_Frame true CurrentFrame LastFrame th).2
        = (SearchByProjection_Frame.matching true CurrentFrame LastFrame th).nmatches
          - discardedSize
            (SearchByProjection_Frame.matching true CurrentFrame LastFrame th).rotHist := by
      unfold SearchByProjection_Frame
      simp only [if_true]
      exact rotationFilter_snd _ _ _
    have e2 : (SearchByProjection_Frame.matching true CurrentFrame LastFrame th).nmatches
        = (SearchByProjection_Frame false CurrentFrame LastFrame th).2 := by
      unfold SearchByProjection_Frame
      simp only [Bool.false_eq_true, if_false]
      unfold SearchByProjection_Frame.matching
      exact (MatchState.SameCore.core_foldl_matchLast true false CurrentFrame LastFrame th _ _ _
        ⟨rfl, rfl⟩).2
    have hk : (SearchByProjection_Frame.matching true CurrentFrame LastFrame th).HistOk := by
      unfold SearchByProjection_Frame.matching
      exact MatchState.HistOk.hist_foldl_matchLast true CurrentFrame LastFrame th _ _ _
        (MatchState.HistOk.hist_init _)
    have hb := discardedSize_bounds
      (SearchByProjection_Frame.matching true CurrentFrame LastFrame th).rotHist
    unfold MatchState.HistOk at hk
    refine ⟨e1, e2, ?_, ?_⟩
    · rw [e1, ← e2]; omega
    · rw [e1]; omega

/-! ## The joint walk of `SearchByBoW` ends within `|pKF.mFeatVec| + |F.mFeatVec|` iterations -/

theorem lower_bound_skip (k1 k2 : Nat) (v : List Nat) (rest : FeatureVector) (h : k1 < k2) :
    ∀ (pre : FeatureVector), FeatureVector.Sorted (pre ++ (k1, v) :: rest) →
      FeatureVector.lower_bound (pre ++ (k1, v) :: rest) k2 = FeatureVector.lower_bound rest k2 := by
  intro pre
  induction pre with
  | nil =>
    intro _
    unfold FeatureVector.lower_bound
    rw [List.nil_append, List.dropWhile_cons]
    simp [h]
  | cons p pre ih =>
    intro hs
    unfold FeatureVector.Sorted at hs
    rw [List.cons_append, List.pairwise_cons] at hs
    have hp : p.1 < k1 := hs.1 (k1, v) (by simp)
    have := ih hs.2
    unfold FeatureVector.lower_bound at this ⊢
    rw [List.cons_append, List.dropWhile_cons]
    have hlt : p.1 < k2 := lt_trans hp h
    simp only [hlt, decide_True, if_true]
    exact this

theorem lower_bound_length_le (fv : FeatureVector) (k : Nat) :
    (FeatureVector.lower_bound fv k).length ≤ fv.length := by
  unfold FeatureVector.lower_bound
  exact (List.dropWhile_suffix _).length_le

theorem lower_bound_suffix (fv : FeatureVector) (k : Nat) :
    FeatureVector.lower_bound fv k <:+ fv := by
  unfold FeatureVector.lower_bound
  exact List.dropWhile_suffix _

theorem walk_nil_left (r : ℚ) (c : Bool) (pKF : KeyFrame) (F : Frame) (fuel : Nat)
    (Fit : FeatureVector) (st : MatchState) : SearchByBoW.walk r c pKF F fuel [] Fit st = st := by
  cases fuel <;> simp [SearchByBoW.walk]

theorem walk_nil_right (r : ℚ) (c : Bool) (pKF : KeyFrame) (F : Frame) (fuel : Nat)
    (KFit : FeatureVector) (st : MatchState) :
    SearchByBoW.walk r c pKF F fuel KFit [] st = st := by
  cases fuel <;> cases KFit <;> simp [SearchByBoW.walk]

/-- With sorted feature vectors, the result of the joint walk does not depend on the fuel, as
soon as the fuel is at least the number of entries left in the two vectors. -/
theorem walk_fuel_irrelevant (r : ℚ) (c : Bool) (pKF : KeyFrame) (F : Frame)
    (hKF : FeatureVector.Sorted pKF.mFeatVec) (hF : FeatureVector.Sorted F.mFeatVec) :
    ∀ (fuel1 fuel2 : Nat) (KFit Fit : FeatureVector) (st : MatchState),
      KFit <:+ pKF.mFeatVec → Fit <:+ F.mFeatVec →
      KFit.length + Fit.length ≤ fuel1 → KFit.length + Fit.length ≤ fuel2 →
      SearchByBoW.walk r c pKF F fuel1 KFit Fit st = SearchByBoW.walk r c pKF F fuel2 KFit Fit st := by
  intro fuel1
  induction fuel1 with
  | zero =>
    intro fuel2 KFit Fit st _ _ h1 _
    have : KFit = [] := List.length_eq_zero.mp (by omega)
    subst this
    rw [walk_nil_left, walk_nil_left]
  | succ f ih =>
    intro fuel2 KFit Fit st s1 s2 h1 h2
    match KFit, Fit, s1, s2, h1, h2 with
    | [], Fit, _, _, _, _ => rw [walk_nil_left, walk_nil_left]
    | _ :: _, [], _, _, _, _ => rw [walk_nil_right, walk_nil_right]
    | (k1, v1) :: rest1, (k2, v2) :: rest2, s1, s2, h1, h2 =>
      simp only [List.length_cons] at h1 h2
      obtain ⟨g, rfl⟩ : ∃ g, fuel2 = g + 1 := ⟨fuel2 - 1, by omega⟩
      unfold SearchByBoW.walk
      split_ifs with e1 e2
      · exact ih g rest1 rest2 _ (List.IsSuffix.trans (List.suffix_cons _ _) s1)
          (List.IsSuffix.trans (List.suffix_cons _ _) s2) (by omega) (by omega)
      · obtain ⟨pre, hpre⟩ := s1
        have hs : FeatureVector.Sorted (pre ++ (k1, v1) :: rest1) := by rw [hpre]; exact hKF
        have e := lower_bound_skip k1 k2 v1 rest1 e2 pre hs
        rw [hpre] at e
        have hl := lower_bound_length_le rest1 k2
        rw [← e] at hl
        exact ih g _ _ _ (lower_bound_suffix _ _) s2
          (by simp only [List.length_cons]; omega) (by simp only [List.length_cons]; omega)
      · have e3 : k2 < k1 := by omega
        obtain ⟨pre, hpre⟩ := s2
        have hs : FeatureVector.Sorted (pre ++ (k2, v2) :: rest2) := by rw [hpre]; exact hF
        have e := lower_bound_skip k2 k1 v2 rest2 e3 pre hs
        rw [hpre] at e
        have hl := lower_bound_length_le rest2 k1
        rw [← e] at hl
        exact ih g _ _ _ s1 (lower_bound_suffix _ _)
          (by simp only [List.length_cons]; omega) (by simp only [List.length_cons]; omega)

/-- The fuel given to the joint walk by `SearchByBoW.matching` is enough: with sorted feature
vectors, any larger number of iterations of the `while` loop gives the same state. -/
theorem SearchByBoW_matching_fuel (r : ℚ) (c : Bool) (pKF : KeyFrame) (F : Frame)
    (hKF : FeatureVector.Sorted pKF.mFeatVec) (hF : FeatureVector.Sorted F.mFeatVec)
    (fuel : Nat) (h : pKF.mFeatVec.length + F.mFeatVec.length ≤ fuel) :
    SearchByBoW.walk r c pKF F fuel pKF.mFeatVec F.mFeatVec
        { mvpMapPoints := List.replicate F.N none, nmatches := 0, rotHist := emptyRotHist }
      = SearchByBoW.matching r c pKF F := by
  unfold SearchByBoW.matching
  exact walk_fuel_irrelevant r c pKF F hKF hF _ _ _ _ _ (List.suffix_refl _) (List.suffix_refl _)
    h (le_refl _)

/-- C20: the constants are `TH_HIGH = 100`, `TH_LOW = 50` and `HISTO_LENGTH = 30`, so that
`TH_LOW < TH_HIGH < 256`, and both thresholds are values taken by `DescriptorDistance`. -/
theorem C20_thresholds :
    TH_HIGH = 100 ∧ TH_LOW = 50 ∧ HISTO_LENGTH = 30 ∧ TH_LOW < TH_HIGH ∧ TH_HIGH < 256 ∧
    (∃ a b : Descriptor, DescriptorDistance a b = TH_LOW) ∧
    (∃ a b : Descriptor, DescriptorDistance a b = TH_HIGH) := by
  refine ⟨rfl, rfl, rfl, by decide, by decide, ?_, ?_⟩
  · exact ⟨Descriptor.zero, Descriptor.ofList [4294967295, 262143], by decide⟩
  · exact ⟨Descriptor.zero,
      Descriptor.ofList [4294967295, 4294967295, 4294967295, 15], by decide⟩

/-- C19: `RadiusByViewingCos c` is `2.5` when `c > 0.998` and `4.0` otherwise, `4.0` at
`c = 0.998`; the radius of the search window of `SearchByProjection(F, vpMapPoints, th)` is that
value for the viewing cosine of the map point, multiplied by `th` when `th ≠ 1`, multiplied by
the scale factor of the frame at the predicted octave of the map point; the window is searched
at the cached projection over the predicted octave and the one below, and the iteration for a
tracked good candidate scans exactly the keypoints of that window. -/
theorem C19_search_radius (mfNNratio : ℚ) (F : Frame) (st : List (Option MapPoint) × Int)
    (pMP : MapPoint) (th c : ℚ) :
    (c > 499 / 500 → RadiusByViewingCos c = 5 / 2) ∧
    (c ≤ 499 / 500 → RadiusByViewingCos c = 4) ∧
    RadiusByViewingCos (499 / 500) = 4 ∧
    (th ≠ 1 → SearchByProjection_MapPoints.radius F pMP th =
      RadiusByViewingCos pMP.mTrackViewCos * th
        * F.mvScaleFactors.getD pMP.mnTrackScaleLevel.toNat 0) ∧
    (th = 1 → SearchByProjection_MapPoints.radius F pMP th =
      RadiusByViewingCos pMP.mTrackViewCos
        * F.mvScaleFactors.getD pMP.mnTrackScaleLevel.toNat 0) ∧
    SearchByProjection_MapPoints.window F pMP th =
      F.GetFeaturesInArea pMP.mTrackProjX pMP.mTrackProjY
        (SearchByProjection_MapPoints.radius F pMP th)
        (pMP.mnTrackScaleLevel - 1) pMP.mnTrackScaleLevel ∧
    (pMP.mbTrackInView = true → pMP.isBad = false →
      SearchByProjection_MapPoints.matchMP mfNNratio F th st pMP =
        if (SearchByProjection_MapPoints.window F pMP th).isEmpty = true then st
        else SearchByProjection_MapPoints.select mfNNratio st pMP
          ((SearchByProjection_MapPoints.window F pMP th).foldl
            (SearchByProjection_MapPoints.scan F st.1 pMP th)
            { bestDist := 256, bestLevel := -1, bestDist2 := 256, bestLevel2 := -1,
              bestIdx := -1 })) := by
  refine ⟨?_, ?_, ?_, ?_, ?_, rfl, ?_⟩
  · intro h; unfold RadiusByViewingCos; rw [if_pos h]
  · intro h; unfold RadiusByViewingCos; rw [if_neg (not_lt.mpr h)]
  · unfold RadiusByViewingCos; rw [if_neg (lt_irrefl _)]
  · intro h
    unfold SearchByProjection_MapPoints.radius SearchByProjection_MapPoints.r
    rw [if_pos h]
  · intro h
    unfold SearchByProjection_MapPoints.radius SearchByProjection_MapPoints.r
    rw [if_neg (not_not.mpr h)]
  · intro hv hb
    unfold SearchByProjection_MapPoints.matchMP SearchByProjection_MapPoints.best
    rw [hv, hb]
    simp only [Bool.not_true, Bool.false_eq_true, if_false]

/-- Reading a vector of matches after one slot was written. -/
theorem getD_set_some (m : List (Option MapPoint)) (i j : Nat) (p q : MapPoint)
    (h : (m.set i (some p)).getD j none = some q) :
    (j = i ∧ q = p) ∨ m.getD j none = some q := by
  rw [List.getD_eq_getElem?_getD, List.getElem?_set] at h
  by_cases hij : i = j
  · rw [if_pos hij] at h
    by_cases hlt : i < m.length
    · rw [if_pos hlt] at h
      left
      exact ⟨hij.symm, by simpa using h.symm⟩
    · rw [if_neg hlt] at h
      simp at h
  · rw [if_neg hij] at h
    right
    rw [List.getD_eq_getElem?_getD]
    exact h

/-- An iteration of `SearchByProjection(F, vpMapPoints, th)` either leaves the state unchanged
or records the map point in one slot and counts it. -/
theorem select_cases (mfNNratio : ℚ) (st : List (Option MapPoint) × Int) (pMP : MapPoint)
    (b : Best3) :
    SearchByProjection_MapPoints.select mfNNratio st pMP b = st ∨
    SearchByProjection_MapPoints.select mfNNratio st pMP b =
      (st.1.set b.bestIdx.toNat (some pMP), st.2 + 1) := by
  unfold SearchByProjection_MapPoints.select
  by_cases h1 : b.bestDist ≤ TH_HIGH
  · rw [if_pos h1]
    by_cases h2 : b.bestLevel = b.bestLevel2 ∧ (b.bestDist : ℚ) > f32 (mfNNratio * (b.bestDist2 : ℚ))
    · rw [if_pos h2]; exact Or.inl rfl
    · rw [if_neg h2]; exact Or.inr rfl
  · rw [if_neg h1]; exact Or.inl rfl

/-- A candidate that is not tracked in view, or that is bad, leaves the state unchanged. -/
theorem matchMP_skip (mfNNratio : ℚ) (F : Frame) (th : ℚ) (st : List (Option MapPoint) × Int)
    (pMP : MapPoint) (h : (pMP.mbTrackInView && !pMP.isBad) = false) :
    SearchByProjection_MapPoints.matchMP mfNNratio F th st pMP = st := by
  unfold SearchByProjection_MapPoints.matchMP
  cases hv : pMP.mbTrackInView
  · simp
  · cases hb : pMP.isBad
    · rw [hv, hb] at h; simp at h
    · simp

/-- The effect of one candidate: nothing, or a match of a tracked good candidate. -/
theorem matchMP_cases (mfNNratio : ℚ) (F : Frame) (th : ℚ) (st : List (Option MapPoint) × Int)
    (pMP : MapPoint) :
    SearchByProjection_MapPoints.matchMP mfNNratio F th st pMP = st ∨
    ((pMP.mbTrackInView = true ∧ pMP.isBad = false) ∧ ∃ i : Nat,
      SearchByProjection_MapPoints.matchMP mfNNratio F th st pMP =
        (st.1.set i (some pMP), st.2 + 1)) := by
  by_cases hg : (pMP.mbTrackInView && !pMP.isBad) = false
  · exact Or.inl (matchMP_skip mfNNratio F th st pMP hg)
  · have hv : pMP.mbTrackInView = true := by
      cases h : pMP.mbTrackInView
      · rw [h] at hg; simp at hg
      · rfl
    have hb : pMP.isBad = false := by
      cases h : pMP.isBad
      · rfl
      · rw [h] at hg; simp at hg
    have hm : SearchByProjection_MapPoints.matchMP mfNNratio F th st pMP =
        if (SearchByProjection_MapPoints.window F pMP th).isEmpty = true then st
        else SearchByProjection_MapPoints.select mfNNratio st pMP
          (SearchByProjection_MapPoints.best F st.1 pMP th) := by
      unfold SearchByProjection_MapPoints.matchMP
      rw [hv, hb]
      simp only [Bool.not_true, Bool.false_eq_true, if_false]
    rw [hm]
    by_cases hw : (SearchByProjection_MapPoints.window F pMP th).isEmpty = true
    · rw [if_pos hw]; exact Or.inl rfl
    · rw [if_neg hw]
      rcases select_cases mfNNratio st pMP
        (SearchByProjection_MapPoints.best F st.1 pMP th) with h | h
      · exact Or.inl h
      · exact Or.inr ⟨⟨hv, hb⟩, _, h⟩

/-- A fold whose step ignores the elements failing a test is the fold over the elements that
pass it. -/
theorem foldl_filter_of_skip {σ α : Type} (f : σ → α → σ) (good : α → Bool)
    (hskip : ∀ s a, good a = false → f s a = s) (l : List α) (s : σ) :
    l.foldl f s = (l.filter good).foldl f s := by
  induction l generalizing s with
  | nil => rfl
  | cons a l ih =>
    cases hg : good a
    · rw [List.filter_cons_of_neg (by simp [hg]), List.foldl_cons, hskip s a hg]
      exact ih s
    · rw [List.filter_cons_of_pos hg, List.foldl_cons, List.foldl_cons]
      exact ih _

/-- The counter grows by at most one per candidate. -/
theorem foldl_matchMP_count (mfNNratio : ℚ) (F : Frame) (th : ℚ) (l : List MapPoint)
    (st : List (Option MapPoint) × Int) :
    st.2 ≤ (l.foldl (SearchByProjection_MapPoints.matchMP mfNNratio F th) st).2 ∧
    (l.foldl (SearchByProjection_MapPoints.matchMP mfNNratio F th) st).2 ≤ st.2 + l.length := by
  induction l generalizing st with
  | nil => simp
  | cons a l ih =>
    rw [List.foldl_cons]
    have h := ih (SearchByProjection_MapPoints.matchMP mfNNratio F th st a)
    have hstep : st.2 ≤ (SearchByProjection_MapPoints.matchMP mfNNratio F th st a).2 ∧
        (SearchByProjection_MapPoints.matchMP mfNNratio F th st a).2 ≤ st.2 + 1 := by
      rcases matchMP_cases mfNNratio F th st a with h | ⟨_, i, h⟩
      · rw [h]; omega
      · rw [h]; dsimp only; omega
    rw [List.length_cons]
    push_cast
    omega

/-- Every entry of the match vector after the loop is an entry of the initial vector or a
tracked good candidate. -/
theorem foldl_matchMP_entries (mfNNratio : ℚ) (F : Frame) (th : ℚ) (l : List MapPoint)
    (st : List (Option MapPoint) × Int) (idx : Nat) (p : MapPoint)
    (h : (l.foldl (SearchByProjection_MapPoints.matchMP mfNNratio F th) st).1.getD idx none
      = some p) :
    st.1.getD idx none = some p ∨ (p ∈ l ∧ p.mbTrackInView = true ∧ p.isBad = false) := by
  induction l generalizing st with
  | nil => exact Or.inl h
  | cons a l ih =>
    rw [List.foldl_cons] at h
    rcases ih _ h with h1 | ⟨hm, hg⟩
    · rcases matchMP_cases mfNNratio F th st a with h2 | ⟨hg, i, h2⟩
      · rw [h2] at h1; exact Or.inl h1
      · rw [h2] at h1
        rcases getD_set_some st.1 i idx a p h1 with ⟨_, h3⟩ | h3
        · right; rw [h3]; exact ⟨List.mem_cons_self _ _, hg⟩
        · exact Or.inl h3
    · exact Or.inr ⟨List.mem_cons_of_mem _ hm, hg⟩

/-- C13: candidates that are not tracked in view or that are bad have no effect on the result
of `SearchByProjection(F, vpMapPoints, th)`: the call returns the same match vector and the
same count as on the list of the tracked good candidates alone; every entry of the final match
vector is an entry of the initial vector or a tracked good candidate; the count is at most the
number of tracked good candidates. -/
theorem C13_only_tracked_good (mfNNratio : ℚ) (F : Frame) (vpMapPoints : List MapPoint)
    (th : ℚ) :
    SearchByProjection_MapPoints mfNNratio F vpMapPoints th =
      SearchByProjection_MapPoints mfNNratio F
        (vpMapPoints.filter (fun p => p.mbTrackInView && !p.isBad)) th ∧
    (∀ (idx : Nat) (p : MapPoint),
      (SearchByProjection_MapPoints mfNNratio F vpMapPoints th).1.getD idx none = some p →
      F.mvpMapPoints.getD idx none = some p ∨
        (p ∈ vpMapPoints ∧ p.mbTrackInView = true ∧ p.isBad = false)) ∧
    0 ≤ (SearchByProjection_MapPoints mfNNratio F vpMapPoints th).2 ∧
    (SearchByProjection_MapPoints mfNNratio F vpMapPoints th).2 ≤
      ((vpMapPoints.filter (fun p => p.mbTrackInView && !p.isBad)).length : Int) := by
  have heq : SearchByProjection_MapPoints mfNNratio F vpMapPoints th =
      SearchByProjection_MapPoints mfNNratio F
        (vpMapPoints.filter (fun p => p.mbTrackInView && !p.isBad)) th := by
    unfold SearchByProjection_MapPoints
    exact foldl_filter_of_skip _ (fun p => p.mbTrackInView && !p.isBad)
      (fun s a h => matchMP_skip mfNNratio F th s a h) vpMapPoints _
  refine ⟨heq, ?_, ?_⟩
  · intro idx p h
    exact foldl_matchMP_entries mfNNratio F th vpMapPoints _ idx p h
  · rw [heq]
    have h := foldl_matchMP_count mfNNratio F th
      (vpMapPoints.filter (fun p => p.mbTrackInView && !p.isBad)) (F.mvpMapPoints, 0)
    unfold SearchByProjection_MapPoints
    dsimp only at h
    omega

/-- Counting after one more element. -/
theorem countP_candidate (p : Int → Bool) (l : List Int) (d : Int) :
    (l ++ [d] ++ [256, 256]).countP p = (l ++ [256, 256]).countP p + (if p d then 1 else 0) := by
  simp only [List.countP_append, List.countP_cons, List.countP_nil]
  omega

/-- The candidate distances after one more frame keypoint. -/
theorem candidateDists_snoc (F : Frame) (m : List (Option MapPoint)) (dKF : Descriptor)
    (pre : List Nat) (x : Nat) :
    SearchByBoW.candidateDists F m dKF (pre ++ [x]) =
      if (m.getD x none).isSome = true then SearchByBoW.candidateDists F m dKF pre
      else (pre.filter (fun i => !(m.getD i none).isSome)).map
          (fun i => DescriptorDistance dKF (F.mDescriptors.getD i Descriptor.zero))
        ++ [DescriptorDistance dKF (F.mDescriptors.getD x Descriptor.zero)] ++ [256, 256] := by
  unfold SearchByBoW.candidateDists
  by_cases h : (m.getD x none).isSome = true
  · rw [if_pos h, List.filter_append]
    have hx : List.filter (fun i => !(m.getD i none).isSome) [x] = [] := by
      simp only [List.filter_cons, h, Bool.not_true, Bool.false_eq_true, if_false,
        List.filter_nil]
    rw [hx, List.append_nil]
  · rw [if_neg h, List.filter_append]
    have h2 : (m.getD x none).isSome = false := by
      cases hh : (m.getD x none).isSome
      · rfl
      · exact absurd hh h
    have hx : List.filter (fun i => !(m.getD i none).isSome) [x] = [x] := by
      simp only [List.filter_cons, h2, Bool.not_false, if_true, List.filter_nil]
    rw [hx, List.map_append]
    rfl

theorem countP_lt_mono (l : List Int) {a b : Int} (h : a ≤ b) :
    l.countP (fun d => decide (d < a)) ≤ l.countP (fun d => decide (d < b)) := by
  apply List.countP_mono_left
  intro x _ hx
  simp only [decide_eq_true_eq] at hx ⊢
  omega

theorem countP_le_mono (l : List Int) {a b : Int} (h : a ≤ b) :
    l.countP (fun d => decide (d ≤ a)) ≤ l.countP (fun d => decide (d ≤ b)) := by
  apply List.countP_mono_left
  intro x _ hx
  simp only [decide_eq_true_eq] at hx ⊢
  omega

theorem Best2.Spec.spec_init (F : Frame) (m : List (Option MapPoint)) (dKF : Descriptor) :
    Best2.Spec F m dKF [] { bestDist1 := 256, bestIdxF := -1, bestDist2 := 256 } := by
  unfold Best2.Spec IsKthSmallest SearchByBoW.candidateDists
  simp only [List.filter_nil, List.map_nil, List.nil_append]
  refine ⟨by decide, by decide, le_refl _, ?_⟩
  intro h
  exact absurd h (by decide)

theorem Best2.Spec.spec_scan {F : Frame} {m : List (Option MapPoint)} {dKF : Descriptor}
    {pre : List Nat} {b : Best2} (h : Best2.Spec F m dKF pre b) (x : Nat) :
    Best2.Spec F m dKF (pre ++ [x]) (SearchByBoW.scan F m dKF b x) := by
  obtain ⟨⟨h1a, h1b⟩, ⟨h2a, h2b⟩, h12, hidx⟩ := h
  have hidx2 : b.bestDist1 < 256 → ∃ i : Nat, i ∈ pre ++ [x] ∧ b.bestIdxF = (i : Int) ∧
      (m.getD i none).isSome = false ∧
      DescriptorDistance dKF (F.mDescriptors.getD i Descriptor.zero) = b.bestDist1 := by
    intro hlt
    obtain ⟨i, hi, hrest⟩ := hidx hlt
    exact ⟨i, List.mem_append_left _ hi, hrest⟩
  unfold SearchByBoW.scan
  by_cases hfree : (m.getD x none).isSome = true
  · rw [if_pos hfree]
    unfold Best2.Spec IsKthSmallest
    rw [candidateDists_snoc, if_pos hfree]
    exact ⟨⟨h1a, h1b⟩, ⟨h2a, h2b⟩, h12, hidx2⟩
  · rw [if_neg hfree]
    dsimp only
    have hcd := candidateDists_snoc F m dKF pre x
    rw [if_neg hfree] at hcd
    generalize hd : DescriptorDistance dKF (F.mDescriptors.getD x Descriptor.zero) = d at hcd
    have hM : SearchByBoW.candidateDists F m dKF pre =
        (pre.filter (fun i => !(m.getD i none).isSome)).map
          (fun i => DescriptorDistance dKF (F.mDescriptors.getD i Descriptor.zero))
        ++ [256, 256] := rfl
    generalize (pre.filter (fun i => !(m.getD i none).isSome)).map
          (fun i => DescriptorDistance dKF (F.mDescriptors.getD i Descriptor.zero)) = l
      at hcd hM
    have hfree2 : (m.getD x none).isSome = false := by
      cases hh : (m.getD x none).isSome
      · rfl
      · exact absurd hh hfree
    rw [hM] at h1a h1b h2a h2b
    by_cases c1 : d < b.bestDist1
    · rw [if_pos c1]
      unfold Best2.Spec IsKthSmallest
      rw [hcd]
      dsimp only
      simp only [countP_candidate]
      have m1 := countP_lt_mono (l ++ [256, 256]) (le_of_lt c1)
      refine ⟨⟨?_, ?_⟩, ⟨?_, ?_⟩, le_of_lt c1, ?_⟩
      · simp only [decide_eq_true_eq, lt_irrefl, if_false]; omega
      · simp only [decide_eq_true_eq, le_refl, if_true]; omega
      · simp only [decide_eq_true_eq, c1, if_true]; omega
      · simp only [decide_eq_true_eq, le_of_lt c1, if_true]; omega
      · intro _
        exact ⟨x, List.mem_append_right _ (List.mem_singleton_self x), rfl, hfree2, hd⟩
    · rw [if_neg c1]
      by_cases c2 : d < b.bestDist2
      · rw [if_pos c2]
        unfold Best2.Spec IsKthSmallest
        rw [hcd]
        dsimp only
        simp only [countP_candidate]
        have m1 := countP_lt_mono (l ++ [256, 256]) (le_of_lt c2)
        have m2 := countP_le_mono (l ++ [256, 256]) (not_lt.mp c1)
        refine ⟨⟨?_, ?_⟩, ⟨?_, ?_⟩, not_lt.mp c1, hidx2⟩
        · simp only [decide_eq_true_eq, c1, if_false]; omega
        · split_ifs <;> omega
        · simp only [decide_eq_true_eq, lt_irrefl, if_false]; omega
        · simp only [decide_eq_true_eq, le_refl, if_true]; omega
      · rw [if_neg c2]
        unfold Best2.Spec IsKthSmallest
        rw [hcd]
        simp only [countP_candidate]
        refine ⟨⟨?_, ?_⟩, ⟨?_, ?_⟩, h12, hidx2⟩
        · simp only [decide_eq_true_eq, c1, if_false]; omega
        · split_ifs <;> omega
        · simp only [decide_eq_true_eq, c2, if_false]; omega
        · split_ifs <;> omega

theorem Best2.Spec.spec_foldl {F : Frame} {m : List (Option MapPoint)} {dKF : Descriptor} :
    ∀ (l pre : List Nat) {b : Best2}, Best2.Spec F m dKF pre b →
      Best2.Spec F m dKF (pre ++ l) (l.foldl (SearchByBoW.scan F m dKF) b)
  | [], pre, _, h => by simpa using h
  | x :: l, pre, _, h => by
    have h2 := Best2.Spec.spec_foldl l (pre ++ [x]) (h.spec_scan x)
    simpa using h2

/-- The gates of a match survive the growth of the match vector. -/
theorem SearchByBoW.Gated.gated_mono {r : ℚ} {pKF : KeyFrame} {F : Frame}
    {cur cur2 : List (Option MapPoint)} {idxF : Nat} {pMP : MapPoint}
    (h : SearchByBoW.Gated r pKF F cur idxF pMP)
    (hle : ∀ i : Nat, (cur.getD i none).isSome = true → (cur2.getD i none).isSome = true) :
    SearchByBoW.Gated r pKF F cur2 idxF pMP := by
  obtain ⟨node, vKF, vF, k, m, d2, hmem, hmp, ⟨hm1, hm2⟩, hk, hlow, hratio⟩ := h
  exact ⟨node, vKF, vF, k, m, d2, hmem, hmp, ⟨fun i hi => hle i (hm1 i hi), hm2⟩, hk, hlow,
    hratio⟩

/-- Recording a gated match keeps the invariant. -/
theorem SearchByBoW.AllGated.gated_set {r : ℚ} {pKF : KeyFrame} {F : Frame}
    {cur : List (Option MapPoint)} (h : SearchByBoW.AllGated r pKF F cur) (i : Nat)
    (pMP : MapPoint)
    (hnew : SearchByBoW.Gated r pKF F (cur.set i (some pMP)) i pMP) :
    SearchByBoW.AllGated r pKF F (cur.set i (some pMP)) := by
  intro idxF q hq
  rcases getD_set_some cur i idxF pMP q hq with ⟨h1, h2⟩ | h1
  · rw [h1, h2]; exact hnew
  · exact (h idxF q h1).gated_mono
      (fun j hj => (getD_set_isSome cur i j pMP).mpr (Or.inr hj))

theorem SearchByBoW.AllGated.gated_matchKF (r : ℚ) (c : Bool) (pKF : KeyFrame) (F : Frame)
    (node : Nat) (vIndicesKF vIndicesF : List Nat)
    (hKF : (node, vIndicesKF) ∈ pKF.mFeatVec) (hF : (node, vIndicesF) ∈ F.mFeatVec)
    {st : MatchState} (h : SearchByBoW.AllGated r pKF F st.mvpMapPoints) (realIdxKF : Nat)
    (hx : realIdxKF ∈ vIndicesKF) :
    SearchByBoW.AllGated r pKF F
      (SearchByBoW.matchKF r c pKF F vIndicesF st realIdxKF).mvpMapPoints := by
  unfold SearchByBoW.matchKF
  cases hmp : pKF.mvpMapPoints.getD realIdxKF none with
  | none => exact h
  | some pMP =>
    dsimp only
    by_cases hbad : pMP.isBad = true
    · rw [if_pos hbad]; exact h
    · rw [if_neg hbad]
      have hspec := Best2.Spec.spec_foldl vIndicesF []
        (Best2.Spec.spec_init F st.mvpMapPoints
          (pKF.mDescriptors.getD realIdxKF Descriptor.zero))
      rw [List.nil_append] at hspec
      generalize vIndicesF.foldl (SearchByBoW.scan F st.mvpMapPoints
          (pKF.mDescriptors.getD realIdxKF Descriptor.zero))
          { bestDist1 := 256, bestIdxF := -1, bestDist2 := 256 } = b at hspec
      by_cases h1 : b.bestDist1 ≤ TH_LOW
      · rw [if_pos h1]
        by_cases h2 : ((b.bestDist1 : Int) : ℚ) < f32 (r * ((b.bestDist2 : Int) : ℚ))
        · rw [if_pos h2]
          dsimp only
          obtain ⟨hk1, hk2, _, hidx⟩ := hspec
          have hlt : b.bestDist1 < 256 := by unfold TH_LOW at h1; omega
          obtain ⟨i, hi, hbi, hfree, hd⟩ := hidx hlt
          have hnat : b.bestIdxF.toNat = i := by rw [hbi]; exact Int.toNat_natCast i
          rw [hnat]
          have hb : pMP.isBad = false := by
            cases hh : pMP.isBad
            · rfl
            · exact absurd hh hbad
          apply h.gated_set i pMP
          refine ⟨node, vIndicesKF, vIndicesF, realIdxKF, st.mvpMapPoints, b.bestDist2,
            ⟨hKF, hF, hx, hi⟩, ⟨hmp, hb⟩,
            ⟨fun j hj => (getD_set_isSome st.mvpMapPoints i j pMP).mpr (Or.inr hj), hfree⟩,
            ⟨?_, hk2⟩, ?_, ?_⟩
          · rw [hd]; exact hk1
          · rw [hd]; exact h1
          · rw [hd]; exact h2
        · rw [if_neg h2]; exact h
      · rw [if_neg h1]; exact h

theorem SearchByBoW.AllGated.gated_foldl_matchKF (r : ℚ) (c : Bool) (pKF : KeyFrame) (F : Frame)
    (node : Nat) (vIndicesKF vIndicesF : List Nat)
    (hKF : (node, vIndicesKF) ∈ pKF.mFeatVec) (hF : (node, vIndicesF) ∈ F.mFeatVec) :
    ∀ (l : List Nat) {st : MatchState}, (∀ x ∈ l, x ∈ vIndicesKF) →
      SearchByBoW.AllGated r pKF F st.mvpMapPoints →
      SearchByBoW.AllGated r pKF F
        (l.foldl (SearchByBoW.matchKF r c pKF F vIndicesF) st).mvpMapPoints
  | [], _, _, h => h
  | x :: l, _, hl, h =>
    SearchByBoW.AllGated.gated_foldl_matchKF r c pKF F node vIndicesKF vIndicesF hKF hF l
      (fun y hy => hl y (List.mem_cons_of_mem _ hy))
      (h.gated_matchKF r c pKF F node vIndicesKF vIndicesF hKF hF x
        (hl x (List.mem_cons_self _ _)))

theorem SearchByBoW.AllGated.gated_walk (r : ℚ) (c : Bool) (pKF : KeyFrame) (F : Frame) :
    ∀ (fuel : Nat) (KFit Fit : FeatureVector) {st : MatchState},
      KFit <:+ pKF.mFeatVec → Fit <:+ F.mFeatVec →
      SearchByBoW.AllGated r pKF F st.mvpMapPoints →
      SearchByBoW.AllGated r pKF F (SearchByBoW.walk r c pKF F fuel KFit Fit st).mvpMapPoints
  | 0, _, _, _, _, _, h => by simpa [SearchByBoW.walk] using h
  | _ + 1, [], _, _, _, _, h => by simpa [SearchByBoW.walk] using h
  | _ + 1, _ :: _, [], _, _, _, h => by simpa [SearchByBoW.walk] using h
  | fuel + 1, (kfFirst, vIndicesKF) :: kfRest, (fFirst, vIndicesF) :: fRest, _, hK, hFs, h => by
    unfold SearchByBoW.walk
    have hKmem : (kfFirst, vIndicesKF) ∈ pKF.mFeatVec :=
      hK.subset (List.mem_cons_self _ _)
    have hFmem : (fFirst, vIndicesF) ∈ F.mFeatVec :=
      hFs.subset (List.mem_cons_self _ _)
    split_ifs with e1 e2
    · refine SearchByBoW.AllGated.gated_walk r c pKF F fuel _ _
        ((List.suffix_cons _ _).trans hK) ((List.suffix_cons _ _).trans hFs) ?_
      rw [← e1] at hFmem
      exact SearchByBoW.AllGated.gated_foldl_matchKF r c pKF F kfFirst vIndicesKF vIndicesF
        hKmem hFmem vIndicesKF (fun _ hx => hx) h
    · exact SearchByBoW.AllGated.gated_walk r c pKF F fuel _ _
        (lower_bound_suffix _ _) hFs h
    · exact SearchByBoW.AllGated.gated_walk r c pKF F fuel _ _
        hK (lower_bound_suffix _ _) h

/-- Reading a vector after one entry was written. -/
theorem getD_set_cases {α : Type} (v : List α) (i k : Nat) (x d y : α)
    (h : (v.set i x).getD k d = y) : (k = i ∧ y = x) ∨ v.getD k d = y := by
  rw [List.getD_eq_getElem?_getD, List.getElem?_set] at h
  by_cases hik : i = k
  · rw [if_pos hik] at h
    by_cases hlt : i < v.length
    · rw [if_pos hlt] at h
      left
      exact ⟨hik.symm, by simpa using h.symm⟩
    · rw [if_neg hlt] at h
      right
      rw [List.getD_eq_getElem?_getD]
      have hnone : v[k]? = none := by
        rw [List.getElem?_eq_none_iff]; omega
      rw [hnone]
      simpa using h
  · rw [if_neg hik] at h
    right
    rw [List.getD_eq_getElem?_getD]
    exact h

theorem SearchForTriangulation.ScanOk.scanok_step {pKF1 pKF2 : KeyFrame} {F12 : Mat3}
    {bOnlyStereo : Bool} {idx1 : Nat} {vIndices2 : List Nat} {b : Best1}
    (h : SearchForTriangulation.ScanOk pKF1 pKF2 F12 bOnlyStereo idx1 vIndices2 b)
    (vbMatched2 : List Bool) (idx2 : Nat) (hmem : idx2 ∈ vIndices2) :
    SearchForTriangulation.ScanOk pKF1 pKF2 F12 bOnlyStereo idx1 vIndices2
      (SearchForTriangulation.scan pKF1 pKF2 F12 bOnlyStereo vbMatched2 idx1 b idx2) := by
  unfold SearchForTriangulation.scan
  by_cases c1 : vbMatched2.getD idx2 false = true ∨
      (pKF2.mvpMapPoints.getD idx2 none).isSome = true
  · rw [if_pos c1]; exact h
  · rw [if_neg c1]
    by_cases c2 : bOnlyStereo = true ∧ ¬ pKF2.mvuRight.getD idx2 0 ≥ 0
    · rw [if_pos c2]; exact h
    · rw [if_neg c2]
      dsimp only
      by_cases c3 : DescriptorDistance (pKF1.mDescriptors.getD idx1 Descriptor.zero)
          (pKF2.mDescriptors.getD idx2 Descriptor.zero) > TH_LOW ∨
          DescriptorDistance (pKF1.mDescriptors.getD idx1 Descriptor.zero)
          (pKF2.mDescriptors.getD idx2 Descriptor.zero) > b.bestDist
      · rw [if_pos c3]; exact h
      · rw [if_neg c3]
        by_cases c4 : (¬ pKF1.mvuRight.getD idx1 0 ≥ 0 ∧ ¬ pKF2.mvuRight.getD idx2 0 ≥ 0) ∧
            SearchForTriangulation.nearEpipole pKF1 pKF2 (pKF2.mvKeysUn.getD idx2 {}) = true
        · rw [if_pos c4]; exact h
        · rw [if_neg c4]
          by_cases c5 : CheckDistEpipolarLine (pKF1.mvKeysUn.getD idx1 {})
              (pKF2.mvKeysUn.getD idx2 {}) F12 pKF2 = true
          · rw [if_pos c5]
            right
            refine ⟨idx2, rfl, hmem, ?_, ?_, c5, ?_, ?_⟩
            · cases hh : pKF2.mvpMapPoints.getD idx2 none with
              | none => rfl
              | some p => rw [hh] at c1; simp at c1
            · exact not_lt.mp (fun hgt => c3 (Or.inl hgt))
            · intro hs
              by_contra hneg
              exact c2 ⟨hs, hneg⟩
            · intro h1 h2
              cases hh : SearchForTriangulation.nearEpipole pKF1 pKF2
                  (pKF2.mvKeysUn.getD idx2 {}) with
              | false => rfl
              | true => exact absurd ⟨⟨not_le.mpr h1, not_le.mpr h2⟩, hh⟩ c4
          · rw [if_neg c5]; exact h

theorem SearchForTriangulation.ScanOk.scanok_foldl {pKF1 pKF2 : KeyFrame} {F12 : Mat3}
    {bOnlyStereo : Bool} {idx1 : Nat} {vIndices2 : List Nat} (vbMatched2 : List Bool) :
    ∀ (l : List Nat) {b : Best1}, (∀ x ∈ l, x ∈ vIndices2) →
      SearchForTriangulation.ScanOk pKF1 pKF2 F12 bOnlyStereo idx1 vIndices2 b →
      SearchForTriangulation.ScanOk pKF1 pKF2 F12 bOnlyStereo idx1 vIndices2
        (l.foldl (SearchForTriangulation.scan pKF1 pKF2 F12 bOnlyStereo vbMatched2 idx1) b)
  | [], _, _, h => h
  | x :: l, _, hl, h =>
    SearchForTriangulation.ScanOk.scanok_foldl vbMatched2 l
      (fun y hy => hl y (List.mem_cons_of_mem _ hy))
      (h.scanok_step vbMatched2 x (hl x (List.mem_cons_self _ _)))

/-- Writing a gated pair keeps the invariant of `vMatches12`. -/
theorem SearchForTriangulation.AllGates.gates_set {pKF1 pKF2 : KeyFrame} {F12 : Mat3}
    {bOnlyStereo : Bool} {v : List Int}
    (h : SearchForTriangulation.AllGates pKF1 pKF2 F12 bOnlyStereo v) (i : Nat) (x : Int)
    (hx : 0 ≤ x → SearchForTriangulation.Gates pKF1 pKF2 F12 bOnlyStereo i x.toNat) :
    SearchForTriangulation.AllGates pKF1 pKF2 F12 bOnlyStereo (v.set i x) := by
  intro k j hk hj
  rcases getD_set_cases v i k x (-1) j hk with ⟨h1, h2⟩ | h1
  · rw [h1, h2]; rw [h2] at hj; exact hx hj
  · exact h k j h1 hj

theorem SearchForTriangulation.AllGates.gates_match1 (c : Bool) (pKF1 pKF2 : KeyFrame)
    (F12 : Mat3) (bOnlyStereo : Bool) (vbMatched2 : List Bool) (node : Nat)
    (vIndices1 vIndices2 : List Nat)
    (h1 : (node, vIndices1) ∈ pKF1.mFeatVec) (h2 : (node, vIndices2) ∈ pKF2.mFeatVec)
    {st : TriangulationState}
    (h : SearchForTriangulation.AllGates pKF1 pKF2 F12 bOnlyStereo st.vMatches12)
    (idx1 : Nat) (hx : idx1 ∈ vIndices1) :
    SearchForTriangulation.AllGates pKF1 pKF2 F12 bOnlyStereo
      (SearchForTriangulation.match1 c pKF1 pKF2 F12 bOnlyStereo vbMatched2 vIndices2 st
        idx1).vMatches12 := by
  unfold SearchForTriangulation.match1
  by_cases c1 : (pKF1.mvpMapPoints.getD idx1 none).isSome = true
  · rw [if_pos c1]; exact h
  · rw [if_neg c1]
    by_cases c2 : bOnlyStereo = true ∧ ¬ pKF1.mvuRight.getD idx1 0 ≥ 0
    · rw [if_pos c2]; exact h
    · rw [if_neg c2]
      dsimp only
      have hscan : SearchForTriangulation.ScanOk pKF1 pKF2 F12 bOnlyStereo idx1 vIndices2
          (vIndices2.foldl
            (SearchForTriangulation.scan pKF1 pKF2 F12 bOnlyStereo vbMatched2 idx1)
            { bestDist := TH_LOW, bestIdx2 := -1 }) :=
        SearchForTriangulation.ScanOk.scanok_foldl vbMatched2 vIndices2 (fun _ hy => hy)
          (Or.inl rfl)
      generalize vIndices2.foldl
        (SearchForTriangulation.scan pKF1 pKF2 F12 bOnlyStereo vbMatched2 idx1)
        { bestDist := TH_LOW, bestIdx2 := -1 } = b at hscan
      by_cases c3 : b.bestIdx2 ≥ 0
      · rw [if_pos c3]
        dsimp only
        apply h.gates_set idx1 b.bestIdx2
        intro _
        rcases hscan with hneg | ⟨idx2, hb, hmem, hmp2, hd, hchk, hst, hep⟩
        · rw [hneg] at c3; exact absurd c3 (by decide)
        · have hnat : b.bestIdx2.toNat = idx2 := by rw [hb]; exact Int.toNat_natCast idx2
          rw [hnat]
          refine ⟨⟨?_, hmp2⟩, ⟨node, vIndices1, vIndices2, h1, h2, hx, hmem⟩, hd, hchk, ?_, hep⟩
          · cases hh : pKF1.mvpMapPoints.getD idx1 none with
            | none => rfl
            | some p => rw [hh] at c1; simp at c1
          · intro hs
            refine ⟨?_, hst hs⟩
            by_contra hneg
            exact c2 ⟨hs, hneg⟩
      · rw [if_neg c3]; exact h

theorem SearchForTriangulation.AllGates.gates_foldl_match1 (c : Bool) (pKF1 pKF2 : KeyFrame)
    (F12 : Mat3) (bOnlyStereo : Bool) (vbMatched2 : List Bool) (node : Nat)
    (vIndices1 vIndices2 : List Nat)
    (h1 : (node, vIndices1) ∈ pKF1.mFeatVec) (h2 : (node, vIndices2) ∈ pKF2.mFeatVec) :
    ∀ (l : List Nat) {st : TriangulationState}, (∀ x ∈ l, x ∈ vIndices1) →
      SearchForTriangulation.AllGates pKF1 pKF2 F12 bOnlyStereo st.vMatches12 →
      SearchForTriangulation.AllGates pKF1 pKF2 F12 bOnlyStereo
        (l.foldl (SearchForTriangulation.match1 c pKF1 pKF2 F12 bOnlyStereo vbMatched2
          vIndices2) st).vMatches12
  | [], _, _, h => h
  | x :: l, _, hl, h =>
    SearchForTriangulation.AllGates.gates_foldl_match1 c pKF1 pKF2 F12 bOnlyStereo vbMatched2
      node vIndices1 vIndices2 h1 h2 l (fun y hy => hl y (List.mem_cons_of_mem _ hy))
      (h.gates_match1 c pKF1 pKF2 F12 bOnlyStereo vbMatched2 node vIndices1 vIndices2 h1 h2 x
        (hl x (List.mem_cons_self _ _)))

theorem SearchForTriangulation.AllGates.gates_walk (c : Bool) (pKF1 pKF2 : KeyFrame)
    (F12 : Mat3) (bOnlyStereo : Bool) (vbMatched2 : List Bool) :
    ∀ (fuel : Nat) (f1it f2it : FeatureVector) {st : TriangulationState},
      f1it <:+ pKF1.mFeatVec → f2it <:+ pKF2.mFeatVec →
      SearchForTriangulation.AllGates pKF1 pKF2 F12 bOnlyStereo st.vMatches12 →
      SearchForTriangulation.AllGates pKF1 pKF2 F12 bOnlyStereo
        (SearchForTriangulation.walk c pKF1 pKF2 F12 bOnlyStereo vbMatched2 fuel f1it f2it
          st).vMatches12
  | 0, _, _, _, _, _, h => by simpa [SearchForTriangulation.walk] using h
  | _ + 1, [], _, _, _, _, h => by simpa [SearchForTriangulation.walk] using h
  | _ + 1, _ :: _, [], _, _, _, h => by simpa [SearchForTriangulation.walk] using h
  | fuel + 1, (f1First, vIndices1) :: f1Rest, (f2First, vIndices2) :: f2Rest, _, hs1, hs2,
      h => by
    unfold SearchForTriangulation.walk
    have hm1 : (f1First, vIndices1) ∈ pKF1.mFeatVec := hs1.subset (List.mem_cons_self _ _)
    have hm2 : (f2First, vIndices2) ∈ pKF2.mFeatVec := hs2.subset (List.mem_cons_self _ _)
    split_ifs with e1 e2
    · refine SearchForTriangulation.AllGates.gates_walk c pKF1 pKF2 F12 bOnlyStereo vbMatched2
        fuel _ _ ((List.suffix_cons _ _).trans hs1) ((List.suffix_cons _ _).trans hs2) ?_
      rw [← e1] at hm2
      exact SearchForTriangulation.AllGates.gates_foldl_match1 c pKF1 pKF2 F12 bOnlyStereo
        vbMatched2 f1First vIndices1 vIndices2 hm1 hm2 vIndices1 (fun _ hy => hy) h
    · exact SearchForTriangulation.AllGates.gates_walk c pKF1 pKF2 F12 bOnlyStereo vbMatched2
        fuel _ _ (lower_bound_suffix _ _) hs2 h
    · exact SearchForTriangulation.AllGates.gates_walk c pKF1 pKF2 F12 bOnlyStereo vbMatched2
        fuel _ _ hs1 (lower_bound_suffix _ _) h

theorem SearchForTriangulation.AllGates.gates_clearBin {pKF1 pKF2 : KeyFrame} {F12 : Mat3}
    {bOnlyStereo : Bool} :
    ∀ (bin : List Int) {s : List Int × Int},
      SearchForTriangulation.AllGates pKF1 pKF2 F12 bOnlyStereo s.1 →
      SearchForTriangulation.AllGates pKF1 pKF2 F12 bOnlyStereo
        (SearchForTriangulation.clearBin s bin).1
  | [], _, h => h
  | x :: bin, s, h => by
    unfold SearchForTriangulation.clearBin
    rw [List.foldl_cons]
    exact SearchForTriangulation.AllGates.gates_clearBin bin
      (h.gates_set x.toNat (-1) (fun hneg => absurd hneg (by decide)))

theorem SearchForTriangulation.AllGates.gates_filter {pKF1 pKF2 : KeyFrame} {F12 : Mat3}
    {bOnlyStereo : Bool} (rotHist : List (List Int)) (v : List Int) (n : Int)
    (h : SearchForTriangulation.AllGates pKF1 pKF2 F12 bOnlyStereo v) :
    SearchForTriangulation.AllGates pKF1 pKF2 F12 bOnlyStereo
      (SearchForTriangulation.rotationFilter rotHist v n).1 := by
  unfold SearchForTriangulation.rotationFilter
  dsimp only
  generalize ComputeThreeMaxima rotHist HISTO_LENGTH (-1) (-1) (-1) = r
  have key : ∀ (l : List Nat) (s : List Int × Int),
      SearchForTriangulation.AllGates pKF1 pKF2 F12 bOnlyStereo s.1 →
      SearchForTriangulation.AllGates pKF1 pKF2 F12 bOnlyStereo
        (l.foldl (fun s i => if rotationFilter.kept r i = true then s
          else SearchForTriangulation.clearBin s (rotHist.getD i [])) s).1 := by
    intro l
    induction l with
    | nil => intro s hs; exact hs
    | cons i l ih =>
      intro s hs
      rw [List.foldl_cons]
      apply ih
      by_cases hk : rotationFilter.kept r i = true
      · rw [if_pos hk]; exact hs
      · rw [if_neg hk]; exact SearchForTriangulation.AllGates.gates_clearBin _ hs
  exact key _ (v, n) h

/-- The pairs built from `vMatches12` are its entries that are not negative. -/
theorem mem_pairs (v : List Int) (p : Nat × Nat) (h : p ∈ SearchForTriangulation.pairs v) :
    0 ≤ v.getD p.1 (-1) ∧ p.2 = (v.getD p.1 (-1)).toNat := by
  unfold SearchForTriangulation.pairs at h
  rw [List.mem_filterMap] at h
  obtain ⟨i, _, hi⟩ := h
  by_cases hneg : v.getD i (-1) < 0
  · rw [if_pos hneg] at hi; simp at hi
  · rw [if_neg hneg] at hi
    simp only [Option.some.injEq] at hi
    rw [← hi]
    exact ⟨not_lt.mp hneg, rfl⟩

theorem SearchForTriangulation.AllGates.gates_init (pKF1 pKF2 : KeyFrame) (F12 : Mat3)
    (bOnlyStereo : Bool) (n : Nat) :
    SearchForTriangulation.AllGates pKF1 pKF2 F12 bOnlyStereo (List.replicate n (-1)) := by
  intro i j hj hpos
  rw [List.getD_eq_getElem?_getD, List.getElem?_replicate] at hj
  split_ifs at hj <;> simp at hj <;> omega

/-- C14: every pair `(idx1, idx2)` that `SearchForTriangulation` returns in `vMatchedPairs`
passed all the gates: the first keyframe has no map point at `idx1` and the second none at
`idx2`, both keypoints are listed under one vocabulary node, their descriptor distance is at
most `TH_LOW`, `CheckDistEpipolarLine` holds for them, and when `bOnlyStereo` is set both have a
right coordinate that is not negative. -/
theorem C14_SearchForTriangulation_pairs_gated (mbCheckOrientation : Bool)
    (pKF1 pKF2 : KeyFrame) (F12 : Mat3) (bOnlyStereo : Bool) (p : Nat × Nat)
    (h : p ∈ (SearchForTriangulation mbCheckOrientation pKF1 pKF2 F12 bOnlyStereo).1) :
    SearchForTriangulation.Gates pKF1 pKF2 F12 bOnlyStereo p.1 p.2 := by
  have hm : SearchForTriangulation.AllGates pKF1 pKF2 F12 bOnlyStereo
      (SearchForTriangulation.matching mbCheckOrientation pKF1 pKF2 F12
        bOnlyStereo).vMatches12 := by
    unfold SearchForTriangulation.matching
    exact SearchForTriangulation.AllGates.gates_walk mbCheckOrientation pKF1 pKF2 F12
      bOnlyStereo _ _ _ _ (List.suffix_refl _) (List.suffix_refl _)
      (SearchForTriangulation.AllGates.gates_init pKF1 pKF2 F12 bOnlyStereo pKF1.N)
  unfold SearchForTriangulation at h
  dsimp only at h
  cases mbCheckOrientation with
  | false =>
    simp only [Bool.false_eq_true, if_false] at h
    obtain ⟨h1, h2⟩ := mem_pairs _ p h
    rw [h2]
    exact hm p.1 _ rfl h1
  | true =>
    simp only [if_true] at h
    obtain ⟨h1, h2⟩ := mem_pairs _ p h
    rw [h2]
    exact SearchForTriangulation.AllGates.gates_filter _ _ _ hm p.1 _ rfl h1

set_option maxRecDepth 1000000 in
set_option maxHeartbeats 4000000 in
/-- Witness of C14: the pair `(0, 0)` is returned for `triExampleKF1` and `triExampleKF2`. -/
theorem C14_SearchForTriangulation_pairs_gated_witness :
    ((0, 0) : Nat × Nat) ∈
      (SearchForTriangulation false triExampleKF1 triExampleKF2 triExampleF12 false).1 ∧
    SearchForTriangulation.Gates triExampleKF1 triExampleKF2 triExampleF12 false 0 0 :=
  ⟨by with_unfolding_all decide,
    C14_SearchForTriangulation_pairs_gated false triExampleKF1 triExampleKF2 triExampleF12
      false (0, 0) (by with_unfolding_all decide)⟩

theorem tri_walk_nil_left (c : Bool) (pKF1 pKF2 : KeyFrame) (F12 : Mat3) (s : Bool)
    (vb : List Bool) (fuel : Nat) (f2it : FeatureVector) (st : TriangulationState) :
    SearchForTriangulation.walk c pKF1 pKF2 F12 s vb fuel [] f2it st = st := by
  cases fuel <;> simp [SearchForTriangulation.walk]

theorem tri_walk_nil_right (c : Bool) (pKF1 pKF2 : KeyFrame) (F12 : Mat3) (s : Bool)
    (vb : List Bool) (fuel : Nat) (f1it : FeatureVector) (st : TriangulationState) :
    SearchForTriangulation.walk c pKF1 pKF2 F12 s vb fuel f1it [] st = st := by
  cases fuel <;> cases f1it <;> simp [SearchForTriangulation.walk]

/-- With sorted feature vectors, the result of the joint walk of `SearchForTriangulation` does
not depend on the fuel, as soon as the fuel is at least the number of entries left in the two
vectors. -/
theorem tri_walk_fuel_irrelevant (c : Bool) (pKF1 pKF2 : KeyFrame) (F12 : Mat3) (s : Bool)
    (vb : List Bool)
    (hs1 : FeatureVector.Sorted pKF1.mFeatVec) (hs2 : FeatureVector.Sorted pKF2.mFeatVec) :
    ∀ (fuel1 fuel2 : Nat) (f1it f2it : FeatureVector) (st : TriangulationState),
      f1it <:+ pKF1.mFeatVec → f2it <:+ pKF2.mFeatVec →
      f1it.length + f2it.length ≤ fuel1 → f1it.length + f2it.length ≤ fuel2 →
      SearchForTriangulation.walk c pKF1 pKF2 F12 s vb fuel1 f1it f2it st =
        SearchForTriangulation.walk c pKF1 pKF2 F12 s vb fuel2 f1it f2it st := by
  intro fuel1
  induction fuel1 with
  | zero =>
    intro fuel2 f1it f2it st _ _ h1 _
    have : f1it = [] := List.length_eq_zero.mp (by omega)
    subst this
    rw [tri_walk_nil_left, tri_walk_nil_left]
  | succ f ih =>
    intro fuel2 f1it f2it st s1 s2 h1 h2
    match f1it, f2it, s1, s2, h1, h2 with
    | [], f2it, _, _, _, _ => rw [tri_walk_nil_left, tri_walk_nil_left]
    | _ :: _, [], _, _, _, _ => rw [tri_walk_nil_right, tri_walk_nil_right]
    | (k1, v1) :: rest1, (k2, v2) :: rest2, s1, s2, h1, h2 =>
      simp only [List.length_cons] at h1 h2
      obtain ⟨g, rfl⟩ : ∃ g, fuel2 = g + 1 := ⟨fuel2 - 1, by omega⟩
      unfold SearchForTriangulation.walk
      split_ifs with e1 e2
      · exact ih g rest1 rest2 _ (List.IsSuffix.trans (List.suffix_cons _ _) s1)
          (List.IsSuffix.trans (List.suffix_cons _ _) s2) (by omega) (by omega)
      · obtain ⟨pre, hpre⟩ := s1
        have hs : FeatureVector.Sorted (pre ++ (k1, v1) :: rest1) := by rw [hpre]; exact hs1
        have e := lower_bound_skip k1 k2 v1 rest1 e2 pre hs
        rw [hpre] at e
        have hl := lower_bound_length_le rest1 k2
        rw [← e] at hl
        exact ih g _ _ _ (lower_bound_suffix _ _) s2
          (by simp only [List.length_cons]; omega) (by simp only [List.length_cons]; omega)
      · have e3 : k2 < k1 := by omega
        obtain ⟨pre, hpre⟩ := s2
        have hs : FeatureVector.Sorted (pre ++ (k2, v2) :: rest2) := by rw [hpre]; exact hs2
        have e := lower_bound_skip k2 k1 v2 rest2 e3 pre hs
        rw [hpre] at e
        have hl := lower_bound_length_le rest2 k1
        rw [← e] at hl
        exact ih g _ _ _ s1 (lower_bound_suffix _ _)
          (by simp only [List.length_cons]; omega) (by simp only [List.length_cons]; omega)

/-- The fuel given to the joint walk by `SearchForTriangulation.matching` is enough: with
sorted feature vectors, any larger number of iterations of the `while` loop gives the same
state. -/
theorem SearchForTriangulation_matching_fuel (c : Bool) (pKF1 pKF2 : KeyFrame) (F12 : Mat3)
    (s : Bool) (hs1 : FeatureVector.Sorted pKF1.mFeatVec)
    (hs2 : FeatureVector.Sorted pKF2.mFeatVec) (fuel : Nat)
    (h : pKF1.mFeatVec.length + pKF2.mFeatVec.length ≤ fuel) :
    SearchForTriangulation.walk c pKF1 pKF2 F12 s (List.replicate pKF2.N false) fuel
        pKF1.mFeatVec pKF2.mFeatVec
        { vMatches12 := List.replicate pKF1.N (-1), nmatches := 0, rotHist := emptyRotHist }
      = SearchForTriangulation.matching c pKF1 pKF2 F12 s := by
  unfold SearchForTriangulation.matching
  exact tri_walk_fuel_irrelevant c pKF1 pKF2 F12 s _ hs1 hs2 _ _ _ _ _ (List.suffix_refl _)
    (List.suffix_refl _) h (le_refl _)

/-- An iteration that selects a keypoint went through the search of the window. -/
theorem Fuse.search_selected (pKF : KeyFrame) (pMP : MapPoint) (th : ℚ) (nPredictedLevel : Int)
    (bestIdx : Int)
    (h : (Fuse.search pKF pMP th nPredictedLevel).selected = some bestIdx) :
    (Fuse.best pKF pMP th nPredictedLevel).bestDist ≤ TH_LOW ∧
    bestIdx = (Fuse.best pKF pMP th nPredictedLevel).bestIdx ∧
    (Fuse.search pKF pMP th nPredictedLevel).calls = Fuse.merge pKF pMP bestIdx := by
  unfold Fuse.search at h ⊢
  by_cases c1 : (Fuse.window pKF pMP th nPredictedLevel).isEmpty = true
  · rw [if_pos c1] at h; simp [Fuse.Outcome.selected] at h
  · rw [if_neg c1] at h ⊢
    by_cases c2 : (Fuse.best pKF pMP th nPredictedLevel).bestDist ≤ TH_LOW
    · rw [if_pos c2] at h ⊢
      simp only [Fuse.Outcome.selected, Option.some.injEq] at h
      refine ⟨c2, h.symm, ?_⟩
      rw [← h]
      rfl
    · rw [if_neg c2] at h; simp [Fuse.Outcome.selected] at h

/-- An iteration that selects a keypoint passed the checks on the map point, at a positive
depth, and is the search of the window at the predicted level. -/
theorem Fuse.iteration_selected (norm : Vec3 → ℚ)
    (PredictScale : MapPoint → ℚ → KeyFrame → Int) (IsInKeyFrame : MapPoint → KeyFrame → Bool)
    (pKF : KeyFrame) (th : ℚ) (pMP : MapPoint) (bestIdx : Int)
    (h : (Fuse.iteration norm PredictScale IsInKeyFrame pKF th (some pMP)).selected
      = some bestIdx) :
    0 < (Fuse.p3Dc pKF pMP).z ∧
    Fuse.iteration norm PredictScale IsInKeyFrame pKF th (some pMP) =
      Fuse.search pKF pMP th (Fuse.nPredictedLevel norm PredictScale pKF pMP) := by
  unfold Fuse.iteration at h ⊢
  dsimp only at h ⊢
  by_cases c1 : (pMP.isBad || IsInKeyFrame pMP pKF) = true
  · rw [if_pos c1] at h; simp [Fuse.Outcome.selected] at h
  · rw [if_neg c1] at h ⊢
    by_cases c2 : Fuse.depthRejected pKF pMP = true
    · rw [if_pos c2] at h; simp [Fuse.Outcome.selected] at h
    · rw [if_neg c2] at h ⊢
      by_cases c3 : (Fuse.p3Dc pKF pMP).z = 0
      · rw [if_pos c3] at h; simp [Fuse.Outcome.selected] at h
      · rw [if_neg c3] at h ⊢
        by_cases c4 : (!pKF.IsInImage (Fuse.u pKF pMP) (Fuse.v pKF pMP)) = true
        · rw [if_pos c4] at h; simp [Fuse.Outcome.selected] at h
        · rw [if_neg c4] at h ⊢
          by_cases c5 : norm (pMP.worldPos.sub pKF.Ow) < pMP.minDistanceInvariance ∨
              norm (pMP.worldPos.sub pKF.Ow) > pMP.maxDistanceInvariance
          · rw [if_pos c5] at h; simp [Fuse.Outcome.selected] at h
          · rw [if_neg c5] at h ⊢
            by_cases c6 : (pMP.worldPos.sub pKF.Ow).dot pMP.normal <
                1 / 2 * norm (pMP.worldPos.sub pKF.Ow)
            · rw [if_pos c6] at h; simp [Fuse.Outcome.selected] at h
            · rw [if_neg c6] at h ⊢
              refine ⟨?_, rfl⟩
              unfold Fuse.depthRejected at c2
              simp only [decide_eq_true_eq, not_lt] at c2
              exact lt_of_le_of_ne c2 (Ne.symm c3)

/-- A map point of negative depth is skipped by the depth check of `Fuse`. -/
theorem Fuse.negative_depth_skipped (norm : Vec3 → ℚ)
    (PredictScale : MapPoint → ℚ → KeyFrame → Int) (IsInKeyFrame : MapPoint → KeyFrame → Bool)
    (pKF : KeyFrame) (th : ℚ) (pMP : MapPoint) (hz : (Fuse.p3Dc pKF pMP).z < 0) :
    (Fuse.iteration norm PredictScale IsInKeyFrame pKF th (some pMP)).selected = none ∧
    (Fuse.iteration norm PredictScale IsInKeyFrame pKF th (some pMP)).isDivisionByZero
      = false := by
  have hd : Fuse.depthRejected pKF pMP = true := by
    unfold Fuse.depthRejected
    exact decide_eq_true hz
  unfold Fuse.iteration
  dsimp only
  by_cases c1 : (pMP.isBad || IsInKeyFrame pMP pKF) = true
  · rw [if_pos c1]; exact ⟨rfl, rfl⟩
  · rw [if_neg c1, if_pos hd]; exact ⟨rfl, rfl⟩

set_option maxRecDepth 1000000 in
set_option maxHeartbeats 4000000 in
/-- C16 (the code at the failing input): the map point `zeroDepthMP` has depth exactly zero in
the camera frame of `fuseExampleKF`; the depth check of `Fuse` does not skip it, and the
iteration goes on to evaluate the division `1 / z` at `z = 0`. -/
theorem C16_zero_depth_reaches_division :
    (Fuse.p3Dc fuseExampleKF zeroDepthMP).z = 0 ∧
    Fuse.depthRejected fuseExampleKF zeroDepthMP = false ∧
    (Fuse.iteration axisNorm (fun _ _ _ => 0) (fun _ _ => false) fuseExampleKF 1
      (some zeroDepthMP)).isDivisionByZero = true := by
  with_unfolding_all decide

/-- C18: the calls of an iteration of `Fuse` that selects the keypoint `bestIdx` are those of
the merge rule. When the keypoint holds a resident map point that is not bad, exactly one
`Replace` call is made and nothing is attached: the incoming point is replaced by the resident
when the resident has strictly more observations, and the resident is replaced by the incoming
point otherwise (ties included). When the slot is empty the incoming point is attached
(`AddObservation`, then `AddMapPoint`). -/
theorem C18_Fuse_merge_rule (norm : Vec3 → ℚ)
    (PredictScale : MapPoint → ℚ → KeyFrame → Int) (IsInKeyFrame : MapPoint → KeyFrame → Bool)
    (pKF : KeyFrame) (th : ℚ) (pMP : MapPoint) (bestIdx : Int)
    (h : (Fuse.iteration norm PredictScale IsInKeyFrame pKF th (some pMP)).selected
      = some bestIdx) :
    (Fuse.iteration norm PredictScale IsInKeyFrame pKF th (some pMP)).calls =
      Fuse.merge pKF pMP bestIdx ∧
    (∀ pMPinKF : MapPoint, pKF.mvpMapPoints.getD bestIdx.toNat none = some pMPinKF →
      pMPinKF.isBad = false →
      (pMPinKF.Observations > pMP.Observations →
        Fuse.merge pKF pMP bestIdx = [FuseCall.Replace pMP pMPinKF]) ∧
      (pMPinKF.Observations ≤ pMP.Observations →
        Fuse.merge pKF pMP bestIdx = [FuseCall.Replace pMPinKF pMP])) ∧
    (pKF.mvpMapPoints.getD bestIdx.toNat none = none →
      Fuse.merge pKF pMP bestIdx =
        [FuseCall.AddObservation pMP bestIdx, FuseCall.AddMapPoint pMP bestIdx]) := by
  obtain ⟨_, hit⟩ := Fuse.iteration_selected norm PredictScale IsInKeyFrame pKF th pMP bestIdx h
  rw [hit] at h ⊢
  obtain ⟨_, _, hcalls⟩ := Fuse.search_selected pKF pMP th _ bestIdx h
  refine ⟨hcalls, ?_, ?_⟩
  · intro q hq hbad
    unfold Fuse.merge
    rw [hq]
    dsimp only
    rw [hbad]
    simp only [Bool.not_false, if_true]
    constructor
    · intro hgt; rw [if_pos hgt]
    · intro hle; rw [if_neg (not_lt.mpr hle)]
  · intro hq
    unfold Fuse.merge
    rw [hq]

set_option maxRecDepth 1000000 in
set_option maxHeartbeats 4000000 in
/-- Witness of C18: the map point `fuseExampleMP` selects keypoint 0 of
`fuseExampleResidentKF`, which holds a resident map point. -/
theorem C18_Fuse_merge_rule_witness :
    (Fuse.iteration axisNorm (fun _ _ _ => 0) (fun _ _ => false) fuseExampleResidentKF 1
      (some fuseExampleMP)).selected = some 0 ∧
    (Fuse.iteration axisNorm (fun _ _ _ => 0) (fun _ _ => false) fuseExampleResidentKF 1
      (some fuseExampleMP)).calls = Fuse.merge fuseExampleResidentKF fuseExampleMP 0 :=
  ⟨by with_unfolding_all decide,
    (C18_Fuse_merge_rule axisNorm (fun _ _ _ => 0) (fun _ _ => false) fuseExampleResidentKF 1
      fuseExampleMP 0 (by with_unfolding_all decide)).1⟩

set_option maxRecDepth 1000000 in
set_option maxHeartbeats 4000000 in
/-- C21 (the code at the failing input): for the two keypoints of `triDupExampleKF1` and the
single keypoint of `triExampleKF2`, all under one vocabulary node, `SearchForTriangulation`
returns the pairs `(0, 0)` and `(1, 0)` and the count 2: keypoint 0 of the second keyframe is
the second component of two pairs, because `vbMatched2` is never set. -/
theorem C21_second_index_repeated :
    SearchForTriangulation false triDupExampleKF1 triExampleKF2 triExampleF12 false =
      ([(0, 0), (1, 0)], 2) := by
  with_unfolding_all decide

/-- Counting the positions of a list at which a test holds, when the test implies one of two
others. -/
theorem countP_le_add_of_imp {α : Type} (p q r : α → Bool)
    (h : ∀ x, p x = true → q x = true ∨ r x = true) (l : List α) :
    l.countP p ≤ l.countP q + l.countP r := by
  induction l with
  | nil => simp
  | cons x l ih =>
    rw [List.countP_cons, List.countP_cons, List.countP_cons]
    by_cases hp : p x = true
    · rcases h x hp with hq | hr
      · simp only [hp, hq, if_true]; split_ifs <;> omega
      · simp only [hp, hr, if_true]; split_ifs <;> omega
    · simp only [hp, Bool.false_eq_true, if_false]; split_ifs <;> omega

/-- The contribution of a word to the distance counts the bits in which the two words
differ. -/
theorem wordCount_eq_countP (a b : Descriptor) (i : Fin 8) :
    wordCount a b i =
      (List.range 32).countP (fun j => (a i).val.testBit j != (b i).val.testBit j) := by
  unfold wordCount
  rw [bitCount32_eq_popCount32 _ (xor_lt_word _ _), ← hamming_word, List.countP_eq_length_filter]

/-- The triangle inequality, word by word. -/
theorem wordCount_triangle (a b c : Descriptor) (i : Fin 8) :
    wordCount a c i ≤ wordCount a b i + wordCount b c i := by
  rw [wordCount_eq_countP, wordCount_eq_countP, wordCount_eq_countP]
  apply countP_le_add_of_imp
  intro j hj
  cases ha : (a i).val.testBit j <;> cases hb : (b i).val.testBit j <;>
    cases hc : (c i).val.testBit j <;> simp [ha, hb, hc] at hj ⊢

/-- Two words that differ in no bit are equal. -/
theorem word_eq_of_wordCount_zero (a b : Descriptor) (i : Fin 8) (h : wordCount a b i = 0) :
    a i = b i := by
  rw [wordCount_eq_countP, List.countP_eq_zero] at h
  apply Fin.ext
  apply Nat.eq_of_testBit_eq
  intro j
  by_cases hj : j < 32
  · have := h j (List.mem_range.mpr hj)
    simpa using this
  · have h32 : (4294967296 : Nat) = 2 ^ 32 := by norm_num
    have hle : 2 ^ 32 ≤ 2 ^ j := Nat.pow_le_pow_right (by norm_num) (by omega)
    have ha : (a i).val < 2 ^ j := lt_of_lt_of_le (by rw [← h32]; exact (a i).isLt) hle
    have hb : (b i).val < 2 ^ j := lt_of_lt_of_le (by rw [← h32]; exact (b i).isLt) hle
    rw [Nat.testBit_lt_two_pow ha, Nat.testBit_lt_two_pow hb]

/-- C29: `DescriptorDistance` satisfies the triangle inequality; with zero on equal
descriptors and symmetry it is a metric: the distance of two descriptors is zero exactly when
they are equal. -/
theorem C29_DescriptorDistance_metric (a b c : Descriptor) :
    DescriptorDistance a c ≤ DescriptorDistance a b + DescriptorDistance b c ∧
    DescriptorDistance a a = 0 ∧
    DescriptorDistance a b = DescriptorDistance b a ∧
    0 ≤ DescriptorDistance a b ∧
    (DescriptorDistance a b = 0 ↔ a = b) := by
  have hself : DescriptorDistance a a = 0 := by
    rw [DescriptorDistance_eq_sum]
    simp only [wordCount_self]
    rfl
  refine ⟨?_, hself, ?_, (DescriptorDistance_bounds a b).1, ?_, ?_⟩
  · rw [DescriptorDistance_eq_sum, DescriptorDistance_eq_sum, DescriptorDistance_eq_sum]
    have t0 := wordCount_triangle a b c 0
    have t1 := wordCount_triangle a b c 1
    have t2 := wordCount_triangle a b c 2
    have t3 := wordCount_triangle a b c 3
    have t4 := wordCount_triangle a b c 4
    have t5 := wordCount_triangle a b c 5
    have t6 := wordCount_triangle a b c 6
    have t7 := wordCount_triangle a b c 7
    omega
  · rw [DescriptorDistance_eq_sum, DescriptorDistance_eq_sum]
    simp only [wordCount_comm a b]
  · intro h
    rw [DescriptorDistance_eq_sum] at h
    have z0 : wordCount a b 0 = 0 := by omega
    have z1 : wordCount a b 1 = 0 := by omega
    have z2 : wordCount a b 2 = 0 := by omega
    have z3 : wordCount a b 3 = 0 := by omega
    have z4 : wordCount a b 4 = 0 := by omega
    have z5 : wordCount a b 5 = 0 := by omega
    have z6 : wordCount a b 6 = 0 := by omega
    have z7 : wordCount a b 7 = 0 := by omega
    have h0 : ∀ i : Fin 8, wordCount a b i = 0 := by
      intro i
      fin_cases i
      exacts [z0, z1, z2, z3, z4, z5, z6, z7]
    funext i
    exact word_eq_of_wordCount_zero a b i (h0 i)
  · intro h
    rw [← h]
    exact hself

theorem Sorted_suffix {vec it : FeatureVector} (h : FeatureVector.Sorted vec) (hs : it <:+ vec) :
    FeatureVector.Sorted it :=
  List.Pairwise.sublist hs.sublist h

/-- In a sorted feature vector the entries after the first have a larger node id. -/
theorem Sorted_tail_gt {k : Nat} {v : List Nat} {rest : FeatureVector}
    (h : FeatureVector.Sorted ((k, v) :: rest)) : ∀ e ∈ rest, k < e.1 := by
  unfold FeatureVector.Sorted at h
  rw [List.pairwise_cons] at h
  exact fun e he => h.1 e he

/-- The jump `vec.lower_bound key` from the position `(k, v) :: rest` of `vec` with `k < key`
lands in `rest`. -/
theorem lower_bound_jump {vec : FeatureVector} (h : FeatureVector.Sorted vec) {k key : Nat}
    {v : List Nat} {rest : FeatureVector} (hs : (k, v) :: rest <:+ vec) (hlt : k < key) :
    vec.lower_bound key = FeatureVector.lower_bound rest key ∧
    vec.lower_bound key <:+ rest := by
  obtain ⟨pre, hpre⟩ := hs
  have hsorted : FeatureVector.Sorted (pre ++ (k, v) :: rest) := by rw [hpre]; exact h
  have e := lower_bound_skip k key v rest hlt pre hsorted
  rw [hpre] at e
  exact ⟨e, by rw [e]; exact lower_bound_suffix _ _⟩

/-- One iteration of the joint walk moves each iterator forward or leaves it in place, and
moves at least one of them forward. -/
theorem advance_suffix {vec1 vec2 : FeatureVector} (h1 : FeatureVector.Sorted vec1)
    (h2 : FeatureVector.Sorted vec2) {it1 it2 a b : FeatureVector} (hs1 : it1 <:+ vec1)
    (hs2 : it2 <:+ vec2) (h : jointWalk.advance vec1 vec2 it1 it2 = some (a, b)) :
    (a <:+ it1 ∧ b <:+ it2) ∧ (a.length < it1.length ∨ b.length < it2.length) := by
  match it1, it2, hs1, hs2, h with
  | [], _, _, _, h => simp [jointWalk.advance] at h
  | _ :: _, [], _, _, h => simp [jointWalk.advance] at h
  | (k1, v1) :: rest1, (k2, v2) :: rest2, hs1, hs2, h =>
    unfold jointWalk.advance at h
    dsimp only at h
    by_cases e1 : k1 = k2
    · rw [if_pos e1] at h
      simp only [Option.some.injEq, Prod.mk.injEq] at h
      rw [← h.1, ← h.2]
      exact ⟨⟨List.suffix_cons _ _, List.suffix_cons _ _⟩, Or.inl (by simp)⟩
    · rw [if_neg e1] at h
      by_cases e2 : k1 < k2
      · rw [if_pos e2] at h
        simp only [Option.some.injEq, Prod.mk.injEq] at h
        rw [← h.1, ← h.2]
        have hj := (lower_bound_jump h1 hs1 e2).2
        refine ⟨⟨hj.trans (List.suffix_cons _ _), List.suffix_refl _⟩, Or.inl ?_⟩
        have := hj.length_le
        simp only [List.length_cons]
        omega
      · rw [if_neg e2] at h
        simp only [Option.some.injEq, Prod.mk.injEq] at h
        rw [← h.1, ← h.2]
        have e3 : k2 < k1 := by omega
        have hj := (lower_bound_jump h2 hs2 e3).2
        refine ⟨⟨List.suffix_refl _, hj.trans (List.suffix_cons _ _)⟩, Or.inr ?_⟩
        have := hj.length_le
        simp only [List.length_cons]
        omega

/-- After `n` iterations the two iterators are positions of the two vectors and at least
`n` entries have been passed. -/
theorem position_bound {vec1 vec2 : FeatureVector} (h1 : FeatureVector.Sorted vec1)
    (h2 : FeatureVector.Sorted vec2) :
    ∀ (n : Nat) (it1 it2 : FeatureVector), jointWalk.position vec1 vec2 n = some (it1, it2) →
      it1 <:+ vec1 ∧ it2 <:+ vec2 ∧ it1.length + it2.length + n ≤ vec1.length + vec2.length := by
  intro n
  induction n with
  | zero =>
    intro it1 it2 h
    simp only [jointWalk.position, Option.some.injEq, Prod.mk.injEq] at h
    rw [← h.1, ← h.2]
    exact ⟨List.suffix_refl _, List.suffix_refl _, le_refl _⟩
  | succ n ih =>
    intro it1 it2 h
    unfold jointWalk.position at h
    cases hp : jointWalk.position vec1 vec2 n with
    | none => rw [hp] at h; simp at h
    | some p =>
      rw [hp] at h
      simp only [Option.some_bind] at h
      obtain ⟨s1, s2, hlen⟩ := ih p.1 p.2 hp
      obtain ⟨⟨ha, hb⟩, hdec⟩ := advance_suffix h1 h2 s1 s2 h
      have la := ha.length_le
      have lb := hb.length_le
      refine ⟨ha.trans s1, hb.trans s2, ?_⟩
      rcases hdec with hd | hd <;> omega

theorem bow_walk_advance (r : ℚ) (c : Bool) (pKF : KeyFrame) (F : Frame) (fuel : Nat)
    (it1 it2 : FeatureVector) (st : MatchState) :
    match jointWalk.advance pKF.mFeatVec F.mFeatVec it1 it2 with
    | none => SearchByBoW.walk r c pKF F fuel it1 it2 st = st
    | some p => ∃ st2 : MatchState,
        SearchByBoW.walk r c pKF F (fuel + 1) it1 it2 st = SearchByBoW.walk r c pKF F fuel p.1 p.2 st2 := by
  match it1, it2 with
  | [], _ => simp only [jointWalk.advance]; exact walk_nil_left r c pKF F fuel _ st
  | _ :: _, [] => simp only [jointWalk.advance]; exact walk_nil_right r c pKF F fuel _ st
  | (k1, v1) :: rest1, (k2, v2) :: rest2 =>
    have hw : SearchByBoW.walk r c pKF F (fuel + 1) ((k1, v1) :: rest1) ((k2, v2) :: rest2) st =
        if k1 = k2 then
          SearchByBoW.walk r c pKF F fuel rest1 rest2
            (v1.foldl (SearchByBoW.matchKF r c pKF F v2) st)
        else if k1 < k2 then
          SearchByBoW.walk r c pKF F fuel (pKF.mFeatVec.lower_bound k2) ((k2, v2) :: rest2) st
        else
          SearchByBoW.walk r c pKF F fuel ((k1, v1) :: rest1) (F.mFeatVec.lower_bound k1) st := by
      rw [SearchByBoW.walk]
    rw [hw]
    unfold jointWalk.advance
    by_cases e1 : k1 = k2
    · simp only [if_pos e1]; exact ⟨_, rfl⟩
    · simp only [if_neg e1]
      by_cases e2 : k1 < k2
      · simp only [if_pos e2]; exact ⟨_, rfl⟩
      · simp only [if_neg e2]; exact ⟨_, rfl⟩

theorem tri_walk_advance (c : Bool) (pKF1 pKF2 : KeyFrame) (F12 : Mat3) (s : Bool)
    (vb : List Bool) (fuel : Nat) (it1 it2 : FeatureVector) (st : TriangulationState) :
    match jointWalk.advance pKF1.mFeatVec pKF2.mFeatVec it1 it2 with
    | none => SearchForTriangulation.walk c pKF1 pKF2 F12 s vb fuel it1 it2 st = st
    | some p => ∃ st2 : TriangulationState,
        SearchForTriangulation.walk c pKF1 pKF2 F12 s vb (fuel + 1) it1 it2 st =
          SearchForTriangulation.walk c pKF1 pKF2 F12 s vb fuel p.1 p.2 st2 := by
  match it1, it2 with
  | [], _ => simp only [jointWalk.advance]; exact tri_walk_nil_left c pKF1 pKF2 F12 s vb fuel _ st
  | _ :: _, [] =>
    simp only [jointWalk.advance]; exact tri_walk_nil_right c pKF1 pKF2 F12 s vb fuel _ st
  | (k1, v1) :: rest1, (k2, v2) :: rest2 =>
    have hw : SearchForTriangulation.walk c pKF1 pKF2 F12 s vb (fuel + 1) ((k1, v1) :: rest1)
        ((k2, v2) :: rest2) st =
        if k1 = k2 then
          SearchForTriangulation.walk c pKF1 pKF2 F12 s vb fuel rest1 rest2
            (v1.foldl (SearchForTriangulation.match1 c pKF1 pKF2 F12 s vb v2) st)
        else if k1 < k2 then
          SearchForTriangulation.walk c pKF1 pKF2 F12 s vb fuel (pKF1.mFeatVec.lower_bound k2)
            ((k2, v2) :: rest2) st
        else
          SearchForTriangulation.walk c pKF1 pKF2 F12 s vb fuel ((k1, v1) :: rest1)
            (pKF2.mFeatVec.lower_bound k1) st := by
      rw [SearchForTriangulation.walk]
    rw [hw]
    unfold jointWalk.advance
    by_cases e1 : k1 = k2
    · simp only [if_pos e1]; exact ⟨_, rfl⟩
    · simp only [if_neg e1]
      by_cases e2 : k1 < k2
      · simp only [if_pos e2]; exact ⟨_, rfl⟩
      · simp only [if_neg e2]; exact ⟨_, rfl⟩

/-- C23: for sorted feature vectors the joint walk terminates. Each iteration of the `while`
loop moves at least one of the two iterators strictly forward and none backward (after a
`lower_bound` jump every entry from the new position on has a key larger than the key left),
so the loop is left after at most `|vec1| + |vec2|` iterations; accordingly the loops of
`SearchByBoW` and of `SearchForTriangulation` give the same state for every bound on the number
of iterations that is at least `|vec1| + |vec2|`. -/
theorem C23_joint_walk_terminates (pKF pKF2 : KeyFrame) (F : Frame)
    (h1 : FeatureVector.Sorted pKF.mFeatVec) (h2 : FeatureVector.Sorted F.mFeatVec)
    (h3 : FeatureVector.Sorted pKF2.mFeatVec) :
    (jointWalk.position pKF.mFeatVec F.mFeatVec
        (pKF.mFeatVec.length + F.mFeatVec.length + 1) = none ∧
      jointWalk.position pKF.mFeatVec pKF2.mFeatVec
        (pKF.mFeatVec.length + pKF2.mFeatVec.length + 1) = none) ∧
    (∀ (vec2 : FeatureVector), FeatureVector.Sorted vec2 →
      ∀ (n : Nat) (it1 it2 a b : FeatureVector),
      jointWalk.position pKF.mFeatVec vec2 n = some (it1, it2) →
      jointWalk.advance pKF.mFeatVec vec2 it1 it2 = some (a, b) →
      (a <:+ it1 ∧ b <:+ it2) ∧ (a.length < it1.length ∨ b.length < it2.length) ∧
      (a.length < it1.length → ∀ e1 ∈ it1.head?, ∀ e ∈ a, e1.1 < e.1) ∧
      (b.length < it2.length → ∀ e2 ∈ it2.head?, ∀ e ∈ b, e2.1 < e.1)) ∧
    (∀ (r : ℚ) (c : Bool) (fuel : Nat) (it1 it2 : FeatureVector) (st : MatchState),
      match jointWalk.advance pKF.mFeatVec F.mFeatVec it1 it2 with
      | none => SearchByBoW.walk r c pKF F fuel it1 it2 st = st
      | some p => ∃ st2 : MatchState,
          SearchByBoW.walk r c pKF F (fuel + 1) it1 it2 st =
            SearchByBoW.walk r c pKF F fuel p.1 p.2 st2) ∧
    (∀ (c : Bool) (F12 : Mat3) (s : Bool) (vb : List Bool) (fuel : Nat)
      (it1 it2 : FeatureVector) (st : TriangulationState),
      match jointWalk.advance pKF.mFeatVec pKF2.mFeatVec it1 it2 with
      | none => SearchForTriangulation.walk c pKF pKF2 F12 s vb fuel it1 it2 st = st
      | some p => ∃ st2 : TriangulationState,
          SearchForTriangulation.walk c pKF pKF2 F12 s vb (fuel + 1) it1 it2 st =
            SearchForTriangulation.walk c pKF pKF2 F12 s vb fuel p.1 p.2 st2) ∧
    (∀ (r : ℚ) (c : Bool) (fuel : Nat) (st : MatchState),
      pKF.mFeatVec.length + F.mFeatVec.length ≤ fuel →
      SearchByBoW.walk r c pKF F fuel pKF.mFeatVec F.mFeatVec st =
        SearchByBoW.walk r c pKF F (pKF.mFeatVec.length + F.mFeatVec.length)
          pKF.mFeatVec F.mFeatVec st) ∧
    (∀ (c : Bool) (F12 : Mat3) (s : Bool) (vb : List Bool) (fuel : Nat)
      (st : TriangulationState),
      pKF.mFeatVec.length + pKF2.mFeatVec.length ≤ fuel →
      SearchForTriangulation.walk c pKF pKF2 F12 s vb fuel pKF.mFeatVec pKF2.mFeatVec st =
        SearchForTriangulation.walk c pKF pKF2 F12 s vb
          (pKF.mFeatVec.length + pKF2.mFeatVec.length) pKF.mFeatVec pKF2.mFeatVec st) := by
  have hterm : ∀ (vec2 : FeatureVector), FeatureVector.Sorted vec2 →
      jointWalk.position pKF.mFeatVec vec2 (pKF.mFeatVec.length + vec2.length + 1) = none := by
    intro vec2 hv
    cases hp : jointWalk.position pKF.mFeatVec vec2 (pKF.mFeatVec.length + vec2.length + 1) with
    | none => rfl
    | some p =>
      have := (position_bound h1 hv _ p.1 p.2 hp).2.2
      omega
  have hgt : ∀ (it a : FeatureVector), FeatureVector.Sorted it → a <:+ it →
      a.length < it.length → ∀ e1 ∈ it.head?, ∀ e ∈ a, e1.1 < e.1 := by
    intro it a hsorted hsuf hlen e1 he1 e he
    match it, hsorted, hsuf, hlen, he1 with
    | [], _, _, hlen, _ => simp at hlen
    | (k, v) :: rest, hsorted, hsuf, hlen, he1 =>
      simp only [List.head?_cons, Option.mem_def, Option.some.injEq] at he1
      rw [← he1]
      rcases List.suffix_cons_iff.mp hsuf with heq | hrest
      · rw [heq] at hlen; exact absurd hlen (lt_irrefl _)
      · exact Sorted_tail_gt hsorted e (hrest.subset he)
  refine ⟨⟨hterm _ h2, hterm _ h3⟩, ?_, ?_, ?_, ?_, ?_⟩
  · intro vec2 hv n it1 it2 a b hp ha
    obtain ⟨s1, s2, _⟩ := position_bound h1 hv n it1 it2 hp
    obtain ⟨hsuf, hdec⟩ := advance_suffix h1 hv s1 s2 ha
    exact ⟨hsuf, hdec, hgt it1 a (Sorted_suffix h1 s1) hsuf.1, hgt it2 b (Sorted_suffix hv s2) hsuf.2⟩
  · intro r c fuel it1 it2 st
    exact bow_walk_advance r c pKF F fuel it1 it2 st
  · intro c F12 s vb fuel it1 it2 st
    exact tri_walk_advance c pKF pKF2 F12 s vb fuel it1 it2 st
  · intro r c fuel st hf
    exact walk_fuel_irrelevant r c pKF F h1 h2 _ _ _ _ _ (List.suffix_refl _)
      (List.suffix_refl _) hf (le_refl _)
  · intro c F12 s vb fuel st hf
    exact tri_walk_fuel_irrelevant c pKF pKF2 F12 s vb h1 h3 _ _ _ _ _ (List.suffix_refl _)
      (List.suffix_refl _) hf (le_refl _)

theorem lookup_cons_ne {k k2 : Nat} (v : List Nat) (l : FeatureVector) (h : k ≠ k2) :
    List.lookup k ((k2, v) :: l) = List.lookup k l := by
  rw [List.lookup_cons]
  have : (k == k2) = false := by simpa using h
  rw [this]

theorem lookup_eq_none_of_ne (k : Nat) : ∀ (l : FeatureVector), (∀ e ∈ l, e.1 ≠ k) →
    List.lookup k l = none
  | [], _ => rfl
  | (k2, v) :: l, h => by
    rw [lookup_cons_ne v l (fun hk => h (k2, v) (List.mem_cons_self _ _) hk.symm)]
    exact lookup_eq_none_of_ne k l (fun e he => h e (List.mem_cons_of_mem _ he))

theorem lookup_dropWhile {k k1 : Nat} (h : k1 ≤ k) : ∀ (l : FeatureVector),
    List.lookup k (l.dropWhile (fun e => decide (e.1 < k1))) = List.lookup k l
  | [] => rfl
  | (k2, v) :: l => by
    rw [List.dropWhile_cons]
    by_cases hlt : k2 < k1
    · simp only [hlt, decide_True, if_true]
      rw [lookup_dropWhile h l, lookup_cons_ne v l (by omega)]
    · simp only [hlt, decide_False, Bool.false_eq_true, if_false]

/-- In a sorted feature vector a node id is looked up to the index list it is listed with. -/
theorem lookup_eq_some_iff {k : Nat} {v : List Nat} : ∀ {l : FeatureVector},
    FeatureVector.Sorted l → (List.lookup k l = some v ↔ (k, v) ∈ l)
  | [], _ => by simp
  | (k2, v2) :: l, hs => by
    have htail : FeatureVector.Sorted l := Sorted_suffix hs (List.suffix_cons _ _)
    have hgt := Sorted_tail_gt hs
    by_cases hk : k = k2
    · subst hk
      rw [List.lookup_cons]
      simp only [beq_self_eq_true, Option.some.injEq, List.mem_cons, Prod.mk.injEq, true_and]
      constructor
      · intro h; exact Or.inl h.symm
      · rintro (h | h)
        · exact h.symm
        · exact absurd (hgt (k, v) h) (lt_irrefl _)
    · rw [lookup_cons_ne v2 l hk, lookup_eq_some_iff htail]
      simp only [List.mem_cons, Prod.mk.injEq]
      constructor
      · intro h; exact Or.inr h
      · rintro (h | h)
        · exact absurd h.1 hk
        · exact h

theorem commonNodes_nil_right : ∀ (l : FeatureVector), commonNodes l [] = []
  | [] => rfl
  | e :: l => by
    have ih := commonNodes_nil_right l
    unfold commonNodes at ih ⊢
    rw [List.filterMap_cons]
    simp only [List.lookup_nil, Option.map_none']
    exact ih

theorem commonNodes_cons_none (e : Nat × List Nat) (l it2 : FeatureVector)
    (h : List.lookup e.1 it2 = none) : commonNodes (e :: l) it2 = commonNodes l it2 := by
  unfold commonNodes
  rw [List.filterMap_cons, h]
  rfl

theorem commonNodes_cons_some (e : Nat × List Nat) (l it2 : FeatureVector) (v2 : List Nat)
    (h : List.lookup e.1 it2 = some v2) :
    commonNodes (e :: l) it2 = (e.1, e.2, v2) :: commonNodes l it2 := by
  unfold commonNodes
  rw [List.filterMap_cons, h]
  rfl

theorem commonNodes_congr (l it2 it3 : FeatureVector)
    (h : ∀ e ∈ l, List.lookup e.1 it2 = List.lookup e.1 it3) :
    commonNodes l it2 = commonNodes l it3 := by
  induction l with
  | nil => rfl
  | cons e l ih =>
    unfold commonNodes at ih ⊢
    rw [List.filterMap_cons, List.filterMap_cons, h e (List.mem_cons_self _ _),
      ih (fun x hx => h x (List.mem_cons_of_mem _ hx))]

theorem commonNodes_dropWhile (key : Nat) (it2 : FeatureVector) (h : ∀ e ∈ it2, key ≤ e.1) :
    ∀ (l : FeatureVector),
      commonNodes (l.dropWhile (fun e => decide (e.1 < key))) it2 = commonNodes l it2
  | [] => rfl
  | e :: l => by
    rw [List.dropWhile_cons]
    by_cases hlt : e.1 < key
    · simp only [hlt, decide_True, if_true]
      rw [commonNodes_dropWhile key it2 h l, commonNodes_cons_none e l it2
        (lookup_eq_none_of_ne e.1 it2 (fun x hx hxe => by have := h x hx; omega))]
    · simp only [hlt, decide_False, Bool.false_eq_true, if_false]

theorem bow_walk_cons (r : ℚ) (c : Bool) (pKF : KeyFrame) (F : Frame) (fuel : Nat) (k1 k2 : Nat)
    (v1 v2 : List Nat) (rest1 rest2 : FeatureVector) (st : MatchState) :
    SearchByBoW.walk r c pKF F (fuel + 1) ((k1, v1) :: rest1) ((k2, v2) :: rest2) st =
      if k1 = k2 then
        SearchByBoW.walk r c pKF F fuel rest1 rest2
          (v1.foldl (SearchByBoW.matchKF r c pKF F v2) st)
      else if k1 < k2 then
        SearchByBoW.walk r c pKF F fuel (pKF.mFeatVec.lower_bound k2) ((k2, v2) :: rest2) st
      else
        SearchByBoW.walk r c pKF F fuel ((k1, v1) :: rest1) (F.mFeatVec.lower_bound k1) st := by
  rw [SearchByBoW.walk]

/-- With sorted feature vectors and enough iterations, the joint walk of `SearchByBoW` from
two positions is the fold of the matching of one node over the nodes common to the two
positions. -/
theorem bow_walk_eq_fold (r : ℚ) (c : Bool) (pKF : KeyFrame) (F : Frame)
    (hKF : FeatureVector.Sorted pKF.mFeatVec) (hF : FeatureVector.Sorted F.mFeatVec) :
    ∀ (fuel : Nat) (it1 it2 : FeatureVector) (st : MatchState),
      it1 <:+ pKF.mFeatVec → it2 <:+ F.mFeatVec → it1.length + it2.length ≤ fuel →
      SearchByBoW.walk r c pKF F fuel it1 it2 st =
        (commonNodes it1 it2).foldl
          (fun st e => e.2.1.foldl (SearchByBoW.matchKF r c pKF F e.2.2) st) st := by
  intro fuel
  induction fuel with
  | zero =>
    intro it1 it2 st _ _ hlen
    have : it1 = [] := List.length_eq_zero.mp (by omega)
    subst this
    rw [walk_nil_left]
    rfl
  | succ f ih =>
    intro it1 it2 st s1 s2 hlen
    match it1, it2, s1, s2, hlen with
    | [], _, _, _, _ => rw [walk_nil_left]; rfl
    | _ :: _, [], _, _, _ => rw [walk_nil_right, commonNodes_nil_right]; rfl
    | (k1, v1) :: rest1, (k2, v2) :: rest2, s1, s2, hlen =>
      simp only [List.length_cons] at hlen
      have hs1 := Sorted_suffix hKF s1
      have hs2 := Sorted_suffix hF s2
      have hgt1 := Sorted_tail_gt hs1
      have hgt2 := Sorted_tail_gt hs2
      rw [bow_walk_cons]
      by_cases e1 : k1 = k2
      · rw [if_pos e1]
        rw [ih rest1 rest2 _ ((List.suffix_cons _ _).trans s1) ((List.suffix_cons _ _).trans s2)
          (by omega)]
        have hl : List.lookup k1 ((k2, v2) :: rest2) = some v2 := by
          rw [List.lookup_cons, e1]; simp
        rw [commonNodes_cons_some (k1, v1) rest1 _ v2 hl, List.foldl_cons]
        rw [commonNodes_congr rest1 ((k2, v2) :: rest2) rest2
          (fun e he => lookup_cons_ne v2 rest2 (by have := hgt1 e he; omega))]
      · rw [if_neg e1]
        by_cases e2 : k1 < k2
        · rw [if_pos e2]
          obtain ⟨hj, hjs⟩ := lower_bound_jump hKF s1 e2
          have hlen2 := hjs.length_le
          rw [ih _ _ _ (lower_bound_suffix _ _) s2 (by simp only [List.length_cons]; omega)]
          have hkeys : ∀ e ∈ (k2, v2) :: rest2, k2 ≤ e.1 := by
            intro e he
            rcases List.mem_cons.mp he with h | h
            · rw [h]
            · exact le_of_lt (hgt2 e h)
          rw [hj]
          unfold FeatureVector.lower_bound
          rw [commonNodes_dropWhile k2 _ hkeys rest1]
          rw [commonNodes_cons_none (k1, v1) rest1 _
            (lookup_eq_none_of_ne k1 _ (fun e he hek => by have := hkeys e he; omega))]
        · rw [if_neg e2]
          have e3 : k2 < k1 := by omega
          obtain ⟨hj, hjs⟩ := lower_bound_jump hF s2 e3
          have hlen2 := hjs.length_le
          rw [ih _ _ _ s1 (lower_bound_suffix _ _) (by simp only [List.length_cons]; omega)]
          rw [hj]
          unfold FeatureVector.lower_bound
          congr 1
          apply commonNodes_congr
          intro e he
          have hek : k1 ≤ e.1 := by
            rcases List.mem_cons.mp he with h | h
            · rw [h]
            · exact le_of_lt (hgt1 e h)
          rw [lookup_dropWhile hek rest2, lookup_cons_ne v2 rest2 (by omega)]

theorem mem_commonNodes {vec1 vec2 : FeatureVector} (h2 : FeatureVector.Sorted vec2)
    (n : Nat) (v1 v2 : List Nat) :
    (n, v1, v2) ∈ commonNodes vec1 vec2 ↔ (n, v1) ∈ vec1 ∧ (n, v2) ∈ vec2 := by
  unfold commonNodes
  rw [List.mem_filterMap]
  constructor
  · rintro ⟨e, he, hmap⟩
    cases hl : List.lookup e.1 vec2 with
    | none => rw [hl] at hmap; simp at hmap
    | some w =>
      rw [hl] at hmap
      simp only [Option.map_some', Option.some.injEq, Prod.mk.injEq] at hmap
      obtain ⟨hn, hv1, hw⟩ := hmap
      refine ⟨?_, ?_⟩
      · rw [← hn, ← hv1]; exact he
      · rw [← hn, ← hw]; exact (lookup_eq_some_iff h2).mp hl
  · rintro ⟨hm1, hm2⟩
    refine ⟨(n, v1), hm1, ?_⟩
    rw [(lookup_eq_some_iff h2).mpr hm2]
    rfl

theorem commonNodes_sorted {vec1 : FeatureVector} (h1 : FeatureVector.Sorted vec1)
    (vec2 : FeatureVector) : (commonNodes vec1 vec2).Pairwise (fun a b => a.1 < b.1) := by
  unfold commonNodes
  refine List.Pairwise.filterMap _ ?_ h1
  intro a a2 hlt b hb b2 hb2
  cases hl : List.lookup a.1 vec2 with
  | none => rw [hl] at hb; simp at hb
  | some w =>
    cases hl2 : List.lookup a2.1 vec2 with
    | none => rw [hl2] at hb2; simp at hb2
    | some w2 =>
      rw [hl] at hb
      rw [hl2] at hb2
      simp only [Option.map_some', Option.mem_def, Option.some.injEq] at hb hb2
      rw [← hb, ← hb2]
      exact hlt

/-- C22: for feature vectors sorted by node id, the state that the joint walk of `SearchByBoW`
reaches is the fold, over the list of the node ids present in both vectors, of the matching of
the keyframe keypoints of the node against the frame keypoints of the same node; that list
holds exactly the node ids present in both vectors, each once and in increasing order. The
keypoints under a node id present in one vector only do not enter the computation. -/
theorem C22_SearchByBoW_common_nodes (mfNNratio : ℚ) (mbCheckOrientation : Bool)
    (pKF : KeyFrame) (F : Frame)
    (hKF : FeatureVector.Sorted pKF.mFeatVec) (hF : FeatureVector.Sorted F.mFeatVec) :
    SearchByBoW.matching mfNNratio mbCheckOrientation pKF F =
      (commonNodes pKF.mFeatVec F.mFeatVec).foldl
        (fun st e =>
          e.2.1.foldl (SearchByBoW.matchKF mfNNratio mbCheckOrientation pKF F e.2.2) st)
        { mvpMapPoints := List.replicate F.N none, nmatches := 0, rotHist := emptyRotHist } ∧
    (∀ (n : Nat) (v1 v2 : List Nat),
      (n, v1, v2) ∈ commonNodes pKF.mFeatVec F.mFeatVec ↔
        (n, v1) ∈ pKF.mFeatVec ∧ (n, v2) ∈ F.mFeatVec) ∧
    (commonNodes pKF.mFeatVec F.mFeatVec).Pairwise (fun a b => a.1 < b.1) := by
  refine ⟨?_, mem_commonNodes hF, commonNodes_sorted hKF _⟩
  unfold SearchByBoW.matching
  exact bow_walk_eq_fold mfNNratio mbCheckOrientation pKF F hKF hF _ _ _ _
    (List.suffix_refl _) (List.suffix_refl _) (le_refl _)

/-- Witness of C22: the feature vectors of `walkExampleKF` and `walkExampleF` are sorted; their
only common node is node 3. -/
theorem C22_SearchByBoW_common_nodes_witness :
    FeatureVector.Sorted walkExampleKF.mFeatVec ∧ FeatureVector.Sorted walkExampleF.mFeatVec ∧
    commonNodes walkExampleKF.mFeatVec walkExampleF.mFeatVec = [(3, [1], [1])] ∧
    SearchByBoW.matching (9 / 10) false walkExampleKF walkExampleF =
      (commonNodes walkExampleKF.mFeatVec walkExampleF.mFeatVec).foldl
        (fun st e =>
          e.2.1.foldl (SearchByBoW.matchKF (9 / 10) false walkExampleKF walkExampleF e.2.2) st)
        { mvpMapPoints := List.replicate walkExampleF.N none, nmatches := 0,
          rotHist := emptyRotHist } :=
  ⟨by unfold FeatureVector.Sorted; decide, by unfold FeatureVector.Sorted; decide, by decide,
    (C22_SearchByBoW_common_nodes (9 / 10) false walkExampleKF walkExampleF
      (by unfold FeatureVector.Sorted; decide) (by unfold FeatureVector.Sorted; decide)).1⟩

/-- Witness of C23: the joint walk over the feature vectors of `walkExampleKF`, `walkExampleF`
and `triExampleKF2`. -/
theorem C23_joint_walk_terminates_witness :
    FeatureVector.Sorted walkExampleKF.mFeatVec ∧ FeatureVector.Sorted walkExampleF.mFeatVec ∧
    FeatureVector.Sorted triExampleKF2.mFeatVec ∧
    (jointWalk.position walkExampleKF.mFeatVec walkExampleF.mFeatVec
        (walkExampleKF.mFeatVec.length + walkExampleF.mFeatVec.length + 1) = none ∧
      jointWalk.position walkExampleKF.mFeatVec triExampleKF2.mFeatVec
        (walkExampleKF.mFeatVec.length + triExampleKF2.mFeatVec.length + 1) = none) :=
  ⟨by unfold FeatureVector.Sorted; decide, by unfold FeatureVector.Sorted; decide,
    by unfold FeatureVector.Sorted; decide,
    (C23_joint_walk_terminates walkExampleKF triExampleKF2 walkExampleF
      (by unfold FeatureVector.Sorted; decide) (by unfold FeatureVector.Sorted; decide)
      (by unfold FeatureVector.Sorted; decide)).1⟩

/-- The rotation filter only clears entries. -/
theorem clearBin_entry (bin : List Int) : ∀ (s : List (Option MapPoint) × Int) (i : Nat)
    (p : MapPoint), (rotationFilter.clearBin s bin).1.getD i none = some p →
      s.1.getD i none = some p := by
  induction bin with
  | nil => intro s i p h; exact h
  | cons x bin ih =>
    intro s i p h
    unfold rotationFilter.clearBin at h ih
    rw [List.foldl_cons] at h
    have h2 := ih _ i p h
    dsimp only at h2
    rcases getD_set_cases s.1 x.toNat i none none (some p) h2 with ⟨_, h3⟩ | h3
    · exact absurd h3 (by simp)
    · exact h3

theorem rotationFilter_entry (rotHist : List (List Int)) (m : List (Option MapPoint)) (n : Int)
    (i : Nat) (p : MapPoint) (h : (rotationFilter rotHist m n).1.getD i none = some p) :
    m.getD i none = some p := by
  unfold rotationFilter at h
  dsimp only at h
  generalize ComputeThreeMaxima rotHist HISTO_LENGTH (-1) (-1) (-1) = r at h
  have key : ∀ (l : List Nat) (s : List (Option MapPoint) × Int),
      (l.foldl (fun s i => if rotationFilter.kept r i = true then s
        else rotationFilter.clearBin s (rotHist.getD i [])) s).1.getD i none = some p →
      s.1.getD i none = some p := by
    intro l
    induction l with
    | nil => intro s hs; exact hs
    | cons k l ih =>
      intro s hs
      rw [List.foldl_cons] at hs
      have h2 := ih _ hs
      by_cases hk : rotationFilter.kept r k = true
      · rw [if_pos hk] at h2; exact h2
      · rw [if_neg hk] at h2; exact clearBin_entry _ s i p h2
  exact key _ (m, n) h

theorem getD_set_ne (m : List (Option MapPoint)) (k j : Nat) (x : Option MapPoint)
    (h : k ≠ j) : (m.set k x).getD j none = m.getD j none := by
  rw [List.getD_eq_getElem?_getD, List.getD_eq_getElem?_getD, List.getElem?_set_ne h]

theorem numMatched_set_none (m : List (Option MapPoint)) (k : Nat)
    (h : (m.getD k none).isSome = true) : numMatched (m.set k none) = numMatched m - 1 := by
  have hl := isSome_lt_length m k h
  unfold numMatched
  rw [List.countP_set _ _ _ _ hl]
  have hk : m[k].isSome = true := by
    rw [List.getD_eq_getElem?_getD, List.getElem?_eq_getElem hl] at h
    simpa using h
  have hpos : 0 < m.countP Option.isSome := by
    apply List.countP_pos_iff.mpr
    exact ⟨m[k], List.getElem_mem _, hk⟩
  simp only [hk, Option.isSome_none, Bool.false_eq_true, if_false, if_true]
  omega

/-- Clearing the pairwise distinct non-null entries of a bin keeps the counter equal to the
number of non-null entries, and keeps the other listed entries non-null. -/
theorem clearBin_consistent : ∀ (bin R : List Int) (s : List (Option MapPoint) × Int),
    (bin ++ R).Nodup →
    (∀ e ∈ bin ++ R, 0 ≤ e ∧ (s.1.getD e.toNat none).isSome = true) →
    s.2 = numMatched s.1 →
    (rotationFilter.clearBin s bin).2 = numMatched (rotationFilter.clearBin s bin).1 ∧
    (∀ e ∈ R, 0 ≤ e ∧ ((rotationFilter.clearBin s bin).1.getD e.toNat none).isSome = true) ∧
    (rotationFilter.clearBin s bin).1.length = s.1.length := by
  intro bin
  induction bin with
  | nil =>
    intro R s _ hv hc
    exact ⟨hc, fun e he => hv e (by simpa using he), rfl⟩
  | cons x bin ih =>
    intro R s hnd hv hc
    rw [List.cons_append, List.nodup_cons] at hnd
    have hx := hv x (by simp)
    have step : ∀ e ∈ bin ++ R, 0 ≤ e ∧
        ((s.1.set x.toNat none, s.2 - 1).1.getD e.toNat none).isSome = true := by
      intro e he
      have hev := hv e (List.mem_cons_of_mem _ he)
      refine ⟨hev.1, ?_⟩
      have hne : x.toNat ≠ e.toNat := by
        intro heq
        have : x = e := by
          have h1 := Int.toNat_of_nonneg hx.1
          have h2 := Int.toNat_of_nonneg hev.1
          omega
        exact hnd.1 (this ▸ he)
      dsimp only
      rw [getD_set_ne _ _ _ _ hne]
      exact hev.2
    have hc2 : (s.1.set x.toNat none, s.2 - 1).2 =
        numMatched (s.1.set x.toNat none, s.2 - 1).1 := by
      dsimp only
      rw [numMatched_set_none _ _ hx.2, hc]
    have := ih R (s.1.set x.toNat none, s.2 - 1) hnd.2 step hc2
    unfold rotationFilter.clearBin at this ⊢
    rw [List.foldl_cons]
    refine ⟨this.1, this.2.1, ?_⟩
    rw [this.2.2]
    exact List.length_set _ _ _

theorem range_map_getD (h : List (List Int)) :
    (List.range h.length).map (fun i => h.getD i []) = h := by
  apply List.ext_getElem
  · simp
  · intro n h1 h2
    simp only [List.getElem_map, List.getElem_range]
    rw [List.getD_eq_getElem?_getD, List.getElem?_eq_getElem h2]
    rfl

/-- The rotation filter keeps the counter equal to the number of non-null entries. -/
theorem rotationFilter_consistent (st : MatchState) (h : st.Consistent) :
    (rotationFilter st.rotHist st.mvpMapPoints st.nmatches).2 =
      numMatched (rotationFilter st.rotHist st.mvpMapPoints st.nmatches).1 ∧
    (rotationFilter st.rotHist st.mvpMapPoints st.nmatches).1.length =
      st.mvpMapPoints.length := by
  obtain ⟨hc, hlen, hnd, hv⟩ := h
  unfold rotationFilter
  dsimp only
  generalize ComputeThreeMaxima st.rotHist HISTO_LENGTH (-1) (-1) (-1) = r
  have key : ∀ (l : List Nat) (s : List (Option MapPoint) × Int),
      ((l.map (fun i => st.rotHist.getD i [])).flatten).Nodup →
      (∀ e ∈ (l.map (fun i => st.rotHist.getD i [])).flatten,
        0 ≤ e ∧ (s.1.getD e.toNat none).isSome = true) →
      s.2 = numMatched s.1 →
      (l.foldl (fun s i => if rotationFilter.kept r i = true then s
        else rotationFilter.clearBin s (st.rotHist.getD i [])) s).2 =
        numMatched (l.foldl (fun s i => if rotationFilter.kept r i = true then s
          else rotationFilter.clearBin s (st.rotHist.getD i [])) s).1 ∧
      (l.foldl (fun s i => if rotationFilter.kept r i = true then s
        else rotationFilter.clearBin s (st.rotHist.getD i [])) s).1.length = s.1.length := by
    intro l
    induction l with
    | nil => intro s _ _ hs; exact ⟨hs, rfl⟩
    | cons i l ih =>
      intro s hn hval hs
      rw [List.map_cons, List.flatten_cons] at hn hval
      rw [List.foldl_cons]
      by_cases hk : rotationFilter.kept r i = true
      · rw [if_pos hk]
        exact ih s (List.Nodup.of_append_right hn)
          (fun e he => hval e (List.mem_append_right _ he)) hs
      · rw [if_neg hk]
        obtain ⟨c1, c2, c3⟩ := clearBin_consistent (st.rotHist.getD i []) _ s hn hval hs
        have := ih (rotationFilter.clearBin s (st.rotHist.getD i []))
          (List.Nodup.of_append_right hn) c2 c1
        exact ⟨this.1, by rw [this.2, c3]⟩
  have hr : (List.range HISTO_LENGTH.toNat).map (fun i => st.rotHist.getD i []) = st.rotHist := by
    rw [← hlen]; exact range_map_getD _
  exact key _ (st.mvpMapPoints, st.nmatches) (by rw [hr]; exact hnd) (by rw [hr]; exact hv) hc

/-- Pushing an index into a bin of the histogram adds it to the entries of the histogram. -/
theorem flatten_set_append (idx : Int) : ∀ (h : List (List Int)) (k : Nat), k < h.length →
    List.Perm (h.set k (h.getD k [] ++ [idx])).flatten (idx :: h.flatten)
  | [], _, hk => by simp at hk
  | x :: t, 0, _ => by
    simp only [List.set_cons_zero, List.getD_cons_zero, List.flatten_cons, List.append_assoc,
      List.singleton_append]
    exact List.perm_middle
  | x :: t, k + 1, hk => by
    simp only [List.set_cons_succ, List.getD_cons_succ, List.flatten_cons]
    have ih := flatten_set_append idx t k (by simpa using hk)
    exact (List.Perm.append_left x ih).trans List.perm_middle

theorem MatchState.Consistent.cons_record {st : MatchState} (h : st.Consistent) (c : Bool)
    (bin : Int) (i : Nat) (pMP : MapPoint) (hfree : (st.mvpMapPoints.getD i none).isSome = false)
    (hi : i < st.mvpMapPoints.length) :
    MatchState.Consistent
      { mvpMapPoints := st.mvpMapPoints.set i (some pMP)
        nmatches := st.nmatches + 1
        rotHist := if c = true then pushBin st.rotHist bin (i : Int) else st.rotHist } := by
  obtain ⟨hc, hlen, hnd, hv⟩ := h
  have hcount : st.nmatches + 1 = numMatched (st.mvpMapPoints.set i (some pMP)) := by
    rw [numMatched_set _ _ _ hfree, if_pos hi, hc]
  have hmono : ∀ e ∈ st.rotHist.flatten,
      0 ≤ e ∧ ((st.mvpMapPoints.set i (some pMP)).getD e.toNat none).isSome = true := by
    intro e he
    exact ⟨(hv e he).1, (getD_set_isSome _ _ _ _).mpr (Or.inr (hv e he).2)⟩
  have hnew : (((st.mvpMapPoints.set i (some pMP)).getD ((i : Int)).toNat none)).isSome = true := by
    rw [Int.toNat_natCast]
    exact (getD_set_isSome _ _ _ _).mpr (Or.inl ⟨rfl, hi⟩)
  have hnotin : (i : Int) ∉ st.rotHist.flatten := by
    intro hin
    have := (hv _ hin).2
    rw [Int.toNat_natCast, hfree] at this
    exact absurd this (by decide)
  unfold MatchState.Consistent
  dsimp only
  refine ⟨hcount, ?_⟩
  by_cases hcc : c = true
  · rw [if_pos hcc]
    unfold pushBin
    by_cases hb : 0 ≤ bin ∧ bin < HISTO_LENGTH
    · rw [if_pos hb]
      have hk : bin.toNat < st.rotHist.length := by
        rw [hlen]
        have h1 := hb.1
        have h2 := hb.2
        unfold HISTO_LENGTH at h2 ⊢
        omega
      have hperm := flatten_set_append (i : Int) st.rotHist bin.toNat hk
      refine ⟨by rw [List.length_set]; exact hlen, ?_, ?_⟩
      · rw [hperm.nodup_iff, List.nodup_cons]
        exact ⟨hnotin, hnd⟩
      · intro e he
        rw [hperm.mem_iff, List.mem_cons] at he
        rcases he with he | he
        · rw [he]; exact ⟨Int.natCast_nonneg _, hnew⟩
        · exact hmono e he
    · rw [if_neg hb]
      exact ⟨hlen, hnd, hmono⟩
  · rw [if_neg hcc]
    exact ⟨hlen, hnd, hmono⟩

theorem MatchState.Consistent.cons_matchKF (r : ℚ) (c : Bool) (pKF : KeyFrame) (F : Frame)
    (vIndicesF : List Nat) {st : MatchState} (h : st.Consistent)
    (hidx : ∀ i ∈ vIndicesF, i < st.mvpMapPoints.length) (realIdxKF : Nat) :
    (SearchByBoW.matchKF r c pKF F vIndicesF st realIdxKF).Consistent ∧
    (SearchByBoW.matchKF r c pKF F vIndicesF st realIdxKF).mvpMapPoints.length =
      st.mvpMapPoints.length := by
  unfold SearchByBoW.matchKF
  cases hmp : pKF.mvpMapPoints.getD realIdxKF none with
  | none => exact ⟨h, rfl⟩
  | some pMP =>
    dsimp only
    by_cases hbad : pMP.isBad = true
    · rw [if_pos hbad]; exact ⟨h, rfl⟩
    · rw [if_neg hbad]
      have hspec := Best2.Spec.spec_foldl vIndicesF []
        (Best2.Spec.spec_init F st.mvpMapPoints
          (pKF.mDescriptors.getD realIdxKF Descriptor.zero))
      rw [List.nil_append] at hspec
      generalize vIndicesF.foldl (SearchByBoW.scan F st.mvpMapPoints
          (pKF.mDescriptors.getD realIdxKF Descriptor.zero))
          { bestDist1 := 256, bestIdxF := -1, bestDist2 := 256 } = b at hspec
      by_cases h1 : b.bestDist1 ≤ TH_LOW
      · rw [if_pos h1]
        by_cases h2 : ((b.bestDist1 : Int) : ℚ) < f32 (r * ((b.bestDist2 : Int) : ℚ))
        · rw [if_pos h2]
          obtain ⟨_, _, _, hbest⟩ := hspec
          have hlt : b.bestDist1 < 256 := by unfold TH_LOW at h1; omega
          obtain ⟨i, himem, hbi, hfree, _⟩ := hbest hlt
          have hnat : b.bestIdxF.toNat = i := by rw [hbi]; exact Int.toNat_natCast i
          rw [hnat, hbi]
          exact ⟨h.cons_record c _ i pMP hfree (hidx i himem), List.length_set _ _ _⟩
        · rw [if_neg h2]; exact ⟨h, rfl⟩
      · rw [if_neg h1]; exact ⟨h, rfl⟩

theorem MatchState.Consistent.cons_foldl_matchKF (r : ℚ) (c : Bool) (pKF : KeyFrame) (F : Frame)
    (vIndicesF : List Nat) :
    ∀ (l : List Nat) {st : MatchState}, st.Consistent →
      (∀ i ∈ vIndicesF, i < st.mvpMapPoints.length) →
      (l.foldl (SearchByBoW.matchKF r c pKF F vIndicesF) st).Consistent ∧
      (l.foldl (SearchByBoW.matchKF r c pKF F vIndicesF) st).mvpMapPoints.length =
        st.mvpMapPoints.length
  | [], _, h, _ => ⟨h, rfl⟩
  | x :: l, st, h, hidx => by
    obtain ⟨h1, h2⟩ := h.cons_matchKF r c pKF F vIndicesF hidx x
    have := MatchState.Consistent.cons_foldl_matchKF r c pKF F vIndicesF l h1
      (fun i hi => by rw [h2]; exact hidx i hi)
    rw [List.foldl_cons]
    exact ⟨this.1, by rw [this.2, h2]⟩

theorem MatchState.Consistent.cons_walk (r : ℚ) (c : Bool) (pKF : KeyFrame) (F : Frame)
    (n : Nat) (hidx : ∀ e ∈ F.mFeatVec, ∀ i ∈ e.2, i < n) :
    ∀ (fuel : Nat) (KFit Fit : FeatureVector) {st : MatchState},
      Fit <:+ F.mFeatVec → st.Consistent → st.mvpMapPoints.length = n →
      (SearchByBoW.walk r c pKF F fuel KFit Fit st).Consistent ∧
      (SearchByBoW.walk r c pKF F fuel KFit Fit st).mvpMapPoints.length = n
  | 0, _, _, _, _, h, hl => by simpa [SearchByBoW.walk] using ⟨h, hl⟩
  | _ + 1, [], _, _, _, h, hl => by simpa [SearchByBoW.walk] using ⟨h, hl⟩
  | _ + 1, _ :: _, [], _, _, h, hl => by simpa [SearchByBoW.walk] using ⟨h, hl⟩
  | fuel + 1, (kfFirst, vIndicesKF) :: kfRest, (fFirst, vIndicesF) :: fRest, st, hs, h, hl => by
    unfold SearchByBoW.walk
    have hmem : (fFirst, vIndicesF) ∈ F.mFeatVec := hs.subset (List.mem_cons_self _ _)
    split_ifs with e1 e2
    · obtain ⟨h1, h2⟩ := MatchState.Consistent.cons_foldl_matchKF r c pKF F vIndicesF vIndicesKF h
        (fun i hi => by rw [hl]; exact hidx _ hmem i hi)
      exact MatchState.Consistent.cons_walk r c pKF F n hidx fuel _ _
        ((List.suffix_cons _ _).trans hs) h1 (by rw [h2, hl])
    · exact MatchState.Consistent.cons_walk r c pKF F n hidx fuel _ _ hs h hl
    · exact MatchState.Consistent.cons_walk r c pKF F n hidx fuel _ _
        (lower_bound_suffix _ _) h hl

theorem numMatched_replicate (n : Nat) : numMatched (List.replicate n none) = 0 := by
  unfold numMatched
  rw [List.countP_eq_zero.mpr]
  · rfl
  · intro a ha
    rw [List.eq_of_mem_replicate ha]
    simp

/-- C26: when every index listed in the feature vector of the frame is a keypoint index
(below `F.N`), the result of `SearchByBoW` is consistent, with or without the orientation
check: the vector of matches has length `F.N`, the returned count is the number of its
non-null entries, the number of matches made before the rotation filter is the number of
non-null entries at that point (no frame keypoint is matched twice), and every non-null entry
is the map point, not bad, of a keypoint of the keyframe. -/
theorem C26_SearchByBoW_count_consistent (mfNNratio : ℚ) (mbCheckOrientation : Bool)
    (pKF : KeyFrame) (F : Frame) (hidx : ∀ e ∈ F.mFeatVec, ∀ i ∈ e.2, i < F.N) :
    (SearchByBoW mfNNratio mbCheckOrientation pKF F).1.length = F.N ∧
    (SearchByBoW mfNNratio mbCheckOrientation pKF F).2 =
      numMatched (SearchByBoW mfNNratio mbCheckOrientation pKF F).1 ∧
    (SearchByBoW.matching mfNNratio mbCheckOrientation pKF F).nmatches =
      numMatched (SearchByBoW.matching mfNNratio mbCheckOrientation pKF F).mvpMapPoints ∧
    (∀ (i : Nat) (p : MapPoint),
      (SearchByBoW mfNNratio mbCheckOrientation pKF F).1.getD i none = some p →
      p.isBad = false ∧ ∃ k : Nat, pKF.mvpMapPoints.getD k none = some p) := by
  have hinit : MatchState.Consistent
      { mvpMapPoints := List.replicate F.N none, nmatches := 0, rotHist := emptyRotHist } := by
    refine ⟨(numMatched_replicate F.N).symm, ?_, ?_, ?_⟩
    · unfold emptyRotHist; simp
    · unfold emptyRotHist; simp
    · intro e he
      unfold emptyRotHist at he
      simp at he
  have hcons : (SearchByBoW.matching mfNNratio mbCheckOrientation pKF F).Consistent ∧
      (SearchByBoW.matching mfNNratio mbCheckOrientation pKF F).mvpMapPoints.length = F.N := by
    unfold SearchByBoW.matching
    exact MatchState.Consistent.cons_walk mfNNratio mbCheckOrientation pKF F F.N hidx _ _ _
      (List.suffix_refl _) hinit (List.length_replicate _ _)
  have hgated : SearchByBoW.AllGated mfNNratio pKF F
      (SearchByBoW.matching mfNNratio mbCheckOrientation pKF F).mvpMapPoints := by
    unfold SearchByBoW.matching
    apply SearchByBoW.AllGated.gated_walk mfNNratio mbCheckOrientation pKF F _ _ _
      (List.suffix_refl _) (List.suffix_refl _)
    intro i p hp
    dsimp only at hp
    rw [List.getD_eq_getElem?_getD, List.getElem?_replicate] at hp
    split_ifs at hp <;> simp at hp
  have hentry : ∀ (i : Nat) (p : MapPoint),
      (SearchByBoW.matching mfNNratio mbCheckOrientation pKF F).mvpMapPoints.getD i none
        = some p → p.isBad = false ∧ ∃ k : Nat, pKF.mvpMapPoints.getD k none = some p := by
    intro i p hp
    obtain ⟨_, _, _, k, _, _, _, ⟨hk, hb⟩, _⟩ := hgated i p hp
    exact ⟨hb, k, hk⟩
  have hfilter := rotationFilter_consistent _ hcons.1
  unfold SearchByBoW
  dsimp only
  cases mbCheckOrientation with
  | false =>
    simp only [Bool.false_eq_true, if_false]
    exact ⟨hcons.2, hcons.1.1, hcons.1.1, hentry⟩
  | true =>
    simp only [if_true]
    refine ⟨by rw [hfilter.2]; exact hcons.2, hfilter.1, hcons.1.1, ?_⟩
    intro i p hp
    exact hentry i p (rotationFilter_entry _ _ _ i p hp)

set_option maxRecDepth 1000000 in
set_option maxHeartbeats 4000000 in
/-- Witness of C26: `ratioExampleKF` and `ratioExampleF` with the orientation check on. -/
theorem C26_SearchByBoW_count_consistent_witness :
    (∀ e ∈ ratioExampleF.mFeatVec, ∀ i ∈ e.2, i < ratioExampleF.N) ∧
    (SearchByBoW (9 / 10) true ratioExampleKF ratioExampleF).1.length = ratioExampleF.N ∧
    (SearchByBoW (9 / 10) true ratioExampleKF ratioExampleF).2 =
      numMatched (SearchByBoW (9 / 10) true ratioExampleKF ratioExampleF).1 :=
  ⟨by decide,
    (C26_SearchByBoW_count_consistent (9 / 10) true ratioExampleKF ratioExampleF
      (by decide)).1,
    (C26_SearchByBoW_count_consistent (9 / 10) true ratioExampleKF ratioExampleF
      (by decide)).2.1⟩

theorem mem_flatten_pushBin (h : List (List Int)) (bin idx e : Int)
    (he : e ∈ (pushBin h bin idx).flatten) : e = idx ∨ e ∈ h.flatten := by
  unfold pushBin at he
  by_cases hb : 0 ≤ bin ∧ bin < HISTO_LENGTH
  · rw [if_pos hb] at he
    by_cases hk : bin.toNat < h.length
    · rw [(flatten_set_append idx h bin.toNat hk).mem_iff, List.mem_cons] at he
      exact he
    · rw [List.set_eq_of_length_le (by omega)] at he
      exact Or.inr he
  · rw [if_neg hb] at he
    exact Or.inr he

/-- The rotation filter leaves alone the slots that the histogram does not list. -/
theorem clearBin_getD_of_not_mem (j : Nat) : ∀ (bin : List Int) (s : List (Option MapPoint) × Int),
    (∀ e ∈ bin, e.toNat ≠ j) → (rotationFilter.clearBin s bin).1.getD j none = s.1.getD j none := by
  intro bin
  induction bin with
  | nil => intro s _; rfl
  | cons x bin ih =>
    intro s hne
    have h1 := ih (s.1.set x.toNat none, s.2 - 1) (fun e he => hne e (List.mem_cons_of_mem _ he))
    unfold rotationFilter.clearBin at h1 ⊢
    rw [List.foldl_cons, h1]
    exact getD_set_ne _ _ _ _ (hne x (List.mem_cons_self _ _))

theorem rotationFilter_getD_of_not_mem (rotHist : List (List Int)) (m : List (Option MapPoint))
    (n : Int) (j : Nat) (hne : ∀ e ∈ rotHist.flatten, e.toNat ≠ j) :
    (rotationFilter rotHist m n).1.getD j none = m.getD j none := by
  unfold rotationFilter
  dsimp only
  generalize ComputeThreeMaxima rotHist HISTO_LENGTH (-1) (-1) (-1) = r
  have key : ∀ (l : List Nat) (s : List (Option MapPoint) × Int),
      (l.foldl (fun s i => if rotationFilter.kept r i = true then s
        else rotationFilter.clearBin s (rotHist.getD i [])) s).1.getD j none
        = s.1.getD j none := by
    intro l
    induction l with
    | nil => intro s; rfl
    | cons i l ih =>
      intro s
      rw [List.foldl_cons, ih]
      by_cases hk : rotationFilter.kept r i = true
      · rw [if_pos hk]
      · rw [if_neg hk]
        apply clearBin_getD_of_not_mem
        intro e he
        apply hne
        by_cases hi : i < rotHist.length
        · rw [List.getD_eq_getElem?_getD, List.getElem?_eq_getElem hi] at he
          exact List.mem_flatten.mpr ⟨rotHist[i], List.getElem_mem _, by simpa using he⟩
        · rw [List.getD_eq_getElem?_getD, List.getElem?_eq_none (by omega)] at he
          simp at he
  exact key _ (m, n)

/-- The scan of the keyframe overload only selects free slots of the window. -/
theorem SearchByProjection_KeyFrame.scan_free (CurrentFrame : Frame)
    (m : List (Option MapPoint)) (dMP : Descriptor) (window : List Nat) :
    ∀ (l : List Nat) (b : Best1), (∀ x ∈ l, x ∈ window) →
      ((b.bestIdx2 = -1 ∧ b.bestDist = 256) ∨
        ∃ i2 : Nat, i2 ∈ window ∧ b.bestIdx2 = (i2 : Int) ∧ (m.getD i2 none).isSome = false) →
      (((l.foldl (SearchByProjection_KeyFrame.scan CurrentFrame m dMP) b).bestIdx2 = -1 ∧
          (l.foldl (SearchByProjection_KeyFrame.scan CurrentFrame m dMP) b).bestDist = 256) ∨
        ∃ i2 : Nat, i2 ∈ window ∧
          (l.foldl (SearchByProjection_KeyFrame.scan CurrentFrame m dMP) b).bestIdx2 = (i2 : Int) ∧
          (m.getD i2 none).isSome = false) := by
  intro l
  induction l with
  | nil => intro b _ h; exact h
  | cons x l ih =>
    intro b hl h
    rw [List.foldl_cons]
    apply ih _ (fun y hy => hl y (List.mem_cons_of_mem _ hy))
    unfold SearchByProjection_KeyFrame.scan
    by_cases c1 : (m.getD x none).isSome = true
    · rw [if_pos c1]; exact h
    · rw [if_neg c1]
      dsimp only
      by_cases c2 : DescriptorDistance dMP (CurrentFrame.mDescriptors.getD x Descriptor.zero)
          < b.bestDist
      · rw [if_pos c2]
        right
        refine ⟨x, hl x (List.mem_cons_self _ _), rfl, ?_⟩
        cases hh : (m.getD x none).isSome
        · rfl
        · exact absurd hh c1
      · rw [if_neg c2]; exact h

theorem SearchByProjection_KeyFrame.Inv.keep_select {pKF : KeyFrame} {sAlreadyFound : List Nat}
    {init : List (Option MapPoint)} {st : MatchState}
    (h : SearchByProjection_KeyFrame.Inv pKF sAlreadyFound init st) (c : Bool)
    (CurrentFrame : Frame) (ORBdist : Int) (hORB : ORBdist < 256) (i : Nat) (pMP : MapPoint)
    (hgood : pMP.isBad = false ∧ pMP.id ∉ sAlreadyFound ∧
      ∃ k : Nat, pKF.mvpMapPoints.getD k none = some pMP)
    (b : Best1)
    (hb : (b.bestIdx2 = -1 ∧ b.bestDist = 256) ∨
      ∃ i2 : Nat, i2 < init.length ∧ b.bestIdx2 = (i2 : Int) ∧
        (st.mvpMapPoints.getD i2 none).isSome = false) :
    SearchByProjection_KeyFrame.Inv pKF sAlreadyFound init
      (SearchByProjection_KeyFrame.select c CurrentFrame pKF ORBdist st i pMP b) := by
  unfold SearchByProjection_KeyFrame.select
  by_cases c1 : b.bestDist ≤ ORBdist
  · rw [if_pos c1]
    rcases hb with ⟨_, h256⟩ | ⟨i2, hlt, hbi, hfree⟩
    · rw [h256] at c1; omega
    · obtain ⟨p1, ⟨plen, pcount⟩, p3, p4⟩ := h
      have hnat : b.bestIdx2.toNat = i2 := by rw [hbi]; exact Int.toNat_natCast i2
      have hinit : init.getD i2 none = none := by
        cases hh : init.getD i2 none with
        | none => rfl
        | some q =>
          have := p1 i2 q hh
          rw [this] at hfree
          exact absurd hfree (by simp)
      rw [hnat, hbi]
      refine ⟨?_, ⟨?_, ?_⟩, ?_, ?_⟩
      · intro k q hq
        dsimp only
        have hne : i2 ≠ k := by
          intro heq
          rw [heq] at hinit
          rw [hinit] at hq
          exact absurd hq (by simp)
        rw [getD_set_ne _ _ _ _ hne]
        exact p1 k q hq
      · dsimp only
        rw [List.length_set]
        exact plen
      · dsimp only
        rw [numMatched_set _ _ _ hfree, if_pos (by rw [plen]; exact hlt), pcount]
        ring
      · intro e he
        dsimp only at he
        by_cases hc : c = true
        · rw [if_pos hc] at he
          rcases mem_flatten_pushBin _ _ _ _ he with he | he
          · rw [he, Int.toNat_natCast]
            exact ⟨Int.natCast_nonneg _, hinit⟩
          · exact p3 e he
        · rw [if_neg hc] at he
          exact p3 e he
      · intro k q hq
        dsimp only at hq
        rcases getD_set_some _ _ _ _ _ hq with ⟨_, hqp⟩ | hold
        · right; rw [hqp]; exact hgood
        · exact p4 k q hold
  · rw [if_neg c1]; exact h

theorem SearchByProjection_KeyFrame.Inv.keep_matchKF (norm : Vec3 → ℚ)
    (PredictScale : MapPoint → ℚ → Frame → Int) (c : Bool) (CurrentFrame : Frame)
    (pKF : KeyFrame) (sAlreadyFound : List Nat) (th : ℚ) (ORBdist : Int)
    (hORB : ORBdist < 256) (init : List (Option MapPoint))
    (hwin : ∀ (u v r : ℚ) (a b : Int), ∀ i ∈ CurrentFrame.GetFeaturesInArea u v r a b,
      i < init.length)
    {st : MatchState} (h : SearchByProjection_KeyFrame.Inv pKF sAlreadyFound init st)
    (i : Nat) :
    SearchByProjection_KeyFrame.Inv pKF sAlreadyFound init
      (SearchByProjection_KeyFrame.matchKF norm PredictScale c CurrentFrame pKF sAlreadyFound
        th ORBdist st i) := by
  unfold SearchByProjection_KeyFrame.matchKF
  cases hmp : pKF.mvpMapPoints.getD i none with
  | none => exact h
  | some pMP =>
    dsimp only
    by_cases c1 : pMP.isBad = true ∨ pMP.id ∈ sAlreadyFound
    · rw [if_pos c1]; exact h
    · rw [if_neg c1]
      by_cases c2 : SearchByProjection_Frame.outOfBounds CurrentFrame
          (SearchByProjection_Frame.u CurrentFrame pMP)
          (SearchByProjection_Frame.v CurrentFrame pMP) = true
      · rw [if_pos c2]; exact h
      · rw [if_neg c2]
        by_cases c3 : SearchByProjection_KeyFrame.outOfRange norm CurrentFrame pMP = true
        · rw [if_pos c3]; exact h
        · rw [if_neg c3]
          by_cases c4 : (SearchByProjection_KeyFrame.window norm PredictScale CurrentFrame th
              pMP).isEmpty = true
          · rw [if_pos c4]; exact h
          · rw [if_neg c4]
            have hgood : pMP.isBad = false ∧ pMP.id ∉ sAlreadyFound ∧
                ∃ k : Nat, pKF.mvpMapPoints.getD k none = some pMP := by
              refine ⟨?_, fun hin => c1 (Or.inr hin), i, hmp⟩
              cases hh : pMP.isBad
              · rfl
              · exact absurd (Or.inl hh) c1
            have hscan := SearchByProjection_KeyFrame.scan_free CurrentFrame st.mvpMapPoints
              pMP.descriptor
              (SearchByProjection_KeyFrame.window norm PredictScale CurrentFrame th pMP)
              (SearchByProjection_KeyFrame.window norm PredictScale CurrentFrame th pMP)
              { bestDist := 256, bestIdx2 := -1 } (fun _ hx => hx) (Or.inl ⟨rfl, rfl⟩)
            apply h.keep_select c CurrentFrame ORBdist hORB i pMP hgood
            rcases hscan with h1 | ⟨i2, hmem, hbi, hfree⟩
            · exact Or.inl h1
            · refine Or.inr ⟨i2, ?_, hbi, hfree⟩
              unfold SearchByProjection_KeyFrame.window at hmem
              exact hwin _ _ _ _ _ i2 hmem

theorem SearchByProjection_KeyFrame.Inv.keep_foldl (norm : Vec3 → ℚ)
    (PredictScale : MapPoint → ℚ → Frame → Int) (c : Bool) (CurrentFrame : Frame)
    (pKF : KeyFrame) (sAlreadyFound : List Nat) (th : ℚ) (ORBdist : Int)
    (hORB : ORBdist < 256) (init : List (Option MapPoint))
    (hwin : ∀ (u v r : ℚ) (a b : Int), ∀ i ∈ CurrentFrame.GetFeaturesInArea u v r a b,
      i < init.length) :
    ∀ (l : List Nat) {st : MatchState}, SearchByProjection_KeyFrame.Inv pKF sAlreadyFound init st →
      SearchByProjection_KeyFrame.Inv pKF sAlreadyFound init
        (l.foldl (SearchByProjection_KeyFrame.matchKF norm PredictScale c CurrentFrame pKF
          sAlreadyFound th ORBdist) st)
  | [], _, h => h
  | x :: l, _, h =>
    SearchByProjection_KeyFrame.Inv.keep_foldl norm PredictScale c CurrentFrame pKF sAlreadyFound
      th ORBdist hORB init hwin l
      (h.keep_matchKF norm PredictScale c CurrentFrame pKF sAlreadyFound th ORBdist hORB init
        hwin x)

/-- C27: for `ORBdist < 256` and a window query that returns keypoint indices,
`SearchByProjection(CurrentFrame, pKF, sAlreadyFound, th, ORBdist)` never overwrites an
association: every slot that is non-null before the call holds the same map point after it;
the number of assignments made is the number of slots that became non-null (no slot is assigned
twice); a slot that the rotation filter changes was null before the call and is null after it;
and every map point in a slot that changed is a map point of the keyframe that is not bad and
not in `sAlreadyFound`. -/
theorem C27_SearchByProjection_keeps_associations (norm : Vec3 → ℚ)
    (PredictScale : MapPoint → ℚ → Frame → Int) (mbCheckOrientation : Bool)
    (CurrentFrame : Frame) (pKF : KeyFrame) (sAlreadyFound : List Nat) (th : ℚ) (ORBdist : Int)
    (hORB : ORBdist < 256)
    (hwin : ∀ (u v r : ℚ) (a b : Int), ∀ i ∈ CurrentFrame.GetFeaturesInArea u v r a b,
      i < CurrentFrame.mvpMapPoints.length) :
    (∀ (i : Nat) (p : MapPoint), CurrentFrame.mvpMapPoints.getD i none = some p →
      (SearchByProjection_KeyFrame norm PredictScale mbCheckOrientation CurrentFrame pKF
        sAlreadyFound th ORBdist).1.getD i none = some p) ∧
    (SearchByProjection_KeyFrame.matching norm PredictScale mbCheckOrientation CurrentFrame pKF
        sAlreadyFound th ORBdist).nmatches =
      numMatched (SearchByProjection_KeyFrame.matching norm PredictScale mbCheckOrientation
        CurrentFrame pKF sAlreadyFound th ORBdist).mvpMapPoints
        - numMatched CurrentFrame.mvpMapPoints ∧
    (∀ i : Nat,
      (SearchByProjection_KeyFrame norm PredictScale mbCheckOrientation CurrentFrame pKF
        sAlreadyFound th ORBdist).1.getD i none ≠
      (SearchByProjection_KeyFrame.matching norm PredictScale mbCheckOrientation CurrentFrame pKF
        sAlreadyFound th ORBdist).mvpMapPoints.getD i none →
      CurrentFrame.mvpMapPoints.getD i none = none ∧
      (SearchByProjection_KeyFrame norm PredictScale mbCheckOrientation CurrentFrame pKF
        sAlreadyFound th ORBdist).1.getD i none = none) ∧
    (∀ (i : Nat) (p : MapPoint),
      (SearchByProjection_KeyFrame norm PredictScale mbCheckOrientation CurrentFrame pKF
        sAlreadyFound th ORBdist).1.getD i none = some p →
      CurrentFrame.mvpMapPoints.getD i none = some p ∨
        (p.isBad = false ∧ p.id ∉ sAlreadyFound ∧
          ∃ k : Nat, pKF.mvpMapPoints.getD k none = some p)) := by
  have hinit : SearchByProjection_KeyFrame.Inv pKF sAlreadyFound CurrentFrame.mvpMapPoints
      { mvpMapPoints := CurrentFrame.mvpMapPoints, nmatches := 0, rotHist := emptyRotHist } := by
    refine ⟨fun _ _ hp => hp, ⟨rfl, by simp⟩, ?_, fun _ _ hp => Or.inl hp⟩
    intro e he
    unfold emptyRotHist at he
    simp at he
  have hinv : SearchByProjection_KeyFrame.Inv pKF sAlreadyFound CurrentFrame.mvpMapPoints
      (SearchByProjection_KeyFrame.matching norm PredictScale mbCheckOrientation CurrentFrame
        pKF sAlreadyFound th ORBdist) := by
    unfold SearchByProjection_KeyFrame.matching
    exact SearchByProjection_KeyFrame.Inv.keep_foldl norm PredictScale mbCheckOrientation
      CurrentFrame pKF sAlreadyFound th ORBdist hORB _ hwin _ hinit
  obtain ⟨p1, ⟨_, pcount⟩, p3, p4⟩ := hinv
  have hkeep : ∀ (i : Nat), CurrentFrame.mvpMapPoints.getD i none ≠ none →
      (SearchByProjection_KeyFrame norm PredictScale mbCheckOrientation CurrentFrame pKF
        sAlreadyFound th ORBdist).1.getD i none =
      (SearchByProjection_KeyFrame.matching norm PredictScale mbCheckOrientation CurrentFrame pKF
        sAlreadyFound th ORBdist).mvpMapPoints.getD i none := by
    intro i hi
    unfold SearchByProjection_KeyFrame
    dsimp only
    cases mbCheckOrientation with
    | false => simp
    | true =>
      simp only [if_true]
      apply rotationFilter_getD_of_not_mem
      intro e he heq
      have := (p3 e he).2
      rw [heq] at this
      exact hi this
  have hsub : ∀ (i : Nat) (p : MapPoint),
      (SearchByProjection_KeyFrame norm PredictScale mbCheckOrientation CurrentFrame pKF
        sAlreadyFound th ORBdist).1.getD i none = some p →
      (SearchByProjection_KeyFrame.matching norm PredictScale mbCheckOrientation CurrentFrame pKF
        sAlreadyFound th ORBdist).mvpMapPoints.getD i none = some p := by
    intro i p hp
    unfold SearchByProjection_KeyFrame at hp
    dsimp only at hp
    cases mbCheckOrientation with
    | false => simpa using hp
    | true =>
      simp only [if_true] at hp
      exact rotationFilter_entry _ _ _ i p hp
  refine ⟨?_, pcount, ?_, ?_⟩
  · intro i p hp
    rw [hkeep i (by rw [hp]; simp)]
    exact p1 i p hp
  · intro i hne
    have h0 : CurrentFrame.mvpMapPoints.getD i none = none := by
      by_contra hcon
      exact hne (hkeep i hcon)
    refine ⟨h0, ?_⟩
    cases hr : (SearchByProjection_KeyFrame norm PredictScale mbCheckOrientation CurrentFrame pKF
        sAlreadyFound th ORBdist).1.getD i none with
    | none => rfl
    | some p =>
      have := hsub i p hr
      rw [hr, this] at hne
      exact absurd rfl hne
  · intro i p hp
    exact p4 i p (hsub i p hp)

set_option maxRecDepth 1000000 in
set_option maxHeartbeats 4000000 in
/-- Witness of C27: `currentExampleF` and `projExampleKF` with `ORBdist = 100`; the call makes
one assignment. -/
theorem C27_SearchByProjection_keeps_associations_witness :
    ((100 : Int) < 256) ∧
    (∀ (u v r : ℚ) (a b : Int), ∀ i ∈ currentExampleF.GetFeaturesInArea u v r a b,
      i < currentExampleF.mvpMapPoints.length) ∧
    (SearchByProjection_KeyFrame.matching axisNorm (fun _ _ _ => 0) true currentExampleF
        projExampleKF [] 1 100).nmatches = 1 ∧
    (SearchByProjection_KeyFrame.matching axisNorm (fun _ _ _ => 0) true currentExampleF
        projExampleKF [] 1 100).nmatches =
      numMatched (SearchByProjection_KeyFrame.matching axisNorm (fun _ _ _ => 0) true
        currentExampleF projExampleKF [] 1 100).mvpMapPoints
        - numMatched currentExampleF.mvpMapPoints :=
  ⟨by decide,
    fun _ _ _ _ _ i hi => by
      simp only [currentExampleF, List.mem_singleton] at hi
      rw [hi]
      decide,
    by with_unfolding_all decide,
    (C27_SearchByProjection_keeps_associations axisNorm (fun _ _ _ => 0) true currentExampleF
      projExampleKF [] 1 100 (by decide)
      (fun _ _ _ _ _ i hi => by
        simp only [currentExampleF, List.mem_singleton] at hi
        rw [hi]
        decide)).2.1⟩

/-- The calls of the merge rule for an empty slot. -/
theorem Fuse.merge_empty (pKF : KeyFrame) (pMP : MapPoint) (bestIdx : Int)
    (h : pKF.mvpMapPoints.getD bestIdx.toNat none = none) :
    Fuse.merge pKF pMP bestIdx =
      [FuseCall.AddObservation pMP bestIdx, FuseCall.AddMapPoint pMP bestIdx] := by
  unfold Fuse.merge
  rw [h]

/-- C25: when an iteration of `Fuse` selects the keypoint `bestIdx`, a slot of the keyframe
that is empty, the iteration makes the two calls `AddObservation` and `AddMapPoint` with that
same index and no other call; after them slot `bestIdx` of the keyframe references the incoming
map point, the pair of the keyframe and `bestIdx` is in the observations of that map point, and
no other slot of the keyframe has changed. -/
theorem C25_Fuse_attach_bidirectional (norm : Vec3 → ℚ)
    (PredictScale : MapPoint → ℚ → KeyFrame → Int) (IsInKeyFrame : MapPoint → KeyFrame → Bool)
    (pKF : KeyFrame) (th : ℚ) (pMP : MapPoint) (bestIdx : Int)
    (h : (Fuse.iteration norm PredictScale IsInKeyFrame pKF th (some pMP)).selected
      = some bestIdx)
    (hempty : pKF.mvpMapPoints.getD bestIdx.toNat none = none)
    (hlt : bestIdx.toNat < pKF.mvpMapPoints.length) :
    (Fuse.iteration norm PredictScale IsInKeyFrame pKF th (some pMP)).calls =
      [FuseCall.AddObservation pMP bestIdx, FuseCall.AddMapPoint pMP bestIdx] ∧
    ∃ (pKF2 : KeyFrame) (pMP2 : MapPoint),
      Fuse.applyCalls (pKF, pMP)
        (Fuse.iteration norm PredictScale IsInKeyFrame pKF th (some pMP)).calls
        = some (pKF2, pMP2) ∧
      pKF2.mvpMapPoints.getD bestIdx.toNat none = some pMP2 ∧
      pMP2.id = pMP.id ∧
      (pKF.mnId, bestIdx.toNat) ∈ pMP2.mObservations ∧
      pKF2.mnId = pKF.mnId ∧
      ∀ j : Nat, j ≠ bestIdx.toNat →
        pKF2.mvpMapPoints.getD j none = pKF.mvpMapPoints.getD j none := by
  obtain ⟨_, hit⟩ := Fuse.iteration_selected norm PredictScale IsInKeyFrame pKF th pMP bestIdx h
  rw [hit] at h ⊢
  obtain ⟨_, _, hcalls⟩ := Fuse.search_selected pKF pMP th _ bestIdx h
  rw [hcalls, Fuse.merge_empty pKF pMP bestIdx hempty]
  refine ⟨rfl, pKF.AddMapPoint (pMP.AddObservation pKF bestIdx.toNat) bestIdx.toNat,
    pMP.AddObservation pKF bestIdx.toNat, rfl, ?_, rfl, ?_, rfl, ?_⟩
  · unfold KeyFrame.AddMapPoint
    dsimp only
    rw [List.getD_eq_getElem?_getD, List.getElem?_set_self hlt]
    rfl
  · unfold MapPoint.AddObservation
    exact List.mem_cons_self _ _
  · intro j hj
    unfold KeyFrame.AddMapPoint
    dsimp only
    exact getD_set_ne _ _ _ _ (Ne.symm hj)

set_option maxRecDepth 1000000 in
set_option maxHeartbeats 4000000 in
/-- Witness of C25: the map point `fuseExampleMP` is attached to the empty slot 0 of
`fuseExampleKF`. -/
theorem C25_Fuse_attach_bidirectional_witness :
    (Fuse.iteration axisNorm (fun _ _ _ => 0) (fun _ _ => false) fuseExampleKF 1
      (some fuseExampleMP)).selected = some 0 ∧
    fuseExampleKF.mvpMapPoints.getD (0 : Int).toNat none = none ∧
    (0 : Int).toNat < fuseExampleKF.mvpMapPoints.length ∧
    (Fuse.iteration axisNorm (fun _ _ _ => 0) (fun _ _ => false) fuseExampleKF 1
      (some fuseExampleMP)).calls =
      [FuseCall.AddObservation fuseExampleMP 0, FuseCall.AddMapPoint fuseExampleMP 0] :=
  ⟨by with_unfolding_all decide, rfl, by decide,
    (C25_Fuse_attach_bidirectional axisNorm (fun _ _ _ => 0) (fun _ _ => false) fuseExampleKF 1
      fuseExampleMP 0 (by with_unfolding_all decide) rfl (by decide)).1⟩

set_option maxRecDepth 1000000 in
set_option maxHeartbeats 4000000 in
/-- A map point of the last frame at depth zero beside the optical axis is projected to an
infinity, which is outside of the image bounds: nothing is matched. -/
theorem SearchByProjection_Frame.zero_depth_match :
    (SearchByProjection_Frame.x3Dc currentExampleF { id := 4, worldPos := { x := 1 } }).z = 0 ∧
    (SearchByProjection_Frame false currentExampleF lastZeroDepthExampleF 1).2 = 0 ∧
    ((SearchByProjection_Frame false currentExampleF lastZeroDepthExampleF 1).1.getD 0
      none).isSome = false := by
  with_unfolding_all decide

/-- A complete iteration never ends in the division by zero. -/
theorem Fuse.zeroDepth_ne (norm : Vec3 → ℚ) (PredictScale : MapPoint → ℚ → KeyFrame → Int)
    (pKF : KeyFrame) (th : ℚ) (pMP : MapPoint) :
    Fuse.zeroDepth norm PredictScale pKF th pMP ≠ Fuse.Outcome.divisionByZero := by
  unfold Fuse.zeroDepth Fuse.searchZero
  intro h
  repeat' split at h
  all_goals exact absurd h (by simp)

set_option maxRecDepth 1000000 in
set_option maxHeartbeats 4000000 in
/-- A map point at depth zero on the optical axis is projected to NaN. With the default
`IsInImage`, which rejects a projection that is not finite, `Fuse` passes over it; when
`IsInImage` accepts the projection and `GetFeaturesInArea` returns the keypoint, the chi-square
check does not reject the keypoint, and `Fuse` counts the map point after the two calls of the
attachment. -/
theorem Fuse.zero_depth_fuse :
    (Fuse.p3Dc fuseExampleKF zeroDepthMP).z = 0 ∧
    Fuse axisNorm (fun _ _ _ => 0) callCountMemory 0 [some zeroDepthMP] 1 = (0, 0) ∧
    Fuse axisNorm (fun _ _ _ => 0) nonFiniteMemory 0 [some zeroDepthMP] 1 = (2, 1) := by
  with_unfolding_all decide

/-! ## Matches that survive the rotation filter -/


/-- Clearing a bin leaves every entry it lists null. -/
theorem clearBin_clears (bin : List Int) : ∀ (s : List (Option MapPoint) × Int) (e : Int),
    e ∈ bin → (rotationFilter.clearBin s bin).1.getD e.toNat none = none := by
  induction bin with
  | nil => intro s e h; simp at h
  | cons x bin ih =>
    intro s e h
    by_cases hmem : e ∈ bin
    · unfold rotationFilter.clearBin at ih ⊢
      rw [List.foldl_cons]
      exact ih _ e hmem
    · have hx : e = x := by
        rcases List.mem_cons.mp h with h1 | h1
        · exact h1
        · exact absurd h1 hmem
      subst hx
      cases hq : (rotationFilter.clearBin s (e :: bin)).1.getD e.toNat none with
      | none => rfl
      | some p =>
        exfalso
        unfold rotationFilter.clearBin at hq
        rw [List.foldl_cons] at hq
        have h2 := clearBin_entry bin _ e.toNat p hq
        dsimp only at h2
        rcases getD_set_cases s.1 e.toNat e.toNat none none (some p) h2 with ⟨_, h3⟩ | h3
        · exact absurd h3 (by simp)
        · rw [List.getD_eq_getElem?_getD, List.getElem?_set] at h2
          rw [if_pos rfl] at h2
          by_cases hlt : e.toNat < s.1.length
          · rw [if_pos hlt] at h2; simp at h2
          · rw [if_neg hlt] at h2
            rw [List.getD_eq_getElem?_getD] at h3
            have hnone : s.1[e.toNat]? = none := by
              rw [List.getElem?_eq_none_iff]; omega
            rw [hnone] at h3
            simp at h3

/-- A match that survives the rotation filter lies only in kept bins. -/
theorem rotationFilter_survivor (rotHist : List (List Int)) (m : List (Option MapPoint))
    (n : Int) (i : Nat) (e : Int) (hi : (i : Int) < HISTO_LENGTH) (he : e ∈ rotHist.getD i [])
    (h : ((rotationFilter rotHist m n).1.getD e.toNat none).isSome = true) :
    rotationFilter.kept (ComputeThreeMaxima rotHist HISTO_LENGTH (-1) (-1) (-1)) i = true := by
  unfold rotationFilter at h
  dsimp only at h
  generalize ComputeThreeMaxima rotHist HISTO_LENGTH (-1) (-1) (-1) = r at h ⊢
  by_contra hk
  have keep : ∀ (l : List Nat) (s : List (Option MapPoint) × Int),
      s.1.getD e.toNat none = none →
      (l.foldl (fun s i => if rotationFilter.kept r i = true then s
        else rotationFilter.clearBin s (rotHist.getD i [])) s).1.getD e.toNat none = none := by
    intro l
    induction l with
    | nil => intro s hs; exact hs
    | cons k l ih =>
      intro s hs
      rw [List.foldl_cons]
      apply ih
      by_cases hkk : rotationFilter.kept r k = true
      · rw [if_pos hkk]; exact hs
      · rw [if_neg hkk]
        cases hq : (rotationFilter.clearBin s (rotHist.getD k [])).1.getD e.toNat none with
        | none => rfl
        | some p =>
          have := clearBin_entry _ s e.toNat p hq
          rw [hs] at this
          exact absurd this (by simp)
  have key : ∀ (l : List Nat) (s : List (Option MapPoint) × Int), i ∈ l →
      (l.foldl (fun s i => if rotationFilter.kept r i = true then s
        else rotationFilter.clearBin s (rotHist.getD i [])) s).1.getD e.toNat none = none := by
    intro l
    induction l with
    | nil => intro s hs; simp at hs
    | cons k l ih =>
      intro s hs
      rw [List.foldl_cons]
      by_cases hik : i = k
      · subst hik
        rw [if_neg hk]
        exact keep l _ (clearBin_clears _ s e he)
      · apply ih
        rcases List.mem_cons.mp hs with h1 | h1
        · exact absurd h1 hik
        · exact h1
  have hmem : i ∈ List.range HISTO_LENGTH.toNat := by
    rw [List.mem_range]
    have : HISTO_LENGTH = 30 := rfl
    rw [this] at hi ⊢
    omega
  rw [key _ (m, n) hmem] at h
  simp at h

/-- Clearing a bin of `vMatches12` leaves every entry it lists at `-1`. -/
theorem SearchForTriangulation.tri_clearBin_entry : ∀ (bin : List Int) (s : List Int × Int)
    (k : Nat), 0 ≤ (SearchForTriangulation.clearBin s bin).1.getD k (-1) →
      0 ≤ s.1.getD k (-1) := by
  intro bin
  induction bin with
  | nil => intro s k h; exact h
  | cons x bin ih =>
    intro s k h
    unfold SearchForTriangulation.clearBin at h ih
    rw [List.foldl_cons] at h
    have h2 := ih _ k h
    dsimp only at h2
    rcases getD_set_cases s.1 x.toNat k (-1) (-1) _ rfl with ⟨_, h3⟩ | h3
    · rw [h3] at h2; omega
    · rw [h3]; exact h2

theorem SearchForTriangulation.tri_clearBin_clears (bin : List Int) : ∀ (s : List Int × Int)
    (e : Int), e ∈ bin →
      (SearchForTriangulation.clearBin s bin).1.getD e.toNat (-1) < 0 := by
  induction bin with
  | nil => intro s e h; simp at h
  | cons x bin ih =>
    intro s e h
    by_cases hmem : e ∈ bin
    · unfold SearchForTriangulation.clearBin at ih ⊢
      rw [List.foldl_cons]
      exact ih _ e hmem
    · have hx : e = x := by
        rcases List.mem_cons.mp h with h1 | h1
        · exact h1
        · exact absurd h1 hmem
      subst hx
      by_contra hq
      rw [not_lt] at hq
      unfold SearchForTriangulation.clearBin at hq
      rw [List.foldl_cons] at hq
      have h2 := SearchForTriangulation.tri_clearBin_entry bin _ e.toNat hq
      dsimp only at h2
      rw [List.getD_eq_getElem?_getD, List.getElem?_set] at h2
      rw [if_pos rfl] at h2
      by_cases hlt : e.toNat < s.1.length
      · rw [if_pos hlt] at h2; simp at h2
      · rw [if_neg hlt] at h2; simp at h2

/-- A pair that survives the rotation filter of `SearchForTriangulation` lies only in kept
bins. -/
theorem SearchForTriangulation.tri_filter_survivor (rotHist : List (List Int))
    (v : List Int) (n : Int) (i : Nat) (e : Int) (hi : (i : Int) < HISTO_LENGTH)
    (he : e ∈ rotHist.getD i [])
    (h : 0 ≤ (SearchForTriangulation.rotationFilter rotHist v n).1.getD e.toNat (-1)) :
    rotationFilter.kept (ComputeThreeMaxima rotHist HISTO_LENGTH (-1) (-1) (-1)) i = true := by
  unfold SearchForTriangulation.rotationFilter at h
  dsimp only at h
  generalize ComputeThreeMaxima rotHist HISTO_LENGTH (-1) (-1) (-1) = r at h ⊢
  by_contra hk
  have keep : ∀ (l : List Nat) (s : List Int × Int),
      s.1.getD e.toNat (-1) < 0 →
      (l.foldl (fun s i => if rotationFilter.kept r i = true then s
        else SearchForTriangulation.clearBin s (rotHist.getD i [])) s).1.getD e.toNat (-1)
        < 0 := by
    intro l
    induction l with
    | nil => intro s hs; exact hs
    | cons k l ih =>
      intro s hs
      rw [List.foldl_cons]
      apply ih
      by_cases hkk : rotationFilter.kept r k = true
      · rw [if_pos hkk]; exact hs
      · rw [if_neg hkk]
        by_contra hq
        rw [not_lt] at hq
        have := SearchForTriangulation.tri_clearBin_entry _ s e.toNat hq
        omega
  have key : ∀ (l : List Nat) (s : List Int × Int), i ∈ l →
      (l.foldl (fun s i => if rotationFilter.kept r i = true then s
        else SearchForTriangulation.clearBin s (rotHist.getD i [])) s).1.getD e.toNat (-1)
        < 0 := by
    intro l
    induction l with
    | nil => intro s hs; simp at hs
    | cons k l ih =>
      intro s hs
      rw [List.foldl_cons]
      by_cases hik : i = k
      · subst hik
        rw [if_neg hk]
        exact keep l _ (SearchForTriangulation.tri_clearBin_clears _ s e he)
      · apply ih
        rcases List.mem_cons.mp hs with h1 | h1
        · exact absurd h1 hik
        · exact h1
  have hmem : i ∈ List.range HISTO_LENGTH.toNat := by
    rw [List.mem_range]
    have : HISTO_LENGTH = 30 := rfl
    rw [this] at hi ⊢
    omega
  have := key _ (v, n) hmem
  omega

/-- A kept bin holds at least 10% of the count of every bin. -/
theorem rotationFilter.kept_strong (histo : List (List Int)) (i : Nat)
    (h : rotationFilter.kept (ComputeThreeMaxima histo HISTO_LENGTH (-1) (-1) (-1)) i = true)
    (j : Nat) (hj : (j : Int) < HISTO_LENGTH) :
    (1 / 10 : ℚ) * (binSize histo j : ℚ) ≤ (binSize histo i : ℚ) := by
  obtain ⟨⟨b1, _⟩, _, _, _, hx⟩ := ComputeThreeMaxima.weak_bins histo HISTO_LENGTH
  unfold rotationFilter.kept at h
  have hor := of_decide_eq_true h
  have h1 := hx (i : Int) hor (by omega)
  rw [Int.toNat_natCast] at h1
  have h2 : (binSize histo j : ℚ)
      ≤ ((ComputeThreeMaxima.loop histo HISTO_LENGTH (-1) (-1) (-1)).max1 : ℚ) := by
    exact_mod_cast b1 j hj
  linarith

/-- C10: `ComputeThreeMaxima` discards weak bins. With `max1 ≥ max2 ≥ max3` the highest, the
second-highest and the third-highest bin counts found by the loop (attained at `ind1`, `ind2`,
`ind3`), the second bin is returned iff it is non-empty and `max2` is at least 10% of `max1`; the
third bin is returned iff the second is returned, it is non-empty and `max3` is at least 10% of
`max1`; every returned bin has a count of at least 10% of the top count. Hence a match that
survives the rotation filter (its slot is still set after `rotationFilter`, or after the filter
of `SearchForTriangulation`) lies only in bins whose count is at least 10% of the count of every
bin of the histogram, the top bin included; in particular so do the matches returned by
`SearchByBoW` and by the last-frame `SearchByProjection` with the orientation check on. -/
theorem C10_ComputeThreeMaxima_discards_weak (histo : List (List Int)) (L : Int) :
    (((∀ j : Nat, (j : Int) < L →
        binSize histo j ≤ (ComputeThreeMaxima.loop histo L (-1) (-1) (-1)).max1) ∧
      (∀ j : Nat, (j : Int) < L → (j : Int) ≠ (ComputeThreeMaxima.loop histo L (-1) (-1) (-1)).ind1 →
        binSize histo j ≤ (ComputeThreeMaxima.loop histo L (-1) (-1) (-1)).max2) ∧
      (∀ j : Nat, (j : Int) < L → (j : Int) ≠ (ComputeThreeMaxima.loop histo L (-1) (-1) (-1)).ind1 →
        (j : Int) ≠ (ComputeThreeMaxima.loop histo L (-1) (-1) (-1)).ind2 →
        binSize histo j ≤ (ComputeThreeMaxima.loop histo L (-1) (-1) (-1)).max3) ∧
      (0 < (ComputeThreeMaxima.loop histo L (-1) (-1) (-1)).max1 →
        binSize histo (ComputeThreeMaxima.loop histo L (-1) (-1) (-1)).ind1.toNat
          = (ComputeThreeMaxima.loop histo L (-1) (-1) (-1)).max1) ∧
      (0 < (ComputeThreeMaxima.loop histo L (-1) (-1) (-1)).max2 →
        binSize histo (ComputeThreeMaxima.loop histo L (-1) (-1) (-1)).ind2.toNat
          = (ComputeThreeMaxima.loop histo L (-1) (-1) (-1)).max2) ∧
      (0 < (ComputeThreeMaxima.loop histo L (-1) (-1) (-1)).max3 →
        binSize histo (ComputeThreeMaxima.loop histo L (-1) (-1) (-1)).ind3.toNat
          = (ComputeThreeMaxima.loop histo L (-1) (-1) (-1)).max3)) ∧
    (ComputeThreeMaxima histo L (-1) (-1) (-1)).1
      = (ComputeThreeMaxima.loop histo L (-1) (-1) (-1)).ind1 ∧
    (((ComputeThreeMaxima histo L (-1) (-1) (-1)).2.1 ≠ -1 ↔
        (0 < (ComputeThreeMaxima.loop histo L (-1) (-1) (-1)).max2 ∧
          (1 / 10 : ℚ) * ((ComputeThreeMaxima.loop histo L (-1) (-1) (-1)).max1 : ℚ)
            ≤ ((ComputeThreeMaxima.loop histo L (-1) (-1) (-1)).max2 : ℚ))) ∧
      ((ComputeThreeMaxima histo L (-1) (-1) (-1)).2.1 ≠ -1 →
        (ComputeThreeMaxima histo L (-1) (-1) (-1)).2.1
          = (ComputeThreeMaxima.loop histo L (-1) (-1) (-1)).ind2)) ∧
    (((ComputeThreeMaxima histo L (-1) (-1) (-1)).2.2 ≠ -1 ↔
        ((ComputeThreeMaxima histo L (-1) (-1) (-1)).2.1 ≠ -1 ∧
          0 < (ComputeThreeMaxima.loop histo L (-1) (-1) (-1)).max3 ∧
          (1 / 10 : ℚ) * ((ComputeThreeMaxima.loop histo L (-1) (-1) (-1)).max1 : ℚ)
            ≤ ((ComputeThreeMaxima.loop histo L (-1) (-1) (-1)).max3 : ℚ))) ∧
      ((ComputeThreeMaxima histo L (-1) (-1) (-1)).2.2 ≠ -1 →
        (ComputeThreeMaxima histo L (-1) (-1) (-1)).2.2
          = (ComputeThreeMaxima.loop histo L (-1) (-1) (-1)).ind3)) ∧
    (∀ x : Int, (x = (ComputeThreeMaxima histo L (-1) (-1) (-1)).1 ∨
        x = (ComputeThreeMaxima histo L (-1) (-1) (-1)).2.1 ∨
        x = (ComputeThreeMaxima histo L (-1) (-1) (-1)).2.2) → x ≠ -1 →
      (1 / 10 : ℚ) * ((ComputeThreeMaxima.loop histo L (-1) (-1) (-1)).max1 : ℚ)
        ≤ (binSize histo x.toNat : ℚ))) ∧
    (∀ (mvpMapPoints : List (Option MapPoint)) (nmatches : Int) (i : Nat) (e : Int),
      (i : Int) < HISTO_LENGTH → e ∈ histo.getD i [] →
      ((rotationFilter histo mvpMapPoints nmatches).1.getD e.toNat none).isSome = true →
      rotationFilter.kept (ComputeThreeMaxima histo HISTO_LENGTH (-1) (-1) (-1)) i = true ∧
      ∀ j : Nat, (j : Int) < HISTO_LENGTH →
        (1 / 10 : ℚ) * (binSize histo j : ℚ) ≤ (binSize histo i : ℚ)) ∧
    (∀ (vMatches12 : List Int) (nmatches : Int) (i : Nat) (e : Int),
      (i : Int) < HISTO_LENGTH → e ∈ histo.getD i [] →
      0 ≤ (SearchForTriangulation.rotationFilter histo vMatches12 nmatches).1.getD e.toNat (-1) →
      rotationFilter.kept (ComputeThreeMaxima histo HISTO_LENGTH (-1) (-1) (-1)) i = true ∧
      ∀ j : Nat, (j : Int) < HISTO_LENGTH →
        (1 / 10 : ℚ) * (binSize histo j : ℚ) ≤ (binSize histo i : ℚ)) ∧
    (∀ (mfNNratio : ℚ) (pKF : KeyFrame) (F : Frame) (i : Nat) (e : Int),
      (i : Int) < HISTO_LENGTH →
      e ∈ (SearchByBoW.matching mfNNratio true pKF F).rotHist.getD i [] →
      ((SearchByBoW mfNNratio true pKF F).1.getD e.toNat none).isSome = true →
      ∀ j : Nat, (j : Int) < HISTO_LENGTH →
        (1 / 10 : ℚ) * (binSize (SearchByBoW.matching mfNNratio true pKF F).rotHist j : ℚ)
          ≤ (binSize (SearchByBoW.matching mfNNratio true pKF F).rotHist i : ℚ)) ∧
    (∀ (CurrentFrame LastFrame : Frame) (th : ℚ) (i : Nat) (e : Int),
      (i : Int) < HISTO_LENGTH →
      e ∈ (SearchByProjection_Frame.matching true CurrentFrame LastFrame th).rotHist.getD i [] →
      ((SearchByProjection_Frame true CurrentFrame LastFrame th).1.getD e.toNat none).isSome
        = true →
      ∀ j : Nat, (j : Int) < HISTO_LENGTH →
        (1 / 10 : ℚ)
            * (binSize (SearchByProjection_Frame.matching true CurrentFrame LastFrame th).rotHist
                j : ℚ)
          ≤ (binSize (SearchByProjection_Frame.matching true CurrentFrame LastFrame th).rotHist
              i : ℚ)) := by
  refine ⟨ComputeThreeMaxima.weak_bins histo L, ?_, ?_, ?_, ?_⟩
  · intro m n i e hi he h
    have hk := rotationFilter_survivor histo m n i e hi he h
    exact ⟨hk, rotationFilter.kept_strong histo i hk⟩
  · intro v n i e hi he h
    have hk := SearchForTriangulation.tri_filter_survivor histo v n i e hi he h
    exact ⟨hk, rotationFilter.kept_strong histo i hk⟩
  · intro r pKF F i e hi he h
    have h2 : SearchByBoW r true pKF F
        = rotationFilter (SearchByBoW.matching r true pKF F).rotHist
            (SearchByBoW.matching r true pKF F).mvpMapPoints
            (SearchByBoW.matching r true pKF F).nmatches := rfl
    rw [h2] at h
    exact rotationFilter.kept_strong _ i (rotationFilter_survivor _ _ _ i e hi he h)
  · intro CF LF th i e hi he h
    have h2 : SearchByProjection_Frame true CF LF th
        = rotationFilter (SearchByProjection_Frame.matching true CF LF th).rotHist
            (SearchByProjection_Frame.matching true CF LF th).mvpMapPoints
            (SearchByProjection_Frame.matching true CF LF th).nmatches := rfl
    rw [h2] at h
    exact rotationFilter.kept_strong _ i (rotationFilter_survivor _ _ _ i e hi he h)

set_option maxRecDepth 100000 in
theorem C10_ComputeThreeMaxima_discards_weak_witness :
    ((rotationFilter [[0, 1], [2]] [some {}, some {}, some {}] 3).1.getD 2 none).isSome = true ∧
    (1 / 10 : ℚ) * (binSize [[0, 1], [2]] 0 : ℚ) ≤ (binSize [[0, 1], [2]] 1 : ℚ) :=
  ⟨by with_unfolding_all decide,
    ((C10_ComputeThreeMaxima_discards_weak [[0, 1], [2]] HISTO_LENGTH).2.1
      [some {}, some {}, some {}] 3 1 2 (by decide) (by simp)
      (by with_unfolding_all decide)).2 0 (by decide)⟩

/-! ## The iteration of SearchByBoW that records a match -/

/-- The joint walk of `SearchByBoW` runs the iterations of `SearchByBoW.visits` in order. -/
theorem SearchByBoW.walk_eq_visits (r : ℚ) (c : Bool) (pKF : KeyFrame) (F : Frame) :
    ∀ (fuel : Nat) (KFit Fit : FeatureVector) (st : MatchState),
      SearchByBoW.walk r c pKF F fuel KFit Fit st =
        (SearchByBoW.visits pKF F fuel KFit Fit).foldl
          (fun st v => SearchByBoW.matchKF r c pKF F v.2.2 st v.2.1) st
  | 0, _, _, _ => by simp [SearchByBoW.walk, SearchByBoW.visits]
  | _ + 1, [], _, _ => by simp [SearchByBoW.walk, SearchByBoW.visits]
  | _ + 1, _ :: _, [], _ => by simp [SearchByBoW.walk, SearchByBoW.visits]
  | fuel + 1, (kfFirst, vIndicesKF) :: kfRest, (fFirst, vIndicesF) :: fRest, st => by
    unfold SearchByBoW.walk SearchByBoW.visits
    split_ifs with e1 e2
    · rw [List.foldl_append, List.foldl_map]
      exact SearchByBoW.walk_eq_visits r c pKF F fuel _ _ _
    · exact SearchByBoW.walk_eq_visits r c pKF F fuel _ _ _
    · exact SearchByBoW.walk_eq_visits r c pKF F fuel _ _ _

/-- Every iteration of the walk is for a keyframe keypoint and the frame keypoints of one
vocabulary node. -/
theorem SearchByBoW.visits_mem (pKF : KeyFrame) (F : Frame) :
    ∀ (fuel : Nat) (KFit Fit : FeatureVector),
      KFit <:+ pKF.mFeatVec → Fit <:+ F.mFeatVec →
      ∀ v ∈ SearchByBoW.visits pKF F fuel KFit Fit,
        ∃ vIndicesKF : List Nat, (v.1, vIndicesKF) ∈ pKF.mFeatVec ∧
          (v.1, v.2.2) ∈ F.mFeatVec ∧ v.2.1 ∈ vIndicesKF
  | 0, _, _, _, _, v, hv => by simp [SearchByBoW.visits] at hv
  | _ + 1, [], _, _, _, v, hv => by simp [SearchByBoW.visits] at hv
  | _ + 1, _ :: _, [], _, _, v, hv => by simp [SearchByBoW.visits] at hv
  | fuel + 1, (kfFirst, vIndicesKF) :: kfRest, (fFirst, vIndicesF) :: fRest, hK, hFs, v, hv => by
    unfold SearchByBoW.visits at hv
    have hKmem : (kfFirst, vIndicesKF) ∈ pKF.mFeatVec :=
      hK.subset (List.mem_cons_self _ _)
    have hFmem : (fFirst, vIndicesF) ∈ F.mFeatVec :=
      hFs.subset (List.mem_cons_self _ _)
    split_ifs at hv with e1 e2
    · rcases List.mem_append.mp hv with h1 | h1
      · obtain ⟨x, hx, hxv⟩ := List.mem_map.mp h1
        rw [← hxv]
        rw [← e1] at hFmem
        exact ⟨vIndicesKF, hKmem, hFmem, hx⟩
      · exact SearchByBoW.visits_mem pKF F fuel _ _
          ((List.suffix_cons _ _).trans hK) ((List.suffix_cons _ _).trans hFs) v h1
    · exact SearchByBoW.visits_mem pKF F fuel _ _ (lower_bound_suffix _ _) hFs v hv
    · exact SearchByBoW.visits_mem pKF F fuel _ _ hK (lower_bound_suffix _ _) v hv

/-- The state when the `while` loop of `SearchByBoW` is left is the state after the last
iteration. -/
theorem SearchByBoW.matching_eq_stateAt (r : ℚ) (c : Bool) (pKF : KeyFrame) (F : Frame) :
    SearchByBoW.matching r c pKF F
      = SearchByBoW.stateAt r c pKF F (SearchByBoW.schedule pKF F).length := by
  unfold SearchByBoW.matching SearchByBoW.stateAt
  rw [List.take_length, SearchByBoW.walk_eq_visits]
  rfl

theorem SearchByBoW.bow_stateAt_succ (r : ℚ) (c : Bool) (pKF : KeyFrame) (F : Frame) (k : Nat)
    (v : Nat × Nat × List Nat) (hv : (SearchByBoW.schedule pKF F)[k]? = some v) :
    SearchByBoW.stateAt r c pKF F (k + 1) =
      SearchByBoW.matchKF r c pKF F v.2.2 (SearchByBoW.stateAt r c pKF F k) v.2.1 := by
  unfold SearchByBoW.stateAt
  rw [List.take_succ, hv, List.foldl_append]
  rfl

/-- An integer distance below the rounded product is below the exact product. -/
theorem lt_of_lt_f32 {d : Int} (h0 : 0 ≤ d) (h1 : d ≤ 256) {x : ℚ} (h : (d : ℚ) < f32 x) :
    (d : ℚ) < x := by
  by_contra hcon
  rw [not_lt] at hcon
  have hd : ((d.toNat : Nat) : ℚ) = (d : ℚ) := by
    have : ((d.toNat : Nat) : Int) = d := Int.toNat_of_nonneg h0
    exact_mod_cast this
  rw [← hd] at hcon h
  have := f32_le_natCast d.toNat (by
    have : d.toNat ≤ 256 := by omega
    calc d.toNat ≤ 256 := this
      _ < 2 ^ 24 := by norm_num) hcon
  linarith

/-- An entry of the match vector after an iteration of `SearchByBoW` was there before or is
recorded by the iteration. -/
theorem SearchByBoW.matchKF_entry (r : ℚ) (c : Bool) (pKF : KeyFrame) (F : Frame)
    (vIndicesF : List Nat) (st : MatchState) (realIdxKF idxF : Nat) (pMP : MapPoint)
    (h : (SearchByBoW.matchKF r c pKF F vIndicesF st realIdxKF).mvpMapPoints.getD idxF none
      = some pMP) :
    st.mvpMapPoints.getD idxF none = some pMP ∨
    (idxF ∈ vIndicesF ∧
      (pKF.mvpMapPoints.getD realIdxKF none = some pMP ∧ pMP.isBad = false) ∧
      (st.mvpMapPoints.getD idxF none).isSome = false ∧
      ∃ bestDist2 : Int,
        (IsKthSmallest 1
            (SearchByBoW.candidateDists F st.mvpMapPoints
              (pKF.mDescriptors.getD realIdxKF Descriptor.zero) vIndicesF)
            (DescriptorDistance (pKF.mDescriptors.getD realIdxKF Descriptor.zero)
              (F.mDescriptors.getD idxF Descriptor.zero)) ∧
          IsKthSmallest 2
            (SearchByBoW.candidateDists F st.mvpMapPoints
              (pKF.mDescriptors.getD realIdxKF Descriptor.zero) vIndicesF)
            bestDist2) ∧
        DescriptorDistance (pKF.mDescriptors.getD realIdxKF Descriptor.zero)
          (F.mDescriptors.getD idxF Descriptor.zero) ≤ TH_LOW ∧
        ((DescriptorDistance (pKF.mDescriptors.getD realIdxKF Descriptor.zero)
          (F.mDescriptors.getD idxF Descriptor.zero) : Int) : ℚ)
            < f32 (r * (bestDist2 : ℚ))) := by
  unfold SearchByBoW.matchKF at h
  cases hmp : pKF.mvpMapPoints.getD realIdxKF none with
  | none => rw [hmp] at h; exact Or.inl h
  | some q =>
    rw [hmp] at h
    dsimp only at h
    by_cases hbad : q.isBad = true
    · rw [if_pos hbad] at h; exact Or.inl h
    · rw [if_neg hbad] at h
      have hspec := Best2.Spec.spec_foldl vIndicesF []
        (Best2.Spec.spec_init F st.mvpMapPoints
          (pKF.mDescriptors.getD realIdxKF Descriptor.zero))
      rw [List.nil_append] at hspec
      generalize vIndicesF.foldl (SearchByBoW.scan F st.mvpMapPoints
          (pKF.mDescriptors.getD realIdxKF Descriptor.zero))
          { bestDist1 := 256, bestIdxF := -1, bestDist2 := 256 } = b at hspec h
      by_cases h1 : b.bestDist1 ≤ TH_LOW
      · rw [if_pos h1] at h
        by_cases h2 : ((b.bestDist1 : Int) : ℚ) < f32 (r * ((b.bestDist2 : Int) : ℚ))
        · rw [if_pos h2] at h
          dsimp only at h
          rcases getD_set_cases st.mvpMapPoints b.bestIdxF.toNat idxF (some q) none
            (some pMP) h with ⟨hi1, hi2⟩ | hold
          · right
            obtain ⟨hk1, hk2, _, hidx⟩ := hspec
            have hlt : b.bestDist1 < 256 := by unfold TH_LOW at h1; omega
            obtain ⟨i, hi, hbi, hfree, hd⟩ := hidx hlt
            have hnat : b.bestIdxF.toNat = i := by rw [hbi]; exact Int.toNat_natCast i
            rw [hnat] at hi1
            subst hi1
            have hq : q = pMP := by
              injection hi2 with hi3
              exact hi3.symm
            subst hq
            have hb : q.isBad = false := by
              cases hh : q.isBad
              · rfl
              · exact absurd hh hbad
            refine ⟨hi, ⟨rfl, hb⟩, hfree, b.bestDist2, ⟨?_, hk2⟩, ?_, ?_⟩
            · rw [hd]; exact hk1
            · rw [hd]; exact h1
            · rw [hd]; exact h2
          · exact Or.inl hold
        · rw [if_neg h2] at h; exact Or.inl h
      · rw [if_neg h1] at h; exact Or.inl h

/-- Every entry of the match vector of `SearchByBoW` at the start of iteration `n` was recorded
by an earlier iteration. -/
theorem SearchByBoW.bow_stateAt_entry (r : ℚ) (c : Bool) (pKF : KeyFrame) (F : Frame) :
    ∀ (n : Nat), n ≤ (SearchByBoW.schedule pKF F).length → ∀ (idxF : Nat) (pMP : MapPoint),
      (SearchByBoW.stateAt r c pKF F n).mvpMapPoints.getD idxF none = some pMP →
      ∃ k : Nat, k < n ∧ SearchByBoW.RecordedAt r c pKF F k idxF pMP := by
  intro n
  induction n with
  | zero =>
    intro _ idxF pMP h
    unfold SearchByBoW.stateAt at h
    rw [List.take_zero, List.foldl_nil] at h
    dsimp only at h
    rw [List.getD_eq_getElem?_getD, List.getElem?_replicate] at h
    split_ifs at h <;> simp at h
  | succ n ih =>
    intro hn idxF pMP h
    have hlt : n < (SearchByBoW.schedule pKF F).length := hn
    have hv : (SearchByBoW.schedule pKF F)[n]? = some ((SearchByBoW.schedule pKF F)[n]) :=
      List.getElem?_eq_getElem hlt
    generalize (SearchByBoW.schedule pKF F)[n] = v at hv
    have hs := SearchByBoW.bow_stateAt_succ r c pKF F n v hv
    have h2 := h
    rw [hs] at h2
    rcases SearchByBoW.matchKF_entry r c pKF F v.2.2 _ v.2.1 idxF pMP h2 with hold | hnew
    · obtain ⟨k, hk, hrec⟩ := ih (Nat.le_of_lt hlt) idxF pMP hold
      exact ⟨k, Nat.lt_succ_of_lt hk, hrec⟩
    · obtain ⟨hi, hmp, hfree, d2, hk12, hlow, hratio⟩ := hnew
      have hvmem : v ∈ SearchByBoW.schedule pKF F := List.mem_iff_getElem?.mpr ⟨n, hv⟩
      obtain ⟨vKF, m1, m2, m3⟩ := SearchByBoW.visits_mem pKF F _ _ _
        (List.suffix_refl _) (List.suffix_refl _) v hvmem
      have hb := DescriptorDistance_bounds (pKF.mDescriptors.getD v.2.1 Descriptor.zero)
        (F.mDescriptors.getD idxF Descriptor.zero)
      exact ⟨n, Nat.lt_succ_self n, v.1, v.2.1, vKF, v.2.2, d2, hv, ⟨m1, m2, m3, hi⟩, hmp,
        ⟨hfree, h⟩, hk12, hlow, hratio, lt_of_lt_f32 hb.1 hb.2 hratio⟩

/-- C12: every match that `SearchByBoW` records before the rotation filter was recorded by one
iteration `k` of the loop over the keyframe keypoints, which the statement pins: the iteration
is for a keyframe keypoint whose map point is the recorded one, not bad, listed under a
vocabulary node that also lists the frame keypoint; with the match vector of the moment the
iteration starts (`SearchByBoW.stateAt`, the vector of the program at that point, the final
vector being the one after the last iteration), the frame keypoint is free, the distance
`bestDist1` of the two descriptors is the smallest and `bestDist2` the second-smallest over the
free frame keypoints of the node (`256` when absent), `bestDist1 ≤ TH_LOW` and
`bestDist1 < mfNNratio * bestDist2`, with the product rounded to `float` and exactly. -/
theorem C12_SearchByBoW_recorded_gated (mfNNratio : ℚ) (mbCheckOrientation : Bool)
    (pKF : KeyFrame) (F : Frame) (idxF : Nat)
    (h : ((SearchByBoW.matching mfNNratio mbCheckOrientation pKF F).mvpMapPoints.getD idxF
      none).isSome = true) :
    SearchByBoW.matching mfNNratio mbCheckOrientation pKF F
      = SearchByBoW.stateAt mfNNratio mbCheckOrientation pKF F
          (SearchByBoW.schedule pKF F).length ∧
    (∀ (fuel : Nat) (KFit Fit : FeatureVector) (st : MatchState),
      SearchByBoW.walk mfNNratio mbCheckOrientation pKF F fuel KFit Fit st =
        (SearchByBoW.visits pKF F fuel KFit Fit).foldl
          (fun st v => SearchByBoW.matchKF mfNNratio mbCheckOrientation pKF F v.2.2 st v.2.1)
          st) ∧
    ∃ pMP : MapPoint,
      (SearchByBoW.matching mfNNratio mbCheckOrientation pKF F).mvpMapPoints.getD idxF none
        = some pMP ∧
      ∃ k : Nat, k < (SearchByBoW.schedule pKF F).length ∧
        SearchByBoW.RecordedAt mfNNratio mbCheckOrientation pKF F k idxF pMP := by
  refine ⟨SearchByBoW.matching_eq_stateAt _ _ _ _, SearchByBoW.walk_eq_visits _ _ _ _, ?_⟩
  cases hq : (SearchByBoW.matching mfNNratio mbCheckOrientation pKF F).mvpMapPoints.getD idxF
      none with
  | none => rw [hq] at h; simp at h
  | some pMP =>
    refine ⟨pMP, rfl, ?_⟩
    rw [SearchByBoW.matching_eq_stateAt] at hq
    exact SearchByBoW.bow_stateAt_entry mfNNratio mbCheckOrientation pKF F _ (Nat.le_refl _) idxF
      pMP hq

set_option maxRecDepth 1000000 in
set_option maxHeartbeats 4000000 in
/-- Witness of C12: keypoint 0 of `ratioExampleF` is matched with ratio `9/10`. -/
theorem C12_SearchByBoW_recorded_gated_witness :
    ((SearchByBoW.matching (9 / 10) false ratioExampleKF ratioExampleF).mvpMapPoints.getD 0
      none).isSome = true ∧
    ∃ pMP : MapPoint,
      (SearchByBoW.matching (9 / 10) false ratioExampleKF ratioExampleF).mvpMapPoints.getD 0 none
        = some pMP ∧
      ∃ k : Nat, k < (SearchByBoW.schedule ratioExampleKF ratioExampleF).length ∧
        SearchByBoW.RecordedAt (9 / 10) false ratioExampleKF ratioExampleF k 0 pMP :=
  ⟨by with_unfolding_all decide,
    (C12_SearchByBoW_recorded_gated (9 / 10) false ratioExampleKF ratioExampleF 0
      (by with_unfolding_all decide)).2.2⟩

set_option maxRecDepth 1000000 in
set_option maxHeartbeats 4000000 in
/-- When the camera centre of the first keyframe has depth zero in the second, `invz` is an
infinity, the epipole is not a pair of numbers, no keypoint is near it, and the monocular pair
`(0, 0)` is returned. -/
theorem SearchForTriangulation.zero_depth_pair :
    ((triExampleMonoKF2.Rcw.mulVec triExampleMonoKF1.Ow).add triExampleMonoKF2.tcw).z = 0 ∧
    SearchForTriangulation.nearEpipole triExampleMonoKF1 triExampleMonoKF2 { x := 5 } = false ∧
    SearchForTriangulation false triExampleMonoKF1 triExampleMonoKF2 triExampleF12 false
      = ([(0, 0)], 1) :=
  ⟨by with_unfolding_all decide, by with_unfolding_all decide, by with_unfolding_all decide⟩

/-! ## The rounding of the source on three inputs -/

set_option maxRecDepth 1000000 in
set_option maxHeartbeats 4000000 in
/-- The angle difference `15 - 2⁻²⁰` (the `float` below 15) times `factor` rounds to the `float`
`0.5`, and the bin is 1, where the exact product is below `0.5`. -/
theorem rotBin_below_fifteen :
    (f32 (15 - 1 / 2 ^ 20) ≤ 15 - 1 / 2 ^ 20 ∧ 15 - 1 / 2 ^ 20 ≤ f32 (15 - 1 / 2 ^ 20)) ∧
    (15 - 1 / 2 ^ 20) * factor < 1 / 2 ∧
    rotBin (15 - 1 / 2 ^ 20) = 1 := by
  with_unfolding_all decide

set_option maxRecDepth 1000000 in
set_option maxHeartbeats 4000000 in
/-- With the ratio `0.7f` and the distances 7 and 10, the exact product is below 7 and the
`float` product is 7: the test `bestDist > mfNNratio * bestDist2` of
`SearchByProjection(F, vpMapPoints, th)` does not reject. With the ratio `0.6f` and the
distances 3 and 5, the exact product is above 3 and the `float` product is 3: the test
`bestDist1 < mfNNratio * bestDist2` of `SearchByBoW` does not accept. -/
theorem ratio_test_rounding :
    (f32 (7 / 10) * 10 < 7 ∧ ¬ ((7 : ℚ) > f32 (f32 (7 / 10) * 10))) ∧
    ((3 : ℚ) < f32 (3 / 5) * 5 ∧ ¬ ((3 : ℚ) < f32 (f32 (3 / 5) * 5))) := by
  with_unfolding_all decide

end ORB_SLAM2
